import Mathlib

/-! # IC2 reactor simulator: embedding of `reactorsim.cpp` / `reactorsim.hpp`

Conventions of the embedding.

* A C++ `int` is a Lean `Int`; the arithmetic is unbounded (no wrap-around is modelled),
  C division and remainder are `Int.tdiv` and `Int.tmod`.
* A C++ `float` / `double` is a Lean `ℚ`: the arithmetic is exact, conversion to `int`
  truncates toward zero, and a division by zero yields `0` (the value of `x / 0` in `ℚ`).
* The class hierarchy below `ReactorComponent` is the inductive type `ReactorComponent`,
  one constructor per concrete class; virtual dispatch is a `match`.
* A `ReactorComponent*` is the index of the component in `Reactor.components`
  (`Option Nat`, `none` for the null pointer); the back pointer `reactor` is the reactor
  value threaded through every operation.
* The unbounded loop of `runUntil` takes a fuel argument and returns `none` when it runs
  out of fuel.
-/

namespace reactorsim

/-! ## Enumerations -/

inductive ComponentType where
  | COMPONENT_NONE
  | HEAT_VENT
  | REACTOR_HEAT_VENT
  | ADVANCED_HEAT_VENT
  | COMPONENT_HEAT_VENT
  | OVERCLOCKED_HEAT_VENT
  | HEAT_EXCHANGER
  | ADVANCED_HEAT_EXCHANGER
  | CORE_HEAT_EXCHANGER
  | COMPONENT_HEAT_EXCHANGER
  | COOLANT_CELL_10
  | COOLANT_CELL_30
  | COOLANT_CELL_60
  | CONDENSATOR_RSH
  | CONDENSATOR_LZH
  | URANIUM_CELL
  | DUAL_URANIUM_CELL
  | QUAD_URANIUM_CELL
  | NEUTRON_REFLECTOR
  | THICK_NEUTRON_REFLECTOR
  | REACTOR_PLATING
  | CONTAINMENT_REACTOR_PLATING
  | HEAT_CAPACITY_REACTOR_PLATING
  | COMPONENT_COUNT
  deriving DecidableEq, Repr

inductive SimPhase where
  | PHASE_HEAT_RUN
  | PHASE_POWER
  deriving DecidableEq, Repr

inductive RunUntilStopReason where
  | STOPPED_ON_MELTDOWN
  | STOPPED_ON_FUEL_USED
  | STOPPED_ON_COOLED_DOWN
  | STOPPED_ON_COMPONENT_FAILED
  | STOPPED_ON_MAX_TICKS
  deriving DecidableEq, Repr

/-! ## Components -/

/-- Data members of class `ReactorComponent` (without the back pointer). -/
structure ComponentBase where
  type : ComponentType
  x : Int
  y : Int
  cost : Int
  lastDestroyed : Bool
  pendingDestroyed : Bool
  deriving DecidableEq, Repr

/-- Data members of class `Heatable`. -/
structure Heatable extends ComponentBase where
  lastHeat : Int
  pendingHeat : Int
  maxHeat : Int
  deriving DecidableEq, Repr

structure HeatVent extends Heatable where
  heatDissipated : Int
  heatFromReactor : Int
  deriving DecidableEq, Repr

structure ComponentHeatVent extends ComponentBase where
  heatFromEach : Int
  deriving DecidableEq, Repr

structure HeatExchanger extends Heatable where
  transferToAdjacent : Int
  transferToCore : Int
  deriving DecidableEq, Repr

structure CoolantCell extends Heatable where
  deriving DecidableEq, Repr

structure Condensator extends ComponentBase where
  maxStoredHeat : Int
  lastStoredHeat : Int
  pendingStoredHeat : Int
  deriving DecidableEq, Repr

structure UraniumCell extends ComponentBase where
  numCells : Int
  lastUsage : Int
  pendingUsage : Int
  maxUsage : Int
  deriving DecidableEq, Repr

structure NeutronReflector extends ComponentBase where
  lastUsage : Int
  pendingUsage : Int
  maxUsage : Int
  deriving DecidableEq, Repr

structure ReactorPlating extends ComponentBase where
  heatAddition : Int
  deriving DecidableEq, Repr

/-- An object of one of the concrete component classes. -/
inductive ReactorComponent where
  | heatVent (c : HeatVent)
  | componentHeatVent (c : ComponentHeatVent)
  | heatExchanger (c : HeatExchanger)
  | coolantCell (c : CoolantCell)
  | condensator (c : Condensator)
  | uraniumCell (c : UraniumCell)
  | neutronReflector (c : NeutronReflector)
  | reactorPlating (c : ReactorPlating)
  deriving DecidableEq, Repr

/-- Constructor `ReactorComponent(type, reactor, x, y)`: cost 2, not destroyed. -/
def ComponentBase.mk0 (type : ComponentType) (x y : Int) : ComponentBase :=
  { type := type, x := x, y := y, cost := 2, lastDestroyed := false, pendingDestroyed := false }

/-- Constructor `Heatable(type, reactor, x, y, maxHeat)`. -/
def Heatable.mk0 (type : ComponentType) (x y maxHeat : Int) : Heatable :=
  { toComponentBase := ComponentBase.mk0 type x y, lastHeat := 0, pendingHeat := 0,
    maxHeat := maxHeat }

def HeatVent.mk0 (type : ComponentType) (x y heatDissipated heatFromReactor maxHeat : Int) :
    HeatVent :=
  { toHeatable := Heatable.mk0 type x y maxHeat, heatDissipated := heatDissipated,
    heatFromReactor := heatFromReactor }

def ComponentHeatVent.mk0 (type : ComponentType) (x y heatFromEach : Int) : ComponentHeatVent :=
  { toComponentBase := ComponentBase.mk0 type x y, heatFromEach := heatFromEach }

def HeatExchanger.mk0 (type : ComponentType) (x y transferToAdjacent transferToCore maxHeat : Int) :
    HeatExchanger :=
  { toHeatable := Heatable.mk0 type x y maxHeat, transferToAdjacent := transferToAdjacent,
    transferToCore := transferToCore }

def CoolantCell.mk0 (type : ComponentType) (x y maxHeat : Int) : CoolantCell :=
  { toHeatable := Heatable.mk0 type x y maxHeat }

def Condensator.mk0 (type : ComponentType) (x y maxHeat : Int) : Condensator :=
  { toComponentBase := ComponentBase.mk0 type x y, maxStoredHeat := maxHeat, lastStoredHeat := 0,
    pendingStoredHeat := 0 }

def UraniumCell.mk0 (type : ComponentType) (x y numCells : Int) : UraniumCell :=
  { toComponentBase := ComponentBase.mk0 type x y, numCells := numCells, lastUsage := 0,
    pendingUsage := 0, maxUsage := 10000 }

/-- The constant `UraniumCell::euPerPulse`. -/
def UraniumCell.euPerPulse : Int := 5

def NeutronReflector.mk0 (type : ComponentType) (x y durability : Int) : NeutronReflector :=
  { toComponentBase := ComponentBase.mk0 type x y, lastUsage := 0, pendingUsage := 0,
    maxUsage := durability }

def ReactorPlating.mk0 (type : ComponentType) (x y heatAddition : Int) : ReactorPlating :=
  { toComponentBase := ComponentBase.mk0 type x y, heatAddition := heatAddition }

/-- The factory `ReactorComponent::create`; `none` is the null pointer. -/
def ReactorComponent.create (type : ComponentType) (x y : Int) : Option ReactorComponent :=
  match type with
  | .COMPONENT_NONE => none
  | .HEAT_VENT => some (.heatVent (HeatVent.mk0 .HEAT_VENT x y 6 0 1000))
  | .REACTOR_HEAT_VENT => some (.heatVent (HeatVent.mk0 .REACTOR_HEAT_VENT x y 5 5 1000))
  | .ADVANCED_HEAT_VENT => some (.heatVent (HeatVent.mk0 .ADVANCED_HEAT_VENT x y 12 0 1000))
  | .OVERCLOCKED_HEAT_VENT => some (.heatVent (HeatVent.mk0 .OVERCLOCKED_HEAT_VENT x y 20 36 1000))
  | .COMPONENT_HEAT_VENT =>
      some (.componentHeatVent (ComponentHeatVent.mk0 .COMPONENT_HEAT_VENT x y 4))
  | .HEAT_EXCHANGER => some (.heatExchanger (HeatExchanger.mk0 .HEAT_EXCHANGER x y 12 4 2500))
  | .ADVANCED_HEAT_EXCHANGER =>
      some (.heatExchanger (HeatExchanger.mk0 .ADVANCED_HEAT_EXCHANGER x y 24 8 5000))
  | .CORE_HEAT_EXCHANGER =>
      some (.heatExchanger (HeatExchanger.mk0 .CORE_HEAT_EXCHANGER x y 0 72 2500))
  | .COMPONENT_HEAT_EXCHANGER =>
      some (.heatExchanger (HeatExchanger.mk0 .COMPONENT_HEAT_EXCHANGER x y 36 0 5000))
  | .COOLANT_CELL_10 => some (.coolantCell (CoolantCell.mk0 .COOLANT_CELL_10 x y 10000))
  | .COOLANT_CELL_30 => some (.coolantCell (CoolantCell.mk0 .COOLANT_CELL_30 x y 30000))
  | .COOLANT_CELL_60 => some (.coolantCell (CoolantCell.mk0 .COOLANT_CELL_60 x y 60000))
  | .CONDENSATOR_RSH => some (.condensator (Condensator.mk0 .CONDENSATOR_RSH x y 20000))
  | .CONDENSATOR_LZH => some (.condensator (Condensator.mk0 .CONDENSATOR_LZH x y 100000))
  | .URANIUM_CELL => some (.uraniumCell (UraniumCell.mk0 .URANIUM_CELL x y 1))
  | .DUAL_URANIUM_CELL => some (.uraniumCell (UraniumCell.mk0 .DUAL_URANIUM_CELL x y 2))
  | .QUAD_URANIUM_CELL => some (.uraniumCell (UraniumCell.mk0 .QUAD_URANIUM_CELL x y 4))
  | .NEUTRON_REFLECTOR => some (.neutronReflector (NeutronReflector.mk0 .NEUTRON_REFLECTOR x y 10000))
  | .THICK_NEUTRON_REFLECTOR =>
      some (.neutronReflector (NeutronReflector.mk0 .THICK_NEUTRON_REFLECTOR x y 40000))
  | .REACTOR_PLATING => some (.reactorPlating (ReactorPlating.mk0 .REACTOR_PLATING x y 1000))
  | .CONTAINMENT_REACTOR_PLATING =>
      some (.reactorPlating (ReactorPlating.mk0 .CONTAINMENT_REACTOR_PLATING x y 500))
  | .HEAT_CAPACITY_REACTOR_PLATING =>
      some (.reactorPlating (ReactorPlating.mk0 .HEAT_CAPACITY_REACTOR_PLATING x y 1700))
  | .COMPONENT_COUNT => none

namespace ReactorComponent

/-- The `ReactorComponent` sub-object of a component. -/
def base : ReactorComponent → ComponentBase
  | heatVent c => c.toComponentBase
  | componentHeatVent c => c.toComponentBase
  | heatExchanger c => c.toComponentBase
  | coolantCell c => c.toComponentBase
  | condensator c => c.toComponentBase
  | uraniumCell c => c.toComponentBase
  | neutronReflector c => c.toComponentBase
  | reactorPlating c => c.toComponentBase

/-- Assignment to the member `pendingDestroyed`. -/
def setPendingDestroyed (d : Bool) : ReactorComponent → ReactorComponent
  | heatVent c => heatVent { c with pendingDestroyed := d }
  | componentHeatVent c => componentHeatVent { c with pendingDestroyed := d }
  | heatExchanger c => heatExchanger { c with pendingDestroyed := d }
  | coolantCell c => coolantCell { c with pendingDestroyed := d }
  | condensator c => condensator { c with pendingDestroyed := d }
  | uraniumCell c => uraniumCell { c with pendingDestroyed := d }
  | neutronReflector c => neutronReflector { c with pendingDestroyed := d }
  | reactorPlating c => reactorPlating { c with pendingDestroyed := d }

/-- The `Heatable` sub-object of a component whose class derives from `Heatable`. -/
def heatable? : ReactorComponent → Option Heatable
  | heatVent c => some c.toHeatable
  | heatExchanger c => some c.toHeatable
  | coolantCell c => some c.toHeatable
  | _ => none

/-- Assignment to the member `pendingHeat` of a `Heatable`. -/
def setPendingHeat (h : Int) : ReactorComponent → ReactorComponent
  | heatVent c => heatVent { c with pendingHeat := h }
  | heatExchanger c => heatExchanger { c with pendingHeat := h }
  | coolantCell c => coolantCell { c with pendingHeat := h }
  | c => c

def type (c : ReactorComponent) : ComponentType := c.base.type

def isDestroyed (c : ReactorComponent) : Bool := c.base.pendingDestroyed

/-- Virtual `canStoreHeat`. -/
def canStoreHeat : ReactorComponent → Bool
  | heatVent _ => true
  | heatExchanger _ => true
  | coolantCell _ => true
  | condensator c => decide (c.pendingStoredHeat < c.maxStoredHeat)
  | _ => false

/-- Virtual `getMaxHeat`. -/
def getMaxHeat : ReactorComponent → Int
  | heatVent c => c.maxHeat
  | heatExchanger c => c.maxHeat
  | coolantCell c => c.maxHeat
  | condensator c => c.maxStoredHeat
  | _ => 0

/-- Virtual `getCurrentHeat`. -/
def getCurrentHeat : ReactorComponent → Int
  | heatVent c => c.pendingHeat
  | heatExchanger c => c.pendingHeat
  | coolantCell c => c.pendingHeat
  | _ => 0

/-- Virtual `commit` of a component. -/
def commit : ReactorComponent → ReactorComponent
  | heatVent c => heatVent { c with lastDestroyed := c.pendingDestroyed, lastHeat := c.pendingHeat }
  | componentHeatVent c => componentHeatVent { c with lastDestroyed := c.pendingDestroyed }
  | heatExchanger c =>
      heatExchanger { c with lastDestroyed := c.pendingDestroyed, lastHeat := c.pendingHeat }
  | coolantCell c =>
      coolantCell { c with lastDestroyed := c.pendingDestroyed, lastHeat := c.pendingHeat }
  | condensator c =>
      condensator { c with lastDestroyed := c.pendingDestroyed,
                           lastStoredHeat := c.pendingStoredHeat }
  | uraniumCell c =>
      uraniumCell { c with lastDestroyed := c.pendingDestroyed, lastUsage := c.pendingUsage }
  | neutronReflector c =>
      neutronReflector { c with lastDestroyed := c.pendingDestroyed, lastUsage := c.pendingUsage }
  | reactorPlating c => reactorPlating { c with lastDestroyed := c.pendingDestroyed }

/-- Virtual `rollback` of a component. -/
def rollback : ReactorComponent → ReactorComponent
  | heatVent c => heatVent { c with pendingDestroyed := c.lastDestroyed, pendingHeat := c.lastHeat }
  | componentHeatVent c => componentHeatVent { c with pendingDestroyed := c.lastDestroyed }
  | heatExchanger c =>
      heatExchanger { c with pendingDestroyed := c.lastDestroyed, pendingHeat := c.lastHeat }
  | coolantCell c =>
      coolantCell { c with pendingDestroyed := c.lastDestroyed, pendingHeat := c.lastHeat }
  | condensator c =>
      condensator { c with pendingDestroyed := c.lastDestroyed,
                           pendingStoredHeat := c.lastStoredHeat }
  | uraniumCell c =>
      uraniumCell { c with pendingDestroyed := c.lastDestroyed, pendingUsage := c.lastUsage }
  | neutronReflector c =>
      neutronReflector { c with pendingDestroyed := c.lastDestroyed, pendingUsage := c.lastUsage }
  | reactorPlating c => reactorPlating { c with pendingDestroyed := c.lastDestroyed }

/-- Virtual `resetUsage` of a component. -/
def resetUsage : ReactorComponent → ReactorComponent
  | condensator c => condensator { c with lastStoredHeat := 0, pendingStoredHeat := 0 }
  | uraniumCell c => uraniumCell { c with pendingUsage := 0, lastUsage := 0 }
  | neutronReflector c => neutronReflector { c with pendingUsage := 0, lastUsage := 0 }
  | c => c

end ReactorComponent

/-! ## The reactor -/

/-- The nested struct `Reactor::SimulationState`. -/
structure SimulationState where
  curTick : Int := 0
  meltdown : Bool := false
  componentFailed : Bool := false
  euGenerated : Int := 0
  totalHeat : Int := 0
  reactorHeat : Int := 0
  deriving DecidableEq, Repr

structure Reactor where
  width : Int
  height : Int
  numExtraChambers : Int
  components : List (Option ReactorComponent)
  maxHeat : Int
  ignoreComponentDestroyed : Bool
  numUraniumCells : Int
  usesSingleUseCoolant : Bool
  curSimState : SimulationState
  pendingSimState : SimulationState
  deriving DecidableEq, Repr

namespace Reactor

def timeoutTicks : Int := 50000

def fuelTicks : Int := 10000

/-- Constructor `Reactor(int extraChambers)`, `init()` included.  The members
`numUraniumCells` and `usesSingleUseCoolant`, which the constructor leaves
uninitialised, and the two default-constructed simulation states are given their
zero values. -/
def mk0 (extraChambers : Int) : Reactor :=
  { height := 6
    width := 3 + extraChambers
    numExtraChambers := extraChambers
    ignoreComponentDestroyed := false
    components := List.replicate ((3 + extraChambers) * 6).toNat none
    maxHeat := 10000
    numUraniumCells := 0
    usesSingleUseCoolant := false
    curSimState := {}
    pendingSimState := {} }

/-- Copy constructor `Reactor(const Reactor& other)`: every component is cloned.  The
member `usesSingleUseCoolant` is not copied by the source (and never read from a copy);
it is given the value `false`. -/
def copy (other : Reactor) : Reactor :=
  { height := other.height
    width := other.width
    numExtraChambers := other.numExtraChambers
    numUraniumCells := other.numUraniumCells
    curSimState := other.curSimState
    pendingSimState := other.pendingSimState
    maxHeat := other.maxHeat
    ignoreComponentDestroyed := other.ignoreComponentDestroyed
    components := other.components
    usesSingleUseCoolant := false }

/-- The component object stored at index `i` of `components`, if any. -/
def comp? (r : Reactor) (i : Nat) : Option ReactorComponent :=
  (r.components[i]?).join

/-- Overwrite the component object at index `i`. -/
def setComp (r : Reactor) (i : Nat) (c : ReactorComponent) : Reactor :=
  { r with components := r.components.set i (some c) }

def getComponentTypes (r : Reactor) : List ComponentType :=
  r.components.map fun c =>
    match c with
    | none => ComponentType.COMPONENT_NONE
    | some c => c.type

/-- The method `set(x, y, shared_ptr<ReactorComponent>)`. -/
def setPtr (r : Reactor) (x y : Int) (component : Option ReactorComponent) : Reactor :=
  { r with components := r.components.set (y * r.width + x).toNat component }

/-- The method `set(x, y, ComponentType)`. -/
def set (r : Reactor) (x y : Int) (type : ComponentType) : Reactor :=
  r.setPtr x y (ReactorComponent.create type x y)

def setComponentTypes (r : Reactor) (types : List ComponentType) : Reactor :=
  (List.range r.width.toNat).foldl
    (fun (r : Reactor) (x : Nat) =>
      (List.range r.height.toNat).foldl
        (fun (r : Reactor) (y : Nat) =>
          r.set x y (types.getD ((y : Int) * r.width + x).toNat ComponentType.COMPONENT_NONE))
        r)
    r

/-- The method `get(x, y)`: the index of the live component at `(x, y)`, `none` for a
null pointer. -/
def get (r : Reactor) (x y : Int) : Option Nat :=
  if x < 0 ∨ y < 0 ∨ x ≥ r.width ∨ y ≥ r.height then none
  else
    match r.comp? (y * r.width + x).toNat with
    | none => none
    | some c => if c.isDestroyed then none else some (y * r.width + x).toNat

def left (r : Reactor) (x y : Int) : Option Nat := r.get (x - 1) y

def right (r : Reactor) (x y : Int) : Option Nat := r.get (x + 1) y

def above (r : Reactor) (x y : Int) : Option Nat := r.get x (y - 1)

def below (r : Reactor) (x y : Int) : Option Nat := r.get x (y + 1)

def commit (r : Reactor) : Reactor :=
  { r with
    curSimState := r.pendingSimState
    components := r.components.map fun comp =>
      match comp with
      | none => none
      | some c => if c.commit.isDestroyed then none else some c.commit }

def rollback (r : Reactor) : Reactor :=
  { r with
    pendingSimState := r.curSimState
    components := r.components.map fun comp =>
      match comp with
      | none => none
      | some c => some c.rollback }

def getHeat (r : Reactor) : Int := r.pendingSimState.reactorHeat

def heatCapacityExceeded (r : Reactor) : Reactor :=
  { r with pendingSimState := { r.pendingSimState with meltdown := true } }

def setHeat (r : Reactor) (heat : Int) : Reactor :=
  let r1 := { r with pendingSimState := { r.pendingSimState with reactorHeat := heat } }
  if r1.pendingSimState.reactorHeat ≥ r1.maxHeat then r1.heatCapacityExceeded else r1

/-- The method `addHeat`; its return value (the new core heat) is never used by a caller. -/
def addHeat (r : Reactor) (heat : Int) : Reactor :=
  let r1 := { r with pendingSimState :=
    { r.pendingSimState with reactorHeat := r.pendingSimState.reactorHeat + heat } }
  if r1.pendingSimState.reactorHeat ≥ r1.maxHeat then r1.heatCapacityExceeded else r1

def getMaxHeat (r : Reactor) : Int := r.maxHeat

def componentDestroyed (r : Reactor) (_x _y : Int) : Reactor :=
  if !r.ignoreComponentDestroyed then
    { r with pendingSimState := { r.pendingSimState with componentFailed := true } }
  else r

def generateEU (r : Reactor) (eu : Int) : Reactor :=
  { r with pendingSimState :=
    { r.pendingSimState with euGenerated := r.pendingSimState.euGenerated + eu } }

end Reactor

/-! ## Component methods that touch the reactor

Each takes the reactor and the index `i` of the receiver (`this`). -/

/-- The method `ReactorComponent::setDestroyed(d)`. -/
def ReactorComponent.setDestroyed (r : Reactor) (i : Nat) (d : Bool) : Reactor :=
  match r.comp? i with
  | none => r
  | some c =>
    if !r.ignoreComponentDestroyed then
      let wasDestroyed := c.base.pendingDestroyed
      let r1 := r.setComp i (c.setPendingDestroyed d)
      if d && !wasDestroyed then r1.componentDestroyed c.base.x c.base.y else r1
    else r

/-- The method `Heatable::alterHeat(heat)` on the `Heatable` sub-object `h` of
component `i`; returns the new reactor and the returned `heat`. -/
def Heatable.alterHeat (r : Reactor) (i : Nat) (h : Heatable) (heat : Int) : Reactor × Int :=
  let newHeat := h.pendingHeat + heat
  if newHeat > h.maxHeat then
    (ReactorComponent.setDestroyed r i true, h.maxHeat - newHeat + 1)
  else if newHeat < 0 then
    (match r.comp? i with
      | none => r
      | some c => r.setComp i (c.setPendingHeat 0), newHeat)
  else
    (match r.comp? i with
      | none => r
      | some c => r.setComp i (c.setPendingHeat newHeat), 0)

/-- The method `Condensator::alterHeat(heat)`. -/
def Condensator.alterHeat (r : Reactor) (i : Nat) (k : Condensator) (heat : Int) : Reactor × Int :=
  let can := k.maxStoredHeat - k.pendingStoredHeat
  let can := if can > heat then heat else can
  (r.setComp i (.condensator { k with pendingStoredHeat := k.pendingStoredHeat + can }),
    heat - can)

/-- Virtual call `comp->alterHeat(heat)` on the component at index `i`. -/
def ReactorComponent.alterHeat (r : Reactor) (i : Nat) (heat : Int) : Reactor × Int :=
  match r.comp? i with
  | some (.heatVent c) => Heatable.alterHeat r i c.toHeatable heat
  | some (.heatExchanger c) => Heatable.alterHeat r i c.toHeatable heat
  | some (.coolantCell c) => Heatable.alterHeat r i c.toHeatable heat
  | some (.condensator k) => Condensator.alterHeat r i k heat
  | _ => (r, heat)

/-- The method `UraniumCell::acceptUraniumPulse`. -/
def UraniumCell.acceptUraniumPulse (r : Reactor) (u : UraniumCell) (phase : SimPhase) :
    Reactor × Bool :=
  if u.pendingUsage ≤ u.maxUsage then
    (if phase = SimPhase.PHASE_POWER then r.generateEU UraniumCell.euPerPulse else r, true)
  else (r, false)

/-- The method `NeutronReflector::acceptUraniumPulse`. -/
def NeutronReflector.acceptUraniumPulse (r : Reactor) (i : Nat) (n : NeutronReflector)
    (phase : SimPhase) : Reactor × Bool :=
  if phase = SimPhase.PHASE_POWER then (r.generateEU UraniumCell.euPerPulse, true)
  else
    let r1 := r.setComp i (.neutronReflector { n with pendingUsage := n.pendingUsage + 1 })
    (if n.pendingUsage + 1 > n.maxUsage then ReactorComponent.setDestroyed r1 i true else r1, true)

/-- Virtual call `comp->acceptUraniumPulse(fromComp, phase)` on the component at index `i`
(no implementation uses `fromComp`). -/
def ReactorComponent.acceptUraniumPulse (r : Reactor) (i : Nat) (phase : SimPhase) :
    Reactor × Bool :=
  match r.comp? i with
  | some (.uraniumCell u) => UraniumCell.acceptUraniumPulse r u phase
  | some (.neutronReflector n) => NeutronReflector.acceptUraniumPulse r i n phase
  | _ => (r, false)

/-! ## Component ticks -/

/-- The method `HeatVent::tick(phase)` of the vent `v` stored at index `i`. -/
def HeatVent.tick (r : Reactor) (i : Nat) (v : HeatVent) (phase : SimPhase) : Reactor :=
  if phase = SimPhase.PHASE_HEAT_RUN then
    if v.heatFromReactor > 0 then
      let rh := r.getHeat
      let rdrain := if rh > v.heatFromReactor then v.heatFromReactor else rh
      let rh := rh - rdrain
      let (r1, rdrain) := ReactorComponent.alterHeat r i rdrain
      if rdrain > 0 then r1
      else (ReactorComponent.alterHeat (r1.setHeat rh) i (-v.heatDissipated)).1
    else (ReactorComponent.alterHeat r i (-v.heatDissipated)).1
  else r

/-- The method `ComponentHeatVent::checkDissipate(other)`. -/
def ComponentHeatVent.checkDissipate (r : Reactor) (v : ComponentHeatVent) (other : Option Nat) :
    Reactor :=
  match other with
  | none => r
  | some j =>
    match r.comp? j with
    | none => r
    | some c => if c.canStoreHeat then (ReactorComponent.alterHeat r j (-v.heatFromEach)).1 else r

/-- The method `ComponentHeatVent::tick(phase)`. -/
def ComponentHeatVent.tick (r : Reactor) (v : ComponentHeatVent) (phase : SimPhase) : Reactor :=
  if phase = SimPhase.PHASE_HEAT_RUN then
    let r := ComponentHeatVent.checkDissipate r v (r.left v.x v.y)
    let r := ComponentHeatVent.checkDissipate r v (r.right v.x v.y)
    let r := ComponentHeatVent.checkDissipate r v (r.above v.x v.y)
    ComponentHeatVent.checkDissipate r v (r.below v.x v.y)
  else r

/-- The indices that `checkHeatAcceptor` appends to `heatAcceptors` when called on the
left, right, above and below neighbours of `(x, y)`, in this order. -/
def heatAcceptors (r : Reactor) (x y : Int) : List Nat :=
  [r.left x y, r.right x y, r.above x y, r.below x y].filterMap fun p =>
    match p with
    | none => none
    | some j =>
      match r.comp? j with
      | none => none
      | some c => if c.canStoreHeat then some j else none

/-- Conversion `(int)` of a `double`: truncation toward zero. -/
def truncToInt (q : ℚ) : Int := if 0 ≤ q then ⌊q⌋ else ⌈q⌉

/-- The value `HeatExchanger::checkHeatAcceptor` returns for a neighbour pointer. -/
def HeatExchanger.checkHeatAcceptor (r : Reactor) (p : Option Nat) : ℚ :=
  match p with
  | none => 0
  | some j =>
    match r.comp? j with
    | none => 0
    | some c =>
      if c.canStoreHeat then
        if c.getMaxHeat ≤ 0 then 0 else (c.getCurrentHeat : ℚ) / (c.getMaxHeat : ℚ)
      else 0

/-- The value of `med` in `HeatExchanger::tick` after the division by the number of
participants.  The source computes it in IEEE double; here it is the exact rational, which
can differ from the double by rounding, so that `truncToInt (med * max)` can differ by one
from the `(int)(med * max)` of the source.  No property below depends on the value of `med`:
the exchanger properties are stated for every `med`. -/
def HeatExchanger.med (r : Reactor) (e : HeatExchanger) : ℚ :=
  let med : ℚ := (e.pendingHeat : ℚ) / (e.maxHeat : ℚ)
  let c : Int := 1
  let (c, med) :=
    if e.transferToCore > 0 then (c + 1, med + (r.getHeat : ℚ) / (r.getMaxHeat : ℚ)) else (c, med)
  let med :=
    if e.transferToAdjacent > 0 then
      med + HeatExchanger.checkHeatAcceptor r (r.left e.x e.y)
        + HeatExchanger.checkHeatAcceptor r (r.right e.x e.y)
        + HeatExchanger.checkHeatAcceptor r (r.above e.x e.y)
        + HeatExchanger.checkHeatAcceptor r (r.below e.x e.y)
    else med
  let len : Int := if e.transferToAdjacent > 0 then (heatAcceptors r e.x e.y).length else 0
  med / ((c + len : Int) : ℚ)

/-- The loop of `HeatExchanger::tick` over `heatAcceptors`; carries the reactor and
`myHeat`. -/
def HeatExchanger.transferAdjacent (med : ℚ) (transferToAdjacent : Int) :
    Reactor → Int → List Nat → Reactor × Int
  | r, myHeat, [] => (r, myHeat)
  | r, myHeat, j :: rest =>
    match r.comp? j with
    | none => HeatExchanger.transferAdjacent med transferToAdjacent r myHeat rest
    | some comp =>
      let add := truncToInt (med * (comp.getMaxHeat : ℚ)) - comp.getCurrentHeat
      let add := if add > transferToAdjacent then transferToAdjacent else add
      let add := if add < -transferToAdjacent then -transferToAdjacent else add
      let myHeat := myHeat - add
      let (r1, add) := ReactorComponent.alterHeat r j add
      HeatExchanger.transferAdjacent med transferToAdjacent r1 (myHeat + add) rest

/-- The part of `HeatExchanger::tick` that follows the computation of `med`. -/
def HeatExchanger.transfer (r : Reactor) (i : Nat) (e : HeatExchanger) (med : ℚ) : Reactor :=
  let acceptors := if e.transferToAdjacent > 0 then heatAcceptors r e.x e.y else []
  let (r, myHeat) :=
    if e.transferToAdjacent > 0 then
      HeatExchanger.transferAdjacent med e.transferToAdjacent r 0 acceptors
    else (r, 0)
  let (r, myHeat) :=
    if e.transferToCore > 0 then
      let add := truncToInt (med * (r.getMaxHeat : ℚ)) - r.getHeat
      let add := if add > e.transferToCore then e.transferToCore else add
      let add := if add < -e.transferToCore then -e.transferToCore else add
      (r.setHeat (r.getHeat + add), myHeat - add)
    else (r, myHeat)
  (ReactorComponent.alterHeat r i myHeat).1

/-- The method `HeatExchanger::tick(phase)`; the source does not look at `phase`. -/
def HeatExchanger.tick (r : Reactor) (i : Nat) (e : HeatExchanger) (_phase : SimPhase) : Reactor :=
  HeatExchanger.transfer r i e (HeatExchanger.med r e)

/-- The method `UraniumCell::sumUp`. -/
def UraniumCell.sumUp (x : Int) : Int :=
  (List.range x.toNat).foldl (fun (sum : Int) (k : Nat) => sum + ((k : Int) + 1)) 0

/-- The method `UraniumCell::checkPulseable`. -/
def UraniumCell.checkPulseable (r : Reactor) (comp : Option Nat) (phase : SimPhase) :
    Reactor × Int :=
  match comp with
  | none => (r, 0)
  | some j =>
    let (r1, ok) := ReactorComponent.acceptUraniumPulse r j phase
    (r1, if ok then 1 else 0)

/-- The four `checkPulseable` calls of `UraniumCell::tick` on the neighbours of `(x, y)`;
returns the reactor and the number of accepted pulses. -/
def UraniumCell.pulseNeighbours (r : Reactor) (x y : Int) (phase : SimPhase) : Reactor × Int :=
  let (r, p1) := UraniumCell.checkPulseable r (r.left x y) phase
  let (r, p2) := UraniumCell.checkPulseable r (r.right x y) phase
  let (r, p3) := UraniumCell.checkPulseable r (r.above x y) phase
  let (r, p4) := UraniumCell.checkPulseable r (r.below x y) phase
  (r, p1 + p2 + p3 + p4)

/-- The heat distribution loop of `UraniumCell::tick` over `heatAcceptors`; carries the
reactor and `heat`. -/
def UraniumCell.distributeHeat : Reactor → Int → List Nat → Reactor × Int
  | r, heat, [] => (r, heat)
  | r, heat, j :: rest =>
    let dheat := heat.tdiv ((rest.length : Int) + 1)
    let heat := heat - dheat
    let (r1, dheat) := ReactorComponent.alterHeat r j dheat
    UraniumCell.distributeHeat r1 (heat + dheat) rest

/-- One iteration of the `cellNum` loop of `UraniumCell::tick`, for the cell at index `i`
with coordinates `(x, y)`. -/
def UraniumCell.tickCell (i : Nat) (x y numCells : Int) (phase : SimPhase) (r : Reactor) :
    Reactor :=
  let pulses := 1 + numCells.tdiv 2
  if phase ≠ SimPhase.PHASE_HEAT_RUN then
    let r := (List.range pulses.toNat).foldl
      (fun r _ => (ReactorComponent.acceptUraniumPulse r i phase).1) r
    (UraniumCell.pulseNeighbours r x y phase).1
  else
    let (r, p) := UraniumCell.pulseNeighbours r x y phase
    let pulses := pulses + p
    let heat := UraniumCell.sumUp pulses * 4
    let (r, heat) := UraniumCell.distributeHeat r heat (heatAcceptors r x y)
    if heat > 0 then r.addHeat heat else r

/-- The method `UraniumCell::tick(phase)` of the cell `u` stored at index `i`. -/
def UraniumCell.tick (r : Reactor) (i : Nat) (u : UraniumCell) (phase : SimPhase) : Reactor :=
  if u.pendingUsage ≤ u.maxUsage then
    let r := (List.range u.numCells.toNat).foldl
      (fun r _ => UraniumCell.tickCell i u.x u.y u.numCells phase r) r
    if phase = SimPhase.PHASE_HEAT_RUN then
      match r.comp? i with
      | some (.uraniumCell u1) => r.setComp i (.uraniumCell { u1 with pendingUsage := u1.pendingUsage + 1 })
      | _ => r
    else r
  else r

/-- The method `ReactorPlating::tick(phase)`. -/
def ReactorPlating.tick (r : Reactor) (p : ReactorPlating) (phase : SimPhase) : Reactor :=
  if phase = SimPhase.PHASE_HEAT_RUN then { r with maxHeat := r.maxHeat + p.heatAddition } else r

/-- Virtual call `comp->tick(phase)` on the component at index `i`. -/
def ReactorComponent.tick (r : Reactor) (i : Nat) (phase : SimPhase) : Reactor :=
  match r.comp? i with
  | some (.heatVent v) => HeatVent.tick r i v phase
  | some (.componentHeatVent v) => ComponentHeatVent.tick r v phase
  | some (.heatExchanger e) => HeatExchanger.tick r i e phase
  | some (.uraniumCell u) => UraniumCell.tick r i u phase
  | some (.reactorPlating p) => ReactorPlating.tick r p phase
  | _ => r

/-! ## The tick engine and the run-until loop -/

namespace Reactor

/-- The body of the inner loop of `runTickPhase` at coordinate `(x, y)`. -/
def tickAt (phase : SimPhase) (y : Nat) (r : Reactor) (x : Nat) : Reactor :=
  match r.get x y with
  | none => r
  | some i =>
    match r.comp? i with
    | none => r
    | some c => if !c.isDestroyed then ReactorComponent.tick r i phase else r

/-- The method `runTickPhase`; no tick changes `width` or `height`, which are read once. -/
def runTickPhase (r : Reactor) (phase : SimPhase) : Reactor :=
  (List.range r.height.toNat).foldl
    (fun r1 y => (List.range r.width.toNat).foldl (tickAt phase y) r1) r

def runTick (r : Reactor) : Reactor :=
  let r := { r with maxHeat := 10000 }
  let r := r.runTickPhase SimPhase.PHASE_HEAT_RUN
  let r := r.runTickPhase SimPhase.PHASE_POWER
  let totalHeat := r.components.foldl
    (fun t comp =>
      match comp with
      | none => t
      | some c => t + c.getCurrentHeat)
    r.getHeat
  { r with pendingSimState := { r.pendingSimState with totalHeat := totalHeat } }

/-- The statement `pendingSimState.curTick++`. -/
def incTick (r : Reactor) : Reactor :=
  { r with pendingSimState := { r.pendingSimState with curTick := r.pendingSimState.curTick + 1 } }

def removeFuel (r : Reactor) : Reactor :=
  { r with components := r.components.map fun comp =>
      match comp with
      | none => none
      | some c =>
        if c.type = ComponentType.URANIUM_CELL ∨ c.type = ComponentType.DUAL_URANIUM_CELL
            ∨ c.type = ComponentType.QUAD_URANIUM_CELL then none
        else some c }

def getTotalCost (r : Reactor) : Int :=
  r.components.foldl
    (fun total cptr =>
      match cptr with
      | none => total
      | some c => total + c.base.cost)
    0

/-- The six checks at the head of the loop body of `runUntil`, in the order of the source:
the stop reason to return, `none` when none of them fires. -/
def stopCheck (stopOnMeltdown stopOnFuelUsed stopOnCooledDown stopOnComponentFailed : Bool)
    (r : Reactor) : Option RunUntilStopReason :=
  if r.pendingSimState.meltdown && stopOnMeltdown then
    some RunUntilStopReason.STOPPED_ON_MELTDOWN
  else if r.pendingSimState.componentFailed && stopOnComponentFailed then
    some RunUntilStopReason.STOPPED_ON_COMPONENT_FAILED
  else if decide (r.pendingSimState.curTick ≥ fuelTicks) && stopOnFuelUsed then
    some RunUntilStopReason.STOPPED_ON_FUEL_USED
  else if decide (r.pendingSimState.totalHeat ≤ 0) && stopOnCooledDown then
    some RunUntilStopReason.STOPPED_ON_COOLED_DOWN
  else if decide (r.pendingSimState.totalHeat < 100)
      && decide (r.pendingSimState.totalHeat = r.curSimState.totalHeat)
      && stopOnCooledDown then
    some RunUntilStopReason.STOPPED_ON_COOLED_DOWN
  else if r.pendingSimState.curTick ≥ timeoutTicks then
    some RunUntilStopReason.STOPPED_ON_MAX_TICKS
  else none

/-- The no-heat-loss check of the loop body of `runUntil` (every `noHeatLossCheckInterval = 8`
committed ticks): the new value of `lastTotalHeat`, `none` when the check returns
`STOPPED_ON_MAX_TICKS`. -/
def noHeatLossCheck (stopOnCooledDown : Bool) (r : Reactor) (lastTotalHeat : Int) : Option Int :=
  if decide (r.curSimState.curTick.tmod 8 = 0) && stopOnCooledDown then
    if lastTotalHeat = -1 then some r.curSimState.totalHeat
    else if lastTotalHeat ≤ r.curSimState.totalHeat then none
    else some r.curSimState.totalHeat
  else some lastTotalHeat

/-- The loop of `runUntil`: `firstIteration` and `lastTotalHeat` are its local variables,
the first argument bounds the number of iterations. -/
def runUntilLoop (stopOnMeltdown stopOnFuelUsed stopOnCooledDown stopOnComponentFailed : Bool) :
    Nat → Reactor → Bool → Int → Option (RunUntilStopReason × Reactor)
  | 0, _, _, _ => none
  | n + 1, r, firstIteration, lastTotalHeat =>
    match stopCheck stopOnMeltdown stopOnFuelUsed stopOnCooledDown stopOnComponentFailed r with
    | some reason => some (reason, r)
    | none =>
      match noHeatLossCheck stopOnCooledDown r lastTotalHeat with
      | none => some (RunUntilStopReason.STOPPED_ON_MAX_TICKS, r)
      | some lastTotalHeat =>
        let r := if firstIteration then r else r.commit
        runUntilLoop stopOnMeltdown stopOnFuelUsed stopOnCooledDown stopOnComponentFailed
          n r.runTick.incTick false lastTotalHeat

/-- The method `runUntil`, with at most `fuel` loop iterations. -/
def runUntil (fuel : Nat) (r : Reactor)
    (stopOnMeltdown stopOnFuelUsed stopOnCooledDown stopOnComponentFailed : Bool) :
    Option (RunUntilStopReason × Reactor) :=
  runUntilLoop stopOnMeltdown stopOnFuelUsed stopOnCooledDown stopOnComponentFailed fuel r true (-1)

def initializeSimulation (r : Reactor) : Reactor :=
  let numUraniumCells := r.components.foldl
    (fun n component =>
      match component with
      | none => n
      | some c =>
        if c.type = ComponentType.URANIUM_CELL then n + 1
        else if c.type = ComponentType.DUAL_URANIUM_CELL then n + 2
        else if c.type = ComponentType.QUAD_URANIUM_CELL then n + 4
        else n)
    (0 : Int)
  let usesSingleUseCoolant := r.components.foldl
    (fun b component =>
      match component with
      | none => b
      | some c =>
        if c.type = ComponentType.URANIUM_CELL then b
        else if c.type = ComponentType.DUAL_URANIUM_CELL then b
        else if c.type = ComponentType.QUAD_URANIUM_CELL then b
        else if c.type = ComponentType.CONDENSATOR_RSH then true
        else if c.type = ComponentType.CONDENSATOR_LZH then true
        else b)
    false
  { r with
    curSimState := {}
    pendingSimState := {}
    numUraniumCells := numUraniumCells
    usesSingleUseCoolant := usesSingleUseCoolant }

def resetUsage (r : Reactor) : Reactor :=
  let cur := { r.curSimState with curTick := 0, euGenerated := 0 }
  { r with
    components := r.components.map fun component =>
      match component with
      | none => none
      | some c => some c.resetUsage
    curSimState := cur
    pendingSimState := cur }

end Reactor

def getCyclesUntilFailure (firstRunHeat secondRunHeat maxHeat : Int) : Int :=
  if maxHeat ≤ 0 then -1
  else
    let heatDiff := secondRunHeat - firstRunHeat
    if heatDiff ≤ 0 then -1
    else (maxHeat - firstRunHeat - 1).tdiv heatDiff + 1

/-! ## The classifier -/

structure SimulationResults where
  efficiency : ℚ := 0
  totalEUPerCycle : ℚ := 0
  euPerTick : Int := 0
  overallEUPerTick : Int := 0
  usesSingleUseCoolant : Bool := false
  timedOut : Bool := false
  cooldownTicks : Int := 0
  cycleTicks : Int := 0
  mark : Int := 0
  numIterationsBeforeFailure : Int := -1
  ticksUntilMeltdown : Int := -1
  ticksUntilComponentFailure : Int := -1
  totalCost : Int := 0
  deriving DecidableEq, Repr

/-- The three-way branch that follows each cooldown probe of `runSimulation`: the updated
results, and `true` when the source returns at once ("Invalid stop reason"). -/
def recordCooldown (results : SimulationResults) (cooldownStopReason : RunUntilStopReason)
    (cooldownReactor initialReactor : Reactor) : SimulationResults × Bool :=
  if cooldownStopReason = RunUntilStopReason.STOPPED_ON_COOLED_DOWN then
    let cycleTicks := cooldownReactor.curSimState.curTick
    ({ results with
        cooldownTicks := cooldownReactor.curSimState.curTick - initialReactor.pendingSimState.curTick
        cycleTicks := cycleTicks
        overallEUPerTick := truncToInt (results.totalEUPerCycle / (cycleTicks : ℚ)) }, false)
  else if cooldownStopReason = RunUntilStopReason.STOPPED_ON_MAX_TICKS then
    ({ results with timedOut := true, cycleTicks := -1 }, false)
  else (results, true)

/-- The branch `firstStopReason == STOPPED_ON_COMPONENT_FAILED` of `runSimulation`. -/
def runSimulationComponentFailed (fuel : Nat) (results : SimulationResults)
    (initialReactor : Reactor) : Option SimulationResults :=
  let results := { results with
    numIterationsBeforeFailure := 0
    ticksUntilComponentFailure := initialReactor.curSimState.curTick }
  let cooldownReactor :=
    { initialReactor.copy.rollback.removeFuel with ignoreComponentDestroyed := true }
  match cooldownReactor.runUntil fuel false false true false with
  | none => none
  | some (cooldownStopReason, cooldownReactor) =>
    let cooldownReactor := cooldownReactor.commit
    match recordCooldown results cooldownStopReason cooldownReactor initialReactor with
    | (results, true) => some results
    | (results, false) =>
      let runUntilFinishReactor := initialReactor.copy.commit
      match runUntilFinishReactor.runUntil fuel true true false false with
      | none => none
      | some (rufStopReason, runUntilFinishReactor) =>
        let results :=
          if (initialReactor.curSimState.curTick * 100).tdiv Reactor.fuelTicks ≥ 10 then
            { results with mark := 3 }
          else if (runUntilFinishReactor.curSimState.curTick * 100).tdiv Reactor.fuelTicks ≥ 10 then
            { results with mark := 4 }
          else { results with mark := 5 }
        some
          (if rufStopReason = RunUntilStopReason.STOPPED_ON_MELTDOWN then
            { results with ticksUntilMeltdown := runUntilFinishReactor.curSimState.curTick }
          else results)

/-- The branch `firstStopReason == STOPPED_ON_MELTDOWN` of `runSimulation`. -/
def runSimulationMeltdown (fuel : Nat) (results : SimulationResults)
    (initialReactor : Reactor) : Option SimulationResults :=
  let results := { results with
    numIterationsBeforeFailure := 0
    ticksUntilMeltdown := initialReactor.curSimState.curTick }
  let results :=
    if (initialReactor.curSimState.curTick * 100).tdiv Reactor.fuelTicks ≥ 10 then
      { results with mark := 3 }
    else { results with mark := 5 }
  let cooldownReactor :=
    { initialReactor.copy.rollback.removeFuel with ignoreComponentDestroyed := true }
  match cooldownReactor.runUntil fuel false false true false with
  | none => none
  | some (mdCooldownStopReason, cooldownReactor) =>
    some (recordCooldown results mdCooldownStopReason cooldownReactor initialReactor).1

/-- The loop of `runSimulation` over the components that lowers `minCyclesUntilFailure`;
`none` when `rerunReactor` has a null pointer where `initialReactor` has a component. -/
def minCyclesOverComponents :
    List (Option ReactorComponent) → List (Option ReactorComponent) → Int → Option Int
  | [], _, minCyclesUntilFailure => some minCyclesUntilFailure
  | none :: rest, rerun, minCyclesUntilFailure =>
    minCyclesOverComponents rest rerun.tail minCyclesUntilFailure
  | some c :: rest, rerun, minCyclesUntilFailure =>
    match rerun.head? with
    | some (some c2) =>
      let cuf := getCyclesUntilFailure c.getCurrentHeat c2.getCurrentHeat c.getMaxHeat
      let minCyclesUntilFailure :=
        if cuf ≠ -1 then
          if minCyclesUntilFailure = -1 ∨ cuf < minCyclesUntilFailure then cuf
          else minCyclesUntilFailure
        else minCyclesUntilFailure
      minCyclesOverComponents rest rerun.tail minCyclesUntilFailure
    | _ => none

/-- The branch `firstStopReason == STOPPED_ON_FUEL_USED` of `runSimulation`. -/
def runSimulationFuelUsed (fuel : Nat) (results : SimulationResults)
    (initialReactor : Reactor) : Option SimulationResults :=
  if initialReactor.curSimState.totalHeat ≤ 0 then
    some { results with
      mark := 1
      overallEUPerTick := results.euPerTick
      cycleTicks := Reactor.fuelTicks }
  else
    let cooldownReactor := { initialReactor.copy.removeFuel with ignoreComponentDestroyed := true }
    match cooldownReactor.runUntil fuel false false true false with
    | none => none
    | some (cooldownStopReason, cooldownReactor) =>
      match recordCooldown results cooldownStopReason cooldownReactor initialReactor with
      | (results, true) => some results
      | (results, false) =>
        let rerunReactor := initialReactor.copy.resetUsage
        match rerunReactor.runUntil fuel true true false true with
        | none => none
        | some (rerunStopReason, rerunReactor) =>
          if rerunStopReason = RunUntilStopReason.STOPPED_ON_MELTDOWN then
            some { results with mark := 2, numIterationsBeforeFailure := 1 }
          else if rerunStopReason = RunUntilStopReason.STOPPED_ON_COMPONENT_FAILED then
            some { results with mark := 2, numIterationsBeforeFailure := 1 }
          else if rerunStopReason = RunUntilStopReason.STOPPED_ON_FUEL_USED then
            let rerunReactor := rerunReactor.commit
            match minCyclesOverComponents initialReactor.components rerunReactor.components
                (getCyclesUntilFailure initialReactor.getHeat rerunReactor.getHeat
                  initialReactor.getMaxHeat) with
            | none => none
            | some minCyclesUntilFailure =>
              if minCyclesUntilFailure = -1 then
                some { results with
                  mark := 1
                  overallEUPerTick := results.euPerTick
                  cycleTicks := Reactor.fuelTicks }
              else
                some { results with mark := 2, numIterationsBeforeFailure := minCyclesUntilFailure }
          else some results

/-- The function `runSimulation`: the results and the final state of `initialReactor`
(passed by reference).  Every `runUntil` gets `fuel` loop iterations; the value is `none`
when one of them runs out of fuel or when the source would dereference a null pointer.
The quotients behind `euPerTick`, `overallEUPerTick` and `efficiency` are 32-bit float
computations in the source and exact rationals here, with `x / 0 = 0` where the source
gets NaN or an infinity (whose conversion to `int` is undefined); the two agree whenever
the divisor is not zero and the float quotient is exact. -/
def runSimulation (fuel : Nat) (initialReactor : Reactor) :
    Option (SimulationResults × Reactor) :=
  let initialReactor := initialReactor.initializeSimulation
  let results : SimulationResults := { totalCost := initialReactor.getTotalCost }
  if initialReactor.numUraniumCells = 0 then some (results, initialReactor)
  else
    match initialReactor.runUntil fuel true true false true with
    | none => none
    | some (firstStopReason, initialReactor) =>
      let initialReactor :=
        if firstStopReason = RunUntilStopReason.STOPPED_ON_FUEL_USED then initialReactor.commit
        else initialReactor
      let totalEUPerCycle : ℚ := initialReactor.curSimState.euGenerated
      let euPerTick := truncToInt (totalEUPerCycle / (initialReactor.curSimState.curTick : ℚ))
      let results := { results with
        totalEUPerCycle := totalEUPerCycle
        euPerTick := euPerTick
        efficiency := (euPerTick : ℚ) / 5 / (initialReactor.numUraniumCells : ℚ)
        usesSingleUseCoolant := initialReactor.usesSingleUseCoolant }
      let branch :=
        if firstStopReason = RunUntilStopReason.STOPPED_ON_COMPONENT_FAILED then
          runSimulationComponentFailed fuel results initialReactor
        else if firstStopReason = RunUntilStopReason.STOPPED_ON_MELTDOWN then
          runSimulationMeltdown fuel results initialReactor
        else if firstStopReason = RunUntilStopReason.STOPPED_ON_FUEL_USED then
          runSimulationFuelUsed fuel results initialReactor
        else some results
      branch.map fun results => (results, initialReactor)

/-! ## Notions used to state the properties -/

/-- The heat store that `alterHeat` writes: `pendingHeat` of a `Heatable`,
`pendingStoredHeat` of a `Condensator`, nothing for the other classes. -/
def ReactorComponent.storedHeat : ReactorComponent → Int
  | .heatVent c => c.pendingHeat
  | .heatExchanger c => c.pendingHeat
  | .coolantCell c => c.pendingHeat
  | .condensator c => c.pendingStoredHeat
  | _ => 0

/-- The heat store of the component at index `i` (`0` when there is none). -/
def Reactor.storedHeatAt (r : Reactor) (i : Nat) : Int :=
  match r.comp? i with
  | none => 0
  | some c => c.storedHeat

/-- Heat conservation at the boundary of the call `alterHeat(delta)` on component `i`:
`delta = applied + residual`. -/
def AlterHeatConserves (r : Reactor) (i : Nat) (delta : Int) : Prop :=
  delta = ((ReactorComponent.alterHeat r i delta).1.storedHeatAt i - r.storedHeatAt i)
    + (ReactorComponent.alterHeat r i delta).2

/-- Component `i` derives from `Heatable`, with stored heat `h` and capacity `c`. -/
def IsHeatableAt (r : Reactor) (i : Nat) (h c : Int) : Prop :=
  ∃ comp hb, r.comp? i = some comp ∧ comp.heatable? = some hb ∧ hb.pendingHeat = h ∧ hb.maxHeat = c

/-- A 3x6 reactor whose only component is a `HEAT_VENT` at `(0, 0)`. -/
def ventOnlyReactor : Reactor := (Reactor.mk0 0).set 0 0 ComponentType.HEAT_VENT

/-- The part of the reactor that no tick writes: the committed simulation state, the
pending tick counter, the geometry and flags, and of every component its presence, its
constants and its committed (`last...`) members.  It is computed by overwriting everything a
tick may write: `maxHeat`, the other pending members of the simulation state, and the
pending members of every component. -/
def Reactor.frame (r : Reactor) : Reactor :=
  { r with
    maxHeat := 0
    pendingSimState := { r.curSimState with curTick := r.pendingSimState.curTick }
    components := r.components.map (Option.map ReactorComponent.rollback) }

/-- One loop iteration of `runUntil` after the checks, without the commit: `runTick()`
followed by `pendingSimState.curTick++`. -/
def Reactor.tickOnce (r : Reactor) : Reactor := r.runTick.incTick

/-- The committed part of a reactor: its frame with the pending tick counter overwritten
as well.  It is what `rollback` produces, up to `maxHeat`. -/
def Reactor.committedPart (r : Reactor) : Reactor :=
  { r.frame with pendingSimState := r.frame.curSimState }

/-- The committed members of a component: `lastDestroyed`, `lastHeat`, `lastUsage`,
`lastStoredHeat` (`0` for a member the class does not have). -/
def ReactorComponent.committedState : ReactorComponent → Bool × Int × Int × Int
  | .heatVent c => (c.lastDestroyed, c.lastHeat, 0, 0)
  | .componentHeatVent c => (c.lastDestroyed, 0, 0, 0)
  | .heatExchanger c => (c.lastDestroyed, c.lastHeat, 0, 0)
  | .coolantCell c => (c.lastDestroyed, c.lastHeat, 0, 0)
  | .condensator c => (c.lastDestroyed, 0, 0, c.lastStoredHeat)
  | .uraniumCell c => (c.lastDestroyed, 0, c.lastUsage, 0)
  | .neutronReflector c => (c.lastDestroyed, 0, c.lastUsage, 0)
  | .reactorPlating c => (c.lastDestroyed, 0, 0, 0)

/-- The pending members of a component: `pendingDestroyed`, `pendingHeat`,
`pendingUsage`, `pendingStoredHeat` (`0` for a member the class does not have). -/
def ReactorComponent.pendingState : ReactorComponent → Bool × Int × Int × Int
  | .heatVent c => (c.pendingDestroyed, c.pendingHeat, 0, 0)
  | .componentHeatVent c => (c.pendingDestroyed, 0, 0, 0)
  | .heatExchanger c => (c.pendingDestroyed, c.pendingHeat, 0, 0)
  | .coolantCell c => (c.pendingDestroyed, c.pendingHeat, 0, 0)
  | .condensator c => (c.pendingDestroyed, 0, 0, c.pendingStoredHeat)
  | .uraniumCell c => (c.pendingDestroyed, 0, c.pendingUsage, 0)
  | .neutronReflector c => (c.pendingDestroyed, 0, c.pendingUsage, 0)
  | .reactorPlating c => (c.pendingDestroyed, 0, 0, 0)

/-- The loop of `runUntil` (`Reactor.runUntilLoop`) with one ghost variable:
`recordedAt` is the committed tick count at the moment `lastTotalHeat` was last assigned.
The third component of the result is `some (lastTotalHeat, recordedAt)` when the loop
returns from the no-heat-loss check, and `none` when it returns from any other place. -/
def Reactor.runUntilTraced
    (stopOnMeltdown stopOnFuelUsed stopOnCooledDown stopOnComponentFailed : Bool) :
    Nat → Reactor → Bool → Int → Int → Option (RunUntilStopReason × Reactor × Option (Int × Int))
  | 0, _, _, _, _ => none
  | n + 1, r, firstIteration, lastTotalHeat, recordedAt =>
    match Reactor.stopCheck stopOnMeltdown stopOnFuelUsed stopOnCooledDown stopOnComponentFailed
        r with
    | some reason => some (reason, r, none)
    | none =>
      match Reactor.noHeatLossCheck stopOnCooledDown r lastTotalHeat with
      | none => some (RunUntilStopReason.STOPPED_ON_MAX_TICKS, r, some (lastTotalHeat, recordedAt))
      | some lastTotalHeat1 =>
        let recordedAt :=
          if decide (r.curSimState.curTick.tmod 8 = 0) && stopOnCooledDown then
            r.curSimState.curTick
          else recordedAt
        let r := if firstIteration then r else r.commit
        Reactor.runUntilTraced stopOnMeltdown stopOnFuelUsed stopOnCooledDown stopOnComponentFailed
          n r.runTick.incTick false lastTotalHeat1 recordedAt

/-- What C7 says of a return of the traced loop: it comes from the no-heat-loss check, the
recorded heat is at most the committed total heat, and it was recorded exactly 8 committed
ticks before. -/
def StagnationEightTicksBefore (res : RunUntilStopReason × Reactor × Option (Int × Int)) : Prop :=
  match res.2.2 with
  | none => False
  | some (heat, recordedAt) =>
    heat ≤ res.2.1.curSimState.totalHeat ∧ res.2.1.curSimState.curTick = recordedAt + 8

/-- The reactor left by eight committed ticks of a 3x6 reactor whose only component is a
`QUAD_URANIUM_CELL` at `(1, 1)`, with the fuel removed afterwards: an empty grid at
committed tick 8 with a core heat of 768. -/
def stagnantReactor : Reactor :=
  ((fun r : Reactor => r.tickOnce.commit)^[8]
    ((Reactor.mk0 0).set 1 1 ComponentType.QUAD_URANIUM_CELL).initializeSimulation).removeFuel

instance (res : RunUntilStopReason × Reactor × Option (Int × Int)) :
    Decidable (StagnationEightTicksBefore res) := by
  unfold StagnationEightTicksBefore
  split <;> infer_instance

/-- What the code guarantees of an early `STOPPED_ON_MAX_TICKS` of a `runUntil` entered at
committed tick `c0`: it comes from the no-heat-loss check at a committed tick divisible
by 8, the recorded heat is at most the committed total heat, and it was recorded either 8
committed ticks before, or at the very same committed tick `c0`, one tick after entry. -/
def StagnationFired (c0 : Int) (res : RunUntilStopReason × Reactor × Option (Int × Int)) : Prop :=
  match res.2.2 with
  | none => False
  | some (heat, recordedAt) =>
    heat ≤ res.2.1.curSimState.totalHeat
    ∧ res.2.1.curSimState.curTick.tmod 8 = 0
    ∧ (res.2.1.curSimState.curTick = recordedAt + 8
      ∨ (res.2.1.curSimState.curTick = recordedAt ∧ recordedAt = c0
        ∧ res.2.1.pendingSimState.curTick = c0 + 1))

/-- Invariant of the traced loop of a `runUntil` entered with pending tick count and
committed tick count both equal to `c0`. -/
def TracedInv (c0 : Int) (stopOnCooledDown : Bool) (r : Reactor) (firstIteration : Bool)
    (lastTotalHeat recordedAt : Int) : Prop :=
  (stopOnCooledDown = false → lastTotalHeat = -1)
  ∧ (if firstIteration then
      lastTotalHeat = -1 ∧ r.curSimState.curTick = c0 ∧ r.pendingSimState.curTick = c0
    else
      r.pendingSimState.curTick = r.curSimState.curTick + 1
      ∧ (lastTotalHeat ≠ -1 →
          recordedAt % 8 = 0 ∧ r.curSimState.curTick - 8 ≤ recordedAt
          ∧ recordedAt ≤ r.curSimState.curTick
          ∧ (recordedAt = r.curSimState.curTick →
              r.curSimState.curTick = c0 ∧ r.pendingSimState.curTick = c0 + 1)))

/-- The kind list of the 3x6 device whose only components are a `URANIUM_CELL` at `(1, y)`
and `HEAT_VENT`s at its four orthogonal neighbours (index `y' * 3 + x` holds the kind of
cell `(x, y')`). -/
def ventedCellTypes (y : Nat) : List ComponentType :=
  (List.range 18).map fun i =>
    if i = y * 3 + 1 then ComponentType.URANIUM_CELL
    else if i = (y - 1) * 3 + 1 ∨ i = y * 3 ∨ i = y * 3 + 2 ∨ i = (y + 1) * 3 + 1 then
      ComponentType.HEAT_VENT
    else ComponentType.COMPONENT_NONE

/-- The 3x6 device (no extra chamber) built from `ventedCellTypes y`. -/
def ventedCellReactor (y : Nat) : Reactor :=
  (Reactor.mk0 0).setComponentTypes (ventedCellTypes y)

/-- The cells of a 3x6 grid that holds the five components `cC` at `(1, y)`, `cA` above it,
`cL` left of it, `cR` right of it and `cB` below it, and nothing else, by index. -/
def crossCells (y : Nat) (cA cL cC cR cB : ReactorComponent) (i : Nat) : Option ReactorComponent :=
  if i = y * 3 + 1 then some cC
  else if i = (y - 1) * 3 + 1 then some cA
  else if i = y * 3 then some cL
  else if i = y * 3 + 2 then some cR
  else if i = (y + 1) * 3 + 1 then some cB
  else none

/-- A 3x6 reactor with one fuel unit, `maxHeat = 10000`, the five components of
`crossCells` and the given committed and pending simulation states. -/
def crossState (y : Nat) (cA cL cC cR cB : ReactorComponent) (cur pend : SimulationState) :
    Reactor :=
  { width := 3
    height := 6
    numExtraChambers := 0
    components := (List.range 18).map (crossCells y cA cL cC cR cB)
    maxHeat := 10000
    ignoreComponentDestroyed := false
    numUraniumCells := 1
    usesSingleUseCoolant := false
    curSimState := cur
    pendingSimState := pend }

/-- A `HEAT_VENT` at `(x, y)` with the given committed and pending heat. -/
def ventAt (x y lastHeat pendingHeat : Int) : ReactorComponent :=
  .heatVent
    { HeatVent.mk0 ComponentType.HEAT_VENT x y 6 0 1000 with
      lastHeat := lastHeat, pendingHeat := pendingHeat }

/-- A `URANIUM_CELL` at `(x, y)` with the given committed and pending usage. -/
def cellAt (x y lastUsage pendingUsage : Int) : ReactorComponent :=
  .uraniumCell
    { UraniumCell.mk0 ComponentType.URANIUM_CELL x y 1 with
      lastUsage := lastUsage, pendingUsage := pendingUsage }

/-- The reactor `ventedCellReactor y` after `initializeSimulation`, in a state where the
vents above, left, right and below of the cell hold `a`, `l`, `r` and `b` (the first two
with committed heat `lh`, the last two with committed heat 0) and the cell has usage `u`
(committed `lu`), with the given committed and pending simulation states. -/
def ventedState (y : Nat) (lh lu a l r b u : Int) (cur pend : SimulationState) : Reactor :=
  crossState y (ventAt 1 ((y : Int) - 1) lh a) (ventAt 0 y lh l) (cellAt 1 y lu u)
    (ventAt 2 y 0 r) (ventAt 1 ((y : Int) + 1) 0 b) cur pend

/-- The pending simulation state of the vented cell device after tick `k >= 1` of a run:
`5 * k` EU generated, total heat 2, core heat 0. -/
def ventedPending (k : Int) : SimulationState :=
  { curTick := k, meltdown := false, componentFailed := false, euGenerated := 5 * k,
    totalHeat := 2, reactorHeat := 0 }

/-- The body of the loops of `runTickPhase` for the cell with index `i = y * width + x`:
`comp = get(x, y)`, then `comp->tick(phase)` when `comp` is a live component. -/
def Reactor.tickIdx (phase : SimPhase) (r : Reactor) (i : Nat) : Reactor :=
  match r.comp? i with
  | none => r
  | some c => if c.isDestroyed then r else ReactorComponent.tick r i phase

/-- The state in which the first run and the rerun of the vented cell device stop: pending
tick 10000, committed tick 9999. -/
def ventedStop (y : Nat) : Reactor :=
  ventedState y 1 9999 1 1 0 0 10000 (ventedPending 9999) (ventedPending 10000)

/-- The result `runSimulation` returns for the vented cell device. -/
def ventedResults : SimulationResults :=
  { efficiency := 1
    totalEUPerCycle := 50000
    euPerTick := 5
    overallEUPerTick := 5
    usesSingleUseCoolant := false
    timedOut := false
    cooldownTicks := 0
    cycleTicks := 10000
    mark := 1
    numIterationsBeforeFailure := -1
    ticksUntilMeltdown := -1
    ticksUntilComponentFailure := -1
    totalCost := 10 }

/-- The number of live components among the four orthogonal neighbours of `(x, y)`. -/
def Reactor.liveNeighbours (r : Reactor) (x y : Int) : Int :=
  (if (r.left x y).isSome then 1 else 0) + (if (r.right x y).isSome then 1 else 0)
    + (if (r.above x y).isSome then 1 else 0) + (if (r.below x y).isSome then 1 else 0)

/-- The heat a fuel cell of a device without heat acceptors puts into the core per tick:
for each of its `numCells` internal cells, `4 * sumUp(pulses)` with
`pulses = 1 + numCells / 2 + (number of live neighbours)`; `0` for any other component. -/
def Reactor.cellHeat (r : Reactor) : Option ReactorComponent → Int
  | some (.uraniumCell u) =>
    (u.numCells.toNat : Int)
      * (UraniumCell.sumUp (1 + u.numCells.tdiv 2 + r.liveNeighbours u.x u.y) * 4)
  | _ => 0

/-- The heat per tick of a device whose components are all fuel cells. -/
def Reactor.heatRate (r : Reactor) : Int := (r.components.map r.cellHeat).sum

/-- A fuel cell record with its usage counters replaced. -/
def UraniumCell.withUsage (c : UraniumCell) (lu u : Int) : ReactorComponent :=
  .uraniumCell { c with lastUsage := lu, pendingUsage := u }

/-- A pending simulation state of a fuel-only device: tick `k`, core heat `H`, the
meltdown flag set exactly when `H >= 10000`, no component failed. -/
def fuelPending (k H eu th : Int) : SimulationState :=
  { curTick := k, meltdown := decide (H ≥ 10000), componentFailed := false, euGenerated := eu,
    totalHeat := th, reactorHeat := H }

/-- A state of a fuel-only device: the reactor `r0` with `maxHeat = 10000`, with the fuel
cell `g i` at index `i` having committed usage `lu` and pending usage `mu i`, and with the
given simulation states. -/
def fuelState (r0 : Reactor) (g : Nat → Option UraniumCell) (lu : Int) (mu : Nat → Int)
    (cur pend : SimulationState) : Reactor :=
  { r0 with
    components := (List.range r0.components.length).map fun i =>
      (g i).map fun c => c.withUsage lu (mu i)
    maxHeat := 10000
    curSimState := cur
    pendingSimState := pend }

/-- The static description `g` consists of live fuel cells with `maxUsage = 10000` and at
least one internal cell. -/
def FuelGrid (g : Nat → Option UraniumCell) : Prop :=
  ∀ i c, g i = some c →
    c.pendingDestroyed = false ∧ c.maxUsage = 10000 ∧ 1 ≤ c.numCells ∧ c.lastDestroyed = false

/-- The fuel cell stored at index `i` of a reactor, if the component there is one. -/
def Reactor.fuelAt (r : Reactor) (i : Nat) : Option UraniumCell :=
  match r.comp? i with
  | some (.uraniumCell u) => some u
  | _ => none

/-- The heat per tick of the fuel cell `g i` of a fuel-only state (`0` when there is none);
the number of live neighbours does not depend on the usage counters or the simulation
states, and is read off the state with all of them zero. -/
def fuelHeatAt (r0 : Reactor) (g : Nat → Option UraniumCell) (i : Nat) : Int :=
  match g i with
  | none => 0
  | some c =>
    (c.numCells.toNat : Int)
      * (UraniumCell.sumUp (1 + c.numCells.tdiv 2
          + (fuelState r0 g 0 (fun _ => 0) {} {}).liveNeighbours c.x c.y) * 4)

/-- The energy per tick of the fuel cell `g i` of a fuel-only state. -/
def fuelEUAt (r0 : Reactor) (g : Nat → Option UraniumCell) (i : Nat) : Int :=
  match g i with
  | none => 0
  | some c =>
    (c.numCells.toNat : Int)
      * (UraniumCell.euPerPulse
          * (((1 + c.numCells.tdiv 2).toNat : Int)
            + (fuelState r0 g 0 (fun _ => 0) {} {}).liveNeighbours c.x c.y))

/-- The heat per tick of a fuel-only state, summed over the indices of the grid. -/
def fuelHeatRate (r0 : Reactor) (g : Nat → Option UraniumCell) : Int :=
  ((List.range r0.components.length).map (fuelHeatAt r0 g)).sum

/-- The energy per tick of a fuel-only state, summed over the indices of the grid. -/
def fuelEURate (r0 : Reactor) (g : Nat → Option UraniumCell) : Int :=
  ((List.range r0.components.length).map (fuelEUAt r0 g)).sum

/-- The pending simulation state of a fuel-only device after `k` ticks. -/
def fuelPendingAt (r0 : Reactor) (g : Nat → Option UraniumCell) (k : Int) : SimulationState :=
  fuelPending k (fuelHeatRate r0 g * k) (fuelEURate r0 g * k) (fuelHeatRate r0 g * k)

/-- The state of a fuel-only device in the loop of `runUntil` after `k >= 1` ticks: `k - 1`
ticks are committed. -/
def fuelRunState (r0 : Reactor) (g : Nat → Option UraniumCell) (k : Int) : Reactor :=
  fuelState r0 g (k - 1) (fun _ => k) (fuelPendingAt r0 g (k - 1)) (fuelPendingAt r0 g k)

/-- A fuel cell as `ReactorComponent::create` builds it: one of the three fuel kinds, not
destroyed, `maxUsage = 10000`, at least one internal cell, both usage counters zero. -/
def UraniumCell.IsFresh (u : UraniumCell) : Prop :=
  (u.type = ComponentType.URANIUM_CELL ∨ u.type = ComponentType.DUAL_URANIUM_CELL
      ∨ u.type = ComponentType.QUAD_URANIUM_CELL)
    ∧ u.pendingDestroyed = false ∧ u.lastDestroyed = false ∧ u.maxUsage = 10000
    ∧ 1 ≤ u.numCells ∧ u.lastUsage = 0 ∧ u.pendingUsage = 0

/-- A well-formed device whose non-empty cells are all fresh fuel cells, at least one:
the grid has `height * width` cells and the core capacity is the constructor's 10000. -/
def Reactor.IsFuelOnly (r : Reactor) : Prop :=
  0 ≤ r.width ∧ 0 ≤ r.height ∧ r.components.length = r.height.toNat * r.width.toNat
    ∧ r.maxHeat = 10000
    ∧ (∀ c, some c ∈ r.components → ∃ u, c = ReactorComponent.uraniumCell u ∧ u.IsFresh)
    ∧ ∃ c, some c ∈ r.components

/-- The kinds a fuel-only device is built from. -/
def IsFuelKind (t : ComponentType) : Prop :=
  t = ComponentType.COMPONENT_NONE ∨ t = ComponentType.URANIUM_CELL
    ∨ t = ComponentType.DUAL_URANIUM_CELL ∨ t = ComponentType.QUAD_URANIUM_CELL

/-- The device with `e` extra chambers that `setComponentTypes` builds from the kinds `ts`. -/
def deviceOf (e : Int) (ts : List ComponentType) : Reactor :=
  (Reactor.mk0 e).setComponentTypes ts

/-- The 3x6 device whose only component is one `URANIUM_CELL`, at `(0, 0)`. -/
def singleCellReactor : Reactor := deviceOf 0 [ComponentType.URANIUM_CELL]

/-- The pending destroyed flag of the component at index `i` (`false` when there is
none). -/
def Reactor.destroyedAt (r : Reactor) (i : Nat) : Bool :=
  match r.comp? i with
  | none => false
  | some c => c.isDestroyed

/-- The reactor `ventOnlyReactor` with destruction reporting suppressed. -/
def ventOnlyQuietReactor : Reactor := { ventOnlyReactor with ignoreComponentDestroyed := true }

/-- A kind with every value the factory does not recognise (the `default` case of `create`)
replaced by `COMPONENT_NONE`; of the values of the enumeration, only `COMPONENT_COUNT` is
not recognised. -/
def ComponentType.recognisedOrNone (t : ComponentType) : ComponentType :=
  if t = ComponentType.COMPONENT_COUNT then ComponentType.COMPONENT_NONE else t

/-- The component that `setComponentTypes(ts)` stores at list index `i` of a grid of width
`w`: the factory's component of kind `ts[i]` with coordinates `(i % w, i / w)`. -/
def cellOf (w : Nat) (ts : List ComponentType) (i : Nat) : Option ReactorComponent :=
  ReactorComponent.create (ts.getD i ComponentType.COMPONENT_NONE) ((i % w : Nat) : Int)
    ((i / w : Nat) : Int)

/-- The number of components present in the grid. -/
def Reactor.numPresent (r : Reactor) : Int := ((r.components.filter Option.isSome).length : Int)

/-- The 3x6 device whose only component is one `ADVANCED_HEAT_VENT`, at `(0, 0)`. -/
def advancedVentReactor : Reactor :=
  deviceOf 0 (ComponentType.ADVANCED_HEAT_VENT :: List.replicate 17 ComponentType.COMPONENT_NONE)

/-- A list of 18 kinds with an unrecognised one: a vent, the value `COMPONENT_COUNT`, a fuel
cell, and 15 empty cells. -/
def mixedKinds : List ComponentType :=
  ComponentType.HEAT_VENT :: ComponentType.COMPONENT_COUNT :: ComponentType.URANIUM_CELL
    :: List.replicate 15 ComponentType.COMPONENT_NONE

/-- The kinds of a 3x6 device with a `HEAT_VENT` at `(1, 1)` and a `QUAD_URANIUM_CELL` at
each of its four orthogonal neighbours. -/
def hotVentKinds : List ComponentType :=
  [ComponentType.COMPONENT_NONE, ComponentType.QUAD_URANIUM_CELL, ComponentType.COMPONENT_NONE,
   ComponentType.QUAD_URANIUM_CELL, ComponentType.HEAT_VENT, ComponentType.QUAD_URANIUM_CELL,
   ComponentType.COMPONENT_NONE, ComponentType.QUAD_URANIUM_CELL, ComponentType.COMPONENT_NONE]
    ++ List.replicate 9 ComponentType.COMPONENT_NONE

/-- The device built from `hotVentKinds`: its vent takes 384 heat per tick and fails in the
third tick. -/
def hotVentReactor : Reactor := deviceOf 0 hotVentKinds

/-- The state in which the first run of `hotVentReactor` stops. -/
def hotVentFailState : Reactor :=
  ((hotVentReactor.initializeSimulation.runUntil 50001 true true false true).map Prod.snd).getD
    hotVentReactor

/-- The state in which the first run of `singleCellReactor` stops. -/
def singleCellMeltState : Reactor :=
  fuelRunState singleCellReactor.initializeSimulation singleCellReactor.fuelAt
    (9999 / singleCellReactor.heatRate + 1)

/-- A state property that is kept by each elementary write of the component ticks other
than the plating's: a write of a heat `v >= 0` to a `Heatable` (with `v <= maxHeat` when
`maxHeat >= 0`), the call
`setDestroyed(true)` on a `Heatable` or a reflector, `setHeat`, `addHeat`, `generateEU`, a
write of a stored heat `v <= maxStoredHeat` to a condensator, and a write of the usage
counter of a fuel cell or a reflector. -/
structure TickClosed0 (P : Reactor → Prop) : Prop where
  heat : ∀ (r : Reactor) (i : Nat) (c : ReactorComponent) (hb : Heatable) (v : Int),
    P r → r.comp? i = some c → c.heatable? = some hb → 0 ≤ v →
    (0 ≤ hb.maxHeat → v ≤ hb.maxHeat) → P (r.setComp i (c.setPendingHeat v))
  destroy : ∀ (r : Reactor) (i : Nat) (c : ReactorComponent),
    P r → r.comp? i = some c →
    (c.heatable?.isSome = true ∨ ∃ n, c = ReactorComponent.neutronReflector n) →
    P (ReactorComponent.setDestroyed r i true)
  setHeat : ∀ (r : Reactor) (h : Int), P r → P (r.setHeat h)
  addHeat : ∀ (r : Reactor) (h : Int), P r → P (r.addHeat h)
  generateEU : ∀ (r : Reactor) (e : Int), P r → P (r.generateEU e)
  stored : ∀ (r : Reactor) (i : Nat) (k : Condensator) (v : Int),
    P r → r.comp? i = some (ReactorComponent.condensator k) → v ≤ k.maxStoredHeat →
    P (r.setComp i (ReactorComponent.condensator { k with pendingStoredHeat := v }))
  cellUsage : ∀ (r : Reactor) (i : Nat) (u : UraniumCell) (v : Int),
    P r → r.comp? i = some (ReactorComponent.uraniumCell u) →
    P (r.setComp i (ReactorComponent.uraniumCell { u with pendingUsage := v }))
  reflectorUsage : ∀ (r : Reactor) (i : Nat) (n : NeutronReflector) (v : Int),
    P r → r.comp? i = some (ReactorComponent.neutronReflector n) →
    P (r.setComp i (ReactorComponent.neutronReflector { n with pendingUsage := v }))

/-- A state property that is kept by every write of `runTick` and of the tick counter
increment that follows it: those of `TickClosed0`, the plating's addition to `maxHeat`,
the reset of `maxHeat`, the write of the pending total heat, and `curTick++`. -/
structure TickClosed (P : Reactor → Prop) extends TickClosed0 P : Prop where
  plating : ∀ (r : Reactor) (i : Nat) (p : ReactorPlating),
    P r → r.comp? i = some (ReactorComponent.reactorPlating p) →
    P { r with maxHeat := r.maxHeat + p.heatAddition }
  resetMax : ∀ (r : Reactor), P r → P { r with maxHeat := 10000 }
  totalHeat : ∀ (r : Reactor) (t : Int),
    P r → P { r with pendingSimState := { r.pendingSimState with totalHeat := t } }
  incTick : ∀ (r : Reactor), P r → P r.incTick

/-- No component of the grid has its pending destroyed flag set. -/
def Reactor.NoneDestroyed (r : Reactor) : Prop :=
  ∀ i c, r.comp? i = some c → c.isDestroyed = false

/-- Every destruction has been reported: unless the pending component-failure flag is set
(on a device that reports destructions), no component is destroyed. -/
def Reactor.FailureReported (r : Reactor) : Prop :=
  (r.ignoreComponentDestroyed = true ∨ r.pendingSimState.componentFailed = false) →
    r.NoneDestroyed

/-- Which cells of the grid hold a component. -/
def Reactor.present (r : Reactor) : List Bool := r.components.map Option.isSome

/-- The values of `getCyclesUntilFailure` that `runSimulation` compares after a rerun: the
one of the device core (heat of `a`, heat of `b`, max heat of `a`), followed by the one of
every component present in both `a` and `b` (its heat in `a`, its heat in `b`, its
capacity), in grid order. -/
def cyclesValues (a b : Reactor) : List Int :=
  getCyclesUntilFailure a.getHeat b.getHeat a.getMaxHeat ::
    (List.zip a.components b.components).filterMap fun p =>
      match p with
      | (some c, some c2) =>
        some (getCyclesUntilFailure c.getCurrentHeat c2.getCurrentHeat c.getMaxHeat)
      | _ => none

/-- The update of `minCyclesUntilFailure` by one value `cuf` in `runSimulation`. -/
def minCyclesStep (m cuf : Int) : Int :=
  if cuf ≠ -1 then (if m = -1 ∨ cuf < m then cuf else m) else m

/-- The amount a grid cell adds to `maxHeat` in the HEAT phase of a tick: the
`heatAddition` of a plating that is not destroyed, `0` for anything else. -/
def platingAdd : Option ReactorComponent → Int
  | some (.reactorPlating p) => if p.pendingDestroyed then 0 else p.heatAddition
  | _ => 0

/-- The sum of the heat additions of the platings of the grid that are not destroyed. -/
def Reactor.platingSum (r : Reactor) : Int := (r.components.map platingAdd).sum

/-- The constants and the heat of a component are in range: a `Heatable` has
`0 <= pendingHeat <= maxHeat`, and a plating has a non-negative `heatAddition`. -/
def ReactorComponent.InRange (c : ReactorComponent) : Prop :=
  (∀ hb, c.heatable? = some hb → 0 ≤ hb.pendingHeat ∧ hb.pendingHeat ≤ hb.maxHeat)
    ∧ (∀ p, c = ReactorComponent.reactorPlating p → 0 ≤ p.heatAddition)

/-- A well-formed device state: the grid has `height * width` cells and every component
is in range. -/
def Reactor.WellFormed (r : Reactor) : Prop :=
  0 ≤ r.width ∧ 0 ≤ r.height ∧ r.components.length = r.height.toNat * r.width.toNat
    ∧ ∀ c, some c ∈ r.components → c.InRange

/-- Unless the meltdown flag is set, the core heat is below the capacity that the platings
give the core. -/
def Reactor.CoreBounded (r : Reactor) : Prop :=
  r.pendingSimState.meltdown = false →
    r.pendingSimState.reactorHeat < 10000 + r.platingSum

/-- The capacity (`getMaxHeat`) of every cell of the grid, `0` for an empty cell. -/
def Reactor.capacities (r : Reactor) : List Int :=
  r.components.map fun o =>
    match o with
    | none => 0
    | some c => c.getMaxHeat

/-- The state inside the phases of a tick, relative to the list `L` of the plating
additions of the grid, the current value `m` of `maxHeat` and a bound `B` of it: the
platings are those of `L`, `maxHeat = m`, and the core heat is below `B` unless the
meltdown flag is set. -/
def Reactor.PhaseInv (L : List Int) (m B : Int) (r : Reactor) : Prop :=
  r.components.map platingAdd = L ∧ r.maxHeat = m
    ∧ (r.pendingSimState.meltdown = false → r.pendingSimState.reactorHeat < B)

/-- The kinds of a 3x6 device with one `URANIUM_CELL` at `(1, y)` and a `COOLANT_CELL_30`
on each of its four sides. -/
def coolCellTypes (y : Nat) : List ComponentType :=
  (List.range 18).map fun i =>
    if i = y * 3 + 1 then ComponentType.URANIUM_CELL
    else if i = (y - 1) * 3 + 1 ∨ i = y * 3 ∨ i = y * 3 + 2 ∨ i = (y + 1) * 3 + 1 then
      ComponentType.COOLANT_CELL_30
    else ComponentType.COMPONENT_NONE

/-- The 3x6 device (no extra chamber) built from `coolCellTypes y`. -/
def coolCellReactor (y : Nat) : Reactor := deviceOf 0 (coolCellTypes y)

/-- A `COOLANT_CELL_30` at `(x, y)` with the given committed and pending heat. -/
def coolAt (x y lastHeat pendingHeat : Int) : ReactorComponent :=
  .coolantCell
    { CoolantCell.mk0 ComponentType.COOLANT_CELL_30 x y 30000 with
      lastHeat := lastHeat, pendingHeat := pendingHeat }

/-- The reactor `coolCellReactor y` after `initializeSimulation`, in a state where the
coolant cells above, left, right and below of the fuel cell hold `a`, `l`, `r` and `b`
(all with committed heat `lh`) and the fuel cell has usage `u` (committed `lu`), with the
given committed and pending simulation states. -/
def coolState (y : Nat) (lh lu a l r b u : Int) (cur pend : SimulationState) : Reactor :=
  crossState y (coolAt 1 ((y : Int) - 1) lh a) (coolAt 0 y lh l) (cellAt 1 y lu u)
    (coolAt 2 y lh r) (coolAt 1 ((y : Int) + 1) lh b) cur pend

/-- The pending simulation state of the coolant device after tick `k` of a run that began
with heat `h0` in each coolant cell: `5 * k` EU generated, total heat `4 * (h0 + k)`, core
heat 0. -/
def coolPending (h0 k : Int) : SimulationState :=
  { curTick := k, meltdown := false, componentFailed := false, euGenerated := 5 * k,
    totalHeat := 4 * (h0 + k), reactorHeat := 0 }

/-- The state in which a run of the coolant device that began with heat `h0` in each
coolant cell stops: pending tick 10000, committed tick 9999. -/
def coolStop (y : Nat) (h0 : Int) : Reactor :=
  coolState y (h0 + 9999) 9999 (h0 + 10000) (h0 + 10000) (h0 + 10000) (h0 + 10000) 10000
    (coolPending h0 9999) (coolPending h0 10000)

/-- The results `runSimulation` returns for the coolant device with the fuel cell at
`(1, 1)`. -/
def coolResults : SimulationResults :=
  ((runSimulation 50001 (coolCellReactor 1)).map Prod.fst).getD {}

/-- The six entry conditions of `runUntil` in the words and the order of the specification,
each with the stop reason it gives: a monitored meltdown flag, a monitored
component-failure flag, monitored fuel with pending tick count `>= 10000`, monitored
cooldown with pending total heat `<= 0`, monitored cooldown with pending total heat
`< 100` and equal to the committed total heat, and a pending tick count `>= 50000`. -/
def entryConditions
    (stopOnMeltdown stopOnFuelUsed stopOnCooledDown stopOnComponentFailed : Bool)
    (r : Reactor) : List (Bool × RunUntilStopReason) :=
  [(stopOnMeltdown && r.pendingSimState.meltdown, RunUntilStopReason.STOPPED_ON_MELTDOWN),
   (stopOnComponentFailed && r.pendingSimState.componentFailed,
      RunUntilStopReason.STOPPED_ON_COMPONENT_FAILED),
   (stopOnFuelUsed && decide (r.pendingSimState.curTick ≥ 10000),
      RunUntilStopReason.STOPPED_ON_FUEL_USED),
   (stopOnCooledDown && decide (r.pendingSimState.totalHeat ≤ 0),
      RunUntilStopReason.STOPPED_ON_COOLED_DOWN),
   (stopOnCooledDown && (decide (r.pendingSimState.totalHeat < 100)
        && decide (r.pendingSimState.totalHeat = r.curSimState.totalHeat)),
      RunUntilStopReason.STOPPED_ON_COOLED_DOWN),
   (decide (r.pendingSimState.curTick ≥ 50000), RunUntilStopReason.STOPPED_ON_MAX_TICKS)]

/-- The stop reason of the first condition of the list that holds, if one does. -/
def firstHolding (l : List (Bool × RunUntilStopReason)) : Option RunUntilStopReason :=
  (l.find? fun p => p.1).map Prod.snd

/-- The loop of `runUntil` (`Reactor.runUntilLoop`) with one ghost variable: `ticks` counts
the calls of `runTick` executed so far.  It is the third component of the result. -/
def Reactor.runUntilCounted
    (stopOnMeltdown stopOnFuelUsed stopOnCooledDown stopOnComponentFailed : Bool) :
    Nat → Reactor → Bool → Int → Nat → Option (RunUntilStopReason × Reactor × Nat)
  | 0, _, _, _, _ => none
  | n + 1, r, firstIteration, lastTotalHeat, ticks =>
    match Reactor.stopCheck stopOnMeltdown stopOnFuelUsed stopOnCooledDown stopOnComponentFailed
        r with
    | some reason => some (reason, r, ticks)
    | none =>
      match Reactor.noHeatLossCheck stopOnCooledDown r lastTotalHeat with
      | none => some (RunUntilStopReason.STOPPED_ON_MAX_TICKS, r, ticks)
      | some lastTotalHeat1 =>
        let r := if firstIteration then r else r.commit
        Reactor.runUntilCounted stopOnMeltdown stopOnFuelUsed stopOnCooledDown
          stopOnComponentFailed n r.runTick.incTick false lastTotalHeat1 (ticks + 1)

/-- The cooldown probe that `runSimulation` builds for the coolant device after its first
run stopped on FUEL_USED: a copy of the committed state with the fuel removed and
destruction reporting suppressed.  Its committed tick count is 10000. -/
def coolProbe : Reactor :=
  { (coolStop 1 0).commit.copy.removeFuel with ignoreComponentDestroyed := true }

/-- The sum of `getCurrentHeat` over every component present in the grid, destroyed or
not. -/
def Reactor.componentHeat (r : Reactor) : Int :=
  (r.components.map fun o =>
    match o with
    | none => 0
    | some c => c.getCurrentHeat).sum

/-- The sum of `getCurrentHeat` over every live component of the grid: every present
component whose destroyed flag is not set. -/
def Reactor.liveComponentHeat (r : Reactor) : Int :=
  (r.components.map fun o =>
    match o with
    | none => 0
    | some c => if c.isDestroyed then 0 else c.getCurrentHeat).sum

/-- The device `hotVentReactor` after `initializeSimulation` and two committed ticks: its
vent holds 756 of 1000. -/
def hotVentSecondTick : Reactor :=
  hotVentReactor.initializeSimulation.tickOnce.commit.tickOnce.commit

/-- The invariant of the component container: the grid has `height * width` cells (the
constructor builds it so, and nothing resizes it). -/
def Reactor.GridShaped (r : Reactor) : Prop :=
  0 ≤ r.width ∧ 0 ≤ r.height ∧ r.components.length = r.height.toNat * r.width.toNat

/-- The state inside the phases of a tick, relative to the list `L` of the plating
additions of the grid and the current value `m` of `maxHeat`. -/
def Reactor.MaxInv (L : List Int) (m : Int) (r : Reactor) : Prop :=
  r.components.map platingAdd = L ∧ r.maxHeat = m

/-- The 3x6 device with a `REACTOR_PLATING` at `(0, 0)`, a `HEAT_CAPACITY_REACTOR_PLATING`
at `(1, 0)` and a `URANIUM_CELL` at `(2, 0)`. -/
def platedReactor : Reactor :=
  deviceOf 0 [ComponentType.REACTOR_PLATING, ComponentType.HEAT_CAPACITY_REACTOR_PLATING,
    ComponentType.URANIUM_CELL]

/-- The 3x6 device with an `OVERCLOCKED_HEAT_VENT` (core draw 36, dissipation 20, capacity
1000) at `(0, 0)` and a `QUAD_URANIUM_CELL` at `(2, 0)`, which are not neighbours: the cell
heats the core by 96 per tick and the vent draws 36 of it. -/
def drainReactor : Reactor :=
  deviceOf 0 [ComponentType.OVERCLOCKED_HEAT_VENT, ComponentType.COMPONENT_NONE,
    ComponentType.QUAD_URANIUM_CELL]

/-- The device `drainReactor` after `initializeSimulation` and 62 committed ticks: the core
heat is 3756 and the vent holds 976 of 1000. -/
def drainState : Reactor :=
  (fun r : Reactor => r.tickOnce.commit)^[62] drainReactor.initializeSimulation

/-- The triangular number `T(p) = p (p + 1) / 2` of the specification. -/
def triangular (p : Int) : Int := p * (p + 1) / 2

/-- No live component is an orthogonal neighbour of `(x, y)`: the four neighbour lookups
return the null pointer. -/
def Reactor.NoLiveNeighbour (r : Reactor) (x y : Int) : Prop :=
  r.left x y = none ∧ r.right x y = none ∧ r.above x y = none ∧ r.below x y = none

/-- The usage counter of the fuel cell at index `i` (`0` when there is none). -/
def Reactor.usageAt (r : Reactor) (i : Nat) : Int :=
  match r.fuelAt i with
  | some u => u.pendingUsage
  | none => 0

/-- One full tick of the component at index `i`: its `tick(PHASE_HEAT_RUN)` followed by its
`tick(PHASE_POWER)`. -/
def ReactorComponent.fullTick (r : Reactor) (i : Nat) : Reactor :=
  ReactorComponent.tick (ReactorComponent.tick r i SimPhase.PHASE_HEAT_RUN) i
    SimPhase.PHASE_POWER

/-- The device `singleCellReactor` (one `URANIUM_CELL`, at `(0, 0)`) after
`initializeSimulation`, with the usage counter of the cell at 10000, as it is after 10000
ticks. -/
def spentCellState : Reactor :=
  singleCellReactor.initializeSimulation.setComp 0
    (.uraniumCell
      { UraniumCell.mk0 ComponentType.URANIUM_CELL 0 0 1 with
        lastUsage := 10000, pendingUsage := 10000 })

/-- The heat store of a component is in range for a transfer: a `Heatable` holds a
non-negative heat, and a condensator holds at most its capacity. -/
def ReactorComponent.StoreBounded (c : ReactorComponent) : Prop :=
  (∀ hb, c.heatable? = some hb → 0 ≤ hb.pendingHeat)
    ∧ (∀ k, c = ReactorComponent.condensator k → k.pendingStoredHeat ≤ k.maxStoredHeat)

/-- Every component of the grid has its heat store in range (`StoreBounded`). -/
def Reactor.StoresBounded (r : Reactor) : Prop :=
  ∀ j c, r.comp? j = some c → c.StoreBounded

/-- What C27 says of a step `r -> r1` made by the exchanger `e` stored at index `i`: the
heat store of every other component moves by at most `transferToAdjacent` (and not at all
when that rate is not positive), and the core heat moves by at most `transferToCore` (and
not at all when that rate is not positive). -/
def HeatExchanger.TransferBounded (e : HeatExchanger) (i : Nat) (r r1 : Reactor) : Prop :=
  (∀ k, k ≠ i →
      (0 < e.transferToAdjacent →
        |r1.storedHeatAt k - r.storedHeatAt k| ≤ e.transferToAdjacent)
      ∧ (e.transferToAdjacent ≤ 0 → r1.storedHeatAt k = r.storedHeatAt k))
    ∧ (0 < e.transferToCore → |r1.getHeat - r.getHeat| ≤ e.transferToCore)
    ∧ (e.transferToCore ≤ 0 → r1.getHeat = r.getHeat)

/-- The 3x6 device with a `HEAT_EXCHANGER` (rates 12 and 4, capacity 2500) at `(1, 1)`, a
`COOLANT_CELL_10` above it and a `HEAT_VENT` left of it, after `initializeSimulation`,
with a core heat of 5000. -/
def exchangerState : Reactor :=
  (deviceOf 0 [ComponentType.COMPONENT_NONE, ComponentType.COOLANT_CELL_10,
    ComponentType.COMPONENT_NONE, ComponentType.HEAT_VENT,
    ComponentType.HEAT_EXCHANGER]).initializeSimulation.setHeat 5000

/-- The 5x6 device (two extra chambers) with a `QUAD_URANIUM_CELL` in each of its 30
cells: the cells put 11040 heat into the core per tick. -/
def quadGridReactor : Reactor :=
  deviceOf 2 (List.replicate 30 ComponentType.QUAD_URANIUM_CELL)

/-- The kinds of a 3x6 device with one `DUAL_URANIUM_CELL` at `(1, y)`, a
`NEUTRON_REFLECTOR` above it and a `CONDENSATOR_LZH` on each of its three other sides. -/
def reflCellTypes (y : Nat) : List ComponentType :=
  (List.range 18).map fun i =>
    if i = y * 3 + 1 then ComponentType.DUAL_URANIUM_CELL
    else if i = (y - 1) * 3 + 1 then ComponentType.NEUTRON_REFLECTOR
    else if i = y * 3 ∨ i = y * 3 + 2 ∨ i = (y + 1) * 3 + 1 then ComponentType.CONDENSATOR_LZH
    else ComponentType.COMPONENT_NONE

/-- The 3x6 device (no extra chamber) built from `reflCellTypes y`. -/
def reflCellReactor (y : Nat) : Reactor := deviceOf 0 (reflCellTypes y)

/-- A `NEUTRON_REFLECTOR` at `(x, y)` with the given committed and pending usage. -/
def reflAt (x y lastUsage pendingUsage : Int) : ReactorComponent :=
  .neutronReflector
    { NeutronReflector.mk0 ComponentType.NEUTRON_REFLECTOR x y 10000 with
      lastUsage := lastUsage, pendingUsage := pendingUsage }

/-- A `CONDENSATOR_LZH` at `(x, y)` with the given committed and pending stored heat. -/
def condAt (x y lastStoredHeat pendingStoredHeat : Int) : ReactorComponent :=
  .condensator
    { Condensator.mk0 ComponentType.CONDENSATOR_LZH x y 100000 with
      lastStoredHeat := lastStoredHeat, pendingStoredHeat := pendingStoredHeat }

/-- A `DUAL_URANIUM_CELL` at `(x, y)` with the given committed and pending usage. -/
def dualAt (x y lastUsage pendingUsage : Int) : ReactorComponent :=
  .uraniumCell
    { UraniumCell.mk0 ComponentType.DUAL_URANIUM_CELL x y 2 with
      lastUsage := lastUsage, pendingUsage := pendingUsage }

/-- The reactor `reflCellReactor y` after `initializeSimulation`, in a state where the
reflector has usage `q` (committed `lq`), the condensators left, right and below of the
cell hold `l`, `r` and `b` (all with committed stored heat `ls`) and the fuel cell has usage
`u` (committed `lu`), with the given committed and pending simulation states. -/
def reflState (y : Nat) (lq lu ls q l r b u : Int) (cur pend : SimulationState) : Reactor :=
  { crossState y (reflAt 1 ((y : Int) - 1) lq q) (condAt 0 y ls l) (dualAt 1 y lu u)
      (condAt 2 y ls r) (condAt 1 ((y : Int) + 1) ls b) cur pend with
    usesSingleUseCoolant := true
    numUraniumCells := 2 }

/-- The pending simulation state of the reflector device after tick `k`: `30 * k` EU
generated, no heat anywhere that counts. -/
def reflPending (k : Int) : SimulationState :=
  { curTick := k, meltdown := false, componentFailed := false, euGenerated := 30 * k,
    totalHeat := 0, reactorHeat := 0 }

/-- The state of the reflector device in the loop of `runUntil` after `k >= 1` ticks
(`k - 1` of them committed): the reflector has taken `2 * k` pulses and each condensator
holds `16 * k`. -/
def reflRun (y : Nat) (k : Int) : Reactor :=
  reflState y (2 * (k - 1)) (k - 1) (16 * (k - 1)) (2 * k) (16 * k) (16 * k) (16 * k) k
    (reflPending (k - 1)) (reflPending k)

/-- The state in which the first run of the reflector device with the cell at `(1, 1)`
stops: tick 5001, in which the reflector takes its pulse number 10001 and is destroyed,
is pending, and 5000 ticks are committed. -/
def reflFail : Reactor := (reflRun 1 5000).commit.runTick.incTick

/-- The heat-store invariant of a component: a `Heatable` (vent, exchanger, coolant cell)
has its pending heat and its committed heat between `0` and `maxHeat`. -/
def ReactorComponent.HeatStoreInv (c : ReactorComponent) : Prop :=
  ∀ hb, c.heatable? = some hb →
    0 ≤ hb.pendingHeat ∧ hb.pendingHeat ≤ hb.maxHeat
      ∧ 0 ≤ hb.lastHeat ∧ hb.lastHeat ≤ hb.maxHeat

/-- Every component of the grid satisfies the heat-store invariant. -/
def Reactor.HeatStoreInv (r : Reactor) : Prop :=
  ∀ c, some c ∈ r.components → c.HeatStoreInv

/-- The device states reachable from a freshly constructed device (the constructor followed
by `setComponentTypes`) by `runTick`, `commit` and `rollback`. -/
inductive Reactor.Reachable : Reactor → Prop
  | fresh (e : Int) (ts : List ComponentType) : Reactor.Reachable (deviceOf e ts)
  | runTick (r : Reactor) : Reactor.Reachable r → Reactor.Reachable r.runTick
  | commit (r : Reactor) : Reactor.Reachable r → Reactor.Reachable r.commit
  | rollback (r : Reactor) : Reactor.Reachable r → Reactor.Reachable r.rollback

/-- Every component of the grid is an object that the factory builds. -/
def Reactor.AllCreated (r : Reactor) : Prop :=
  ∀ c, some c ∈ r.components → ∃ t x y, ReactorComponent.create t x y = some c

/-- The 3x6 device with a `URANIUM_CELL` at `(0, 0)` and a `COOLANT_CELL_10` at `(1, 0)`. -/
def cellCoolantReactor : Reactor :=
  deviceOf 0 [ComponentType.URANIUM_CELL, ComponentType.COOLANT_CELL_10]

/-- The state of `cellCoolantReactor` after a tick, a commit and a second tick. -/
def heatProbe : Reactor := cellCoolantReactor.runTick.commit.runTick

/-- The 3x6 device with a `COMPONENT_HEAT_VENT` at `(0, 0)`, a `CONDENSATOR_RSH` at `(1, 0)`
and a `URANIUM_CELL` at `(2, 1)`. -/
def ventedCondensatorReactor : Reactor :=
  deviceOf 0 [ComponentType.COMPONENT_HEAT_VENT, ComponentType.CONDENSATOR_RSH,
    ComponentType.COMPONENT_NONE, ComponentType.COMPONENT_NONE, ComponentType.COMPONENT_NONE,
    ComponentType.URANIUM_CELL]

/-- The coolant cell of `heatProbe`: committed heat 4, pending heat 8. -/
def heatProbeCell : CoolantCell :=
  { CoolantCell.mk0 ComponentType.COOLANT_CELL_10 1 0 10000 with
    lastHeat := 4, pendingHeat := 8 }

/-- The `HEAT_VENT` that the factory builds at `(0, 0)`. -/
def freshVent : HeatVent := HeatVent.mk0 ComponentType.HEAT_VENT 0 0 6 0 1000

/-- A `CONDENSATOR_RSH` at `(1, 0)` with the given committed and pending stored heat. -/
def rshAt (lastStoredHeat pendingStoredHeat : Int) : Condensator :=
  { Condensator.mk0 ComponentType.CONDENSATOR_RSH 1 0 20000 with
    lastStoredHeat := lastStoredHeat, pendingStoredHeat := pendingStoredHeat }

/-! # Properties -/

/-! ## `alterHeat` -/

theorem comp?_eq_some_iff {r : Reactor} {i : Nat} {c : ReactorComponent} :
    r.comp? i = some c ↔ r.components[i]? = some (some c) := by
  unfold Reactor.comp?
  cases r.components[i]? <;> simp

theorem comp?_lt_length {r : Reactor} {i : Nat} {c : ReactorComponent}
    (h : r.comp? i = some c) : i < r.components.length := by
  rw [comp?_eq_some_iff] at h
  by_contra hlt
  rw [List.getElem?_eq_none (by omega)] at h
  simp at h

theorem comp?_setComp (r : Reactor) (i j : Nat) (c : ReactorComponent) :
    (r.setComp i c).comp? j
      = if i = j ∧ i < r.components.length then some c else r.comp? j := by
  unfold Reactor.comp? Reactor.setComp
  simp only [List.getElem?_set]
  by_cases h : i = j
  · subst h
    by_cases h2 : i < r.components.length
    · simp [h2]
    · simp [h2, List.getElem?_eq_none (not_lt.mp h2)]
  · simp [h]

theorem comp?_componentDestroyed (r : Reactor) (x y : Int) (j : Nat) :
    (r.componentDestroyed x y).comp? j = r.comp? j := by
  unfold Reactor.componentDestroyed Reactor.comp?
  split_ifs <;> rfl

theorem storedHeat_setPendingDestroyed (c : ReactorComponent) (d : Bool) :
    (c.setPendingDestroyed d).storedHeat = c.storedHeat := by
  cases c <;> rfl

theorem storedHeatAt_setDestroyed (r : Reactor) (i : Nat) (d : Bool) :
    (ReactorComponent.setDestroyed r i d).storedHeatAt i = r.storedHeatAt i := by
  unfold ReactorComponent.setDestroyed
  cases hc : r.comp? i with
  | none => simp
  | some c =>
    have hlt := comp?_lt_length hc
    simp only []
    split_ifs <;>
      simp [Reactor.storedHeatAt, comp?_componentDestroyed, comp?_setComp, hlt, hc,
        storedHeat_setPendingDestroyed]

theorem storedHeatAt_eq {r : Reactor} {i : Nat} {c : ReactorComponent} (hc : r.comp? i = some c) :
    r.storedHeatAt i = c.storedHeat := by
  simp [Reactor.storedHeatAt, hc]

/-- Conservation for `Heatable::alterHeat` below the capacity. -/
theorem Heatable.alterHeat_conserves (r : Reactor) (i : Nat) (c : ReactorComponent) (hb : Heatable)
    (delta : Int) (hc : r.comp? i = some c) (hh : c.heatable? = some hb)
    (hle : hb.pendingHeat + delta ≤ hb.maxHeat) :
    delta = ((Heatable.alterHeat r i hb delta).1.storedHeatAt i - r.storedHeatAt i)
      + (Heatable.alterHeat r i hb delta).2 := by
  have hlt := comp?_lt_length hc
  have hs : c.storedHeat = hb.pendingHeat := by
    cases c <;> simp [ReactorComponent.heatable?] at hh <;> subst hh <;> rfl
  have hset : ∀ v, (c.setPendingHeat v).storedHeat = v := by
    intro v
    cases c <;> simp [ReactorComponent.heatable?] at hh <;> rfl
  unfold Heatable.alterHeat
  simp only [hc, gt_iff_lt, not_lt.mpr hle, if_false]
  split_ifs with hneg
  · simp only [Reactor.storedHeatAt, comp?_setComp, hlt, true_and, if_true, hc, hset, hs]
    omega
  · simp only [Reactor.storedHeatAt, comp?_setComp, hlt, true_and, if_true, hc, hset, hs]
    omega

/-- The overflow branch of `Heatable::alterHeat`. -/
theorem Heatable.alterHeat_overflow (r : Reactor) (i : Nat) (c : ReactorComponent) (hb : Heatable)
    (delta : Int) (hc : r.comp? i = some c) (hh : c.heatable? = some hb)
    (hgt : hb.pendingHeat + delta > hb.maxHeat) :
    (Heatable.alterHeat r i hb delta).1.storedHeatAt i = hb.pendingHeat
      ∧ (Heatable.alterHeat r i hb delta).2 = hb.maxHeat - (hb.pendingHeat + delta) + 1 := by
  have hs : c.storedHeat = hb.pendingHeat := by
    cases c <;> simp [ReactorComponent.heatable?] at hh <;> subst hh <;> rfl
  unfold Heatable.alterHeat
  simp only [hgt, if_true, storedHeatAt_setDestroyed, storedHeatAt_eq hc, hs, and_self]

theorem alterHeat_of_heatable (r : Reactor) (i : Nat) (c : ReactorComponent) (hb : Heatable)
    (delta : Int) (hc : r.comp? i = some c) (hh : c.heatable? = some hb) :
    ReactorComponent.alterHeat r i delta = Heatable.alterHeat r i hb delta := by
  unfold ReactorComponent.alterHeat
  cases c <;> simp [ReactorComponent.heatable?] at hh <;> subst hh <;> simp [hc]

/-- C1 (as stated) fails: a `HEAT_VENT` with stored heat 0 and capacity 1000 that is asked
to take 1001 keeps its store at 0 and returns `1000 - 1001 + 1 = 0`, so
`applied + residual = 0`, not 1001. -/
theorem alterHeat_not_conserving_on_overflow : ¬ AlterHeatConserves ventOnlyReactor 0 1001 := by
  unfold AlterHeatConserves
  decide

/-- C1 (amended): `alterHeat(delta)` satisfies `delta = applied + residual` for every
component that has no `Heatable` store and for every `Heatable` whose new heat
`h + delta` does not exceed its capacity `c`; when `h + delta > c` the store is left at `h`
and the call returns `c - (h + delta) + 1`. -/
theorem alterHeat_conserves_unless_overflow (r : Reactor) (i : Nat) (delta : Int) :
    ((∀ h c, IsHeatableAt r i h c → h + delta ≤ c) → AlterHeatConserves r i delta)
    ∧ (∀ h c, IsHeatableAt r i h c → h + delta > c →
        (ReactorComponent.alterHeat r i delta).1.storedHeatAt i = h
        ∧ (ReactorComponent.alterHeat r i delta).2 = c - (h + delta) + 1) := by
  constructor
  · intro hle
    unfold AlterHeatConserves
    cases hc : r.comp? i with
    | none => simp [ReactorComponent.alterHeat, hc]
    | some c =>
      cases hh : c.heatable? with
      | some hb =>
        rw [alterHeat_of_heatable r i c hb delta hc hh]
        exact Heatable.alterHeat_conserves r i c hb delta hc hh
          (hle _ _ ⟨c, hb, hc, hh, rfl, rfl⟩)
      | none =>
        have hlt := comp?_lt_length hc
        cases c <;> simp [ReactorComponent.heatable?] at hh <;>
          simp [ReactorComponent.alterHeat, hc, Condensator.alterHeat, Reactor.storedHeatAt,
            comp?_setComp, hlt, ReactorComponent.storedHeat]
  · rintro h c ⟨comp, hb, hc, hh, rfl, rfl⟩ hgt
    rw [alterHeat_of_heatable r i comp hb delta hc hh]
    exact Heatable.alterHeat_overflow r i comp hb delta hc hh hgt

/-! ## `getCyclesUntilFailure` -/

theorem tdiv_bounds_of_nonneg {a d : Int} (ha : 0 ≤ a) (hd : 0 < d) :
    a.tdiv d * d ≤ a ∧ a < (a.tdiv d + 1) * d := by
  rw [Int.tdiv_eq_ediv ha hd.le]
  exact ⟨Int.ediv_mul_le a hd.ne', Int.lt_ediv_add_one_mul_self a hd⟩

theorem tdiv_bounds_of_nonpos {a d : Int} (ha : a ≤ 0) (hd : 0 < d) :
    (a.tdiv d - 1) * d < a ∧ a ≤ a.tdiv d * d := by
  have h := tdiv_bounds_of_nonneg (a := -a) (by omega) hd
  rw [Int.neg_tdiv] at h
  obtain ⟨h1, h2⟩ := h
  constructor <;> nlinarith

theorem getCyclesUntilFailure_neg_one_of (h1 h2 cap : Int) (h : h2 ≤ h1 ∨ cap ≤ 0) :
    getCyclesUntilFailure h1 h2 cap = -1 := by
  unfold getCyclesUntilFailure
  rcases h with h | h
  · by_cases hc : cap ≤ 0
    · simp [hc]
    · simp [hc]; intro; omega
  · simp [h]

/-- C2: `getCyclesUntilFailure(h1, h2, cap)` is `-1` whenever `h2 <= h1` or `cap <= 0`. -/
theorem getCyclesUntilFailure_eq_neg_one (h1 h2 cap : Int) (h : h2 ≤ h1 ∨ cap ≤ 0) :
    getCyclesUntilFailure h1 h2 cap = -1 :=
  getCyclesUntilFailure_neg_one_of h1 h2 cap h

theorem getCyclesUntilFailure_eq_neg_one_witness :
    ((3 : Int) ≤ 5 ∨ (10 : Int) ≤ 0) ∧ getCyclesUntilFailure 5 3 10 = -1 :=
  ⟨by decide, getCyclesUntilFailure_eq_neg_one 5 3 10 (by decide)⟩

theorem getCyclesUntilFailure_of_pos {h1 h2 cap : Int} (hh : h2 > h1) (hc : cap > 0) :
    getCyclesUntilFailure h1 h2 cap = (cap - h1 - 1).tdiv (h2 - h1) + 1 := by
  unfold getCyclesUntilFailure
  rw [if_neg (by omega)]
  simp only []
  rw [if_neg (by omega)]

/-- C3 (as stated) fails: with `h1 = 10`, `h2 = 11`, `cap = 5` the function returns `-5`,
which is not the smallest `n >= 1` with `10 + n * 1 > 4` (that is `1`). -/
theorem getCyclesUntilFailure_not_least :
    ¬ IsLeast {n : Int | 1 ≤ n ∧ 10 + n * (11 - 10) > 5 - 1} (getCyclesUntilFailure 10 11 5) := by
  intro h
  have h1 : (1 : Int) ≤ getCyclesUntilFailure 10 11 5 := h.1.1
  revert h1
  decide

/-- For `h2 > h1` and `cap > 0`, `getCyclesUntilFailure(h1, h2, cap)` is the smallest
integer `n >= 1` with `h1 + n * (h2 - h1) > cap - 1` exactly when
`h1 - (cap - 1) < h2 - h1`, in particular whenever `h1 < cap`. -/
theorem getCyclesUntilFailure_isLeast_cases (h1 h2 cap : Int) (hh : h2 > h1) (hc : cap > 0) :
    (IsLeast {n : Int | 1 ≤ n ∧ h1 + n * (h2 - h1) > cap - 1} (getCyclesUntilFailure h1 h2 cap)
      ↔ h1 - (cap - 1) < h2 - h1)
    ∧ (h1 < cap →
      IsLeast {n : Int | 1 ≤ n ∧ h1 + n * (h2 - h1) > cap - 1}
        (getCyclesUntilFailure h1 h2 cap)) := by
  have hd : 0 < h2 - h1 := by omega
  rw [getCyclesUntilFailure_of_pos hh hc]
  have key : h1 - (cap - 1) < h2 - h1 →
      IsLeast {n : Int | 1 ≤ n ∧ h1 + n * (h2 - h1) > cap - 1}
        ((cap - h1 - 1).tdiv (h2 - h1) + 1) := by
    intro hlt
    rcases le_total 0 (cap - h1 - 1) with hN | hN
    · obtain ⟨b1, b2⟩ := tdiv_bounds_of_nonneg hN hd
      have hq : 0 ≤ (cap - h1 - 1).tdiv (h2 - h1) := Int.tdiv_nonneg hN hd.le
      refine ⟨⟨by omega, by linarith⟩, ?_⟩
      rintro n ⟨hn1, hn2⟩
      by_contra hcon
      have : n ≤ (cap - h1 - 1).tdiv (h2 - h1) := by omega
      have : n * (h2 - h1) ≤ (cap - h1 - 1).tdiv (h2 - h1) * (h2 - h1) :=
        Int.mul_le_mul_of_nonneg_right this hd.le
      linarith
    · obtain ⟨b1, b2⟩ := tdiv_bounds_of_nonpos hN hd
      have hq : (cap - h1 - 1).tdiv (h2 - h1) = 0 := by
        have hle : (cap - h1 - 1).tdiv (h2 - h1) ≤ 0 := by
          by_contra hpos
          have : 1 ≤ (cap - h1 - 1).tdiv (h2 - h1) := by omega
          have := Int.mul_le_mul_of_nonneg_right this hd.le
          linarith
        have hge : -1 < (cap - h1 - 1).tdiv (h2 - h1) := by
          by_contra hneg
          have : (cap - h1 - 1).tdiv (h2 - h1) ≤ -1 := by omega
          have := Int.mul_le_mul_of_nonneg_right this hd.le
          linarith
        omega
      rw [hq]
      refine ⟨⟨by omega, by linarith⟩, ?_⟩
      rintro n ⟨hn1, _⟩
      linarith
  refine ⟨⟨?_, key⟩, fun h => key (by omega)⟩
  intro hleast
  by_contra hge
  have hN : cap - h1 - 1 ≤ 0 := by omega
  obtain ⟨b1, b2⟩ := tdiv_bounds_of_nonpos hN hd
  have hmem : 1 ≤ (cap - h1 - 1).tdiv (h2 - h1) + 1 := hleast.1.1
  have h0 : 0 ≤ (cap - h1 - 1).tdiv (h2 - h1) := by omega
  have : (cap - h1 - 1).tdiv (h2 - h1) ≤ -1 := by
    by_contra hcon
    have hz : (cap - h1 - 1).tdiv (h2 - h1) = 0 := by
      have hle : (cap - h1 - 1).tdiv (h2 - h1) ≤ 0 := by
        by_contra hpos
        have : 1 ≤ (cap - h1 - 1).tdiv (h2 - h1) := by omega
        have := Int.mul_le_mul_of_nonneg_right this hd.le
        linarith
      omega
    rw [hz] at b1
    linarith
  omega

/-- When the first-run heat is at least `cap - 1` plus one heat step, the truncated quotient
is negative and `getCyclesUntilFailure` returns a value `<= 0`. -/
theorem getCyclesUntilFailure_nonpos {h1 h2 cap : Int} (hh : h2 > h1) (hc : cap > 0)
    (hge : h2 - h1 ≤ h1 - (cap - 1)) : getCyclesUntilFailure h1 h2 cap ≤ 0 := by
  have hd : 0 < h2 - h1 := by omega
  rw [getCyclesUntilFailure_of_pos hh hc]
  have hN : cap - h1 - 1 ≤ 0 := by omega
  obtain ⟨b1, b2⟩ := tdiv_bounds_of_nonpos hN hd
  have : (cap - h1 - 1).tdiv (h2 - h1) ≤ -1 := by
    by_contra hcon
    have h0 : 0 ≤ (cap - h1 - 1).tdiv (h2 - h1) := by omega
    have := Int.mul_le_mul_of_nonneg_right h0 hd.le
    linarith
  omega

/-- C3 (amended): for `h2 > h1` and `cap > 0`, `getCyclesUntilFailure(h1, h2, cap)` is the
smallest integer `n >= 1` with `h1 + n * (h2 - h1) > cap - 1` exactly when
`h1 - (cap - 1) < h2 - h1`, in particular whenever `h1 < cap`; otherwise (when
`h1 - (cap - 1) >= h2 - h1`) it returns a value `<= 0`. -/
theorem getCyclesUntilFailure_isLeast_iff (h1 h2 cap : Int) (hh : h2 > h1) (hc : cap > 0) :
    (IsLeast {n : Int | 1 ≤ n ∧ h1 + n * (h2 - h1) > cap - 1} (getCyclesUntilFailure h1 h2 cap)
      ↔ h1 - (cap - 1) < h2 - h1)
    ∧ (h1 < cap →
      IsLeast {n : Int | 1 ≤ n ∧ h1 + n * (h2 - h1) > cap - 1}
        (getCyclesUntilFailure h1 h2 cap))
    ∧ (¬ h1 - (cap - 1) < h2 - h1 → getCyclesUntilFailure h1 h2 cap ≤ 0) :=
  ⟨(getCyclesUntilFailure_isLeast_cases h1 h2 cap hh hc).1,
    (getCyclesUntilFailure_isLeast_cases h1 h2 cap hh hc).2,
    fun hge => getCyclesUntilFailure_nonpos hh hc (by omega)⟩

theorem getCyclesUntilFailure_isLeast_iff_witness :
    ((11 : Int) > 10 ∧ (100 : Int) > 0
      ∧ IsLeast {n : Int | 1 ≤ n ∧ 10 + n * (11 - 10) > 100 - 1}
          (getCyclesUntilFailure 10 11 100))
    ∧ ((11 : Int) > 10 ∧ (5 : Int) > 0 ∧ ¬ (10 : Int) - (5 - 1) < 11 - 10
      ∧ getCyclesUntilFailure 10 11 5 ≤ 0) :=
  ⟨⟨by decide, by decide,
      (getCyclesUntilFailure_isLeast_iff 10 11 100 (by decide) (by decide)).2.1 (by decide)⟩,
    by decide, by decide, by decide,
    (getCyclesUntilFailure_isLeast_iff 10 11 5 (by decide) (by decide)).2.2 (by decide)⟩

/-- C4 (as stated) fails: with `h1 = 0`, `h2 = 2`, `capacity = 4` the function returns
`3 / 2 + 1 = 2` (integer division), while `ceil(3 / 2) + 1 = 3`. -/
theorem getCyclesUntilFailure_ne_ceil :
    getCyclesUntilFailure 0 2 4 ≠ ⌈(((4 - 0 - 1 : Int) : ℚ) / ((2 - 0 : Int) : ℚ))⌉ + 1 := by
  have h : ⌈(((4 - 0 - 1 : Int) : ℚ) / ((2 - 0 : Int) : ℚ))⌉ = 2 := by
    rw [Int.ceil_eq_iff]
    norm_num
  rw [h]
  decide

/-- C4 (amended): for `h2 > h1` and `capacity > 0`, `getCyclesUntilFailure` equals
`floor((capacity - h1 - 1) / (h2 - h1)) + 1` when `h1 < capacity`, and
`ceil((capacity - h1 - 1) / (h2 - h1)) + 1` when `h1 >= capacity - 1` (the integer
division truncates toward zero); the division inside is exact rational division. -/
theorem getCyclesUntilFailure_eq_floor (h1 h2 capacity : Int) (hh : h2 > h1) (hc : capacity > 0) :
    (h1 < capacity →
      getCyclesUntilFailure h1 h2 capacity
        = ⌊(((capacity - h1 - 1 : Int) : ℚ) / ((h2 - h1 : Int) : ℚ))⌋ + 1)
    ∧ (capacity - 1 ≤ h1 →
      getCyclesUntilFailure h1 h2 capacity
        = ⌈(((capacity - h1 - 1 : Int) : ℚ) / ((h2 - h1 : Int) : ℚ))⌉ + 1) := by
  have hd : 0 < h2 - h1 := by omega
  have hdq : (0 : ℚ) < ((h2 - h1 : Int) : ℚ) := by exact_mod_cast hd
  rw [getCyclesUntilFailure_of_pos hh hc]
  constructor
  · intro hlt
    obtain ⟨b1, b2⟩ := tdiv_bounds_of_nonneg (a := capacity - h1 - 1) (by omega) hd
    congr 1
    symm
    rw [Int.floor_eq_iff, le_div_iff₀ hdq, div_lt_iff₀ hdq]
    exact ⟨by exact_mod_cast b1, by exact_mod_cast b2⟩
  · intro hge
    obtain ⟨b1, b2⟩ := tdiv_bounds_of_nonpos (a := capacity - h1 - 1) (by omega) hd
    congr 1
    symm
    rw [Int.ceil_eq_iff, lt_div_iff₀ hdq, div_le_iff₀ hdq]
    exact ⟨by exact_mod_cast b1, by exact_mod_cast b2⟩

theorem getCyclesUntilFailure_eq_floor_witness :
    (2 : Int) > 0 ∧ (4 : Int) > 0
    ∧ getCyclesUntilFailure 0 2 4 = ⌊(((4 - 0 - 1 : Int) : ℚ) / ((2 - 0 : Int) : ℚ))⌋ + 1 :=
  ⟨by decide, by decide,
    (getCyclesUntilFailure_eq_floor 0 2 4 (by decide) (by decide)).1 (by decide)⟩

/-! ## Commit and rollback -/

theorem ReactorComponent.rollback_commit_component (c : ReactorComponent) :
    c.commit.rollback = c.commit := by
  cases c <;> rfl

theorem ReactorComponent.rollback_rollback (c : ReactorComponent) :
    c.rollback.rollback = c.rollback := by
  cases c <;> rfl

theorem Reactor.rollback_of_commit (r : Reactor) : r.commit.rollback = r.commit := by
  unfold Reactor.rollback Reactor.commit
  simp only [List.map_map]
  congr 1
  apply List.map_congr_left
  intro comp _
  cases comp with
  | none => rfl
  | some c =>
    simp only [Function.comp]
    split_ifs
    · rfl
    · simp [ReactorComponent.rollback_commit_component]

/-- C6: `rollback` right after `commit` changes nothing: the reactor after
commit-then-rollback equals the reactor after commit in every member (run state, and every
component with all its committed and pending members, at the same positions). -/
theorem Reactor.rollback_commit (r : Reactor) : r.commit.rollback = r.commit :=
  Reactor.rollback_of_commit r

/-! ## What a tick leaves alone -/

theorem frame_setComp {r : Reactor} {i : Nat} {c c' : ReactorComponent}
    (h : r.comp? i = some c) (hc : c'.rollback = c.rollback) :
    (r.setComp i c').frame = r.frame := by
  have hi := comp?_eq_some_iff.mp h
  unfold Reactor.frame Reactor.setComp
  simp only
  congr 1
  apply List.ext_getElem?
  intro j
  simp only [List.getElem?_map, List.getElem?_set]
  split_ifs with h1 h2
  · subst h1
    simp [hi, hc]
  · subst h1
    simp [hi] at h2 ⊢
    have := comp?_lt_length h
    omega
  · rfl

theorem frame_pending (r : Reactor) (s : SimulationState)
    (hs : s.curTick = r.pendingSimState.curTick) :
    ({ r with pendingSimState := s } : Reactor).frame = r.frame := by
  unfold Reactor.frame
  simp [hs]

theorem frame_maxHeat (r : Reactor) (m : Int) :
    ({ r with maxHeat := m } : Reactor).frame = r.frame := rfl

theorem frame_heatCapacityExceeded (r : Reactor) : r.heatCapacityExceeded.frame = r.frame :=
  frame_pending r _ rfl

theorem frame_setHeat (r : Reactor) (heat : Int) : (r.setHeat heat).frame = r.frame := by
  unfold Reactor.setHeat
  simp only
  split_ifs
  · rw [frame_heatCapacityExceeded]; exact frame_pending r _ rfl
  · exact frame_pending r _ rfl

theorem frame_addHeat (r : Reactor) (heat : Int) : (r.addHeat heat).frame = r.frame := by
  unfold Reactor.addHeat
  simp only
  split_ifs
  · rw [frame_heatCapacityExceeded]; exact frame_pending r _ rfl
  · exact frame_pending r _ rfl

theorem frame_componentDestroyed (r : Reactor) (x y : Int) :
    (r.componentDestroyed x y).frame = r.frame := by
  unfold Reactor.componentDestroyed
  split_ifs
  · exact frame_pending r _ rfl
  · rfl

theorem frame_generateEU (r : Reactor) (eu : Int) : (r.generateEU eu).frame = r.frame :=
  frame_pending r _ rfl

theorem frame_incTick_eq {r r' : Reactor} (h : r.frame = r'.frame) :
    r.incTick.frame = r'.incTick.frame := by
  unfold Reactor.frame Reactor.incTick at *
  simp only [Reactor.mk.injEq, SimulationState.mk.injEq] at h ⊢
  obtain ⟨h1, h2, h3, h4, h5, h6, h7, h8, h9, h10⟩ := h
  simp_all

theorem rollback_setPendingDestroyed (c : ReactorComponent) (d : Bool) :
    (c.setPendingDestroyed d).rollback = c.rollback := by
  cases c <;> rfl

theorem rollback_setPendingHeat (c : ReactorComponent) (h : Int) :
    (c.setPendingHeat h).rollback = c.rollback := by
  cases c <;> rfl

theorem frame_setDestroyed (r : Reactor) (i : Nat) (d : Bool) :
    (ReactorComponent.setDestroyed r i d).frame = r.frame := by
  unfold ReactorComponent.setDestroyed
  cases hc : r.comp? i with
  | none => rfl
  | some c =>
    simp only
    split_ifs
    · rw [frame_componentDestroyed, frame_setComp hc (rollback_setPendingDestroyed c d)]
    · rw [frame_setComp hc (rollback_setPendingDestroyed c d)]
    · rfl

theorem frame_Heatable_alterHeat (r : Reactor) (i : Nat) (h : Heatable) (heat : Int) :
    (Heatable.alterHeat r i h heat).1.frame = r.frame := by
  unfold Heatable.alterHeat
  simp only
  split_ifs
  · exact frame_setDestroyed r i true
  · cases hc : r.comp? i with
    | none => rfl
    | some c => exact frame_setComp hc (rollback_setPendingHeat c _)
  · cases hc : r.comp? i with
    | none => rfl
    | some c => exact frame_setComp hc (rollback_setPendingHeat c _)

theorem frame_alterHeat (r : Reactor) (i : Nat) (heat : Int) :
    (ReactorComponent.alterHeat r i heat).1.frame = r.frame := by
  unfold ReactorComponent.alterHeat
  cases hc : r.comp? i with
  | none => rfl
  | some c =>
    cases c with
    | heatVent v => exact frame_Heatable_alterHeat r i _ heat
    | heatExchanger v => exact frame_Heatable_alterHeat r i _ heat
    | coolantCell v => exact frame_Heatable_alterHeat r i _ heat
    | condensator k => exact frame_setComp hc rfl
    | _ => rfl

theorem frame_acceptUraniumPulse (r : Reactor) (i : Nat) (phase : SimPhase) :
    (ReactorComponent.acceptUraniumPulse r i phase).1.frame = r.frame := by
  unfold ReactorComponent.acceptUraniumPulse
  cases hc : r.comp? i with
  | none => rfl
  | some c =>
    cases c with
    | uraniumCell u =>
      simp only [UraniumCell.acceptUraniumPulse]
      split_ifs
      · exact frame_generateEU r _
      · rfl
      · rfl
    | neutronReflector n =>
      simp only [NeutronReflector.acceptUraniumPulse]
      split_ifs
      · exact frame_generateEU r _
      · rw [frame_setDestroyed]; exact frame_setComp hc rfl
      · exact frame_setComp hc rfl
    | _ => rfl

theorem frame_foldl {α : Type} (f : Reactor → α → Reactor)
    (hf : ∀ r a, (f r a).frame = r.frame) (l : List α) (r : Reactor) :
    (l.foldl f r).frame = r.frame := by
  induction l generalizing r with
  | nil => rfl
  | cons a l ih => rw [List.foldl_cons, ih, hf]

theorem frame_HeatVent_tick (r : Reactor) (i : Nat) (v : HeatVent) (phase : SimPhase) :
    (HeatVent.tick r i v phase).frame = r.frame := by
  unfold HeatVent.tick
  simp only
  split_ifs <;> simp only [frame_alterHeat, frame_setHeat]

theorem frame_checkDissipate (r : Reactor) (v : ComponentHeatVent) (other : Option Nat) :
    (ComponentHeatVent.checkDissipate r v other).frame = r.frame := by
  unfold ComponentHeatVent.checkDissipate
  cases other with
  | none => rfl
  | some j =>
    simp only
    cases r.comp? j with
    | none => rfl
    | some c =>
      simp only
      split_ifs
      · exact frame_alterHeat r j _
      · rfl

theorem frame_ComponentHeatVent_tick (r : Reactor) (v : ComponentHeatVent) (phase : SimPhase) :
    (ComponentHeatVent.tick r v phase).frame = r.frame := by
  unfold ComponentHeatVent.tick
  simp only
  split_ifs
  · simp only [frame_checkDissipate]
  · rfl

theorem frame_transferAdjacent (med : ℚ) (t : Int) (l : List Nat) (r : Reactor) (myHeat : Int) :
    (HeatExchanger.transferAdjacent med t r myHeat l).1.frame = r.frame := by
  induction l generalizing r myHeat with
  | nil => rfl
  | cons j rest ih =>
    unfold HeatExchanger.transferAdjacent
    cases r.comp? j with
    | none => exact ih r myHeat
    | some comp =>
      simp only
      rw [ih, frame_alterHeat]

theorem frame_HeatExchanger_transfer (r : Reactor) (i : Nat) (e : HeatExchanger) (med : ℚ) :
    (HeatExchanger.transfer r i e med).frame = r.frame := by
  unfold HeatExchanger.transfer
  simp only
  rw [frame_alterHeat]
  split_ifs <;> simp only [frame_setHeat, frame_transferAdjacent]

theorem frame_HeatExchanger_tick (r : Reactor) (i : Nat) (e : HeatExchanger) (phase : SimPhase) :
    (HeatExchanger.tick r i e phase).frame = r.frame :=
  frame_HeatExchanger_transfer r i e _

theorem frame_checkPulseable (r : Reactor) (comp : Option Nat) (phase : SimPhase) :
    (UraniumCell.checkPulseable r comp phase).1.frame = r.frame := by
  unfold UraniumCell.checkPulseable
  cases comp with
  | none => rfl
  | some j => exact frame_acceptUraniumPulse r j phase

theorem frame_pulseNeighbours (r : Reactor) (x y : Int) (phase : SimPhase) :
    (UraniumCell.pulseNeighbours r x y phase).1.frame = r.frame := by
  unfold UraniumCell.pulseNeighbours
  simp only [frame_checkPulseable]

theorem frame_distributeHeat (l : List Nat) (r : Reactor) (heat : Int) :
    (UraniumCell.distributeHeat r heat l).1.frame = r.frame := by
  induction l generalizing r heat with
  | nil => rfl
  | cons j rest ih =>
    unfold UraniumCell.distributeHeat
    simp only
    rw [ih, frame_alterHeat]

theorem frame_tickCell (i : Nat) (x y numCells : Int) (phase : SimPhase) (r : Reactor) :
    (UraniumCell.tickCell i x y numCells phase r).frame = r.frame := by
  unfold UraniumCell.tickCell
  simp only
  split_ifs
  · rw [frame_pulseNeighbours]
    exact frame_foldl _ (fun r _ => frame_acceptUraniumPulse r i phase) _ r
  · rw [frame_addHeat, frame_distributeHeat, frame_pulseNeighbours]
  · rw [frame_distributeHeat, frame_pulseNeighbours]

theorem frame_UraniumCell_tick (r : Reactor) (i : Nat) (u : UraniumCell) (phase : SimPhase) :
    (UraniumCell.tick r i u phase).frame = r.frame := by
  unfold UraniumCell.tick
  have hfold : ∀ r : Reactor, ((List.range u.numCells.toNat).foldl
      (fun r _ => UraniumCell.tickCell i u.x u.y u.numCells phase r) r).frame = r.frame :=
    fun r => frame_foldl _ (fun r _ => frame_tickCell i u.x u.y u.numCells phase r) _ r
  simp only
  split_ifs
  · generalize hr1 : (List.range u.numCells.toNat).foldl
      (fun r _ => UraniumCell.tickCell i u.x u.y u.numCells phase r) r = r1
    have h1 : r1.frame = r.frame := by rw [← hr1]; exact hfold r
    cases hc : r1.comp? i with
    | none => exact h1
    | some c =>
      cases c with
      | uraniumCell u1 =>
        exact (@frame_setComp r1 i (.uraniumCell u1)
          (.uraniumCell { u1 with pendingUsage := u1.pendingUsage + 1 }) hc rfl).trans h1
      | _ => exact h1
  · exact hfold r
  · rfl

theorem frame_ReactorPlating_tick (r : Reactor) (p : ReactorPlating) (phase : SimPhase) :
    (ReactorPlating.tick r p phase).frame = r.frame := by
  unfold ReactorPlating.tick
  split_ifs <;> rfl

theorem frame_tick (r : Reactor) (i : Nat) (phase : SimPhase) :
    (ReactorComponent.tick r i phase).frame = r.frame := by
  unfold ReactorComponent.tick
  cases hc : r.comp? i with
  | none => rfl
  | some c =>
    cases c with
    | heatVent v => exact frame_HeatVent_tick r i v phase
    | componentHeatVent v => exact frame_ComponentHeatVent_tick r v phase
    | heatExchanger e => exact frame_HeatExchanger_tick r i e phase
    | uraniumCell u => exact frame_UraniumCell_tick r i u phase
    | reactorPlating p => exact frame_ReactorPlating_tick r p phase
    | _ => rfl

theorem frame_tickAt (phase : SimPhase) (y : Nat) (r : Reactor) (x : Nat) :
    (Reactor.tickAt phase y r x).frame = r.frame := by
  unfold Reactor.tickAt
  cases r.get x y with
  | none => rfl
  | some i =>
    simp only
    cases r.comp? i with
    | none => rfl
    | some c =>
      simp only
      split_ifs
      · exact frame_tick r i phase
      · rfl

theorem frame_runTickPhase (r : Reactor) (phase : SimPhase) :
    (r.runTickPhase phase).frame = r.frame := by
  unfold Reactor.runTickPhase
  exact frame_foldl _ (fun r1 y => frame_foldl _ (frame_tickAt phase y) _ r1) _ r

theorem frame_runTick (r : Reactor) : r.runTick.frame = r.frame := by
  unfold Reactor.runTick
  refine (frame_pending _ _ rfl).trans ?_
  rw [frame_runTickPhase, frame_runTickPhase, frame_maxHeat]

theorem committedPart_eq_of_frame {r r' : Reactor} (h : r.frame = r'.frame) :
    r.committedPart = r'.committedPart := by
  unfold Reactor.committedPart
  rw [h]

theorem committedPart_incTick (r : Reactor) : r.incTick.committedPart = r.committedPart := rfl

theorem committedPart_tickOnce (r : Reactor) : r.tickOnce.committedPart = r.committedPart := by
  unfold Reactor.tickOnce
  rw [committedPart_incTick]
  exact committedPart_eq_of_frame (frame_runTick r)

theorem committedPart_iterate (k : Nat) (r : Reactor) :
    (Reactor.tickOnce^[k] r).committedPart = r.committedPart := by
  induction k with
  | zero => rfl
  | succ k ih => rw [Function.iterate_succ_apply', committedPart_tickOnce, ih]

theorem rollback_eq_committedPart (r : Reactor) :
    r.rollback = { r.committedPart with maxHeat := r.maxHeat } := by
  unfold Reactor.rollback Reactor.committedPart Reactor.frame
  simp only [Reactor.mk.injEq, true_and, and_true]
  apply List.map_congr_left
  intro comp _
  cases comp <;> rfl

theorem committedState_rollback (c : ReactorComponent) :
    c.rollback.committedState = c.committedState := by
  cases c <;> rfl

/-- C5: after `commit` followed by any number `k` of ticks (`runTick` and the increment of
the pending tick counter), `rollback` gives back the reactor as it was right after the
commit, up to `maxHeat`: the pending run state is the run state the commit recorded, every
component is equal, member by member (pending and committed), to what it was at the commit,
and the committed run state and the committed members of the components are changed neither
by the ticks nor by the rollback. -/
theorem rollback_restores_commit (r : Reactor) (k : Nat) :
    (Reactor.tickOnce^[k] r.commit).rollback
        = { r.commit with maxHeat := (Reactor.tickOnce^[k] r.commit).maxHeat }
    ∧ (Reactor.tickOnce^[k] r.commit).rollback.pendingSimState = r.commit.curSimState
    ∧ (Reactor.tickOnce^[k] r.commit).rollback.components = r.commit.components
    ∧ (Reactor.tickOnce^[k] r.commit).rollback.curSimState = r.commit.curSimState
    ∧ (Reactor.tickOnce^[k] r.commit).curSimState = r.commit.curSimState
    ∧ (Reactor.tickOnce^[k] r.commit).components.map (Option.map ReactorComponent.committedState)
        = r.commit.components.map (Option.map ReactorComponent.committedState) := by
  have hp := committedPart_iterate k r.commit
  have hc : r.commit = { r.commit.committedPart with maxHeat := r.commit.maxHeat } := by
    conv_lhs => rw [← Reactor.rollback_of_commit r]
    exact rollback_eq_committedPart r.commit
  have h1 : (Reactor.tickOnce^[k] r.commit).rollback
      = { r.commit with maxHeat := (Reactor.tickOnce^[k] r.commit).maxHeat } := by
    rw [rollback_eq_committedPart, hp]
    generalize (Reactor.tickOnce^[k] r.commit).maxHeat = m
    generalize r.commit = c at hc
    have e1 := congrArg Reactor.components hc
    have e2 := congrArg Reactor.curSimState hc
    have e3 := congrArg Reactor.pendingSimState hc
    cases c
    simp only [Reactor.committedPart, Reactor.frame, Reactor.mk.injEq, true_and, and_true]
      at e1 e2 e3 ⊢
    exact ⟨e1.symm, e3.symm⟩
  refine ⟨h1, ?_, ?_, ?_, ?_, ?_⟩
  · rw [h1]; rfl
  · rw [h1]
  · rw [h1]
  · have := congrArg Reactor.curSimState hp
    exact this.trans (congrArg Reactor.curSimState hc).symm
  · have h2 := congrArg Reactor.components hp
    have h3 := congrArg (List.map (Option.map ReactorComponent.committedState)) h2
    simp only [Reactor.committedPart, Reactor.frame, List.map_map] at h3
    have hfun : (Option.map ReactorComponent.committedState ∘ Option.map ReactorComponent.rollback)
        = Option.map ReactorComponent.committedState := by
      funext o
      cases o <;> simp [committedState_rollback]
    rw [hfun] at h3
    exact h3

/-! ## The run-until loop -/

set_option maxRecDepth 100000

theorem curSimState_runTick (r : Reactor) : r.runTick.curSimState = r.curSimState :=
  congrArg (fun x => x.curSimState) (frame_runTick r)

theorem pendingTick_runTick (r : Reactor) :
    r.runTick.pendingSimState.curTick = r.pendingSimState.curTick :=
  congrArg (fun x => x.pendingSimState.curTick) (frame_runTick r)

theorem curSimState_step (r : Reactor) : r.runTick.incTick.curSimState = r.curSimState :=
  curSimState_runTick r

theorem pendingTick_step (r : Reactor) :
    r.runTick.incTick.pendingSimState.curTick = r.pendingSimState.curTick + 1 := by
  show r.runTick.pendingSimState.curTick + 1 = _
  rw [pendingTick_runTick]

theorem curSimState_commit (r : Reactor) : r.commit.curSimState = r.pendingSimState := rfl

theorem pendingSimState_commit (r : Reactor) : r.commit.pendingSimState = r.pendingSimState := rfl

/-- Erasing the ghost variable of the traced loop gives the loop of `runUntil`. -/
theorem runUntilTraced_erase (f1 f2 f3 f4 : Bool) (n : Nat) (r : Reactor) (first : Bool)
    (last t : Int) :
    (Reactor.runUntilTraced f1 f2 f3 f4 n r first last t).map (fun x => (x.1, x.2.1))
      = Reactor.runUntilLoop f1 f2 f3 f4 n r first last := by
  induction n generalizing r first last t with
  | zero => rfl
  | succ n ih =>
    unfold Reactor.runUntilTraced Reactor.runUntilLoop
    cases Reactor.stopCheck f1 f2 f3 f4 r with
    | some reason => rfl
    | none =>
      simp only
      cases Reactor.noHeatLossCheck f3 r last with
      | none => rfl
      | some l => exact ih _ _ _ _

theorem tmod_eight_eq_zero_iff (c : Int) : c.tmod 8 = 0 ↔ c % 8 = 0 := by
  constructor
  · intro h
    exact Int.emod_eq_zero_of_dvd (Int.dvd_of_tmod_eq_zero h)
  · intro h
    exact Int.tmod_eq_zero_of_dvd (Int.dvd_of_emod_eq_zero h)

theorem stopCheck_max_ticks {f1 f2 f3 f4 : Bool} {r : Reactor}
    (h : Reactor.stopCheck f1 f2 f3 f4 r = some RunUntilStopReason.STOPPED_ON_MAX_TICKS) :
    r.pendingSimState.curTick ≥ 50000 := by
  unfold Reactor.stopCheck at h
  split_ifs at h with h1 h2 h3 h4 h5 h6 <;> simp at h
  exact h6

theorem tracedInv_next {c0 : Int} {f3 : Bool} {r : Reactor} {first : Bool} {last t l : Int}
    (hinv : TracedInv c0 f3 r first last t)
    (hl : Reactor.noHeatLossCheck f3 r last = some l) :
    TracedInv c0 f3 (if first then r else r.commit).runTick.incTick false l
      (if decide (r.curSimState.curTick.tmod 8 = 0) && f3 then r.curSimState.curTick else t) := by
  unfold TracedInv at hinv ⊢
  obtain ⟨hf, hinv⟩ := hinv
  simp only [Bool.false_eq_true, if_false, pendingTick_step, curSimState_step]
  unfold Reactor.noHeatLossCheck at hl
  by_cases hck : (decide (r.curSimState.curTick.tmod 8 = 0) && f3) = true
  · rw [if_pos hck] at hl ⊢
    simp only [Bool.and_eq_true, decide_eq_true_eq] at hck
    have hmod := (tmod_eight_eq_zero_iff _).mp hck.1
    refine ⟨fun h => by simp [h] at hck, ?_⟩
    cases first
    · simp only [Bool.false_eq_true, if_false, curSimState_commit, pendingSimState_commit] at hinv ⊢
      obtain ⟨hp, -⟩ := hinv
      refine ⟨trivial, fun _ => ⟨hmod, ?_, ?_, ?_⟩⟩ <;> intros <;> omega
    · simp only [if_true] at hinv ⊢
      obtain ⟨-, hc, hp⟩ := hinv
      refine ⟨by omega, fun _ => ⟨hmod, ?_, ?_, ?_⟩⟩ <;> intros <;> omega
  · rw [if_neg hck] at hl ⊢
    simp only [Option.some.injEq] at hl
    subst hl
    refine ⟨hf, ?_⟩
    have hnot : last ≠ -1 → ¬ r.curSimState.curTick % 8 = 0 := by
      intro hl hm
      apply hck
      have hf3 : f3 = true := by
        cases f3
        · exact absurd (hf rfl) hl
        · rfl
      simp [hf3, (tmod_eight_eq_zero_iff _).mpr hm]
    cases first
    · simp only [Bool.false_eq_true, if_false, curSimState_commit, pendingSimState_commit] at hinv ⊢
      refine ⟨trivial, fun hl => ?_⟩
      obtain ⟨hp, hi⟩ := hinv
      obtain ⟨a, b, c, d⟩ := hi hl
      have h2 := hnot hl
      refine ⟨a, ?_, ?_, ?_⟩ <;> intros <;> omega
    · simp only [if_true] at hinv ⊢
      refine ⟨by omega, fun hl => absurd hinv.1 hl⟩

theorem runUntilTraced_early_max (f1 f2 f3 f4 : Bool) (c0 : Int) (n : Nat) (r : Reactor)
    (first : Bool) (last t : Int) (res : RunUntilStopReason × Reactor × Option (Int × Int))
    (hinv : TracedInv c0 f3 r first last t)
    (hrun : Reactor.runUntilTraced f1 f2 f3 f4 n r first last t = some res)
    (hmax : res.1 = RunUntilStopReason.STOPPED_ON_MAX_TICKS)
    (hlt : res.2.1.pendingSimState.curTick < 50000) :
    f3 = true ∧ StagnationFired c0 res := by
  induction n generalizing r first last t with
  | zero => simp [Reactor.runUntilTraced] at hrun
  | succ n ih =>
    unfold Reactor.runUntilTraced at hrun
    cases hs : Reactor.stopCheck f1 f2 f3 f4 r with
    | some reason =>
      simp only [hs, Option.some.injEq] at hrun
      subst hrun
      simp only at hmax hlt
      subst hmax
      have := stopCheck_max_ticks hs
      omega
    | none =>
      simp only [hs] at hrun
      cases hl : Reactor.noHeatLossCheck f3 r last with
      | none =>
        simp only [hl, Option.some.injEq] at hrun
        subst hrun
        unfold Reactor.noHeatLossCheck at hl
        split_ifs at hl with hck h1 h2
        simp only [Bool.and_eq_true, decide_eq_true_eq] at hck
        refine ⟨hck.2, ?_⟩
        have hmod := (tmod_eight_eq_zero_iff _).mp hck.1
        unfold StagnationFired
        simp only
        refine ⟨h2, hck.1, ?_⟩
        unfold TracedInv at hinv
        cases first
        · simp only [Bool.false_eq_true, if_false] at hinv
          have h3 := hinv.2.2 h1
          by_cases heq : t = r.curSimState.curTick
          · right
            have h4 := h3.2.2.2 heq
            exact ⟨heq.symm, by omega, h4.2⟩
          · left; omega
        · simp only [if_true] at hinv
          exact absurd hinv.2.1 h1
      | some l =>
        simp only [hl] at hrun
        exact ih _ _ _ _ (tracedInv_next hinv hl) hrun

/-- C7: the stagnation check of `runUntil` is meant to compare the committed total heat
with the value recorded 8 committed ticks before, and the code misses it when the loop is
entered at a committed tick divisible by 8.  Entered on `stagnantReactor` (committed tick 8,
total heat 768) with only cooldown monitored, `runUntil` records 768 at committed tick 8,
runs one tick without a commit, and returns `STOPPED_ON_MAX_TICKS` at pending tick 9, the
no-heat-loss check having compared the committed total heat with the value recorded at the
very same committed tick, not 8 committed ticks before. -/
theorem runUntil_max_ticks_not_eight_ticks_apart :
    ∃ res, Reactor.runUntilTraced false false true false 2 stagnantReactor true (-1) 0 = some res
      ∧ stagnantReactor.runUntil 2 false false true false = some (res.1, res.2.1)
      ∧ res.1 = RunUntilStopReason.STOPPED_ON_MAX_TICKS
      ∧ res.2.1.pendingSimState.curTick < 50000
      ∧ ¬ StagnationEightTicksBefore res := by
  refine ⟨_, rfl, ?_, ?_, ?_, ?_⟩ <;> decide

/-- What the loop of `runUntil` does on an early `STOPPED_ON_MAX_TICKS`: if `runUntil`,
entered with pending tick count equal to the committed tick count `c0`, returns
`STOPPED_ON_MAX_TICKS` while the pending tick count is below 50000, then cooldown was
monitored and the return came from the no-heat-loss check at a committed tick divisible
by 8: the total heat recorded at the last checkpoint is at most the committed total heat,
and that checkpoint was either exactly 8 committed ticks before or the same committed tick
`c0` (the loop entered at a committed tick divisible by 8 and ran one tick). -/
theorem runUntil_early_max_ticks (f1 f2 f3 f4 : Bool) (n : Nat) (r : Reactor)
    (res : RunUntilStopReason × Reactor × Option (Int × Int))
    (hentry : r.pendingSimState.curTick = r.curSimState.curTick)
    (hrun : Reactor.runUntilTraced f1 f2 f3 f4 n r true (-1) 0 = some res)
    (hmax : res.1 = RunUntilStopReason.STOPPED_ON_MAX_TICKS)
    (hlt : res.2.1.pendingSimState.curTick < 50000) :
    r.runUntil n f1 f2 f3 f4 = some (res.1, res.2.1)
    ∧ f3 = true ∧ StagnationFired r.curSimState.curTick res := by
  refine ⟨?_, runUntilTraced_early_max f1 f2 f3 f4 r.curSimState.curTick n r true (-1) 0 res
    ?_ hrun hmax hlt⟩
  · unfold Reactor.runUntil
    rw [← runUntilTraced_erase f1 f2 f3 f4 n r true (-1) 0, hrun]
    rfl
  · unfold TracedInv
    simp [hentry]

theorem runUntil_early_max_ticks_witness :
    ∃ res, Reactor.runUntilTraced false false true false 2 stagnantReactor true (-1) 0 = some res
      ∧ stagnantReactor.runUntil 2 false false true false = some (res.1, res.2.1)
      ∧ StagnationFired stagnantReactor.curSimState.curTick res :=
  ⟨_, rfl,
    (runUntil_early_max_ticks false false true false 2 stagnantReactor _ (by decide) rfl
      (by decide) (by decide)).1,
    (runUntil_early_max_ticks false false true false 2 stagnantReactor _ (by decide) rfl
      (by decide) (by decide)).2.2⟩

/-! ## The loops of `runTickPhase` visit the indices `0, 1, ..., width * height - 1` in order -/

theorem frame_tickIdx (phase : SimPhase) (r : Reactor) (i : Nat) :
    (Reactor.tickIdx phase r i).frame = r.frame := by
  unfold Reactor.tickIdx
  cases r.comp? i with
  | none => rfl
  | some c =>
    simp only
    split_ifs
    · rfl
    · exact frame_tick r i phase

theorem width_of_frame {r r' : Reactor} (h : r.frame = r'.frame) : r.width = r'.width :=
  congrArg (fun x => x.width) h

theorem height_of_frame {r r' : Reactor} (h : r.frame = r'.frame) : r.height = r'.height :=
  congrArg (fun x => x.height) h

theorem tickAt_eq_tickIdx (phase : SimPhase) (r : Reactor) (w h x y : Nat)
    (hw : r.width = w) (hh : r.height = h) (hx : x < w) (hy : y < h) :
    Reactor.tickAt phase y r x = Reactor.tickIdx phase r (y * w + x) := by
  unfold Reactor.tickAt Reactor.tickIdx Reactor.get
  have hidx : ((y : Int) * r.width + (x : Int)).toNat = y * w + x := by
    rw [hw]
    have : ((y : Int) * (w : Int) + (x : Int)) = ((y * w + x : Nat) : Int) := by push_cast; ring
    rw [this, Int.toNat_ofNat]
  have hcond : ¬ ((x : Int) < 0 ∨ (y : Int) < 0 ∨ (x : Int) ≥ r.width ∨ (y : Int) ≥ r.height) := by
    rw [hw, hh]
    omega
  rw [if_neg hcond, hidx]
  cases hc : r.comp? (y * w + x) with
  | none => rfl
  | some c =>
    simp only
    cases hd : c.isDestroyed with
    | true => simp
    | false => simp [hc, hd]

theorem foldl_eq_of_inv {α : Type} (Inv : Reactor → Prop) (f g : Reactor → α → Reactor)
    (l : List α) (h : ∀ r a, a ∈ l → Inv r → f r a = g r a ∧ Inv (g r a))
    (r : Reactor) (hr : Inv r) :
    l.foldl f r = l.foldl g r ∧ Inv (l.foldl g r) := by
  induction l generalizing r with
  | nil => exact ⟨rfl, hr⟩
  | cons a l ih =>
    obtain ⟨h1, h2⟩ := h r a (List.mem_cons_self a l) hr
    simp only [List.foldl_cons]
    rw [h1]
    exact ih (fun r b hb => h r b (List.mem_cons_of_mem a hb)) _ h2

theorem frame_foldl_tickIdx (phase : SimPhase) (l : List Nat) (r : Reactor) :
    (l.foldl (Reactor.tickIdx phase) r).frame = r.frame :=
  frame_foldl _ (frame_tickIdx phase) l r

theorem runTickPhase_rows (phase : SimPhase) (w h : Nat) (n : Nat) (hn : n ≤ h) (r : Reactor)
    (hw : r.width = w) (hh : r.height = h) :
    (List.range n).foldl (fun r1 y => (List.range w).foldl (Reactor.tickAt phase y) r1) r
      = (List.range (n * w)).foldl (Reactor.tickIdx phase) r := by
  induction n with
  | zero => simp
  | succ n ih =>
    rw [List.range_succ, List.foldl_append, ih (by omega)]
    have hmul : (n + 1) * w = n * w + w := by ring
    rw [hmul, List.range_add, List.foldl_append, List.foldl_map]
    simp only [List.foldl_cons, List.foldl_nil]
    generalize hr1 : (List.range (n * w)).foldl (Reactor.tickIdx phase) r = r1
    have hf1 : r1.frame = r.frame := by rw [← hr1]; exact frame_foldl_tickIdx phase _ r
    refine (foldl_eq_of_inv (fun r2 => r2.frame = r.frame) _ _ (List.range w) ?_ r1 hf1).1
    intro r2 x hx hr2
    refine ⟨?_, (frame_tickIdx phase r2 _).trans hr2⟩
    exact tickAt_eq_tickIdx phase r2 w h x n ((width_of_frame hr2).trans hw)
      ((height_of_frame hr2).trans hh) (List.mem_range.mp hx) (by omega)

/-- The two nested loops of `runTickPhase` tick the indices `0, ..., width * height - 1` in
increasing order. -/
theorem runTickPhase_eq_foldl (phase : SimPhase) (r : Reactor) (w h : Nat)
    (hw : r.width = w) (hh : r.height = h) :
    r.runTickPhase phase = (List.range (h * w)).foldl (Reactor.tickIdx phase) r := by
  unfold Reactor.runTickPhase
  rw [hw, hh, Int.toNat_ofNat, Int.toNat_ofNat]
  exact runTickPhase_rows phase w h h le_rfl r hw hh

theorem tickIdx_of_none {phase : SimPhase} {r : Reactor} {i : Nat} (h : r.comp? i = none) :
    Reactor.tickIdx phase r i = r := by
  simp [Reactor.tickIdx, h]

theorem comp?_isSome_of_frame {r r' : Reactor} (h : r.frame = r'.frame) (i : Nat) :
    (r.comp? i).isSome = (r'.comp? i).isSome := by
  have h1 := congrArg (fun x => (x.components[i]?)) h
  simp only [Reactor.frame, List.getElem?_map] at h1
  unfold Reactor.comp?
  cases h2 : r.components[i]? with
  | none =>
    cases h3 : r'.components[i]? with
    | none => rfl
    | some o' => simp [h2, h3] at h1
  | some o =>
    cases h3 : r'.components[i]? with
    | none => simp [h2, h3] at h1
    | some o' =>
      simp only [h2, h3, Option.map_some', Option.some.injEq] at h1
      cases o <;> cases o' <;> simp_all

/-- Ticking a list of indices is ticking the indices that hold a component. -/
theorem foldl_tickIdx_filter (phase : SimPhase) (l : List Nat) (r0 r : Reactor)
    (hr : r.frame = r0.frame) :
    l.foldl (Reactor.tickIdx phase) r
      = (l.filter fun i => (r0.comp? i).isSome).foldl (Reactor.tickIdx phase) r := by
  induction l generalizing r with
  | nil => rfl
  | cons i l ih =>
    simp only [List.foldl_cons, List.filter_cons]
    by_cases hi : (r0.comp? i).isSome = true
    · rw [if_pos hi, List.foldl_cons]
      exact ih _ ((frame_tickIdx phase r i).trans hr)
    · rw [if_neg hi]
      have : r.comp? i = none := by
        have := comp?_isSome_of_frame hr i
        rw [Bool.not_eq_true] at hi
        rw [hi] at this
        simpa using this
      rw [tickIdx_of_none this]
      exact ih _ hr

/-! ## The vented cell device (C8, C9) -/

theorem ventedCell_init (y : Nat) (h1 : 1 ≤ y) (h4 : y ≤ 4) :
    (ventedCellReactor y).initializeSimulation = ventedState y 0 0 0 0 0 0 0 {} {} := by
  interval_cases y <;> decide

theorem set_map_range {α : Type} (n i : Nat) (f : Nat → α) (v : α) :
    ((List.range n).map f).set i v = (List.range n).map (Function.update f i v) := by
  apply List.ext_getElem?
  intro j
  simp only [List.getElem?_set, List.getElem?_map, List.length_map, List.length_range]
  by_cases hj : j < n
  · rw [List.getElem?_range hj]
    by_cases hij : i = j
    · subst hij
      simp [hj]
    · simp [hij, Function.update, Ne.symm hij]
  · rw [List.getElem?_eq_none (by simpa using hj)]
    split_ifs <;> first | (exfalso; omega) | rfl

theorem crossState_comp? (y : Nat) (cA cL cC cR cB : ReactorComponent)
    (cur pend : SimulationState) (i : Nat) (hi : i < 18) :
    (crossState y cA cL cC cR cB cur pend).comp? i = crossCells y cA cL cC cR cB i := by
  simp [Reactor.comp?, crossState, List.getElem?_range hi]

theorem crossState_setComp (y : Nat) (cA cL cC cR cB : ReactorComponent)
    (cur pend : SimulationState) (i : Nat) (c : ReactorComponent) :
    (crossState y cA cL cC cR cB cur pend).setComp i c
      = { crossState y cA cL cC cR cB cur pend with
          components := (List.range 18).map
            (Function.update (crossCells y cA cL cC cR cB) i (some c)) } := by
  simp [Reactor.setComp, crossState, set_map_range]

theorem crossCells_update_C (y : Nat) (cA cL cC cR cB c : ReactorComponent) :
    Function.update (crossCells y cA cL cC cR cB) (y * 3 + 1) (some c)
      = crossCells y cA cL c cR cB := by
  funext i
  unfold crossCells Function.update
  split_ifs <;> first | rfl | omega | simp_all

theorem crossCells_update_A (y : Nat) (h1 : 1 ≤ y) (cA cL cC cR cB c : ReactorComponent) :
    Function.update (crossCells y cA cL cC cR cB) ((y - 1) * 3 + 1) (some c)
      = crossCells y c cL cC cR cB := by
  funext i
  unfold crossCells Function.update
  split_ifs <;> first | rfl | omega | simp_all

theorem crossCells_update_L (y : Nat) (cA cL cC cR cB c : ReactorComponent) :
    Function.update (crossCells y cA cL cC cR cB) (y * 3) (some c)
      = crossCells y cA c cC cR cB := by
  funext i
  unfold crossCells Function.update
  split_ifs <;> first | rfl | omega | simp_all

theorem crossCells_update_R (y : Nat) (cA cL cC cR cB c : ReactorComponent) :
    Function.update (crossCells y cA cL cC cR cB) (y * 3 + 2) (some c)
      = crossCells y cA cL cC c cB := by
  funext i
  unfold crossCells Function.update
  split_ifs <;> first | rfl | omega | simp_all

theorem crossCells_update_B (y : Nat) (h1 : 1 ≤ y) (cA cL cC cR cB c : ReactorComponent) :
    Function.update (crossCells y cA cL cC cR cB) ((y + 1) * 3 + 1) (some c)
      = crossCells y cA cL cC cR c := by
  funext i
  unfold crossCells Function.update
  split_ifs <;> first | rfl | omega | simp_all

theorem crossState_setComp_C (y : Nat) (cA cL cC cR cB c : ReactorComponent)
    (cur pend : SimulationState) :
    (crossState y cA cL cC cR cB cur pend).setComp (y * 3 + 1) c
      = crossState y cA cL c cR cB cur pend := by
  rw [crossState_setComp, crossCells_update_C]; rfl

theorem crossState_setComp_A (y : Nat) (h1 : 1 ≤ y) (cA cL cC cR cB c : ReactorComponent)
    (cur pend : SimulationState) :
    (crossState y cA cL cC cR cB cur pend).setComp ((y - 1) * 3 + 1) c
      = crossState y c cL cC cR cB cur pend := by
  rw [crossState_setComp, crossCells_update_A y h1]; rfl

theorem crossState_setComp_L (y : Nat) (cA cL cC cR cB c : ReactorComponent)
    (cur pend : SimulationState) :
    (crossState y cA cL cC cR cB cur pend).setComp (y * 3) c
      = crossState y cA c cC cR cB cur pend := by
  rw [crossState_setComp, crossCells_update_L]; rfl

theorem crossState_setComp_R (y : Nat) (cA cL cC cR cB c : ReactorComponent)
    (cur pend : SimulationState) :
    (crossState y cA cL cC cR cB cur pend).setComp (y * 3 + 2) c
      = crossState y cA cL cC c cB cur pend := by
  rw [crossState_setComp, crossCells_update_R]; rfl

theorem crossState_setComp_B (y : Nat) (h1 : 1 ≤ y) (cA cL cC cR cB c : ReactorComponent)
    (cur pend : SimulationState) :
    (crossState y cA cL cC cR cB cur pend).setComp ((y + 1) * 3 + 1) c
      = crossState y cA cL cC cR c cur pend := by
  rw [crossState_setComp, crossCells_update_B y h1]; rfl

theorem crossState_comp?_C (y : Nat) (h4 : y ≤ 4) (cA cL cC cR cB : ReactorComponent)
    (cur pend : SimulationState) :
    (crossState y cA cL cC cR cB cur pend).comp? (y * 3 + 1) = some cC := by
  rw [crossState_comp? _ _ _ _ _ _ _ _ _ (by omega)]
  simp [crossCells]

theorem crossState_comp?_A (y : Nat) (h1 : 1 ≤ y) (h4 : y ≤ 4) (cA cL cC cR cB : ReactorComponent)
    (cur pend : SimulationState) :
    (crossState y cA cL cC cR cB cur pend).comp? ((y - 1) * 3 + 1) = some cA := by
  rw [crossState_comp? _ _ _ _ _ _ _ _ _ (by omega)]
  unfold crossCells
  rw [if_neg (by omega), if_pos rfl]

theorem crossState_comp?_L (y : Nat) (h4 : y ≤ 4) (cA cL cC cR cB : ReactorComponent)
    (cur pend : SimulationState) :
    (crossState y cA cL cC cR cB cur pend).comp? (y * 3) = some cL := by
  rw [crossState_comp? _ _ _ _ _ _ _ _ _ (by omega)]
  unfold crossCells
  rw [if_neg (by omega), if_neg (by omega), if_pos rfl]

theorem crossState_comp?_R (y : Nat) (h4 : y ≤ 4) (cA cL cC cR cB : ReactorComponent)
    (cur pend : SimulationState) :
    (crossState y cA cL cC cR cB cur pend).comp? (y * 3 + 2) = some cR := by
  rw [crossState_comp? _ _ _ _ _ _ _ _ _ (by omega)]
  unfold crossCells
  rw [if_neg (by omega), if_neg (by omega), if_neg (by omega), if_pos rfl]

theorem crossState_comp?_B (y : Nat) (h4 : y ≤ 4) (cA cL cC cR cB : ReactorComponent)
    (cur pend : SimulationState) :
    (crossState y cA cL cC cR cB cur pend).comp? ((y + 1) * 3 + 1) = some cB := by
  rw [crossState_comp? _ _ _ _ _ _ _ _ _ (by omega)]
  unfold crossCells
  rw [if_neg (by omega), if_neg (by omega), if_neg (by omega), if_neg (by omega), if_pos rfl]

/-- The indices of a 3x6 grid that hold a component of `crossState y`. -/
theorem crossState_filter (y : Nat) (h1 : 1 ≤ y) (h4 : y ≤ 4) (cA cL cC cR cB : ReactorComponent)
    (cur pend : SimulationState) :
    (List.range (6 * 3)).filter
        (fun i => ((crossState y cA cL cC cR cB cur pend).comp? i).isSome)
      = [(y - 1) * 3 + 1, y * 3, y * 3 + 1, y * 3 + 2, (y + 1) * 3 + 1] := by
  have : ∀ i, i ∈ List.range (6 * 3) →
      ((crossState y cA cL cC cR cB cur pend).comp? i).isSome
        = decide (i = y * 3 + 1 ∨ i = (y - 1) * 3 + 1 ∨ i = y * 3 ∨ i = y * 3 + 2
            ∨ i = (y + 1) * 3 + 1) := by
    intro i hi
    rw [crossState_comp? _ _ _ _ _ _ _ _ _ (by simpa using hi)]
    unfold crossCells
    split_ifs <;> simp_all
  rw [List.filter_congr this]
  interval_cases y <;> decide

theorem alterHeat_ventAt {r : Reactor} {i : Nat} {x y lh h : Int} (d : Int)
    (hc : r.comp? i = some (ventAt x y lh h)) (h0 : 0 ≤ h + d) (h1 : h + d ≤ 1000) :
    ReactorComponent.alterHeat r i d = (r.setComp i (ventAt x y lh (h + d)), 0) := by
  unfold ReactorComponent.alterHeat
  rw [hc]
  simp only [ventAt, Heatable.alterHeat, HeatVent.mk0, Heatable.mk0]
  rw [if_neg (by omega), if_neg (by omega)]
  simp only [hc, ventAt, HeatVent.mk0, Heatable.mk0, ReactorComponent.setPendingHeat]

theorem tickIdx_heat_ventAt {r : Reactor} {i : Nat} {x y lh h : Int}
    (hc : r.comp? i = some (ventAt x y lh h)) (h0 : h < 6) :
    Reactor.tickIdx SimPhase.PHASE_HEAT_RUN r i = r.setComp i (ventAt x y lh 0) := by
  unfold Reactor.tickIdx ReactorComponent.tick
  rw [hc]
  simp only [ventAt, ReactorComponent.isDestroyed, ReactorComponent.base, HeatVent.mk0,
    Heatable.mk0, ComponentBase.mk0, Bool.false_eq_true, if_false, HeatVent.tick, if_true,
    gt_iff_lt, lt_self_iff_false]
  unfold ReactorComponent.alterHeat
  rw [hc]
  simp only [ventAt, Heatable.alterHeat, HeatVent.mk0, Heatable.mk0]
  rw [if_neg (by omega), if_pos (by omega)]
  simp only [hc, ventAt, HeatVent.mk0, Heatable.mk0, ReactorComponent.setPendingHeat]
  rfl

theorem tickIdx_power_ventAt {r : Reactor} {i : Nat} {x y lh h : Int}
    (hc : r.comp? i = some (ventAt x y lh h)) :
    Reactor.tickIdx SimPhase.PHASE_POWER r i = r := by
  unfold Reactor.tickIdx ReactorComponent.tick
  rw [hc]
  simp [ventAt, ReactorComponent.isDestroyed, ReactorComponent.base, HeatVent.mk0,
    Heatable.mk0, ComponentBase.mk0, HeatVent.tick]

theorem acceptUraniumPulse_ventAt {r : Reactor} {i : Nat} {x y lh h : Int} (phase : SimPhase)
    (hc : r.comp? i = some (ventAt x y lh h)) :
    ReactorComponent.acceptUraniumPulse r i phase = (r, false) := by
  unfold ReactorComponent.acceptUraniumPulse
  rw [hc]
  rfl

theorem get_of_comp? {r : Reactor} {x y : Int} {i : Nat} {c : ReactorComponent}
    (hx : 0 ≤ x) (hy : 0 ≤ y) (hxw : x < r.width) (hyh : y < r.height)
    (hi : (y * r.width + x).toNat = i) (hc : r.comp? i = some c) (hd : c.isDestroyed = false) :
    r.get x y = some i := by
  unfold Reactor.get
  rw [if_neg (by omega), hi, hc]
  simp [hd]

theorem ventAt_not_destroyed (x y lh h : Int) : (ventAt x y lh h).isDestroyed = false := rfl

theorem ventAt_canStoreHeat (x y lh h : Int) : (ventAt x y lh h).canStoreHeat = true := rfl

theorem cellAt_not_destroyed (x y lu u : Int) : (cellAt x y lu u).isDestroyed = false := rfl

theorem ventedState_left (y : Nat) (h4 : y ≤ 4) (lh lu a l r b u : Int)
    (cur pend : SimulationState) :
    (ventedState y lh lu a l r b u cur pend).left 1 y = some (y * 3) := by
  unfold Reactor.left
  refine get_of_comp? (by omega) (by omega) (by simp [ventedState, crossState])
    (by simp [ventedState, crossState]; omega) ?_
    (crossState_comp?_L y h4 _ _ _ _ _ _ _) (ventAt_not_destroyed _ _ _ _)
  simp only [ventedState, crossState]
  omega

theorem ventedState_right (y : Nat) (h4 : y ≤ 4) (lh lu a l r b u : Int)
    (cur pend : SimulationState) :
    (ventedState y lh lu a l r b u cur pend).right 1 y = some (y * 3 + 2) := by
  unfold Reactor.right
  refine get_of_comp? (by omega) (by omega) (by simp [ventedState, crossState])
    (by simp [ventedState, crossState]; omega) ?_
    (crossState_comp?_R y h4 _ _ _ _ _ _ _) (ventAt_not_destroyed _ _ _ _)
  simp only [ventedState, crossState]
  omega

theorem ventedState_above (y : Nat) (h1 : 1 ≤ y) (h4 : y ≤ 4) (lh lu a l r b u : Int)
    (cur pend : SimulationState) :
    (ventedState y lh lu a l r b u cur pend).above 1 y = some ((y - 1) * 3 + 1) := by
  unfold Reactor.above
  refine get_of_comp? (by omega) (by omega) (by simp [ventedState, crossState])
    (by simp [ventedState, crossState]; omega) ?_
    (crossState_comp?_A y h1 h4 _ _ _ _ _ _ _) (ventAt_not_destroyed _ _ _ _)
  simp only [ventedState, crossState]
  omega

theorem ventedState_below (y : Nat) (h4 : y ≤ 4) (lh lu a l r b u : Int)
    (cur pend : SimulationState) :
    (ventedState y lh lu a l r b u cur pend).below 1 y = some ((y + 1) * 3 + 1) := by
  unfold Reactor.below
  refine get_of_comp? (by omega) (by omega) (by simp [ventedState, crossState])
    (by simp [ventedState, crossState]; omega) ?_
    (crossState_comp?_B y h4 _ _ _ _ _ _ _) (ventAt_not_destroyed _ _ _ _)
  simp only [ventedState, crossState]
  omega

theorem ventedState_comp?_C (y : Nat) (h4 : y ≤ 4) (lh lu a l r b u : Int)
    (cur pend : SimulationState) :
    (ventedState y lh lu a l r b u cur pend).comp? (y * 3 + 1) = some (cellAt 1 y lu u) :=
  crossState_comp?_C y h4 _ _ _ _ _ _ _

theorem ventedState_comp?_A (y : Nat) (h1 : 1 ≤ y) (h4 : y ≤ 4) (lh lu a l r b u : Int)
    (cur pend : SimulationState) :
    (ventedState y lh lu a l r b u cur pend).comp? ((y - 1) * 3 + 1)
      = some (ventAt 1 ((y : Int) - 1) lh a) :=
  crossState_comp?_A y h1 h4 _ _ _ _ _ _ _

theorem ventedState_comp?_L (y : Nat) (h4 : y ≤ 4) (lh lu a l r b u : Int)
    (cur pend : SimulationState) :
    (ventedState y lh lu a l r b u cur pend).comp? (y * 3) = some (ventAt 0 y lh l) :=
  crossState_comp?_L y h4 _ _ _ _ _ _ _

theorem ventedState_comp?_R (y : Nat) (h4 : y ≤ 4) (lh lu a l r b u : Int)
    (cur pend : SimulationState) :
    (ventedState y lh lu a l r b u cur pend).comp? (y * 3 + 2) = some (ventAt 2 y 0 r) :=
  crossState_comp?_R y h4 _ _ _ _ _ _ _

theorem ventedState_comp?_B (y : Nat) (h4 : y ≤ 4) (lh lu a l r b u : Int)
    (cur pend : SimulationState) :
    (ventedState y lh lu a l r b u cur pend).comp? ((y + 1) * 3 + 1)
      = some (ventAt 1 ((y : Int) + 1) 0 b) :=
  crossState_comp?_B y h4 _ _ _ _ _ _ _

theorem checkPulseable_ventAt {r : Reactor} {j : Nat} {x y lh h : Int} (phase : SimPhase)
    (hc : r.comp? j = some (ventAt x y lh h)) :
    UraniumCell.checkPulseable r (some j) phase = (r, 0) := by
  unfold UraniumCell.checkPulseable
  simp only [acceptUraniumPulse_ventAt phase hc]
  rfl

theorem pulseNeighbours_ventedState (y : Nat) (h1 : 1 ≤ y) (h4 : y ≤ 4) (lh lu a l r b u : Int)
    (cur pend : SimulationState) (phase : SimPhase) :
    UraniumCell.pulseNeighbours (ventedState y lh lu a l r b u cur pend) 1 y phase
      = (ventedState y lh lu a l r b u cur pend, 0) := by
  unfold UraniumCell.pulseNeighbours
  simp only [ventedState_left y h4, ventedState_right y h4, ventedState_above y h1 h4,
    ventedState_below y h4,
    checkPulseable_ventAt phase (ventedState_comp?_L y h4 lh lu a l r b u cur pend),
    checkPulseable_ventAt phase (ventedState_comp?_R y h4 lh lu a l r b u cur pend),
    checkPulseable_ventAt phase (ventedState_comp?_A y h1 h4 lh lu a l r b u cur pend),
    checkPulseable_ventAt phase (ventedState_comp?_B y h4 lh lu a l r b u cur pend)]
  rfl

theorem heatAcceptors_ventedState (y : Nat) (h1 : 1 ≤ y) (h4 : y ≤ 4) (lh lu a l r b u : Int)
    (cur pend : SimulationState) :
    heatAcceptors (ventedState y lh lu a l r b u cur pend) 1 y
      = [y * 3, y * 3 + 2, (y - 1) * 3 + 1, (y + 1) * 3 + 1] := by
  unfold heatAcceptors
  simp only [ventedState_left y h4, ventedState_right y h4, ventedState_above y h1 h4,
    ventedState_below y h4, List.filterMap_cons, List.filterMap_nil,
    ventedState_comp?_L y h4, ventedState_comp?_R y h4,
    ventedState_comp?_A y h1 h4, ventedState_comp?_B y h4, ventAt_canStoreHeat, if_true]

theorem alterHeat_ventedState_L (y : Nat) (h4 : y ≤ 4) (lh lu a l r b u : Int)
    (cur pend : SimulationState) (hl : 0 ≤ l + 1 ∧ l + 1 ≤ 1000) :
    ReactorComponent.alterHeat (ventedState y lh lu a l r b u cur pend) (y * 3) 1
      = (ventedState y lh lu a (l + 1) r b u cur pend, 0) := by
  rw [alterHeat_ventAt 1 (ventedState_comp?_L y h4 _ _ _ _ _ _ _ _ _) hl.1 hl.2]
  unfold ventedState
  rw [crossState_setComp_L]

theorem alterHeat_ventedState_R (y : Nat) (h4 : y ≤ 4) (lh lu a l r b u : Int)
    (cur pend : SimulationState) (hr : 0 ≤ r + 1 ∧ r + 1 ≤ 1000) :
    ReactorComponent.alterHeat (ventedState y lh lu a l r b u cur pend) (y * 3 + 2) 1
      = (ventedState y lh lu a l (r + 1) b u cur pend, 0) := by
  rw [alterHeat_ventAt 1 (ventedState_comp?_R y h4 _ _ _ _ _ _ _ _ _) hr.1 hr.2]
  unfold ventedState
  rw [crossState_setComp_R]

theorem alterHeat_ventedState_A (y : Nat) (h1 : 1 ≤ y) (h4 : y ≤ 4) (lh lu a l r b u : Int)
    (cur pend : SimulationState) (ha : 0 ≤ a + 1 ∧ a + 1 ≤ 1000) :
    ReactorComponent.alterHeat (ventedState y lh lu a l r b u cur pend) ((y - 1) * 3 + 1) 1
      = (ventedState y lh lu (a + 1) l r b u cur pend, 0) := by
  rw [alterHeat_ventAt 1 (ventedState_comp?_A y h1 h4 _ _ _ _ _ _ _ _ _) ha.1 ha.2]
  unfold ventedState
  rw [crossState_setComp_A y h1]

theorem alterHeat_ventedState_B (y : Nat) (h1 : 1 ≤ y) (h4 : y ≤ 4) (lh lu a l r b u : Int)
    (cur pend : SimulationState) (hb : 0 ≤ b + 1 ∧ b + 1 ≤ 1000) :
    ReactorComponent.alterHeat (ventedState y lh lu a l r b u cur pend) ((y + 1) * 3 + 1) 1
      = (ventedState y lh lu a l r (b + 1) u cur pend, 0) := by
  rw [alterHeat_ventAt 1 (ventedState_comp?_B y h4 _ _ _ _ _ _ _ _ _) hb.1 hb.2]
  unfold ventedState
  rw [crossState_setComp_B y h1]

theorem distributeHeat_ventedState (y : Nat) (h1 : 1 ≤ y) (h4 : y ≤ 4) (lh lu a l r b u : Int)
    (cur pend : SimulationState)
    (ha : 0 ≤ a + 1 ∧ a + 1 ≤ 1000) (hl : 0 ≤ l + 1 ∧ l + 1 ≤ 1000)
    (hr : 0 ≤ r + 1 ∧ r + 1 ≤ 1000) (hb : 0 ≤ b + 1 ∧ b + 1 ≤ 1000) :
    UraniumCell.distributeHeat (ventedState y lh lu a l r b u cur pend) 4
        [y * 3, y * 3 + 2, (y - 1) * 3 + 1, (y + 1) * 3 + 1]
      = (ventedState y lh lu (a + 1) (l + 1) (r + 1) (b + 1) u cur pend, 0) := by
  have e4 : Int.tdiv 4 (((3 : Nat) : Int) + 1) = 1 := by decide
  have e3 : Int.tdiv (4 - 1 + 0) (((2 : Nat) : Int) + 1) = 1 := by decide
  have e2 : Int.tdiv (4 - 1 + 0 - 1 + 0) (((1 : Nat) : Int) + 1) = 1 := by decide
  have e1 : Int.tdiv (4 - 1 + 0 - 1 + 0 - 1 + 0) (((0 : Nat) : Int) + 1) = 1 := by decide
  simp only [UraniumCell.distributeHeat, List.length_cons, List.length_nil, Nat.zero_add,
    Nat.reduceAdd, e4, e3, e2, e1, alterHeat_ventedState_L y h4 _ _ _ _ _ _ _ _ _ hl,
    alterHeat_ventedState_R y h4 _ _ _ _ _ _ _ _ _ hr,
    alterHeat_ventedState_A y h1 h4 _ _ _ _ _ _ _ _ _ ha,
    alterHeat_ventedState_B y h1 h4 _ _ _ _ _ _ _ _ _ hb]
  rfl

theorem sumUp_one : UraniumCell.sumUp 1 = 1 := by decide

theorem range_one_eq : List.range 1 = [0] := by decide

theorem tickIdx_heat_cell_ventedState (y : Nat) (h1 : 1 ≤ y) (h4 : y ≤ 4)
    (lh lu a l r b u : Int) (cur pend : SimulationState) (hu : u ≤ 10000)
    (ha : 0 ≤ a + 1 ∧ a + 1 ≤ 1000) (hl : 0 ≤ l + 1 ∧ l + 1 ≤ 1000)
    (hr : 0 ≤ r + 1 ∧ r + 1 ≤ 1000) (hb : 0 ≤ b + 1 ∧ b + 1 ≤ 1000) :
    Reactor.tickIdx SimPhase.PHASE_HEAT_RUN (ventedState y lh lu a l r b u cur pend) (y * 3 + 1)
      = ventedState y lh lu (a + 1) (l + 1) (r + 1) (b + 1) (u + 1) cur pend := by
  have e0 : (1 : Int) + Int.tdiv 1 2 + 0 = 1 := by decide
  have hcell : UraniumCell.tickCell (y * 3 + 1) 1 y 1 SimPhase.PHASE_HEAT_RUN
      (ventedState y lh lu a l r b u cur pend)
      = ventedState y lh lu (a + 1) (l + 1) (r + 1) (b + 1) u cur pend := by
    unfold UraniumCell.tickCell
    simp only [ne_eq, not_true_eq_false, if_false, pulseNeighbours_ventedState y h1 h4, e0,
      sumUp_one, heatAcceptors_ventedState y h1 h4]
    rw [show (1 : Int) * 4 = 4 from rfl, distributeHeat_ventedState y h1 h4 _ _ _ _ _ _ _ _ _
      ha hl hr hb]
    simp
  unfold Reactor.tickIdx ReactorComponent.tick
  rw [ventedState_comp?_C y h4]
  simp only [cellAt_not_destroyed, Bool.false_eq_true, if_false]
  simp only [cellAt, UraniumCell.mk0, ComponentBase.mk0, UraniumCell.tick, hu, if_true,
    Int.toNat_one, range_one_eq, List.foldl_cons, List.foldl_nil, hcell]
  rw [ventedState_comp?_C y h4]
  simp only [cellAt, UraniumCell.mk0, ComponentBase.mk0]
  exact crossState_setComp_C y _ _ _ _ _ _ _ _

theorem tickIdx_power_cell_ventedState (y : Nat) (h1 : 1 ≤ y) (h4 : y ≤ 4)
    (lh lu a l r b u : Int) (cur pend : SimulationState) (hu : u ≤ 10000) :
    Reactor.tickIdx SimPhase.PHASE_POWER (ventedState y lh lu a l r b u cur pend) (y * 3 + 1)
      = ventedState y lh lu a l r b u cur { pend with euGenerated := pend.euGenerated + 5 } := by
  have e0 : ((1 : Int) + Int.tdiv 1 2).toNat = 1 := by decide
  have hacc : ReactorComponent.acceptUraniumPulse (ventedState y lh lu a l r b u cur pend)
      (y * 3 + 1) SimPhase.PHASE_POWER
      = (ventedState y lh lu a l r b u cur { pend with euGenerated := pend.euGenerated + 5 },
          true) := by
    unfold ReactorComponent.acceptUraniumPulse
    rw [ventedState_comp?_C y h4]
    simp only [cellAt, UraniumCell.mk0, UraniumCell.acceptUraniumPulse, hu, if_true]
    rfl
  have hcell : UraniumCell.tickCell (y * 3 + 1) 1 y 1 SimPhase.PHASE_POWER
      (ventedState y lh lu a l r b u cur pend)
      = ventedState y lh lu a l r b u cur { pend with euGenerated := pend.euGenerated + 5 } := by
    unfold UraniumCell.tickCell
    simp only [ne_eq, reduceCtorEq, not_false_eq_true, if_true, e0, range_one_eq,
      List.foldl_cons, List.foldl_nil, hacc, pulseNeighbours_ventedState y h1 h4]
  unfold Reactor.tickIdx ReactorComponent.tick
  rw [ventedState_comp?_C y h4]
  simp only [cellAt_not_destroyed, Bool.false_eq_true, if_false]
  simp only [cellAt, UraniumCell.mk0, ComponentBase.mk0, UraniumCell.tick, hu, if_true,
    Int.toNat_one, range_one_eq, List.foldl_cons, List.foldl_nil, hcell, reduceCtorEq, if_false]

theorem tickIdx_heat_ventedState_A (y : Nat) (h1 : 1 ≤ y) (h4 : y ≤ 4) (lh lu a l r b u : Int)
    (cur pend : SimulationState) (ha : a < 6) :
    Reactor.tickIdx SimPhase.PHASE_HEAT_RUN (ventedState y lh lu a l r b u cur pend)
        ((y - 1) * 3 + 1)
      = ventedState y lh lu 0 l r b u cur pend := by
  rw [tickIdx_heat_ventAt (ventedState_comp?_A y h1 h4 _ _ _ _ _ _ _ _ _) ha]
  exact crossState_setComp_A y h1 _ _ _ _ _ _ _ _

theorem tickIdx_heat_ventedState_L (y : Nat) (h4 : y ≤ 4) (lh lu a l r b u : Int)
    (cur pend : SimulationState) (hl : l < 6) :
    Reactor.tickIdx SimPhase.PHASE_HEAT_RUN (ventedState y lh lu a l r b u cur pend) (y * 3)
      = ventedState y lh lu a 0 r b u cur pend := by
  rw [tickIdx_heat_ventAt (ventedState_comp?_L y h4 _ _ _ _ _ _ _ _ _) hl]
  exact crossState_setComp_L y _ _ _ _ _ _ _ _

theorem tickIdx_heat_ventedState_R (y : Nat) (h4 : y ≤ 4) (lh lu a l r b u : Int)
    (cur pend : SimulationState) (hr : r < 6) :
    Reactor.tickIdx SimPhase.PHASE_HEAT_RUN (ventedState y lh lu a l r b u cur pend) (y * 3 + 2)
      = ventedState y lh lu a l 0 b u cur pend := by
  rw [tickIdx_heat_ventAt (ventedState_comp?_R y h4 _ _ _ _ _ _ _ _ _) hr]
  exact crossState_setComp_R y _ _ _ _ _ _ _ _

theorem tickIdx_heat_ventedState_B (y : Nat) (h1 : 1 ≤ y) (h4 : y ≤ 4) (lh lu a l r b u : Int)
    (cur pend : SimulationState) (hb : b < 6) :
    Reactor.tickIdx SimPhase.PHASE_HEAT_RUN (ventedState y lh lu a l r b u cur pend)
        ((y + 1) * 3 + 1)
      = ventedState y lh lu a l r 0 u cur pend := by
  rw [tickIdx_heat_ventAt (ventedState_comp?_B y h4 _ _ _ _ _ _ _ _ _) hb]
  exact crossState_setComp_B y h1 _ _ _ _ _ _ _ _

theorem runTickPhase_ventedState (phase : SimPhase) (y : Nat) (h1 : 1 ≤ y) (h4 : y ≤ 4)
    (lh lu a l r b u : Int) (cur pend : SimulationState) :
    (ventedState y lh lu a l r b u cur pend).runTickPhase phase
      = [(y - 1) * 3 + 1, y * 3, y * 3 + 1, y * 3 + 2, (y + 1) * 3 + 1].foldl
          (Reactor.tickIdx phase) (ventedState y lh lu a l r b u cur pend) := by
  rw [runTickPhase_eq_foldl phase _ 3 6 rfl rfl,
    foldl_tickIdx_filter phase _ (ventedState y lh lu a l r b u cur pend) _ rfl]
  unfold ventedState
  rw [crossState_filter y h1 h4]

theorem runTickPhase_heat_ventedState (y : Nat) (h1 : 1 ≤ y) (h4 : y ≤ 4)
    (lh lu a l u : Int) (cur pend : SimulationState)
    (ha : 0 ≤ a ∧ a < 6) (hl : 0 ≤ l ∧ l < 6) (hu : u ≤ 10000) :
    (ventedState y lh lu a l 0 0 u cur pend).runTickPhase SimPhase.PHASE_HEAT_RUN
      = ventedState y lh lu 1 1 0 0 (u + 1) cur pend := by
  rw [runTickPhase_ventedState _ y h1 h4]
  simp only [List.foldl_cons, List.foldl_nil]
  rw [tickIdx_heat_ventedState_A y h1 h4 _ _ _ _ _ _ _ _ _ ha.2,
    tickIdx_heat_ventedState_L y h4 _ _ _ _ _ _ _ _ _ hl.2,
    tickIdx_heat_cell_ventedState y h1 h4 _ _ _ _ _ _ _ _ _ hu (by decide) (by decide)
      (by decide) (by decide),
    tickIdx_heat_ventedState_R y h4 _ _ _ _ _ _ _ _ _ (by decide),
    tickIdx_heat_ventedState_B y h1 h4 _ _ _ _ _ _ _ _ _ (by decide)]
  rfl

theorem runTickPhase_power_ventedState (y : Nat) (h1 : 1 ≤ y) (h4 : y ≤ 4)
    (lh lu a l r b u : Int) (cur pend : SimulationState) (hu : u ≤ 10000) :
    (ventedState y lh lu a l r b u cur pend).runTickPhase SimPhase.PHASE_POWER
      = ventedState y lh lu a l r b u cur { pend with euGenerated := pend.euGenerated + 5 } := by
  rw [runTickPhase_ventedState _ y h1 h4]
  simp only [List.foldl_cons, List.foldl_nil]
  rw [tickIdx_power_ventAt (ventedState_comp?_A y h1 h4 _ _ _ _ _ _ _ _ _),
    tickIdx_power_ventAt (ventedState_comp?_L y h4 _ _ _ _ _ _ _ _ _),
    tickIdx_power_cell_ventedState y h1 h4 _ _ _ _ _ _ _ _ _ hu,
    tickIdx_power_ventAt (ventedState_comp?_R y h4 _ _ _ _ _ _ _ _ _),
    tickIdx_power_ventAt (ventedState_comp?_B y h4 _ _ _ _ _ _ _ _ _)]

theorem range18 :
    List.range 18 = [0, 1, 2, 3, 4, 5, 6, 7, 8, 9, 10, 11, 12, 13, 14, 15, 16, 17] := by
  decide

theorem totalHeat_ventedState (y : Nat) (h1 : 1 ≤ y) (h4 : y ≤ 4)
    (lh lu a l r b u t : Int) (cur pend : SimulationState) :
    (ventedState y lh lu a l r b u cur pend).components.foldl
        (fun t comp =>
          match comp with
          | none => t
          | some c => t + c.getCurrentHeat)
        t
      = t + a + l + r + b := by
  interval_cases y <;>
    simp [ventedState, crossState, range18, crossCells, ventAt, cellAt,
      ReactorComponent.getCurrentHeat, HeatVent.mk0, Heatable.mk0]

theorem tick_ventedState (y : Nat) (h1 : 1 ≤ y) (h4 : y ≤ 4)
    (lh lu a l u : Int) (cur pend : SimulationState)
    (ha : 0 ≤ a ∧ a < 6) (hl : 0 ≤ l ∧ l < 6) (hu : u < 10000) :
    (ventedState y lh lu a l 0 0 u cur pend).runTick.incTick
      = ventedState y lh lu 1 1 0 0 (u + 1) cur
          { curTick := pend.curTick + 1
            meltdown := pend.meltdown
            componentFailed := pend.componentFailed
            euGenerated := pend.euGenerated + 5
            totalHeat := pend.reactorHeat + 2
            reactorHeat := pend.reactorHeat } := by
  unfold Reactor.runTick
  simp only
  rw [show ({ ventedState y lh lu a l 0 0 u cur pend with maxHeat := 10000 } : Reactor)
      = ventedState y lh lu a l 0 0 u cur pend from rfl,
    runTickPhase_heat_ventedState y h1 h4 _ _ _ _ _ _ _ ha hl (by omega),
    runTickPhase_power_ventedState y h1 h4 _ _ _ _ _ _ _ _ _ (by omega),
    totalHeat_ventedState y h1 h4]
  simp only [ventedState, crossState, Reactor.incTick, Reactor.getHeat, Reactor.mk.injEq,
    SimulationState.mk.injEq, true_and, and_true]
  ring

theorem commit_ventedState (y : Nat) (lh lu h u : Int) (cur pend : SimulationState) :
    (ventedState y lh lu h h 0 0 u cur pend).commit = ventedState y h u h h 0 0 u pend pend := by
  unfold Reactor.commit ventedState crossState
  simp only [List.map_map, Reactor.mk.injEq, true_and, and_true]
  apply List.map_congr_left
  intro i _
  simp only [Function.comp, crossCells]
  split_ifs <;> rfl

theorem ventedPending_succ (k : Int) :
    ({ curTick := (ventedPending k).curTick + 1
       meltdown := (ventedPending k).meltdown
       componentFailed := (ventedPending k).componentFailed
       euGenerated := (ventedPending k).euGenerated + 5
       totalHeat := (ventedPending k).reactorHeat + 2
       reactorHeat := (ventedPending k).reactorHeat } : SimulationState)
      = ventedPending (k + 1) := by
  simp only [ventedPending, SimulationState.mk.injEq, true_and, and_true]
  constructor <;> ring

theorem stopCheck_run_ventedState (y : Nat) (lh lu a l r b u k : Int) (cur : SimulationState) :
    Reactor.stopCheck true true false true (ventedState y lh lu a l r b u cur (ventedPending k))
      = if k ≥ 10000 then some RunUntilStopReason.STOPPED_ON_FUEL_USED else none := by
  unfold Reactor.stopCheck
  simp only [ventedState, crossState, ventedPending, Reactor.fuelTicks, Reactor.timeoutTicks,
    Bool.false_and, Bool.and_false, Bool.false_eq_true, if_false, Bool.and_true,
    decide_eq_true_eq]
  split_ifs <;> first | rfl | omega

theorem runUntilLoop_ventedState (y : Nat) (h1 : 1 ≤ y) (h4 : y ≤ 4) (d : Nat) :
    ∀ (k lh lu : Int) (cur : SimulationState) (last : Int) (extra : Nat),
      k + d = 9999 → 0 ≤ k →
      Reactor.runUntilLoop true true false true (d + 2 + extra)
          (ventedState y lh lu 1 1 0 0 k cur (ventedPending k)) false last
        = some (RunUntilStopReason.STOPPED_ON_FUEL_USED,
            ventedState y 1 9999 1 1 0 0 10000 (ventedPending 9999) (ventedPending 10000)) := by
  induction d with
  | zero =>
    intro k lh lu cur last extra hk _
    have hk' : k = 9999 := by omega
    subst hk'
    rw [show 0 + 2 + extra = (extra + 1) + 1 by omega]
    unfold Reactor.runUntilLoop
    rw [stopCheck_run_ventedState]
    simp only [ge_iff_le, Int.reduceLE, if_false, Reactor.noHeatLossCheck, Bool.and_false,
      Bool.false_eq_true]
    rw [commit_ventedState, tick_ventedState y h1 h4 _ _ _ _ _ _ _ (by decide) (by decide)
      (by decide), ventedPending_succ]
    unfold Reactor.runUntilLoop
    rw [stopCheck_run_ventedState]
    rfl
  | succ d ih =>
    intro k lh lu cur last extra hk hk0
    rw [show d + 1 + 2 + extra = (d + 2 + extra) + 1 by omega]
    unfold Reactor.runUntilLoop
    rw [stopCheck_run_ventedState, if_neg (by omega)]
    simp only [Reactor.noHeatLossCheck, Bool.and_false, Bool.false_eq_true, if_false]
    rw [commit_ventedState, tick_ventedState y h1 h4 _ _ _ _ _ _ _ (by decide) (by decide)
      (by omega), ventedPending_succ]
    exact ih (k + 1) _ _ _ _ _ (by omega) (by omega)

theorem stopCheck_run (r : Reactor) (hm : r.pendingSimState.meltdown = false)
    (hc : r.pendingSimState.componentFailed = false) :
    Reactor.stopCheck true true false true r
      = if r.pendingSimState.curTick ≥ 10000 then some RunUntilStopReason.STOPPED_ON_FUEL_USED
        else none := by
  unfold Reactor.stopCheck
  simp only [hm, hc, Reactor.fuelTicks, Reactor.timeoutTicks,
    Bool.false_and, Bool.and_false, Bool.false_eq_true, if_false, Bool.and_true,
    decide_eq_true_eq]
  split_ifs <;> first | rfl | omega

theorem runUntil_ventedState (y : Nat) (h1 : 1 ≤ y) (h4 : y ≤ 4) (lh lu h th : Int)
    (cur : SimulationState) (hh : 0 ≤ h ∧ h < 6) (fuel : Nat) (hfuel : 10001 ≤ fuel) :
    (ventedState y lh lu h h 0 0 0 cur { ventedPending 0 with totalHeat := th }).runUntil fuel
        true true false true
      = some (RunUntilStopReason.STOPPED_ON_FUEL_USED, ventedStop y) := by
  obtain ⟨extra, rfl⟩ := Nat.exists_eq_add_of_le hfuel
  unfold Reactor.runUntil
  rw [show 10001 + extra = (9998 + 2 + extra) + 1 by omega]
  unfold Reactor.runUntilLoop
  rw [stopCheck_run _ rfl rfl, if_neg (by simp [ventedState, crossState, ventedPending])]
  simp only [Reactor.noHeatLossCheck, Bool.and_false, Bool.false_eq_true, if_false, if_true]
  rw [tick_ventedState y h1 h4 _ _ _ _ _ _ _ hh hh (by decide)]
  exact runUntilLoop_ventedState y h1 h4 9998 1 _ _ _ _ _ (by decide) (by decide)

theorem getTotalCost_ventedState (y : Nat) (h1 : 1 ≤ y) (h4 : y ≤ 4)
    (lh lu a l r b u : Int) (cur pend : SimulationState) :
    (ventedState y lh lu a l r b u cur pend).getTotalCost = 10 := by
  interval_cases y <;>
    simp [Reactor.getTotalCost, ventedState, crossState, range18, crossCells, ventAt, cellAt,
      ReactorComponent.base, HeatVent.mk0, Heatable.mk0, UraniumCell.mk0, ComponentBase.mk0]

theorem resetUsage_copy_ventedState (y : Nat) (lh lu a l r b u : Int)
    (cur pend : SimulationState) :
    (ventedState y lh lu a l r b u cur pend).copy.resetUsage
      = ventedState y lh 0 a l r b 0 { cur with curTick := 0, euGenerated := 0 }
          { cur with curTick := 0, euGenerated := 0 } := by
  unfold Reactor.resetUsage Reactor.copy ventedState crossState
  simp only [List.map_map, Reactor.mk.injEq, true_and, and_true]
  apply List.map_congr_left
  intro i _
  simp only [Function.comp, crossCells]
  split_ifs <;> rfl

theorem getCyclesUntilFailure_self (h m : Int) : getCyclesUntilFailure h h m = -1 :=
  getCyclesUntilFailure_neg_one_of h h m (Or.inl le_rfl)

theorem minCyclesOverComponents_self (l : List (Option ReactorComponent)) (m : Int) :
    minCyclesOverComponents l l m = some m := by
  induction l with
  | nil => rfl
  | cons c l ih =>
    cases c with
    | none => simpa [minCyclesOverComponents] using ih
    | some c =>
      simp only [minCyclesOverComponents, List.head?_cons, getCyclesUntilFailure_self,
        ne_eq, not_true_eq_false, if_false, List.tail_cons]
      exact ih

theorem stopCheck_cooled (r : Reactor) (h1 : r.pendingSimState.totalHeat = 2)
    (h2 : r.curSimState.totalHeat = 2) :
    Reactor.stopCheck false false true false r
      = some RunUntilStopReason.STOPPED_ON_COOLED_DOWN := by
  unfold Reactor.stopCheck
  simp [h1, h2]

theorem truncToInt_intCast (n : Int) : truncToInt (n : ℚ) = n := by
  unfold truncToInt
  split_ifs <;> simp

theorem commit_ventedStop (y : Nat) :
    (ventedStop y).commit
      = ventedState y 1 10000 1 1 0 0 10000 (ventedPending 10000) (ventedPending 10000) :=
  commit_ventedState y _ _ _ _ _ _

theorem runSimulationFuelUsed_ventedState (y : Nat) (h1 : 1 ≤ y) (h4 : y ≤ 4) (fuel : Nat)
    (hfuel : 10001 ≤ fuel) (results : SimulationResults) :
    runSimulationFuelUsed fuel results
        (ventedState y 1 10000 1 1 0 0 10000 (ventedPending 10000) (ventedPending 10000))
      = some { results with
          cooldownTicks := 0
          cycleTicks := 10000
          overallEUPerTick := results.euPerTick
          mark := 1 } := by
  unfold runSimulationFuelUsed
  rw [if_neg (by simp [ventedState, crossState, ventedPending])]
  simp only
  have hprobe : ∀ r : Reactor, r.pendingSimState = ventedPending 10000 →
      r.curSimState = ventedPending 10000 →
      r.runUntil fuel false false true false
        = some (RunUntilStopReason.STOPPED_ON_COOLED_DOWN, r) := by
    intro r hp hc
    obtain ⟨n, rfl⟩ := Nat.exists_eq_add_of_le' (show 1 ≤ fuel by omega)
    unfold Reactor.runUntil Reactor.runUntilLoop
    rw [stopCheck_cooled r (by rw [hp]; rfl) (by rw [hc]; rfl)]
  rw [hprobe _ rfl rfl]
  simp only [recordCooldown, if_true]
  rw [resetUsage_copy_ventedState]
  rw [show ({ ventedPending 10000 with curTick := 0, euGenerated := 0 } : SimulationState)
      = { ventedPending 0 with totalHeat := 2 } from rfl,
    runUntil_ventedState y h1 h4 _ _ _ _ _ (by decide) fuel hfuel]
  simp only [reduceCtorEq, if_false, if_true, commit_ventedStop]
  rw [minCyclesOverComponents_self, getCyclesUntilFailure_self]
  simp only [Reactor.fuelTicks, ite_true, Option.some.injEq, SimulationResults.mk.injEq,
    true_and, and_true]
  rfl

theorem runSimulation_ventedCell (y : Nat) (h1 : 1 ≤ y) (h4 : y ≤ 4) (fuel : Nat)
    (hfuel : 10001 ≤ fuel) :
    runSimulation fuel (ventedCellReactor y)
      = some (ventedResults,
          ventedState y 1 10000 1 1 0 0 10000 (ventedPending 10000) (ventedPending 10000)) := by
  unfold runSimulation
  rw [ventedCell_init y h1 h4]
  simp only []
  rw [getTotalCost_ventedState y h1 h4]
  rw [if_neg (show ¬ (ventedState y 0 0 0 0 0 0 0 {} {}).numUraniumCells = 0 by
    simp [ventedState, crossState])]
  rw [show ({} : SimulationState) = { ventedPending 0 with totalHeat := 0 } from rfl,
    runUntil_ventedState y h1 h4 _ _ _ _ _ (by decide) fuel hfuel]
  simp only [if_true, commit_ventedStop, reduceCtorEq, if_false]
  rw [runSimulationFuelUsed_ventedState y h1 h4 fuel hfuel]
  have e1 : (ventedState y 1 10000 1 1 0 0 10000 (ventedPending 10000)
      (ventedPending 10000)).curSimState.euGenerated = ((50000 : Int)) := rfl
  have e2 : (ventedState y 1 10000 1 1 0 0 10000 (ventedPending 10000)
      (ventedPending 10000)).curSimState.curTick = ((10000 : Int)) := rfl
  have e3 : (ventedState y 1 10000 1 1 0 0 10000 (ventedPending 10000)
      (ventedPending 10000)).numUraniumCells = ((1 : Int)) := rfl
  have e4 : (ventedState y 1 10000 1 1 0 0 10000 (ventedPending 10000)
      (ventedPending 10000)).usesSingleUseCoolant = false := rfl
  have e5 : truncToInt (((50000 : Int) : ℚ) / ((10000 : Int) : ℚ)) = 5 := by
    rw [show (((50000 : Int) : ℚ) / ((10000 : Int) : ℚ)) = ((5 : Int) : ℚ) by norm_num]
    exact truncToInt_intCast 5
  simp only [e1, e2, e3, e4, e5, Option.map_some', ventedResults, Option.some.injEq,
    Prod.mk.injEq, and_true, SimulationResults.mk.injEq, true_and]
  norm_num

theorem ventedCell_types (y : Nat) (h1 : 1 ≤ y) (h4 : y ≤ 4) :
    (ventedCellReactor y).getComponentTypes = ventedCellTypes y := by
  interval_cases y <;> decide

/-- C8: for the 3x6 device whose only components are a `URANIUM_CELL` at `(1, y)`,
`1 <= y <= 4`, and `HEAT_VENT`s at its four orthogonal neighbours, `runSimulation` (with
at least 10001 loop iterations allowed per run) returns a result with `mark = 1` and
`cycleTicks = 10000`. -/
theorem ventedCell_mark_one (y : Nat) (fuel : Nat) (h1 : 1 ≤ y) (h4 : y ≤ 4)
    (hfuel : 10001 ≤ fuel) :
    (ventedCellReactor y).getComponentTypes = ventedCellTypes y
    ∧ ∃ res r', runSimulation fuel (ventedCellReactor y) = some (res, r')
        ∧ res.mark = 1 ∧ res.cycleTicks = 10000 :=
  ⟨ventedCell_types y h1 h4, ventedResults, _, runSimulation_ventedCell y h1 h4 fuel hfuel, rfl, rfl⟩

theorem ventedCell_mark_one_witness :
    1 ≤ 1 ∧ 1 ≤ 4 ∧ 10001 ≤ 10001
    ∧ ∃ res r', runSimulation 10001 (ventedCellReactor 1) = some (res, r')
        ∧ res.mark = 1 ∧ res.cycleTicks = 10000 :=
  ⟨by decide, by decide, by decide,
    (ventedCell_mark_one 1 10001 (by decide) (by decide) (by decide)).2⟩

/-- C9 (as stated) fails: for the vented cell device at `y = 1`, `runSimulation` returns
`euPerTick = 5` but `efficiency = 5 / 5 / 1 = 1`, which is not within `0.1` of `0.2`. -/
theorem ventedCell_efficiency_not_one_fifth :
    ∃ res r', runSimulation 10001 (ventedCellReactor 1) = some (res, r')
      ∧ res.euPerTick = 5 ∧ res.efficiency = 1 ∧ ¬ |res.efficiency - 1 / 5| ≤ 1 / 10 :=
  ⟨ventedResults, _, runSimulation_ventedCell 1 (by decide) (by decide) 10001 (by decide), rfl,
    rfl, by
      rw [show ventedResults.efficiency = 1 from rfl, abs_of_nonneg (by norm_num)]
      norm_num⟩

/-- C9 (amended): for the 3x6 device whose only components are a `URANIUM_CELL` at
`(1, y)`, `1 <= y <= 4`, and `HEAT_VENT`s at its four orthogonal neighbours,
`runSimulation` returns `euPerTick = 5` and `efficiency = 1`, that is
`(energy per tick) / 5 / fuel units` with 5 EU per tick and 1 fuel unit. -/
theorem ventedCell_efficiency_one (y : Nat) (fuel : Nat) (h1 : 1 ≤ y) (h4 : y ≤ 4)
    (hfuel : 10001 ≤ fuel) :
    ∃ res r', runSimulation fuel (ventedCellReactor y) = some (res, r')
      ∧ res.euPerTick = 5 ∧ res.efficiency = 1
      ∧ res.efficiency = (res.euPerTick : ℚ) / 5 / (r'.numUraniumCells : ℚ) :=
  ⟨ventedResults, _, runSimulation_ventedCell y h1 h4 fuel hfuel, rfl, rfl,
    by norm_num [ventedResults, ventedState, crossState]⟩

theorem ventedCell_efficiency_one_witness :
    1 ≤ 1 ∧ 1 ≤ 4 ∧ 10001 ≤ 10001
    ∧ ∃ res r', runSimulation 10001 (ventedCellReactor 1) = some (res, r')
      ∧ res.euPerTick = 5 ∧ res.efficiency = 1
      ∧ res.efficiency = (res.euPerTick : ℚ) / 5 / (r'.numUraniumCells : ℚ) :=
  ⟨by decide, by decide, by decide,
    ventedCell_efficiency_one 1 10001 (by decide) (by decide) (by decide)⟩

/-! ## Devices whose components are all fuel cells (C10) -/

theorem fuelState_length (r0 : Reactor) (g : Nat → Option UraniumCell) (lu : Int) (mu : Nat → Int)
    (cur pend : SimulationState) :
    (fuelState r0 g lu mu cur pend).components.length = r0.components.length := by
  simp [fuelState]

theorem fuelState_comp? (r0 : Reactor) (g : Nat → Option UraniumCell) (lu : Int) (mu : Nat → Int)
    (cur pend : SimulationState) (i : Nat) :
    (fuelState r0 g lu mu cur pend).comp? i
      = if i < r0.components.length then (g i).map fun c => c.withUsage lu (mu i) else none := by
  unfold Reactor.comp? fuelState
  simp only [List.getElem?_map]
  split_ifs with h
  · rw [List.getElem?_range h]; rfl
  · rw [List.getElem?_eq_none (by simpa using h)]; rfl

theorem fuelState_get (r0 : Reactor) (g : Nat → Option UraniumCell) (hg : FuelGrid g) (lu : Int)
    (mu : Nat → Int) (cur pend : SimulationState) (x y : Int) :
    (fuelState r0 g lu mu cur pend).get x y
      = if x < 0 ∨ y < 0 ∨ x ≥ r0.width ∨ y ≥ r0.height then none
        else if (y * r0.width + x).toNat < r0.components.length
            ∧ (g (y * r0.width + x).toNat).isSome then some (y * r0.width + x).toNat
        else none := by
  unfold Reactor.get
  rw [fuelState_comp?]
  simp only [show (fuelState r0 g lu mu cur pend).width = r0.width from rfl,
    show (fuelState r0 g lu mu cur pend).height = r0.height from rfl]
  split_ifs with h1 h2 h3 h3
  · rfl
  · obtain ⟨c, hc⟩ := Option.isSome_iff_exists.mp h3.2
    simp [hc, UraniumCell.withUsage, ReactorComponent.isDestroyed, ReactorComponent.base,
      (hg _ _ hc).1]
  · have : g (y * r0.width + x).toNat = none := by
      cases hgi : g (y * r0.width + x).toNat with
      | none => rfl
      | some c => exact absurd ⟨h2, by simp [hgi]⟩ h3
    simp [this]
  · exact absurd h3.1 h2
  · rfl

theorem fuelState_get_static (r0 : Reactor) (g : Nat → Option UraniumCell) (hg : FuelGrid g)
    (lu lu' : Int) (mu mu' : Nat → Int) (cur pend cur' pend' : SimulationState) (x y : Int) :
    (fuelState r0 g lu mu cur pend).get x y = (fuelState r0 g lu' mu' cur' pend').get x y := by
  rw [fuelState_get r0 g hg, fuelState_get r0 g hg]

theorem fuelState_get_some (r0 : Reactor) (g : Nat → Option UraniumCell) (hg : FuelGrid g)
    (lu : Int) (mu : Nat → Int) (cur pend : SimulationState) (x y : Int) (j : Nat)
    (h : (fuelState r0 g lu mu cur pend).get x y = some j) :
    j < r0.components.length ∧ ∃ c, g j = some c := by
  rw [fuelState_get r0 g hg] at h
  split_ifs at h with h1 h2
  simp only [Option.some.injEq] at h
  subst h
  exact ⟨h2.1, Option.isSome_iff_exists.mp h2.2⟩

theorem acceptUraniumPulse_fuelState_heat (r0 : Reactor) (g : Nat → Option UraniumCell)
    (hg : FuelGrid g) (lu : Int) (mu : Nat → Int) (cur pend : SimulationState) (j : Nat)
    (hj : j < r0.components.length) (c : UraniumCell) (hc : g j = some c) (hmu : mu j ≤ 10000) :
    ReactorComponent.acceptUraniumPulse (fuelState r0 g lu mu cur pend) j SimPhase.PHASE_HEAT_RUN
      = (fuelState r0 g lu mu cur pend, true) := by
  unfold ReactorComponent.acceptUraniumPulse
  rw [fuelState_comp?, if_pos hj, hc]
  simp only [Option.map_some', UraniumCell.withUsage, UraniumCell.acceptUraniumPulse,
    (hg _ _ hc).2.1, hmu, if_true, reduceCtorEq, if_false]

theorem checkPulseable_fuelState_heat (r0 : Reactor) (g : Nat → Option UraniumCell)
    (hg : FuelGrid g) (lu : Int) (mu : Nat → Int) (cur pend : SimulationState)
    (hmu : ∀ i, mu i ≤ 10000) (x y : Int) :
    UraniumCell.checkPulseable (fuelState r0 g lu mu cur pend)
        ((fuelState r0 g lu mu cur pend).get x y) SimPhase.PHASE_HEAT_RUN
      = (fuelState r0 g lu mu cur pend,
          if ((fuelState r0 g lu mu cur pend).get x y).isSome then 1 else 0) := by
  cases hget : (fuelState r0 g lu mu cur pend).get x y with
  | none => rfl
  | some j =>
    obtain ⟨hj, c, hc⟩ := fuelState_get_some r0 g hg lu mu cur pend x y j hget
    unfold UraniumCell.checkPulseable
    simp only [acceptUraniumPulse_fuelState_heat r0 g hg lu mu cur pend j hj c hc (hmu j),
      Option.isSome_some, if_true]

theorem pulseNeighbours_fuelState_heat (r0 : Reactor) (g : Nat → Option UraniumCell)
    (hg : FuelGrid g) (lu : Int) (mu : Nat → Int) (cur pend : SimulationState)
    (hmu : ∀ i, mu i ≤ 10000) (x y : Int) :
    UraniumCell.pulseNeighbours (fuelState r0 g lu mu cur pend) x y SimPhase.PHASE_HEAT_RUN
      = (fuelState r0 g lu mu cur pend, (fuelState r0 g lu mu cur pend).liveNeighbours x y) := by
  unfold UraniumCell.pulseNeighbours Reactor.liveNeighbours Reactor.left Reactor.right
    Reactor.above Reactor.below
  simp only [checkPulseable_fuelState_heat r0 g hg lu mu cur pend hmu]

theorem heatAcceptors_fuelState (r0 : Reactor) (g : Nat → Option UraniumCell)
    (hg : FuelGrid g) (lu : Int) (mu : Nat → Int) (cur pend : SimulationState) (x y : Int) :
    heatAcceptors (fuelState r0 g lu mu cur pend) x y = [] := by
  have key : ∀ x y : Int,
      (match (fuelState r0 g lu mu cur pend).get x y with
        | none => (none : Option Nat)
        | some j =>
          match (fuelState r0 g lu mu cur pend).comp? j with
          | none => none
          | some c => if c.canStoreHeat then some j else none) = none := by
    intro x y
    cases hget : (fuelState r0 g lu mu cur pend).get x y with
    | none => rfl
    | some j =>
      obtain ⟨hj, c, hc⟩ := fuelState_get_some r0 g hg lu mu cur pend x y j hget
      simp only [fuelState_comp?, hj, if_true, hc, Option.map_some', UraniumCell.withUsage,
        ReactorComponent.canStoreHeat, Bool.false_eq_true, if_false]
  unfold heatAcceptors Reactor.left Reactor.right Reactor.above Reactor.below
  simp only [List.filterMap_cons, List.filterMap_nil, key]

theorem sumUp_eq (n : Nat) : UraniumCell.sumUp n = (n : Int) * (n + 1) / 2 := by
  unfold UraniumCell.sumUp
  rw [Int.toNat_ofNat]
  have h : ∀ m : Nat,
      2 * (List.range m).foldl (fun (sum : Int) (k : Nat) => sum + ((k : Int) + 1)) 0
        = (m : Int) * (m + 1) := by
    intro m
    induction m with
    | zero => simp
    | succ m ih =>
      rw [List.range_succ, List.foldl_append]
      simp only [List.foldl_cons, List.foldl_nil]
      push_cast
      linarith
  have := h n
  omega

theorem sumUp_pos (p : Int) (hp : 1 ≤ p) : 1 ≤ UraniumCell.sumUp p := by
  obtain ⟨n, rfl⟩ := Int.eq_ofNat_of_zero_le (show 0 ≤ p by omega)
  rw [sumUp_eq]
  have : (1 : Int) ≤ n := hp
  have h2 : (2 : Int) ≤ (n : Int) * (n + 1) := by nlinarith
  omega

theorem liveNeighbours_nonneg (r : Reactor) (x y : Int) : 0 ≤ r.liveNeighbours x y := by
  unfold Reactor.liveNeighbours
  split_ifs <;> omega

theorem liveNeighbours_fuelState (r0 : Reactor) (g : Nat → Option UraniumCell) (hg : FuelGrid g)
    (lu : Int) (mu : Nat → Int) (cur pend : SimulationState) (x y : Int) :
    (fuelState r0 g lu mu cur pend).liveNeighbours x y
      = (fuelState r0 g 0 (fun _ => 0) {} {}).liveNeighbours x y := by
  unfold Reactor.liveNeighbours Reactor.left Reactor.right Reactor.above Reactor.below
  simp only [fuelState_get_static r0 g hg lu 0 mu (fun _ => 0) cur pend {} {}]

theorem addHeat_fuelState (r0 : Reactor) (g : Nat → Option UraniumCell) (lu : Int)
    (mu : Nat → Int) (cur : SimulationState) (k H eu th h : Int) (hh : 0 ≤ h) :
    (fuelState r0 g lu mu cur (fuelPending k H eu th)).addHeat h
      = fuelState r0 g lu mu cur (fuelPending k (H + h) eu th) := by
  unfold Reactor.addHeat Reactor.heatCapacityExceeded
  simp only [fuelState, fuelPending, ge_iff_le]
  split_ifs with h1
  · simp [h1]
  · have h2 : ¬ (10000 ≤ H) := by omega
    simp [h1, h2]

theorem tickCell_fuelState_heat (r0 : Reactor) (g : Nat → Option UraniumCell) (hg : FuelGrid g)
    (lu : Int) (mu : Nat → Int) (cur : SimulationState) (k H eu th : Int)
    (hmu : ∀ i, mu i ≤ 10000) (i : Nat) (x y n : Int) (hn : 1 ≤ n) :
    UraniumCell.tickCell i x y n SimPhase.PHASE_HEAT_RUN
        (fuelState r0 g lu mu cur (fuelPending k H eu th))
      = fuelState r0 g lu mu cur
          (fuelPending k
            (H + UraniumCell.sumUp (1 + n.tdiv 2
              + (fuelState r0 g 0 (fun _ => 0) {} {}).liveNeighbours x y) * 4) eu th) := by
  have hdiv : 0 ≤ n.tdiv 2 := Int.tdiv_nonneg (by omega) (by omega)
  have hnb := liveNeighbours_nonneg (fuelState r0 g 0 (fun _ => 0) {} {}) x y
  have hs := sumUp_pos (1 + n.tdiv 2
    + (fuelState r0 g 0 (fun _ => 0) {} {}).liveNeighbours x y) (by omega)
  unfold UraniumCell.tickCell
  simp only [ne_eq, not_true_eq_false, if_false,
    pulseNeighbours_fuelState_heat r0 g hg lu mu cur _ hmu, heatAcceptors_fuelState r0 g hg,
    UraniumCell.distributeHeat, liveNeighbours_fuelState r0 g hg lu mu cur]
  rw [if_pos (by omega), addHeat_fuelState _ _ _ _ _ _ _ _ _ _ (by omega)]

theorem foldl_tickCell_fuelState_heat (r0 : Reactor) (g : Nat → Option UraniumCell)
    (hg : FuelGrid g) (lu : Int) (mu : Nat → Int) (cur : SimulationState) (k eu th : Int)
    (hmu : ∀ i, mu i ≤ 10000) (i : Nat) (x y n : Int) (hn : 1 ≤ n) (m : Nat) (H : Int) :
    (List.range m).foldl
        (fun r _ => UraniumCell.tickCell i x y n SimPhase.PHASE_HEAT_RUN r)
        (fuelState r0 g lu mu cur (fuelPending k H eu th))
      = fuelState r0 g lu mu cur
          (fuelPending k
            (H + (m : Int) * (UraniumCell.sumUp (1 + n.tdiv 2
              + (fuelState r0 g 0 (fun _ => 0) {} {}).liveNeighbours x y) * 4)) eu th) := by
  induction m with
  | zero => simp
  | succ m ih =>
    rw [List.range_succ, List.foldl_append, ih]
    simp only [List.foldl_cons, List.foldl_nil]
    rw [tickCell_fuelState_heat r0 g hg lu mu cur k _ eu th hmu i x y n hn]
    congr 2
    push_cast
    ring

theorem fuelState_setComp (r0 : Reactor) (g : Nat → Option UraniumCell) (lu : Int)
    (mu : Nat → Int) (cur pend : SimulationState) (i : Nat) (c : UraniumCell)
    (hc : g i = some c) (v : Int) :
    (fuelState r0 g lu mu cur pend).setComp i (c.withUsage lu v)
      = fuelState r0 g lu (Function.update mu i v) cur pend := by
  unfold Reactor.setComp fuelState
  simp only [set_map_range, Reactor.mk.injEq, true_and, and_true]
  apply List.map_congr_left
  intro j _
  by_cases hj : j = i
  · subst hj
    simp [hc]
  · simp [Function.update, hj]

theorem fuelState_congr (r0 : Reactor) (g : Nat → Option UraniumCell) (lu : Int)
    (mu mu' : Nat → Int) (cur pend : SimulationState)
    (h : ∀ i, i < r0.components.length → (g i).isSome → mu i = mu' i) :
    fuelState r0 g lu mu cur pend = fuelState r0 g lu mu' cur pend := by
  unfold fuelState
  simp only [Reactor.mk.injEq, true_and, and_true]
  apply List.map_congr_left
  intro j hj'
  cases hj : g j with
  | none => rfl
  | some c => simp [h j (List.mem_range.mp hj') (by simp [hj])]

theorem tickIdx_fuelState_heat (r0 : Reactor) (g : Nat → Option UraniumCell) (hg : FuelGrid g)
    (lu : Int) (mu : Nat → Int) (cur : SimulationState) (k H eu th : Int)
    (hmu : ∀ i, mu i ≤ 10000) (i : Nat) (hi : i < r0.components.length) :
    Reactor.tickIdx SimPhase.PHASE_HEAT_RUN (fuelState r0 g lu mu cur (fuelPending k H eu th)) i
      = fuelState r0 g lu (Function.update mu i (mu i + 1)) cur
          (fuelPending k (H + fuelHeatAt r0 g i) eu th) := by
  unfold Reactor.tickIdx fuelHeatAt
  rw [fuelState_comp?, if_pos hi]
  cases hc : g i with
  | none =>
    simp only [Option.map_none', add_zero]
    exact fuelState_congr _ _ _ _ _ _ _ (fun j _ hj => by
      by_cases hji : j = i
      · subst hji; simp [hc] at hj
      · simp [Function.update, hji])
  | some c =>
    obtain ⟨hd, hmax, hn, _⟩ := hg i c hc
    have hdes : (c.withUsage lu (mu i)).isDestroyed = false := by
      simp [UraniumCell.withUsage, ReactorComponent.isDestroyed, ReactorComponent.base, hd]
    simp only [Option.map_some', hdes, Bool.false_eq_true, if_false]
    unfold ReactorComponent.tick
    rw [fuelState_comp?, if_pos hi, hc]
    simp only [Option.map_some', UraniumCell.withUsage, UraniumCell.tick, hmax, hmu i, if_true]
    rw [foldl_tickCell_fuelState_heat r0 g hg lu mu cur k eu th hmu i c.x c.y c.numCells hn]
    rw [fuelState_comp?, if_pos hi, hc]
    simp only [Option.map_some', UraniumCell.withUsage]
    exact fuelState_setComp r0 g lu mu cur _ i c hc (mu i + 1)

theorem acceptUraniumPulse_fuelState_power (r0 : Reactor) (g : Nat → Option UraniumCell)
    (hg : FuelGrid g) (lu : Int) (mu : Nat → Int) (cur : SimulationState) (k H eu th : Int)
    (j : Nat) (hj : j < r0.components.length) (c : UraniumCell) (hc : g j = some c)
    (hmu : mu j ≤ 10000) :
    ReactorComponent.acceptUraniumPulse (fuelState r0 g lu mu cur (fuelPending k H eu th)) j
        SimPhase.PHASE_POWER
      = (fuelState r0 g lu mu cur (fuelPending k H (eu + 5) th), true) := by
  unfold ReactorComponent.acceptUraniumPulse
  rw [fuelState_comp?, if_pos hj, hc]
  simp only [Option.map_some', UraniumCell.withUsage, UraniumCell.acceptUraniumPulse,
    (hg _ _ hc).2.1, hmu, if_true]
  rfl

theorem checkPulseable_fuelState_power (r0 : Reactor) (g : Nat → Option UraniumCell)
    (hg : FuelGrid g) (lu : Int) (mu : Nat → Int) (cur : SimulationState) (k H eu th : Int)
    (hmu : ∀ i, mu i ≤ 10000) (x y : Int) (b : Int)
    (hb : b = if ((fuelState r0 g 0 (fun _ => 0) {} {}).get x y).isSome then 1 else 0) :
    UraniumCell.checkPulseable (fuelState r0 g lu mu cur (fuelPending k H eu th))
        ((fuelState r0 g lu mu cur (fuelPending k H eu th)).get x y) SimPhase.PHASE_POWER
      = (fuelState r0 g lu mu cur (fuelPending k H (eu + 5 * b) th), b) := by
  rw [fuelState_get_static r0 g hg lu 0 mu (fun _ => 0) cur _ {} {}]
  cases hget : (fuelState r0 g 0 (fun _ => 0) {} {}).get x y with
  | none =>
    simp only [hget, Option.isSome_none, Bool.false_eq_true, if_false] at hb
    subst hb
    simp [UraniumCell.checkPulseable]
  | some j =>
    simp only [hget, Option.isSome_some, if_true] at hb
    subst hb
    obtain ⟨hj, c, hc⟩ := fuelState_get_some r0 g hg _ _ _ _ x y j hget
    unfold UraniumCell.checkPulseable
    simp only [acceptUraniumPulse_fuelState_power r0 g hg lu mu cur k H eu th j hj c hc (hmu j),
      if_true, mul_one]

theorem pulseNeighbours_fuelState_power (r0 : Reactor) (g : Nat → Option UraniumCell)
    (hg : FuelGrid g) (lu : Int) (mu : Nat → Int) (cur : SimulationState) (k H eu th : Int)
    (hmu : ∀ i, mu i ≤ 10000) (x y : Int) :
    UraniumCell.pulseNeighbours (fuelState r0 g lu mu cur (fuelPending k H eu th)) x y
        SimPhase.PHASE_POWER
      = (fuelState r0 g lu mu cur
          (fuelPending k H
            (eu + 5 * (fuelState r0 g 0 (fun _ => 0) {} {}).liveNeighbours x y) th),
          (fuelState r0 g 0 (fun _ => 0) {} {}).liveNeighbours x y) := by
  unfold UraniumCell.pulseNeighbours Reactor.liveNeighbours Reactor.left Reactor.right
    Reactor.above Reactor.below
  simp only [checkPulseable_fuelState_power r0 g hg lu mu cur k H _ th hmu _ _ _ rfl]
  congr 2
  ring_nf

theorem foldl_accept_fuelState_power (r0 : Reactor) (g : Nat → Option UraniumCell)
    (hg : FuelGrid g) (lu : Int) (mu : Nat → Int) (cur : SimulationState) (k H th : Int)
    (i : Nat) (hi : i < r0.components.length) (c : UraniumCell) (hc : g i = some c)
    (hmu : mu i ≤ 10000) (m : Nat) (eu : Int) :
    (List.range m).foldl
        (fun r _ => (ReactorComponent.acceptUraniumPulse r i SimPhase.PHASE_POWER).1)
        (fuelState r0 g lu mu cur (fuelPending k H eu th))
      = fuelState r0 g lu mu cur (fuelPending k H (eu + 5 * (m : Int)) th) := by
  induction m with
  | zero => simp
  | succ m ih =>
    rw [List.range_succ, List.foldl_append, ih]
    simp only [List.foldl_cons, List.foldl_nil]
    rw [acceptUraniumPulse_fuelState_power r0 g hg lu mu cur k H _ th i hi c hc hmu]
    simp only
    congr 2
    push_cast
    ring

theorem tickCell_fuelState_power (r0 : Reactor) (g : Nat → Option UraniumCell) (hg : FuelGrid g)
    (lu : Int) (mu : Nat → Int) (cur : SimulationState) (k H eu th : Int)
    (hmu : ∀ i, mu i ≤ 10000) (i : Nat) (hi : i < r0.components.length) (c : UraniumCell)
    (hc : g i = some c) :
    UraniumCell.tickCell i c.x c.y c.numCells SimPhase.PHASE_POWER
        (fuelState r0 g lu mu cur (fuelPending k H eu th))
      = fuelState r0 g lu mu cur
          (fuelPending k H
            (eu + 5 * ((((1 + c.numCells.tdiv 2).toNat : Nat) : Int)
              + (fuelState r0 g 0 (fun _ => 0) {} {}).liveNeighbours c.x c.y)) th) := by
  unfold UraniumCell.tickCell
  simp only [ne_eq, reduceCtorEq, not_false_eq_true, if_true,
    foldl_accept_fuelState_power r0 g hg lu mu cur k H th i hi c hc (hmu i),
    pulseNeighbours_fuelState_power r0 g hg lu mu cur k H _ th hmu]
  congr 2
  ring

theorem foldl_tickCell_fuelState_power (r0 : Reactor) (g : Nat → Option UraniumCell)
    (hg : FuelGrid g) (lu : Int) (mu : Nat → Int) (cur : SimulationState) (k H th : Int)
    (hmu : ∀ i, mu i ≤ 10000) (i : Nat) (hi : i < r0.components.length) (c : UraniumCell)
    (hc : g i = some c) (m : Nat) (eu : Int) :
    (List.range m).foldl
        (fun r _ => UraniumCell.tickCell i c.x c.y c.numCells SimPhase.PHASE_POWER r)
        (fuelState r0 g lu mu cur (fuelPending k H eu th))
      = fuelState r0 g lu mu cur
          (fuelPending k H
            (eu + (m : Int) * (5 * ((((1 + c.numCells.tdiv 2).toNat : Nat) : Int)
              + (fuelState r0 g 0 (fun _ => 0) {} {}).liveNeighbours c.x c.y))) th) := by
  induction m with
  | zero => simp
  | succ m ih =>
    rw [List.range_succ, List.foldl_append, ih]
    simp only [List.foldl_cons, List.foldl_nil]
    rw [tickCell_fuelState_power r0 g hg lu mu cur k H _ th hmu i hi c hc]
    congr 2
    push_cast
    ring

theorem tickIdx_fuelState_power (r0 : Reactor) (g : Nat → Option UraniumCell) (hg : FuelGrid g)
    (lu : Int) (mu : Nat → Int) (cur : SimulationState) (k H eu th : Int)
    (hmu : ∀ i, mu i ≤ 10000) (i : Nat) (hi : i < r0.components.length) :
    Reactor.tickIdx SimPhase.PHASE_POWER (fuelState r0 g lu mu cur (fuelPending k H eu th)) i
      = fuelState r0 g lu mu cur (fuelPending k H (eu + fuelEUAt r0 g i) th) := by
  unfold Reactor.tickIdx fuelEUAt
  rw [fuelState_comp?, if_pos hi]
  cases hc : g i with
  | none => simp
  | some c =>
    obtain ⟨hd, hmax, hn, _⟩ := hg i c hc
    have hdes : (c.withUsage lu (mu i)).isDestroyed = false := by
      simp [UraniumCell.withUsage, ReactorComponent.isDestroyed, ReactorComponent.base, hd]
    simp only [Option.map_some', hdes, Bool.false_eq_true, if_false]
    unfold ReactorComponent.tick
    rw [fuelState_comp?, if_pos hi, hc]
    simp only [Option.map_some', UraniumCell.withUsage, UraniumCell.tick, hmax, hmu i, if_true,
      reduceCtorEq, if_false]
    rw [foldl_tickCell_fuelState_power r0 g hg lu mu cur k H th hmu i hi c hc]
    rfl

theorem foldl_tickIdx_fuelState_heat (r0 : Reactor) (g : Nat → Option UraniumCell)
    (hg : FuelGrid g) (lu u : Int) (cur : SimulationState) (k H eu th : Int) (hu : u < 10000)
    (m : Nat) (hm : m ≤ r0.components.length) :
    (List.range m).foldl (Reactor.tickIdx SimPhase.PHASE_HEAT_RUN)
        (fuelState r0 g lu (fun _ => u) cur (fuelPending k H eu th))
      = fuelState r0 g lu (fun i => if i < m then u + 1 else u) cur
          (fuelPending k (H + ((List.range m).map (fuelHeatAt r0 g)).sum) eu th) := by
  induction m with
  | zero => simp
  | succ m ih =>
    rw [List.range_succ, List.foldl_append, ih (by omega)]
    simp only [List.foldl_cons, List.foldl_nil]
    rw [tickIdx_fuelState_heat r0 g hg lu _ cur k _ eu th
      (fun i => by split_ifs <;> omega) m (by omega)]
    simp only [List.map_append, List.sum_append, List.map_cons, List.map_nil, List.sum_cons,
      List.sum_nil, add_zero, add_assoc]
    congr 1
    funext j
    by_cases hj : j = m
    · subst hj
      simp
    · simp only [Function.update, hj, dite_false]
      by_cases hjm : j < m
      · simp [hjm, Nat.lt_succ_of_lt hjm]
      · have : ¬ j < m + 1 := by omega
        simp [hjm, this]

theorem foldl_tickIdx_fuelState_power (r0 : Reactor) (g : Nat → Option UraniumCell)
    (hg : FuelGrid g) (lu : Int) (mu : Nat → Int) (cur : SimulationState) (k H eu th : Int)
    (hmu : ∀ i, mu i ≤ 10000) (m : Nat) (hm : m ≤ r0.components.length) :
    (List.range m).foldl (Reactor.tickIdx SimPhase.PHASE_POWER)
        (fuelState r0 g lu mu cur (fuelPending k H eu th))
      = fuelState r0 g lu mu cur
          (fuelPending k H (eu + ((List.range m).map (fuelEUAt r0 g)).sum) th) := by
  induction m with
  | zero => simp
  | succ m ih =>
    rw [List.range_succ, List.foldl_append, ih (by omega)]
    simp only [List.foldl_cons, List.foldl_nil]
    rw [tickIdx_fuelState_power r0 g hg lu mu cur k H _ th hmu m (by omega)]
    simp only [List.map_append, List.sum_append, List.map_cons, List.map_nil, List.sum_cons,
      List.sum_nil, add_zero, add_assoc]

theorem totalHeat_fuelState (r0 : Reactor) (g : Nat → Option UraniumCell) (lu : Int)
    (mu : Nat → Int) (cur pend : SimulationState) (t : Int) :
    (fuelState r0 g lu mu cur pend).components.foldl
        (fun t comp =>
          match comp with
          | none => t
          | some c => t + c.getCurrentHeat)
        t
      = t := by
  have key : ∀ (l : List (Option ReactorComponent)),
      (∀ o ∈ l, ∀ c, o = some c → c.getCurrentHeat = 0) → ∀ t : Int,
      l.foldl (fun t comp =>
          match comp with
          | none => t
          | some c => t + c.getCurrentHeat) t = t := by
    intro l
    induction l with
    | nil => intro _ t; rfl
    | cons o l ih =>
      intro h t
      rw [List.foldl_cons]
      cases o with
      | none => exact ih (fun o ho => h o (List.mem_cons_of_mem _ ho)) t
      | some c =>
        simp only [h (some c) (List.mem_cons_self _ _) c rfl, add_zero]
        exact ih (fun o ho => h o (List.mem_cons_of_mem _ ho)) t
  apply key
  intro o ho c hc
  simp only [fuelState, List.mem_map, List.mem_range] at ho
  obtain ⟨i, _, hi⟩ := ho
  rw [hc] at hi
  cases hgi : g i with
  | none => simp [hgi] at hi
  | some c' =>
    simp only [hgi, Option.map_some', Option.some.injEq] at hi
    rw [← hi]
    rfl

theorem runTickPhase_fuelState (phase : SimPhase) (r0 : Reactor) (g : Nat → Option UraniumCell)
    (w h : Nat) (hw : r0.width = w) (hh : r0.height = h) (hlen : r0.components.length = h * w)
    (lu : Int) (mu : Nat → Int) (cur pend : SimulationState) :
    (fuelState r0 g lu mu cur pend).runTickPhase phase
      = (List.range r0.components.length).foldl (Reactor.tickIdx phase)
          (fuelState r0 g lu mu cur pend) := by
  rw [hlen]
  exact runTickPhase_eq_foldl phase (fuelState r0 g lu mu cur pend) w h hw hh

theorem runTick_fuelState (r0 : Reactor) (g : Nat → Option UraniumCell) (hg : FuelGrid g)
    (w h : Nat) (hw : r0.width = w) (hh : r0.height = h) (hlen : r0.components.length = h * w)
    (lu u : Int) (cur : SimulationState) (k H eu th : Int) (hu : u < 10000) :
    (fuelState r0 g lu (fun _ => u) cur (fuelPending k H eu th)).runTick.incTick
      = fuelState r0 g lu (fun _ => u + 1) cur
          (fuelPending (k + 1) (H + fuelHeatRate r0 g) (eu + fuelEURate r0 g)
            (H + fuelHeatRate r0 g)) := by
  unfold Reactor.runTick
  simp only
  rw [show ({ fuelState r0 g lu (fun _ => u) cur (fuelPending k H eu th) with
        maxHeat := 10000 } : Reactor)
      = fuelState r0 g lu (fun _ => u) cur (fuelPending k H eu th) from rfl,
    runTickPhase_fuelState _ r0 g w h hw hh hlen,
    foldl_tickIdx_fuelState_heat r0 g hg lu u cur k H eu th hu _ le_rfl,
    runTickPhase_fuelState _ r0 g w h hw hh hlen,
    foldl_tickIdx_fuelState_power r0 g hg lu _ cur k _ eu th
      (fun i => by split_ifs <;> omega) _ le_rfl,
    totalHeat_fuelState]
  rw [fuelState_congr r0 g lu (fun i => if i < r0.components.length then u + 1 else u)
    (fun _ => u + 1) cur _ (fun i hi _ => by simp [hi])]
  rfl

theorem commit_fuelState (r0 : Reactor) (g : Nat → Option UraniumCell) (hg : FuelGrid g)
    (lu u : Int) (cur pend : SimulationState) :
    (fuelState r0 g lu (fun _ => u) cur pend).commit
      = fuelState r0 g u (fun _ => u) pend pend := by
  unfold Reactor.commit fuelState
  simp only [List.map_map, Reactor.mk.injEq, true_and, and_true]
  apply List.map_congr_left
  intro i _
  simp only [Function.comp]
  cases hc : g i with
  | none => rfl
  | some c =>
    simp [UraniumCell.withUsage, ReactorComponent.commit, ReactorComponent.isDestroyed,
      ReactorComponent.base, (hg i c hc).1]
    have h1 := (hg i c hc).1
    have h2 := (hg i c hc).2.2.2
    cases c with
    | mk b _ _ _ _ =>
      cases b
      simp only at h1 h2
      simp [h1, h2]

theorem fuelPendingAt_succ (r0 : Reactor) (g : Nat → Option UraniumCell) (k : Int) :
    fuelPending (k + 1) (fuelHeatRate r0 g * k + fuelHeatRate r0 g)
        (fuelEURate r0 g * k + fuelEURate r0 g) (fuelHeatRate r0 g * k + fuelHeatRate r0 g)
      = fuelPendingAt r0 g (k + 1) := by
  unfold fuelPendingAt
  congr 1 <;> ring

theorem stopCheck_fuelState_melt (r0 : Reactor) (g : Nat → Option UraniumCell) (lu : Int)
    (mu : Nat → Int) (cur : SimulationState) (k H eu th : Int) (hH : H ≥ 10000) :
    Reactor.stopCheck true true false true (fuelState r0 g lu mu cur (fuelPending k H eu th))
      = some RunUntilStopReason.STOPPED_ON_MELTDOWN := by
  unfold Reactor.stopCheck
  simp [fuelState, fuelPending, hH]

theorem stopCheck_fuelState_run (r0 : Reactor) (g : Nat → Option UraniumCell) (lu : Int)
    (mu : Nat → Int) (cur : SimulationState) (k H eu th : Int) (hk : k < 10000)
    (hH : H < 10000) :
    Reactor.stopCheck true true false true (fuelState r0 g lu mu cur (fuelPending k H eu th))
      = none := by
  unfold Reactor.stopCheck
  simp only [fuelState, fuelPending, Reactor.fuelTicks, Reactor.timeoutTicks,
    Bool.false_and, Bool.and_false, Bool.false_eq_true, if_false, Bool.and_true,
    decide_eq_true_eq]
  split_ifs <;> first | rfl | omega

theorem meltTick_bounds (R : Int) (hR : 0 < R) :
    R * (9999 / R) < 10000 ∧ 10000 ≤ R * (9999 / R + 1) ∧ 0 ≤ 9999 / R ∧ 9999 / R ≤ 9999 := by
  have h1 := Int.ediv_mul_le 9999 hR.ne'
  have h2 := Int.lt_ediv_add_one_mul_self 9999 hR
  have h3 : 0 ≤ (9999 : Int) / R := Int.ediv_nonneg (by omega) hR.le
  refine ⟨by nlinarith, by nlinarith, h3, ?_⟩
  by_contra hcon
  have : 10000 ≤ (9999 : Int) / R := by omega
  nlinarith

theorem runUntilLoop_fuelRunState (r0 : Reactor) (g : Nat → Option UraniumCell)
    (hg : FuelGrid g) (w h : Nat) (hw : r0.width = w) (hh : r0.height = h)
    (hlen : r0.components.length = h * w) (hR : 0 < fuelHeatRate r0 g) (d : Nat) :
    ∀ (k : Int) (last : Int) (extra : Nat), 1 ≤ k → k + d = 9999 / fuelHeatRate r0 g + 1 →
      Reactor.runUntilLoop true true false true (d + 1 + extra) (fuelRunState r0 g k) false last
        = some (RunUntilStopReason.STOPPED_ON_MELTDOWN,
            fuelRunState r0 g (9999 / fuelHeatRate r0 g + 1)) := by
  obtain ⟨b1, b2, b3, b4⟩ := meltTick_bounds _ hR
  induction d with
  | zero =>
    intro k last extra _ hk
    have hk' : k = 9999 / fuelHeatRate r0 g + 1 := by omega
    subst hk'
    have b2' : fuelHeatRate r0 g * (9999 / fuelHeatRate r0 g + 1) ≥ 10000 := b2
    rw [show 0 + 1 + extra = extra + 1 by omega]
    unfold Reactor.runUntilLoop fuelRunState fuelPendingAt
    rw [stopCheck_fuelState_melt _ _ _ _ _ _ _ _ _ b2']
  | succ d ih =>
    intro k last extra hk1 hk
    rw [show d + 1 + 1 + extra = (d + 1 + extra) + 1 by omega]
    have hlt : fuelHeatRate r0 g * k < 10000 := by
      have : k ≤ 9999 / fuelHeatRate r0 g := by omega
      nlinarith
    unfold Reactor.runUntilLoop
    rw [show fuelRunState r0 g k
        = fuelState r0 g (k - 1) (fun _ => k) (fuelPendingAt r0 g (k - 1))
            (fuelPending k (fuelHeatRate r0 g * k) (fuelEURate r0 g * k)
              (fuelHeatRate r0 g * k)) from rfl,
      stopCheck_fuelState_run _ _ _ _ _ _ _ _ _ (by omega) hlt]
    simp only [Reactor.noHeatLossCheck, Bool.and_false, Bool.false_eq_true, if_false]
    rw [commit_fuelState r0 g hg,
      runTick_fuelState r0 g hg w h hw hh hlen _ _ _ _ _ _ _ (by omega), fuelPendingAt_succ]
    have := ih (k + 1) last extra (by omega) (by omega)
    rw [show fuelRunState r0 g (k + 1)
        = fuelState r0 g (k + 1 - 1) (fun _ => k + 1) (fuelPendingAt r0 g (k + 1 - 1))
            (fuelPendingAt r0 g (k + 1)) from rfl, show k + 1 - 1 = k by ring] at this
    exact this

theorem stopCheck_none_lt {f1 f2 f3 f4 : Bool} {r : Reactor}
    (h : Reactor.stopCheck f1 f2 f3 f4 r = none) : r.pendingSimState.curTick < 50000 := by
  unfold Reactor.stopCheck at h
  split_ifs at h with h1 h2 h3 h4 h5 h6
  simpa [Reactor.timeoutTicks] using h6

/-- The loop of `runUntil` returns when it is given enough iterations to bring the pending
tick counter to 50000. -/
theorem runUntilLoop_isSome (f1 f2 f3 f4 : Bool) (n : Nat) :
    ∀ (r : Reactor) (first : Bool) (last : Int), 1 ≤ n →
      50001 ≤ (n : Int) + r.pendingSimState.curTick →
      (Reactor.runUntilLoop f1 f2 f3 f4 n r first last).isSome = true := by
  induction n with
  | zero => intro r first last h; omega
  | succ n ih =>
    intro r first last _ hn
    unfold Reactor.runUntilLoop
    cases hs : Reactor.stopCheck f1 f2 f3 f4 r with
    | some reason => rfl
    | none =>
      have hlt := stopCheck_none_lt hs
      simp only
      cases hc : Reactor.noHeatLossCheck f3 r last with
      | none => rfl
      | some l =>
        simp only
        apply ih
        · omega
        · rw [pendingTick_step]
          have : (if first = true then r else r.commit).pendingSimState.curTick
              = r.pendingSimState.curTick := by
            split_ifs
            · rfl
            · rfl
          rw [this]
          push_cast at hn
          omega

theorem recordCooldown_mark (results : SimulationResults) (reason : RunUntilStopReason)
    (c i : Reactor) :
    (recordCooldown results reason c i).1.mark = results.mark
      ∧ (recordCooldown results reason c i).1.ticksUntilMeltdown = results.ticksUntilMeltdown := by
  unfold recordCooldown
  split_ifs <;> exact ⟨rfl, rfl⟩

theorem runSimulationMeltdown_mark (fuel : Nat) (hfuel : 50001 ≤ fuel)
    (results : SimulationResults) (s : Reactor) (h0 : 0 ≤ s.curSimState.curTick) :
    ∃ res, runSimulationMeltdown fuel results s = some res
      ∧ res.mark = (if 1000 ≤ s.curSimState.curTick then 3 else 5)
      ∧ res.ticksUntilMeltdown = s.curSimState.curTick := by
  unfold runSimulationMeltdown
  have hsome := runUntilLoop_isSome false false true false fuel
    ({ s.copy.rollback.removeFuel with ignoreComponentDestroyed := true }) true (-1)
    (by omega)
    (by
      show 50001 ≤ (fuel : Int) + s.curSimState.curTick
      omega)
  obtain ⟨⟨reason, c⟩, hrun⟩ := Option.isSome_iff_exists.mp hsome
  simp only [Reactor.runUntil]
  rw [hrun]
  simp only
  refine ⟨_, rfl, ?_, ?_⟩
  · rw [(recordCooldown_mark _ _ _ _).1]
    have ht := tdiv_bounds_of_nonneg (a := s.curSimState.curTick * 100) (d := 10000)
      (by omega) (by omega)
    simp only [Reactor.fuelTicks]
    by_cases h : 1000 ≤ s.curSimState.curTick
    · rw [if_pos (by omega), if_pos h]
    · rw [if_neg (by omega), if_neg h]
  · rw [(recordCooldown_mark _ _ _ _).2]
    split_ifs <;> rfl

theorem withUsage_of_fresh (u : UraniumCell) (hu : u.IsFresh) :
    u.withUsage 0 0 = ReactorComponent.uraniumCell u := by
  obtain ⟨_, _, _, _, _, h1, h2⟩ := hu
  cases u
  simp only at h1 h2
  simp [UraniumCell.withUsage, h1, h2]

theorem fuelAt_of_mem (r : Reactor) (i : Nat) (u : UraniumCell) (h : r.fuelAt i = some u) :
    some (ReactorComponent.uraniumCell u) ∈ r.components := by
  unfold Reactor.fuelAt at h
  cases hc : r.comp? i with
  | none => rw [hc] at h; simp at h
  | some c =>
    rw [hc] at h
    cases c <;> simp at h
    subst h
    exact List.getElem?_mem (comp?_eq_some_iff.mp hc)

theorem components_of_isFuelOnly (r : Reactor) (h : r.IsFuelOnly) :
    r.components = (List.range r.components.length).map fun i =>
      (r.fuelAt i).map fun c => c.withUsage 0 0 := by
  obtain ⟨_, _, _, _, hall, _⟩ := h
  apply List.ext_getElem?
  intro i
  rw [List.getElem?_map]
  by_cases hi : i < r.components.length
  · rw [List.getElem?_range hi, List.getElem?_eq_getElem hi]
    simp only [Option.map_some', Option.some.injEq]
    cases hc : r.components[i] with
    | none =>
      have : r.comp? i = none := by
        unfold Reactor.comp?
        rw [List.getElem?_eq_getElem hi, hc]
        rfl
      simp [Reactor.fuelAt, this]
    | some c =>
      obtain ⟨u, rfl, hu⟩ := hall c (hc ▸ List.getElem_mem hi)
      have : r.comp? i = some (ReactorComponent.uraniumCell u) := by
        unfold Reactor.comp?
        rw [List.getElem?_eq_getElem hi, hc]
        rfl
      simp [Reactor.fuelAt, this, withUsage_of_fresh u hu]
  · rw [List.getElem?_eq_none (by omega), List.getElem?_eq_none (by simpa using hi)]
    rfl

theorem fuelGrid_of_isFuelOnly (r : Reactor) (h : r.IsFuelOnly) : FuelGrid r.fuelAt := by
  intro i c hc
  obtain ⟨u, hu, _, h1, h2, h3, h4, _⟩ := h.2.2.2.2.1 _ (fuelAt_of_mem r i c hc)
  cases hu
  exact ⟨h1, h3, h4, h2⟩

theorem initializeSimulation_of_isFuelOnly (r : Reactor) (h : r.IsFuelOnly) :
    r.initializeSimulation
      = fuelState r.initializeSimulation r.fuelAt 0 (fun _ => 0) {} {} := by
  have hc := components_of_isFuelOnly r h
  have hm := h.2.2.2.1
  unfold fuelState
  unfold Reactor.initializeSimulation
  simp only [Reactor.mk.injEq, true_and, and_true]
  exact ⟨hc, hm⟩

theorem liveNeighbours_initializeSimulation (r : Reactor) (x y : Int) :
    r.initializeSimulation.liveNeighbours x y = r.liveNeighbours x y := rfl

theorem heatRate_of_isFuelOnly (r : Reactor) (h : r.IsFuelOnly) :
    fuelHeatRate r.initializeSimulation r.fuelAt = r.heatRate := by
  have hc := components_of_isFuelOnly r h
  have hi := initializeSimulation_of_isFuelOnly r h
  unfold fuelHeatRate Reactor.heatRate
  have e := congrArg (List.map r.cellHeat) hc
  rw [List.map_map] at e
  rw [e]
  show ((List.range r.components.length).map _).sum = _
  congr 1
  apply List.map_congr_left
  intro i _
  unfold fuelHeatAt
  rw [← hi]
  simp only [Function.comp]
  cases r.fuelAt i with
  | none => rfl
  | some c => rfl

theorem four_le_fuelHeatAt (r0 : Reactor) (g : Nat → Option UraniumCell) (hg : FuelGrid g)
    (i : Nat) (c : UraniumCell) (hc : g i = some c) : 4 ≤ fuelHeatAt r0 g i := by
  unfold fuelHeatAt
  rw [hc]
  simp only
  obtain ⟨_, _, hn, _⟩ := hg i c hc
  have h1 : (1 : Int) ≤ (c.numCells.toNat : Int) := by omega
  have h2 : 0 ≤ c.numCells.tdiv 2 := Int.tdiv_nonneg (by omega) (by omega)
  have h3 := liveNeighbours_nonneg (fuelState r0 g 0 (fun _ => 0) {} {}) c.x c.y
  have h4 := sumUp_pos (1 + c.numCells.tdiv 2
    + (fuelState r0 g 0 (fun _ => 0) {} {}).liveNeighbours c.x c.y) (by omega)
  nlinarith

theorem fuelHeatAt_nonneg (r0 : Reactor) (g : Nat → Option UraniumCell) (hg : FuelGrid g)
    (i : Nat) : 0 ≤ fuelHeatAt r0 g i := by
  cases hc : g i with
  | none => simp [fuelHeatAt, hc]
  | some c =>
    have := four_le_fuelHeatAt r0 g hg i c hc
    omega

theorem four_le_heatRate (r : Reactor) (h : r.IsFuelOnly) : 4 ≤ r.heatRate := by
  rw [← heatRate_of_isFuelOnly r h]
  have hg := fuelGrid_of_isFuelOnly r h
  obtain ⟨c, hc⟩ := h.2.2.2.2.2
  obtain ⟨u, rfl, _⟩ := h.2.2.2.2.1 c hc
  obtain ⟨i, hi⟩ := List.mem_iff_getElem?.mp hc
  have hlt : i < r.components.length := by
    by_contra hcon
    rw [List.getElem?_eq_none (by omega)] at hi
    simp at hi
  have hf : r.fuelAt i = some u := by
    have : r.comp? i = some (ReactorComponent.uraniumCell u) := comp?_eq_some_iff.mpr hi
    simp [Reactor.fuelAt, this]
  unfold fuelHeatRate
  have hmem : fuelHeatAt r.initializeSimulation r.fuelAt i
      ∈ (List.range r.initializeSimulation.components.length).map
          (fuelHeatAt r.initializeSimulation r.fuelAt) :=
    List.mem_map.mpr ⟨i, List.mem_range.mpr hlt, rfl⟩
  have hle := List.single_le_sum
    (fun x hx => by
      obtain ⟨j, _, rfl⟩ := List.mem_map.mp hx
      exact fuelHeatAt_nonneg _ _ hg j) _ hmem
  have := four_le_fuelHeatAt r.initializeSimulation r.fuelAt hg i u hf
  omega

theorem numUraniumCells_of_isFuelOnly (r : Reactor) (h : r.IsFuelOnly) :
    r.initializeSimulation.numUraniumCells ≠ 0 := by
  obtain ⟨_, _, _, _, hall, c, hc⟩ := h
  show r.components.foldl _ (0 : Int) ≠ 0
  have key : ∀ (l : List (Option ReactorComponent)) (n : Int), 0 ≤ n →
      (∀ c, some c ∈ l → ∃ u, c = ReactorComponent.uraniumCell u ∧ u.IsFresh) →
      n ≤ l.foldl
        (fun n component =>
          match component with
          | none => n
          | some c =>
            if c.type = ComponentType.URANIUM_CELL then n + 1
            else if c.type = ComponentType.DUAL_URANIUM_CELL then n + 2
            else if c.type = ComponentType.QUAD_URANIUM_CELL then n + 4
            else n) n
      ∧ ((∃ c, some c ∈ l) → n + 1 ≤ l.foldl
        (fun n component =>
          match component with
          | none => n
          | some c =>
            if c.type = ComponentType.URANIUM_CELL then n + 1
            else if c.type = ComponentType.DUAL_URANIUM_CELL then n + 2
            else if c.type = ComponentType.QUAD_URANIUM_CELL then n + 4
            else n) n) := by
    intro l
    induction l with
    | nil => intro n _ _; exact ⟨le_rfl, fun ⟨c, hc⟩ => by simp at hc⟩
    | cons a l ih =>
      intro n hn hall
      simp only [List.foldl_cons]
      cases a with
      | none =>
        obtain ⟨i1, i2⟩ := ih n hn (fun c hc => hall c (List.mem_cons_of_mem _ hc))
        refine ⟨i1, fun ⟨c, hc⟩ => i2 ⟨c, ?_⟩⟩
        simpa using hc
      | some c =>
        obtain ⟨u, rfl, ht, _⟩ := hall c (List.mem_cons_self _ _)
        have hty : (ReactorComponent.uraniumCell u).type = u.type := rfl
        simp only [hty]
        rcases ht with ht | ht | ht <;> rw [ht] <;> simp only [reduceCtorEq, if_true, if_false]
        · obtain ⟨i1, _⟩ := ih (n + 1) (by omega) (fun c hc => hall c (List.mem_cons_of_mem _ hc))
          exact ⟨by omega, fun _ => by omega⟩
        · obtain ⟨i1, _⟩ := ih (n + 2) (by omega) (fun c hc => hall c (List.mem_cons_of_mem _ hc))
          exact ⟨by omega, fun _ => by omega⟩
        · obtain ⟨i1, _⟩ := ih (n + 4) (by omega) (fun c hc => hall c (List.mem_cons_of_mem _ hc))
          exact ⟨by omega, fun _ => by omega⟩
  have := (key r.components 0 le_rfl hall).2 ⟨c, hc⟩
  omega

theorem fuelPending_zero : fuelPending 0 0 0 0 = {} := by
  unfold fuelPending
  simp

theorem fuelPendingAt_zero (r0 : Reactor) (g : Nat → Option UraniumCell) :
    fuelPendingAt r0 g 0 = {} := by
  unfold fuelPendingAt
  simp only [mul_zero]
  exact fuelPending_zero

theorem runUntil_fuelState (r0 : Reactor) (g : Nat → Option UraniumCell)
    (hg : FuelGrid g) (w h : Nat) (hw : r0.width = w) (hh : r0.height = h)
    (hlen : r0.components.length = h * w) (hR : 0 < fuelHeatRate r0 g) (fuel : Nat)
    (hfuel : 10001 ≤ fuel) :
    (fuelState r0 g 0 (fun _ => 0) {} {}).runUntil fuel true true false true
      = some (RunUntilStopReason.STOPPED_ON_MELTDOWN,
          fuelRunState r0 g (9999 / fuelHeatRate r0 g + 1)) := by
  obtain ⟨b1, b2, b3, b4⟩ := meltTick_bounds _ hR
  obtain ⟨d, hd⟩ := Int.eq_ofNat_of_zero_le b3
  have hd4 : d ≤ 9999 := by omega
  obtain ⟨extra, rfl⟩ : ∃ extra, fuel = (d + 1 + extra) + 1 := ⟨fuel - (d + 2), by omega⟩
  unfold Reactor.runUntil Reactor.runUntilLoop
  rw [← fuelPending_zero, stopCheck_fuelState_run _ _ _ _ _ _ _ _ _ (by omega) (by omega)]
  simp only [Reactor.noHeatLossCheck, Bool.and_false, Bool.false_eq_true, if_false, if_true]
  rw [runTick_fuelState r0 g hg w h hw hh hlen _ _ _ _ _ _ _ (by omega)]
  have e : fuelState r0 g 0 (fun _ => 0 + 1) (fuelPending 0 0 0 0)
      (fuelPending (0 + 1) (0 + fuelHeatRate r0 g) (0 + fuelEURate r0 g)
        (0 + fuelHeatRate r0 g)) = fuelRunState r0 g 1 := by
    unfold fuelRunState
    rw [show (1 : Int) - 1 = 0 from rfl, fuelPendingAt_zero, fuelPending_zero]
    unfold fuelPendingAt
    simp only [zero_add, mul_one]
  rw [e]
  exact runUntilLoop_fuelRunState r0 g hg w h hw hh hlen hR d 1 (-1) extra le_rfl (by omega)

theorem runUntil_of_isFuelOnly (r : Reactor) (h : r.IsFuelOnly) (fuel : Nat)
    (hfuel : 10001 ≤ fuel) :
    r.initializeSimulation.runUntil fuel true true false true
      = some (RunUntilStopReason.STOPPED_ON_MELTDOWN,
          fuelRunState r.initializeSimulation r.fuelAt (9999 / r.heatRate + 1)) := by
  have hg := fuelGrid_of_isFuelOnly r h
  have hi := initializeSimulation_of_isFuelOnly r h
  have hR := heatRate_of_isFuelOnly r h
  have h4 := four_le_heatRate r h
  obtain ⟨hw, hh, hlen, _⟩ := h
  have key := runUntil_fuelState r.initializeSimulation r.fuelAt hg r.width.toNat r.height.toNat
    (Int.toNat_of_nonneg hw).symm (Int.toNat_of_nonneg hh).symm hlen (by omega) fuel hfuel
  rw [← hi, hR] at key
  exact key

/-- For a fuel-only device with heat rate `R` per tick, the first run of `runSimulation`
stops on MELTDOWN at pending tick `9999 / R + 1` (committed tick `9999 / R`), and
`runSimulation` returns `ticksUntilMeltdown = 9999 / R` and mark 3 when
`9999 / R >= 1000`, mark 5 otherwise. -/
theorem runSimulation_of_isFuelOnly (r : Reactor) (h : r.IsFuelOnly) (fuel : Nat)
    (hfuel : 50001 ≤ fuel) :
    4 ≤ r.heatRate
    ∧ ∃ s, r.initializeSimulation.runUntil fuel true true false true
          = some (RunUntilStopReason.STOPPED_ON_MELTDOWN, s)
        ∧ s.pendingSimState.curTick = 9999 / r.heatRate + 1
        ∧ s.curSimState.curTick = 9999 / r.heatRate
        ∧ s.pendingSimState.curTick ≤ 2500
        ∧ ∃ res, runSimulation fuel r = some (res, s)
            ∧ res.mark = (if r.heatRate ≤ 9 then 3 else 5)
            ∧ res.ticksUntilMeltdown = 9999 / r.heatRate := by
  have h4 := four_le_heatRate r h
  have hrun := runUntil_of_isFuelOnly r h fuel (by omega)
  have hnum := numUraniumCells_of_isFuelOnly r h
  obtain ⟨b1, b2, b3, b4⟩ := meltTick_bounds r.heatRate (by omega)
  have hT : 9999 / r.heatRate < 2500 := Int.ediv_lt_of_lt_mul (by omega) (by omega)
  refine ⟨h4, _, hrun, ?_, ?_, ?_, ?_⟩
  · rfl
  · show 9999 / r.heatRate + 1 - 1 = 9999 / r.heatRate
    ring
  · show 9999 / r.heatRate + 1 ≤ 2500
    omega
  · have hcur : (fuelRunState r.initializeSimulation r.fuelAt
        (9999 / r.heatRate + 1)).curSimState.curTick = 9999 / r.heatRate := by
      show 9999 / r.heatRate + 1 - 1 = 9999 / r.heatRate
      ring
    unfold runSimulation
    simp only []
    rw [if_neg hnum, hrun]
    simp only [reduceCtorEq, if_false, if_true]
    obtain ⟨res, hres, hm, ht⟩ := runSimulationMeltdown_mark fuel hfuel
      { totalCost := r.initializeSimulation.getTotalCost,
        totalEUPerCycle := ((fuelRunState r.initializeSimulation r.fuelAt
          (9999 / r.heatRate + 1)).curSimState.euGenerated : ℚ),
        euPerTick := truncToInt
          (((fuelRunState r.initializeSimulation r.fuelAt
              (9999 / r.heatRate + 1)).curSimState.euGenerated : ℚ)
            / ((fuelRunState r.initializeSimulation r.fuelAt
              (9999 / r.heatRate + 1)).curSimState.curTick : ℚ)),
        efficiency := ((truncToInt
          (((fuelRunState r.initializeSimulation r.fuelAt
              (9999 / r.heatRate + 1)).curSimState.euGenerated : ℚ)
            / ((fuelRunState r.initializeSimulation r.fuelAt
              (9999 / r.heatRate + 1)).curSimState.curTick : ℚ)) : Int) : ℚ) / 5
            / ((fuelRunState r.initializeSimulation r.fuelAt
              (9999 / r.heatRate + 1)).numUraniumCells : ℚ),
        usesSingleUseCoolant := (fuelRunState r.initializeSimulation r.fuelAt
          (9999 / r.heatRate + 1)).usesSingleUseCoolant }
      (fuelRunState r.initializeSimulation r.fuelAt (9999 / r.heatRate + 1))
      (by rw [hcur]; exact b3)
    refine ⟨res, ?_, ?_, ?_⟩
    · rw [hres]; rfl
    · rw [hm, hcur]
      by_cases h9 : r.heatRate ≤ 9
      · have : 1000 ≤ 9999 / r.heatRate := by
          by_contra hc
          have : r.heatRate * (9999 / r.heatRate + 1) ≤ 9 * 1000 := by nlinarith
          omega
        rw [if_pos this, if_pos h9]
      · have : ¬ 1000 ≤ 9999 / r.heatRate := by
          intro hc
          have : 10 * 1000 ≤ r.heatRate * (9999 / r.heatRate) := by nlinarith
          omega
        rw [if_neg this, if_neg h9]
    · rw [ht, hcur]

theorem foldl_inv {α β : Type} (P : α → Prop) (f : α → β → α) (hf : ∀ a b, P a → P (f a b))
    (l : List β) (a : α) (ha : P a) : P (l.foldl f a) := by
  induction l generalizing a with
  | nil => exact ha
  | cons b l ih => exact ih _ (hf a b ha)

theorem create_of_isFuelKind (t : ComponentType) (ht : IsFuelKind t) (x y : Int)
    (c : ReactorComponent) (hc : ReactorComponent.create t x y = some c) :
    ∃ u, c = ReactorComponent.uraniumCell u ∧ u.IsFresh := by
  rcases ht with ht | ht | ht | ht <;> subst ht <;>
    simp only [ReactorComponent.create, Option.some.injEq, reduceCtorEq] at hc
  · exact ⟨_, hc.symm, Or.inl rfl, rfl, rfl, rfl, by simp [UraniumCell.mk0], rfl, rfl⟩
  · exact ⟨_, hc.symm, Or.inr (Or.inl rfl), rfl, rfl, rfl, by simp [UraniumCell.mk0], rfl, rfl⟩
  · exact ⟨_, hc.symm, Or.inr (Or.inr rfl), rfl, rfl, rfl, by simp [UraniumCell.mk0], rfl, rfl⟩

theorem getD_isFuelKind (ts : List ComponentType) (hts : ∀ t ∈ ts, IsFuelKind t) (i : Nat) :
    IsFuelKind (ts.getD i ComponentType.COMPONENT_NONE) := by
  rw [List.getD_eq_getElem?_getD]
  cases h : ts[i]? with
  | none => exact Or.inl rfl
  | some t => exact hts t (List.getElem?_mem h)

theorem deviceOf_inv (e : Int) (ts : List ComponentType) (hts : ∀ t ∈ ts, IsFuelKind t) :
    (deviceOf e ts).width = 3 + e ∧ (deviceOf e ts).height = 6
      ∧ (deviceOf e ts).maxHeat = 10000
      ∧ (deviceOf e ts).components.length = ((3 + e) * 6).toNat
      ∧ ∀ c, some c ∈ (deviceOf e ts).components →
          ∃ u, c = ReactorComponent.uraniumCell u ∧ u.IsFresh := by
  unfold deviceOf Reactor.setComponentTypes
  apply foldl_inv
    (fun r : Reactor => r.width = 3 + e ∧ r.height = 6 ∧ r.maxHeat = 10000
      ∧ r.components.length = ((3 + e) * 6).toNat
      ∧ ∀ c, some c ∈ r.components → ∃ u, c = ReactorComponent.uraniumCell u ∧ u.IsFresh)
  · intro r x hr
    apply foldl_inv
      (fun r : Reactor => r.width = 3 + e ∧ r.height = 6 ∧ r.maxHeat = 10000
        ∧ r.components.length = ((3 + e) * 6).toNat
        ∧ ∀ c, some c ∈ r.components → ∃ u, c = ReactorComponent.uraniumCell u ∧ u.IsFresh)
    · intro r1 y ⟨h1, h2, h3, h4, h5⟩
      refine ⟨h1, h2, h3, ?_, ?_⟩
      · simpa [Reactor.set, Reactor.setPtr] using h4
      · intro c hc
        rcases List.mem_or_eq_of_mem_set hc with hmem | heq
        · exact h5 c hmem
        · exact create_of_isFuelKind _ (getD_isFuelKind ts hts _) _ _ c heq.symm
    · exact hr
  · refine ⟨rfl, rfl, rfl, ?_, ?_⟩
    · simp [Reactor.mk0]
    · intro c hc
      simp [Reactor.mk0] at hc

theorem isFuelOnly_deviceOf (e : Int) (ts : List ComponentType) (he : 0 ≤ e)
    (hts : ∀ t ∈ ts, IsFuelKind t) (hne : ∃ c, some c ∈ (deviceOf e ts).components) :
    (deviceOf e ts).IsFuelOnly := by
  obtain ⟨h1, h2, h3, h4, h5⟩ := deviceOf_inv e ts hts
  refine ⟨by omega, by omega, ?_, h3, h5, hne⟩
  rw [h4, h1, h2]
  have : (6 : Int).toNat = 6 := rfl
  rw [this]
  omega

theorem singleCell_isFuelOnly : singleCellReactor.IsFuelOnly :=
  isFuelOnly_deviceOf 0 _ le_rfl
    (fun t ht => by
      simp only [List.mem_singleton] at ht
      exact ht ▸ Or.inr (Or.inl rfl))
    ⟨ReactorComponent.uraniumCell (UraniumCell.mk0 ComponentType.URANIUM_CELL 0 0 1), by decide⟩

theorem singleCell_heatRate : singleCellReactor.heatRate = 4 := by decide

/-- C10 (as stated) fails: the 3x6 device whose only component is one `URANIUM_CELL` is a
fuel-only device that heats its core by 4 per tick; its first run stops on MELTDOWN only at
pending tick 2500 (committed tick 2499), not below 1000, and `runSimulation` returns
mark 3, not 5. -/
theorem singleCell_meltdown_mark_three :
    singleCellReactor.getComponentTypes
        = ComponentType.URANIUM_CELL :: List.replicate 17 ComponentType.COMPONENT_NONE
    ∧ ∃ res s, singleCellReactor.initializeSimulation.runUntil 50001 true true false true
          = some (RunUntilStopReason.STOPPED_ON_MELTDOWN, s)
        ∧ s.pendingSimState.curTick = 2500 ∧ s.curSimState.curTick = 2499
        ∧ ¬ s.pendingSimState.curTick < 1000
        ∧ runSimulation 50001 singleCellReactor = some (res, s)
        ∧ res.mark = 3 ∧ res.mark ≠ 5 ∧ res.ticksUntilMeltdown = 2499 := by
  obtain ⟨_, s, hrun, hp, hc, _, res, hres, hm, ht⟩ :=
    runSimulation_of_isFuelOnly singleCellReactor singleCell_isFuelOnly 50001 le_rfl
  rw [singleCell_heatRate] at hp hc hm ht
  have e1 : (9999 : Int) / 4 = 2499 := by decide
  rw [e1] at hp hc ht
  rw [if_pos (by decide)] at hm
  refine ⟨by decide, res, s, hrun, hp, hc, ?_, hres, hm, ?_, ht⟩
  · rw [hp]; decide
  · rw [hm]; decide

/-- C10 (amended): for every device with `e >= 0` extra chambers that `setComponentTypes`
builds from a list of kinds that are all `COMPONENT_NONE`, `URANIUM_CELL`,
`DUAL_URANIUM_CELL` or `QUAD_URANIUM_CELL`, and that holds at least one component, with `R`
the heat the fuel cells put into the core per tick (`R >= 4`): the first `runUntil` of
`runSimulation` (with at least 50001 loop iterations allowed per run) stops on MELTDOWN
at pending tick `9999 / R + 1 <= 2500`, with `9999 / R` ticks committed, and
`runSimulation` returns `ticksUntilMeltdown = 9999 / R` and `mark = 3` when `R <= 9`,
`mark = 5` otherwise. -/
theorem fuelOnly_meltdown (e : Int) (ts : List ComponentType) (fuel : Nat) (he : 0 ≤ e)
    (hts : ∀ t ∈ ts, IsFuelKind t) (hne : ∃ c, some c ∈ (deviceOf e ts).components)
    (hfuel : 50001 ≤ fuel) :
    4 ≤ (deviceOf e ts).heatRate
    ∧ ∃ s, (deviceOf e ts).initializeSimulation.runUntil fuel true true false true
          = some (RunUntilStopReason.STOPPED_ON_MELTDOWN, s)
        ∧ s.pendingSimState.curTick = 9999 / (deviceOf e ts).heatRate + 1
        ∧ s.curSimState.curTick = 9999 / (deviceOf e ts).heatRate
        ∧ s.pendingSimState.curTick ≤ 2500
        ∧ ∃ res, runSimulation fuel (deviceOf e ts) = some (res, s)
            ∧ res.mark = (if (deviceOf e ts).heatRate ≤ 9 then 3 else 5)
            ∧ res.ticksUntilMeltdown = 9999 / (deviceOf e ts).heatRate :=
  runSimulation_of_isFuelOnly _ (isFuelOnly_deviceOf e ts he hts hne) fuel hfuel

theorem fuelOnly_meltdown_witness :
    (0 : Int) ≤ 0
    ∧ (∀ t ∈ [ComponentType.DUAL_URANIUM_CELL], IsFuelKind t)
    ∧ (∃ c, some c ∈ (deviceOf 0 [ComponentType.DUAL_URANIUM_CELL]).components)
    ∧ 50001 ≤ 50001
    ∧ 4 ≤ (deviceOf 0 [ComponentType.DUAL_URANIUM_CELL]).heatRate
    ∧ ∃ s, (deviceOf 0 [ComponentType.DUAL_URANIUM_CELL]).initializeSimulation.runUntil
            50001 true true false true
          = some (RunUntilStopReason.STOPPED_ON_MELTDOWN, s)
        ∧ s.pendingSimState.curTick
            = 9999 / (deviceOf 0 [ComponentType.DUAL_URANIUM_CELL]).heatRate + 1
        ∧ s.curSimState.curTick = 9999 / (deviceOf 0 [ComponentType.DUAL_URANIUM_CELL]).heatRate
        ∧ s.pendingSimState.curTick ≤ 2500
        ∧ ∃ res, runSimulation 50001 (deviceOf 0 [ComponentType.DUAL_URANIUM_CELL])
              = some (res, s)
            ∧ res.mark
              = (if (deviceOf 0 [ComponentType.DUAL_URANIUM_CELL]).heatRate ≤ 9 then 3 else 5)
            ∧ res.ticksUntilMeltdown
              = 9999 / (deviceOf 0 [ComponentType.DUAL_URANIUM_CELL]).heatRate :=
  ⟨le_rfl,
    fun t ht => by
      simp only [List.mem_singleton] at ht
      exact ht ▸ Or.inr (Or.inr (Or.inl rfl)),
    ⟨ReactorComponent.uraniumCell (UraniumCell.mk0 ComponentType.DUAL_URANIUM_CELL 0 0 2),
      by decide⟩,
    le_rfl,
    fuelOnly_meltdown 0 [ComponentType.DUAL_URANIUM_CELL] 50001 le_rfl
      (fun t ht => by
        simp only [List.mem_singleton] at ht
        exact ht ▸ Or.inr (Or.inr (Or.inl rfl)))
      ⟨ReactorComponent.uraniumCell (UraniumCell.mk0 ComponentType.DUAL_URANIUM_CELL 0 0 2),
        by decide⟩
      le_rfl⟩

theorem isDestroyed_setPendingHeat (c : ReactorComponent) (v : Int) :
    (c.setPendingHeat v).isDestroyed = c.isDestroyed := by
  cases c <;> rfl

theorem storedHeat_setPendingHeat (c : ReactorComponent) (hb : Heatable)
    (hh : c.heatable? = some hb) (v : Int) : (c.setPendingHeat v).storedHeat = v := by
  cases c <;> simp [ReactorComponent.heatable?] at hh <;> rfl

/-- The two non-overflow branches of `Heatable::alterHeat`: the new reactor and the
returned value. -/
theorem Heatable.alterHeat_no_overflow (r : Reactor) (i : Nat) (c : ReactorComponent)
    (hb : Heatable) (delta : Int) (hc : r.comp? i = some c)
    (hle : hb.pendingHeat + delta ≤ hb.maxHeat) :
    Heatable.alterHeat r i hb delta
      = if hb.pendingHeat + delta < 0 then
          (r.setComp i (c.setPendingHeat 0), hb.pendingHeat + delta)
        else (r.setComp i (c.setPendingHeat (hb.pendingHeat + delta)), 0) := by
  unfold Heatable.alterHeat
  simp only [hc, gt_iff_lt, not_lt.mpr hle, if_false]

theorem destroyedAt_setComp_setPendingHeat (r : Reactor) (i : Nat) (c : ReactorComponent)
    (hc : r.comp? i = some c) (v : Int) :
    (r.setComp i (c.setPendingHeat v)).destroyedAt i = r.destroyedAt i := by
  have hlt := comp?_lt_length hc
  simp [Reactor.destroyedAt, comp?_setComp, hlt, hc, isDestroyed_setPendingHeat]

/-- The overflow branch of `Heatable::alterHeat` and the flags: with reporting on, the
component is marked destroyed and the failure flag is raised unless the component was
destroyed before; with reporting suppressed, the reactor is not changed at all. -/
theorem Heatable.alterHeat_flags_on_overflow (r : Reactor) (i : Nat) (c : ReactorComponent)
    (hb : Heatable) (delta : Int) (hc : r.comp? i = some c)
    (hgt : hb.pendingHeat + delta > hb.maxHeat) :
    (r.ignoreComponentDestroyed = false →
        (Heatable.alterHeat r i hb delta).1.destroyedAt i = true
        ∧ (Heatable.alterHeat r i hb delta).1.pendingSimState.componentFailed
            = (r.pendingSimState.componentFailed || !r.destroyedAt i))
    ∧ (r.ignoreComponentDestroyed = true → (Heatable.alterHeat r i hb delta).1 = r) := by
  have hlt := comp?_lt_length hc
  unfold Heatable.alterHeat
  simp only [hgt, if_true]
  unfold ReactorComponent.setDestroyed
  simp only [hc]
  constructor
  · intro hig
    simp only [hig, Bool.not_false, if_true, Bool.true_and]
    have hd : r.destroyedAt i = c.base.pendingDestroyed := by
      simp [Reactor.destroyedAt, hc, ReactorComponent.isDestroyed]
    rw [hd]
    have hset : (c.setPendingDestroyed true).isDestroyed = true := by cases c <;> rfl
    cases hw : c.base.pendingDestroyed
    · refine ⟨?_, ?_⟩
      · simp [Reactor.destroyedAt, comp?_componentDestroyed, comp?_setComp, hlt, hset]
      · simp [Reactor.componentDestroyed, hig, Reactor.setComp]
    · refine ⟨?_, ?_⟩
      · simp [Reactor.destroyedAt, comp?_setComp, hlt, hset]
      · simp [Reactor.setComp]
  · intro hig
    simp [hig]

theorem ventOnly_isHeatableAt : IsHeatableAt ventOnlyReactor 0 0 1000 :=
  ⟨ReactorComponent.heatVent (HeatVent.mk0 ComponentType.HEAT_VENT 0 0 6 0 1000), _,
    by decide, rfl, rfl, rfl⟩

/-- C18: for a component deriving from `Heatable` (vent, exchanger, coolant cell) with stored
heat `h` and capacity `c`, and every `delta` with `h + delta > c`, the call `alterHeat(delta)`
leaves the stored heat at `h` and returns `c - (h + delta) + 1`. -/
theorem alterHeat_overflow_result (r : Reactor) (i : Nat) (h c delta : Int)
    (hH : IsHeatableAt r i h c) (hgt : h + delta > c) :
    (ReactorComponent.alterHeat r i delta).1.storedHeatAt i = h
    ∧ (ReactorComponent.alterHeat r i delta).2 = c - (h + delta) + 1 := by
  obtain ⟨comp, hb, hc, hh, rfl, rfl⟩ := hH
  rw [alterHeat_of_heatable r i comp hb delta hc hh]
  exact Heatable.alterHeat_overflow r i comp hb delta hc hh hgt

theorem alterHeat_overflow_result_witness :
    IsHeatableAt ventOnlyReactor 0 0 1000 ∧ (0 : Int) + 1001 > 1000
    ∧ (ReactorComponent.alterHeat ventOnlyReactor 0 1001).1.storedHeatAt 0 = 0
    ∧ (ReactorComponent.alterHeat ventOnlyReactor 0 1001).2 = 1000 - (0 + 1001) + 1 :=
  ⟨ventOnly_isHeatableAt, by decide,
    alterHeat_overflow_result ventOnlyReactor 0 0 1000 1001 ventOnly_isHeatableAt
      (by decide)⟩

/-- C19: for a component deriving from `Heatable` with stored heat `h` and capacity `c`:
if `0 <= h + delta <= c`, the call `alterHeat(delta)` sets the stored heat to `h + delta`
and returns `0`; if `h + delta < 0` (and the capacity is not negative, as for every
component of the factory), it sets the stored heat to `0` and returns `h + delta`; in
both cases the destroyed flag of the component and the pending component-failure flag of
the device keep their values. -/
theorem alterHeat_in_range (r : Reactor) (i : Nat) (h c delta : Int)
    (hH : IsHeatableAt r i h c) :
    (0 ≤ h + delta → h + delta ≤ c →
        (ReactorComponent.alterHeat r i delta).1.storedHeatAt i = h + delta
        ∧ (ReactorComponent.alterHeat r i delta).2 = 0
        ∧ (ReactorComponent.alterHeat r i delta).1.destroyedAt i = r.destroyedAt i
        ∧ (ReactorComponent.alterHeat r i delta).1.pendingSimState.componentFailed
            = r.pendingSimState.componentFailed)
    ∧ (h + delta < 0 → 0 ≤ c →
        (ReactorComponent.alterHeat r i delta).1.storedHeatAt i = 0
        ∧ (ReactorComponent.alterHeat r i delta).2 = h + delta
        ∧ (ReactorComponent.alterHeat r i delta).1.destroyedAt i = r.destroyedAt i
        ∧ (ReactorComponent.alterHeat r i delta).1.pendingSimState.componentFailed
            = r.pendingSimState.componentFailed) := by
  obtain ⟨comp, hb, hc, hh, rfl, rfl⟩ := hH
  have hlt := comp?_lt_length hc
  rw [alterHeat_of_heatable r i comp hb delta hc hh]
  constructor
  · intro h0 hle
    rw [Heatable.alterHeat_no_overflow r i comp hb delta hc hle, if_neg (by omega)]
    refine ⟨?_, rfl, destroyedAt_setComp_setPendingHeat r i comp hc _, rfl⟩
    simp [Reactor.storedHeatAt, comp?_setComp, hlt, storedHeat_setPendingHeat comp hb hh]
  · intro hneg h0
    rw [Heatable.alterHeat_no_overflow r i comp hb delta hc (by omega), if_pos hneg]
    refine ⟨?_, rfl, destroyedAt_setComp_setPendingHeat r i comp hc _, rfl⟩
    simp [Reactor.storedHeatAt, comp?_setComp, hlt, storedHeat_setPendingHeat comp hb hh]

theorem alterHeat_in_range_witness :
    IsHeatableAt ventOnlyReactor 0 0 1000
    ∧ ((0 : Int) ≤ 0 + 7 → (0 : Int) + 7 ≤ 1000 →
        (ReactorComponent.alterHeat ventOnlyReactor 0 7).1.storedHeatAt 0 = 0 + 7
        ∧ (ReactorComponent.alterHeat ventOnlyReactor 0 7).2 = 0
        ∧ (ReactorComponent.alterHeat ventOnlyReactor 0 7).1.destroyedAt 0
            = ventOnlyReactor.destroyedAt 0
        ∧ (ReactorComponent.alterHeat ventOnlyReactor 0 7).1.pendingSimState.componentFailed
            = ventOnlyReactor.pendingSimState.componentFailed)
    ∧ ((0 : Int) + 7 < 0 → (0 : Int) ≤ 1000 →
        (ReactorComponent.alterHeat ventOnlyReactor 0 7).1.storedHeatAt 0 = 0
        ∧ (ReactorComponent.alterHeat ventOnlyReactor 0 7).2 = 0 + 7
        ∧ (ReactorComponent.alterHeat ventOnlyReactor 0 7).1.destroyedAt 0
            = ventOnlyReactor.destroyedAt 0
        ∧ (ReactorComponent.alterHeat ventOnlyReactor 0 7).1.pendingSimState.componentFailed
            = ventOnlyReactor.pendingSimState.componentFailed) :=
  ⟨ventOnly_isHeatableAt,
    alterHeat_in_range ventOnlyReactor 0 0 1000 7 ventOnly_isHeatableAt⟩

/-- C20 (as stated) fails: on a device with destruction reporting suppressed, a `HEAT_VENT`
with stored heat 0 and capacity 1000 that is asked to take 1001 is not marked destroyed
(and the device is not changed at all). -/
theorem alterHeat_overflow_suppressed_not_destroyed :
    ventOnlyQuietReactor.ignoreComponentDestroyed = true
    ∧ IsHeatableAt ventOnlyQuietReactor 0 0 1000 ∧ (0 : Int) + 1001 > 1000
    ∧ (ReactorComponent.alterHeat ventOnlyQuietReactor 0 1001).1.destroyedAt 0 = false
    ∧ (ReactorComponent.alterHeat ventOnlyQuietReactor 0 1001).1 = ventOnlyQuietReactor :=
  ⟨rfl, ⟨ReactorComponent.heatVent (HeatVent.mk0 ComponentType.HEAT_VENT 0 0 6 0 1000), _,
      by decide, rfl, rfl, rfl⟩, by decide, by decide, by decide⟩

/-- C20 (amended): when the `alterHeat` result of a component deriving from `Heatable`
exceeds its capacity (`h + delta > c`): if destruction reporting is not suppressed, the
component's pending destroyed flag is `true` afterwards, and the pending component-failure
flag of the device is `true` afterwards exactly when it was set before or the component
was not yet destroyed; if reporting is suppressed, the call changes nothing in the device,
so the component is not marked destroyed and the failure flag keeps its value. -/
theorem alterHeat_overflow_flags (r : Reactor) (i : Nat) (h c delta : Int)
    (hH : IsHeatableAt r i h c) (hgt : h + delta > c) :
    (r.ignoreComponentDestroyed = false →
        (ReactorComponent.alterHeat r i delta).1.destroyedAt i = true
        ∧ (ReactorComponent.alterHeat r i delta).1.pendingSimState.componentFailed
            = (r.pendingSimState.componentFailed || !r.destroyedAt i))
    ∧ (r.ignoreComponentDestroyed = true → (ReactorComponent.alterHeat r i delta).1 = r) := by
  obtain ⟨comp, hb, hc, hh, rfl, rfl⟩ := hH
  rw [alterHeat_of_heatable r i comp hb delta hc hh]
  exact Heatable.alterHeat_flags_on_overflow r i comp hb delta hc hgt

theorem alterHeat_overflow_flags_witness :
    IsHeatableAt ventOnlyReactor 0 0 1000 ∧ (0 : Int) + 1001 > 1000
    ∧ (ventOnlyReactor.ignoreComponentDestroyed = false →
        (ReactorComponent.alterHeat ventOnlyReactor 0 1001).1.destroyedAt 0 = true
        ∧ (ReactorComponent.alterHeat ventOnlyReactor 0 1001).1.pendingSimState.componentFailed
            = (ventOnlyReactor.pendingSimState.componentFailed
                || !ventOnlyReactor.destroyedAt 0))
    ∧ (ventOnlyReactor.ignoreComponentDestroyed = true →
        (ReactorComponent.alterHeat ventOnlyReactor 0 1001).1 = ventOnlyReactor) :=
  ⟨ventOnly_isHeatableAt, by decide,
    alterHeat_overflow_flags ventOnlyReactor 0 0 1000 1001 ventOnly_isHeatableAt
      (by decide)⟩

theorem foldl_set_getElem? {α : Type} (F : Nat → α) (idxs : List Nat) :
    ∀ (l : List α), (idxs.foldl (fun l i => l.set i (F i)) l).length = l.length
      ∧ ∀ j, (idxs.foldl (fun l i => l.set i (F i)) l)[j]?
          = if j ∈ idxs ∧ j < l.length then some (F j) else l[j]? := by
  induction idxs with
  | nil => intro l; simp
  | cons a idxs ih =>
    intro l
    simp only [List.foldl_cons]
    obtain ⟨h1, h2⟩ := ih (l.set a (F a))
    refine ⟨by rw [h1, List.length_set], fun j => ?_⟩
    rw [h2, List.length_set, List.getElem?_set]
    by_cases hj : j ∈ idxs
    · by_cases hl : j < l.length
      · simp [hj, hl]
      · have : l[j]? = none := List.getElem?_eq_none (by omega)
        by_cases haj : a = j
        · subst haj; simp [hl, this]
        · simp [hl, haj, this]
    · by_cases haj : a = j
      · subst haj
        by_cases hl : a < l.length
        · simp [hj, hl]
        · have : l[a]? = none := List.getElem?_eq_none (by omega)
          simp [hj, hl, this]
      · have : ¬ j = a := fun h => haj h.symm
        simp [hj, haj, this]

theorem foldl_nested_eq_flatMap {α : Type} (step : List α → Nat → List α) (g : Nat → Nat → Nat)
    (ys : List Nat) (xs : List Nat) :
    ∀ (l : List α), xs.foldl (fun l x => ys.foldl (fun l y => step l (g x y)) l) l
      = (xs.flatMap fun x => ys.map (g x)).foldl step l := by
  induction xs with
  | nil => intro l; rfl
  | cons x xs ih =>
    intro l
    simp only [List.foldl_cons, List.flatMap_cons, List.foldl_append, List.foldl_map]
    exact ih _

theorem set_inner_fold (ts : List ComponentType) (w : Nat) (x : Nat) (hx : x < w)
    (ys : List Nat) :
    ∀ (r : Reactor), r.width = w →
      ys.foldl (fun (r : Reactor) (y : Nat) =>
          r.set x y (ts.getD ((y : Int) * r.width + x).toNat ComponentType.COMPONENT_NONE)) r
        = { r with components :=
              ys.foldl (fun l y => l.set (y * w + x) (cellOf w ts (y * w + x))) r.components } := by
  induction ys with
  | nil => intro r _; rfl
  | cons y ys ih =>
    intro r hw
    simp only [List.foldl_cons]
    have hidx : ((y : Int) * r.width + x).toNat = y * w + x := by
      rw [hw]
      have : ((y : Int) * (w : Int) + (x : Int)) = ((y * w + x : Nat) : Int) := by push_cast; ring
      rw [this, Int.toNat_ofNat]
    have hmod : (y * w + x) % w = x := by
      rw [Nat.add_comm, Nat.add_mul_mod_self_right, Nat.mod_eq_of_lt hx]
    have hdiv : (y * w + x) / w = y := by
      rw [Nat.add_comm, Nat.add_mul_div_right _ _ (by omega), Nat.div_eq_of_lt hx, Nat.zero_add]
    have hstep : r.set x y (ts.getD ((y : Int) * r.width + x).toNat ComponentType.COMPONENT_NONE)
        = { r with components := r.components.set (y * w + x) (cellOf w ts (y * w + x)) } := by
      unfold Reactor.set Reactor.setPtr cellOf
      rw [hidx, hmod, hdiv]
    rw [hstep]
    exact ih { r with components := r.components.set (y * w + x) (cellOf w ts (y * w + x)) } hw

theorem set_outer_fold (ts : List ComponentType) (w h : Nat) (xs : List Nat)
    (hxs : ∀ x ∈ xs, x < w) :
    ∀ (r : Reactor), r.width = w → r.height = h →
      xs.foldl (fun (r : Reactor) (x : Nat) =>
          (List.range r.height.toNat).foldl (fun (r : Reactor) (y : Nat) =>
            r.set x y (ts.getD ((y : Int) * r.width + x).toNat ComponentType.COMPONENT_NONE)) r) r
        = { r with components :=
              xs.foldl (fun l x => (List.range h).foldl
                (fun l y => l.set (y * w + x) (cellOf w ts (y * w + x))) l) r.components } := by
  induction xs with
  | nil => intro r _ _; rfl
  | cons x xs ih =>
    intro r hw hh
    simp only [List.foldl_cons]
    have hht : r.height.toNat = h := by rw [hh, Int.toNat_ofNat]
    rw [set_inner_fold ts w x (hxs x (List.mem_cons_self _ _)) _ r hw, hht]
    exact ih (fun x hx => hxs x (List.mem_cons_of_mem _ hx))
      { r with components := (List.foldl
          (fun l y => l.set (y * w + x) (cellOf w ts (y * w + x))) r.components (List.range h)) }
      hw hh

/-- The grid that `setComponentTypes(ts)` builds on a fresh device with `e >= 0` extra
chambers: list index `i` holds the factory's component of kind `ts[i]` with coordinates
`(i % width, i / width)`. -/
theorem deviceOf_eq (e : Int) (ts : List ComponentType) (he : 0 ≤ e) :
    deviceOf e ts
      = { Reactor.mk0 e with
          components := (List.range ((3 + e) * 6).toNat).map (cellOf (3 + e).toNat ts) } := by
  obtain ⟨w, hw⟩ := Int.eq_ofNat_of_zero_le (show 0 ≤ 3 + e by omega)
  have hw3 : (3 + e).toNat = w := by rw [hw, Int.toNat_ofNat]
  have hN : ((3 + e) * 6).toNat = w * 6 := by
    rw [hw]
    have : ((w : Int) * 6) = ((w * 6 : Nat) : Int) := by push_cast; ring
    rw [this, Int.toNat_ofNat]
  unfold deviceOf Reactor.setComponentTypes
  have hwid : (Reactor.mk0 e).width = w := hw
  rw [show (Reactor.mk0 e).width.toNat = w from by rw [hwid, Int.toNat_ofNat]]
  rw [set_outer_fold ts w 6 (List.range w) (fun x hx => List.mem_range.mp hx) _ hwid rfl]
  rw [foldl_nested_eq_flatMap (fun l i => l.set i (cellOf w ts i)) (fun x y => y * w + x)]
  congr 1
  obtain ⟨hlen, hget⟩ := foldl_set_getElem? (cellOf w ts)
    ((List.range w).flatMap fun x => (List.range 6).map fun y => y * w + x)
    (Reactor.mk0 e).components
  have hl0 : (Reactor.mk0 e).components.length = w * 6 := by
    simp [Reactor.mk0, hN]
  apply List.ext_getElem?
  intro j
  rw [hget, hl0, hN, hw3, List.getElem?_map]
  by_cases hj : j < w * 6
  · have hwpos : 0 < w := by
      rcases Nat.eq_zero_or_pos w with h0 | h0
      · subst h0; omega
      · exact h0
    have hmem : j ∈ (List.range w).flatMap fun x => (List.range 6).map fun y => y * w + x := by
      rw [List.mem_flatMap]
      refine ⟨j % w, List.mem_range.mpr (Nat.mod_lt _ hwpos), ?_⟩
      rw [List.mem_map]
      refine ⟨j / w, List.mem_range.mpr ?_, ?_⟩
      · exact Nat.div_lt_of_lt_mul hj
      · exact Nat.div_add_mod' j w
    rw [if_pos ⟨hmem, hj⟩, List.getElem?_range hj]
    rfl
  · rw [if_neg (fun h => hj h.2), List.getElem?_eq_none (by omega),
      List.getElem?_eq_none (by simp; omega)]
    rfl

theorem create_cost (t : ComponentType) (x y : Int) (c : ReactorComponent)
    (hc : ReactorComponent.create t x y = some c) : c.base.cost = 2 := by
  cases t <;> simp only [ReactorComponent.create, Option.some.injEq, reduceCtorEq] at hc <;>
    subst hc <;> rfl

theorem create_type (t : ComponentType) (x y : Int) :
    (match ReactorComponent.create t x y with
      | none => ComponentType.COMPONENT_NONE
      | some c => c.type) = t.recognisedOrNone := by
  cases t <;> rfl

theorem create_recognisedOrNone (t : ComponentType) (x y : Int) :
    ReactorComponent.create t.recognisedOrNone x y = ReactorComponent.create t x y := by
  cases t <;> rfl

theorem deviceOf_cost (e : Int) (ts : List ComponentType) :
    ∀ c, some c ∈ (deviceOf e ts).components → c.base.cost = 2 := by
  unfold deviceOf Reactor.setComponentTypes
  apply foldl_inv (fun r : Reactor => ∀ c, some c ∈ r.components → c.base.cost = 2)
  · intro r x hr
    apply foldl_inv (fun r : Reactor => ∀ c, some c ∈ r.components → c.base.cost = 2)
    · intro r1 y h1 c hc
      rcases List.mem_or_eq_of_mem_set hc with hmem | heq
      · exact h1 c hmem
      · exact create_cost _ _ _ c heq.symm
    · exact hr
  · intro c hc
    simp [Reactor.mk0] at hc

theorem getTotalCost_eq (r : Reactor) (h : ∀ c, some c ∈ r.components → c.base.cost = 2) :
    r.getTotalCost = 2 * r.numPresent := by
  unfold Reactor.getTotalCost Reactor.numPresent
  have key : ∀ (l : List (Option ReactorComponent)) (a : Int),
      (∀ c, some c ∈ l → c.base.cost = 2) →
      l.foldl
        (fun total cptr =>
          match cptr with
          | none => total
          | some c => total + c.base.cost) a
        = a + 2 * ((l.filter Option.isSome).length : Int) := by
    intro l
    induction l with
    | nil => intro a _; simp
    | cons o l ih =>
      intro a hl
      simp only [List.foldl_cons]
      rw [ih _ (fun c hc => hl c (List.mem_cons_of_mem _ hc))]
      cases o with
      | none => simp
      | some c =>
        have := hl c (List.mem_cons_self _ _)
        simp only [this, List.filter_cons, Option.isSome_some, if_true, List.length_cons]
        push_cast
        ring
  rw [key r.components 0 h]
  ring

theorem runSimulation_of_no_fuel (fuel : Nat) (r : Reactor)
    (h0 : r.initializeSimulation.numUraniumCells = 0) :
    runSimulation fuel r
      = some ({ totalCost := r.getTotalCost }, r.initializeSimulation) := by
  unfold runSimulation
  simp only []
  rw [if_pos h0]
  rfl

/-- C11: for every device that `setComponentTypes` builds and that has zero fuel units
(`numUraniumCells = 0` after `initializeSimulation`), `runSimulation` executes no tick: the
device is left in the state `initializeSimulation` produces, whose committed and pending
run states are both the initial state (tick count 0); and the result has `totalCost` equal
to 2 times the number of components present, every other field having its default value
(`mark = 0`, `efficiency = 0`, `euPerTick = 0`, `timedOut = false`,
`numIterationsBeforeFailure = -1`, `ticksUntilMeltdown = -1`,
`ticksUntilComponentFailure = -1`, ...). -/
theorem runSimulation_no_fuel (e : Int) (ts : List ComponentType) (fuel : Nat)
    (h0 : (deviceOf e ts).initializeSimulation.numUraniumCells = 0) :
    runSimulation fuel (deviceOf e ts)
      = some ({ efficiency := 0, totalEUPerCycle := 0, euPerTick := 0, overallEUPerTick := 0,
                usesSingleUseCoolant := false, timedOut := false, cooldownTicks := 0,
                cycleTicks := 0, mark := 0, numIterationsBeforeFailure := -1,
                ticksUntilMeltdown := -1, ticksUntilComponentFailure := -1,
                totalCost := 2 * (deviceOf e ts).numPresent },
          (deviceOf e ts).initializeSimulation)
    ∧ (deviceOf e ts).initializeSimulation.curSimState = {}
    ∧ (deviceOf e ts).initializeSimulation.pendingSimState = {}
    ∧ (deviceOf e ts).initializeSimulation.curSimState.curTick = 0 := by
  rw [runSimulation_of_no_fuel fuel _ h0, getTotalCost_eq _ (deviceOf_cost e ts)]
  exact ⟨rfl, rfl, rfl, rfl⟩

theorem runSimulation_no_fuel_witness :
    advancedVentReactor.initializeSimulation.numUraniumCells = 0
    ∧ advancedVentReactor.numPresent = 1
    ∧ runSimulation 0 advancedVentReactor
      = some ({ efficiency := 0, totalEUPerCycle := 0, euPerTick := 0, overallEUPerTick := 0,
                usesSingleUseCoolant := false, timedOut := false, cooldownTicks := 0,
                cycleTicks := 0, mark := 0, numIterationsBeforeFailure := -1,
                ticksUntilMeltdown := -1, ticksUntilComponentFailure := -1,
                totalCost := 2 * advancedVentReactor.numPresent },
          advancedVentReactor.initializeSimulation)
    ∧ advancedVentReactor.initializeSimulation.curSimState = {}
    ∧ advancedVentReactor.initializeSimulation.pendingSimState = {}
    ∧ advancedVentReactor.initializeSimulation.curSimState.curTick = 0 :=
  ⟨by decide, by decide,
    runSimulation_no_fuel 0
      (ComponentType.ADVANCED_HEAT_VENT :: List.replicate 17 ComponentType.COMPONENT_NONE) 0
      (by decide)⟩

theorem getD_map_recognisedOrNone (ts : List ComponentType) (i : Nat) :
    (ts.map ComponentType.recognisedOrNone).getD i ComponentType.COMPONENT_NONE
      = (ts.getD i ComponentType.COMPONENT_NONE).recognisedOrNone := by
  simp only [List.getD_eq_getElem?_getD, List.getElem?_map]
  cases ts[i]? <;> rfl

theorem cellOf_map_recognisedOrNone (w : Nat) (ts : List ComponentType) (i : Nat) :
    cellOf w (ts.map ComponentType.recognisedOrNone) i = cellOf w ts i := by
  unfold cellOf
  rw [getD_map_recognisedOrNone, create_recognisedOrNone]

theorem getComponentTypes_deviceOf (e : Int) (ts : List ComponentType) (he : 0 ≤ e)
    (hlen : ts.length = ((3 + e) * 6).toNat) :
    (deviceOf e ts).getComponentTypes = ts.map ComponentType.recognisedOrNone := by
  rw [deviceOf_eq e ts he]
  unfold Reactor.getComponentTypes
  simp only [List.map_map]
  apply List.ext_getElem
  · simp [hlen]
  · intro i h1 h2
    simp only [List.getElem_map, List.getElem_range, Function.comp]
    have hi : i < ts.length := by simpa using h2
    unfold cellOf
    rw [create_type, List.getD_eq_getElem?_getD, List.getElem?_eq_getElem hi]
    rfl

/-- C12: for every extra-chamber count `e >= 0` (in particular `0 <= e <= 6`) and every
list `ts` of `(3 + e) * 6` kinds, `getComponentTypes` of the fresh device after
`setComponentTypes(ts)` is `ts` with every kind the factory does not recognise replaced by
`COMPONENT_NONE`, hence `ts` itself when all kinds are recognised; list index
`y * width + x` holds the factory's component of kind `ts[y * width + x]` with coordinates
`(x, y)`; and the device rebuilt from the returned list is the same device. -/
theorem getComponentTypes_setComponentTypes (e : Int) (ts : List ComponentType) (he : 0 ≤ e)
    (hlen : ts.length = ((3 + e) * 6).toNat) :
    (deviceOf e ts).getComponentTypes = ts.map ComponentType.recognisedOrNone
    ∧ ((∀ t ∈ ts, t ≠ ComponentType.COMPONENT_COUNT) → (deviceOf e ts).getComponentTypes = ts)
    ∧ (∀ x y : Nat, x < (3 + e).toNat → y < 6 →
        (deviceOf e ts).components[y * (3 + e).toNat + x]?
          = some (ReactorComponent.create
              (ts.getD (y * (3 + e).toNat + x) ComponentType.COMPONENT_NONE) x y))
    ∧ deviceOf e (deviceOf e ts).getComponentTypes = deviceOf e ts := by
  have h1 := getComponentTypes_deviceOf e ts he hlen
  refine ⟨h1, ?_, ?_, ?_⟩
  · intro hrec
    rw [h1]
    conv_rhs => rw [← List.map_id ts]
    apply List.map_congr_left
    intro t ht
    simp [ComponentType.recognisedOrNone, hrec t ht]
  · intro x y hx hy
    rw [deviceOf_eq e ts he, List.getElem?_map]
    have hN : ((3 + e) * 6).toNat = (3 + e).toNat * 6 := by omega
    have hlt : y * (3 + e).toNat + x < ((3 + e) * 6).toNat := by
      rw [hN]
      nlinarith
    rw [List.getElem?_range hlt]
    simp only [Option.map_some', cellOf]
    have hmod : (y * (3 + e).toNat + x) % (3 + e).toNat = x := by
      rw [Nat.add_comm, Nat.add_mul_mod_self_right, Nat.mod_eq_of_lt hx]
    have hdiv : (y * (3 + e).toNat + x) / (3 + e).toNat = y := by
      rw [Nat.add_comm, Nat.add_mul_div_right _ _ (by omega), Nat.div_eq_of_lt hx,
        Nat.zero_add]
    rw [hmod, hdiv]
  · rw [h1, deviceOf_eq e _ he, deviceOf_eq e ts he]
    have hfun : cellOf (3 + e).toNat (ts.map ComponentType.recognisedOrNone)
        = cellOf (3 + e).toNat ts := funext (cellOf_map_recognisedOrNone _ ts)
    rw [hfun]

theorem getComponentTypes_setComponentTypes_witness :
    (0 : Int) ≤ 0 ∧ mixedKinds.length = ((3 + (0 : Int)) * 6).toNat
    ∧ (deviceOf 0 mixedKinds).getComponentTypes = mixedKinds.map ComponentType.recognisedOrNone
    ∧ ((∀ t ∈ mixedKinds, t ≠ ComponentType.COMPONENT_COUNT) →
        (deviceOf 0 mixedKinds).getComponentTypes = mixedKinds)
    ∧ (∀ x y : Nat, x < (3 + (0 : Int)).toNat → y < 6 →
        (deviceOf 0 mixedKinds).components[y * (3 + (0 : Int)).toNat + x]?
          = some (ReactorComponent.create
              (mixedKinds.getD (y * (3 + (0 : Int)).toNat + x) ComponentType.COMPONENT_NONE) x y))
    ∧ deviceOf 0 (deviceOf 0 mixedKinds).getComponentTypes = deviceOf 0 mixedKinds :=
  ⟨le_rfl, by decide, getComponentTypes_setComponentTypes 0 mixedKinds le_rfl (by decide)⟩

/-- Invariant rule for the loop of `runUntil`: a property that holds on entry, is kept by
every tick, and is kept by the commit of a state on which no stop condition holds, holds
for the returned state; and the returned reason is the one the checks give on that state,
or `STOPPED_ON_MAX_TICKS` from the no-heat-loss check (cooldown monitored). -/
theorem runUntilLoop_induct (f1 f2 f3 f4 : Bool) (P : Reactor → Prop)
    (hc : ∀ r, P r → Reactor.stopCheck f1 f2 f3 f4 r = none → P r.commit)
    (ht : ∀ r, P r → P r.runTick.incTick) (n : Nat) :
    ∀ (r : Reactor) (first : Bool) (last : Int) (reason : RunUntilStopReason) (s : Reactor),
      P r → Reactor.runUntilLoop f1 f2 f3 f4 n r first last = some (reason, s) →
      P s ∧ (Reactor.stopCheck f1 f2 f3 f4 s = some reason
        ∨ (reason = RunUntilStopReason.STOPPED_ON_MAX_TICKS ∧ f3 = true
            ∧ Reactor.stopCheck f1 f2 f3 f4 s = none)) := by
  induction n with
  | zero => intro r first last reason s _ h; simp [Reactor.runUntilLoop] at h
  | succ n ih =>
    intro r first last reason s hP h
    unfold Reactor.runUntilLoop at h
    cases hs : Reactor.stopCheck f1 f2 f3 f4 r with
    | some reason1 =>
      rw [hs] at h
      simp only [Option.some.injEq, Prod.mk.injEq] at h
      obtain ⟨rfl, rfl⟩ := h
      exact ⟨hP, Or.inl hs⟩
    | none =>
      rw [hs] at h
      simp only at h
      cases hn : Reactor.noHeatLossCheck f3 r last with
      | none =>
        rw [hn] at h
        simp only [Option.some.injEq, Prod.mk.injEq] at h
        obtain ⟨rfl, rfl⟩ := h
        refine ⟨hP, Or.inr ⟨rfl, ?_, hs⟩⟩
        unfold Reactor.noHeatLossCheck at hn
        cases f3
        · simp at hn
        · rfl
      | some l =>
        rw [hn] at h
        simp only at h
        cases first
        · exact ih _ _ _ _ _ (ht _ (hc r hP hs)) h
        · exact ih _ _ _ _ _ (ht _ hP) h

theorem stopCheck_run_cases {f4 : Bool} {r : Reactor} {reason : RunUntilStopReason}
    (h : Reactor.stopCheck true true false f4 r = some reason) :
    (reason = RunUntilStopReason.STOPPED_ON_MELTDOWN ∧ r.pendingSimState.meltdown = true)
    ∨ (reason = RunUntilStopReason.STOPPED_ON_COMPONENT_FAILED ∧ f4 = true
        ∧ r.pendingSimState.meltdown = false ∧ r.pendingSimState.componentFailed = true)
    ∨ (reason = RunUntilStopReason.STOPPED_ON_FUEL_USED
        ∧ r.pendingSimState.meltdown = false
        ∧ (f4 = true → r.pendingSimState.componentFailed = false)
        ∧ 10000 ≤ r.pendingSimState.curTick) := by
  unfold Reactor.stopCheck at h
  simp only [Bool.and_true, Bool.and_false, Bool.false_eq_true, if_false, Reactor.fuelTicks,
    Reactor.timeoutTicks, decide_eq_true_eq] at h
  split_ifs at h with h1 h2 h3 h4
  · simp only [Option.some.injEq] at h
    exact Or.inl ⟨h.symm, h1⟩
  · simp only [Option.some.injEq] at h
    simp only [Bool.and_eq_true] at h2
    exact Or.inr (Or.inl ⟨h.symm, h2.2, by simpa using h1, h2.1⟩)
  · simp only [Option.some.injEq] at h
    refine Or.inr (Or.inr ⟨h.symm, by simpa using h1, ?_, h3⟩)
    intro hf
    simp only [hf, Bool.and_true, Bool.not_eq_true] at h2
    exact h2
  · omega

theorem stopCheck_cool_cases {r : Reactor} {reason : RunUntilStopReason}
    (h : Reactor.stopCheck false false true false r = some reason) :
    reason = RunUntilStopReason.STOPPED_ON_COOLED_DOWN
      ∨ reason = RunUntilStopReason.STOPPED_ON_MAX_TICKS := by
  unfold Reactor.stopCheck at h
  simp only [Bool.and_true, Bool.and_false, Bool.false_eq_true, if_false] at h
  split_ifs at h <;> simp only [Option.some.injEq] at h
  · exact Or.inl h.symm
  · exact Or.inl h.symm
  · exact Or.inr h.symm

theorem runUntil_cool_reason (n : Nat) (r : Reactor) (reason : RunUntilStopReason) (s : Reactor)
    (h : r.runUntil n false false true false = some (reason, s)) :
    reason = RunUntilStopReason.STOPPED_ON_COOLED_DOWN
      ∨ reason = RunUntilStopReason.STOPPED_ON_MAX_TICKS := by
  obtain ⟨_, h1 | h1⟩ := runUntilLoop_induct false false true false (fun _ => True)
    (fun _ _ _ => trivial) (fun _ _ => trivial) n r true (-1) reason s trivial h
  · exact stopCheck_cool_cases h1
  · exact Or.inr h1.1

theorem runUntil_run_reason (f4 : Bool) (n : Nat) (r : Reactor) (reason : RunUntilStopReason)
    (s : Reactor) (h : r.runUntil n true true false f4 = some (reason, s)) :
    (reason = RunUntilStopReason.STOPPED_ON_MELTDOWN ∧ s.pendingSimState.meltdown = true)
    ∨ (reason = RunUntilStopReason.STOPPED_ON_COMPONENT_FAILED ∧ f4 = true
        ∧ s.pendingSimState.meltdown = false ∧ s.pendingSimState.componentFailed = true)
    ∨ (reason = RunUntilStopReason.STOPPED_ON_FUEL_USED
        ∧ s.pendingSimState.meltdown = false
        ∧ (f4 = true → s.pendingSimState.componentFailed = false)
        ∧ 10000 ≤ s.pendingSimState.curTick) := by
  obtain ⟨_, h1 | h1⟩ := runUntilLoop_induct true true false f4 (fun _ => True)
    (fun _ _ _ => trivial) (fun _ _ => trivial) n r true (-1) reason s trivial h
  · exact stopCheck_run_cases h1
  · simp at h1

/-- The tick counters stay non-negative through `runUntil`. -/
theorem runUntil_ticks_nonneg (f1 f2 f3 f4 : Bool) (n : Nat) (r : Reactor)
    (reason : RunUntilStopReason) (s : Reactor)
    (h : r.runUntil n f1 f2 f3 f4 = some (reason, s))
    (hc : 0 ≤ r.curSimState.curTick) (hp : 0 ≤ r.pendingSimState.curTick) :
    0 ≤ s.curSimState.curTick ∧ 0 ≤ s.pendingSimState.curTick :=
  (runUntilLoop_induct f1 f2 f3 f4
    (fun r => 0 ≤ r.curSimState.curTick ∧ 0 ≤ r.pendingSimState.curTick)
    (fun r hr _ => ⟨hr.2, hr.2⟩)
    (fun r hr => by
      show 0 ≤ r.runTick.incTick.curSimState.curTick
        ∧ 0 ≤ r.runTick.incTick.pendingSimState.curTick
      rw [curSimState_step, pendingTick_step]
      exact ⟨hr.1, by have := hr.2; omega⟩)
    n r true (-1) reason s ⟨hc, hp⟩ h).1

theorem runUntil_isSome (f1 f2 f3 f4 : Bool) (fuel : Nat) (hfuel : 50001 ≤ fuel) (r : Reactor)
    (hp : 0 ≤ r.pendingSimState.curTick) :
    ∃ reason s, r.runUntil fuel f1 f2 f3 f4 = some (reason, s) := by
  have h := runUntilLoop_isSome f1 f2 f3 f4 fuel r true (-1) (by omega) (by omega)
  obtain ⟨⟨reason, s⟩, hs⟩ := Option.isSome_iff_exists.mp h
  exact ⟨reason, s, hs⟩

theorem tdiv_mark_threshold (t : Int) : (t * 100).tdiv Reactor.fuelTicks ≥ 10 ↔ 1000 ≤ t := by
  unfold Reactor.fuelTicks
  by_cases h0 : 0 ≤ t
  · have hb := tdiv_bounds_of_nonneg (a := t * 100) (d := 10000) (by omega) (by omega)
    constructor <;> intro h <;> omega
  · have hb := tdiv_bounds_of_nonpos (a := t * 100) (d := 10000) (by omega) (by omega)
    constructor <;> intro h <;> omega

theorem recordCooldown_keeps (results : SimulationResults) (reason : RunUntilStopReason)
    (c i : Reactor) :
    (recordCooldown results reason c i).1.mark = results.mark
    ∧ (recordCooldown results reason c i).1.ticksUntilMeltdown = results.ticksUntilMeltdown
    ∧ (recordCooldown results reason c i).1.numIterationsBeforeFailure
        = results.numIterationsBeforeFailure
    ∧ (recordCooldown results reason c i).1.ticksUntilComponentFailure
        = results.ticksUntilComponentFailure
    ∧ (recordCooldown results reason c i).1.euPerTick = results.euPerTick := by
  unfold recordCooldown
  split_ifs <;> exact ⟨rfl, rfl, rfl, rfl, rfl⟩

theorem recordCooldown_snd (results : SimulationResults) (reason : RunUntilStopReason)
    (c i : Reactor)
    (h : reason = RunUntilStopReason.STOPPED_ON_COOLED_DOWN
      ∨ reason = RunUntilStopReason.STOPPED_ON_MAX_TICKS) :
    (recordCooldown results reason c i).2 = false := by
  unfold recordCooldown
  rcases h with h | h <;> subst h <;> simp

theorem exists_map_pair {P : SimulationResults → Prop} (o : Option SimulationResults)
    (s : Reactor) (h : ∃ res, o = some res ∧ P res) :
    ∃ res, o.map (fun results => (results, s)) = some (res, s) ∧ P res := by
  obtain ⟨res, rfl, hP⟩ := h
  exact ⟨res, rfl, hP⟩

/-- The branch `firstStopReason == STOPPED_ON_MELTDOWN`: it returns, with the mark decided
by the committed tick count alone. -/
theorem runSimulationMeltdown_spec (fuel : Nat) (hfuel : 50001 ≤ fuel)
    (results : SimulationResults) (s : Reactor) (h0 : 0 ≤ s.curSimState.curTick) :
    ∃ res, runSimulationMeltdown fuel results s = some res
      ∧ res.ticksUntilMeltdown = s.curSimState.curTick
      ∧ res.numIterationsBeforeFailure = 0
      ∧ res.mark = (if 1000 ≤ s.curSimState.curTick then 3 else 5) := by
  unfold runSimulationMeltdown
  obtain ⟨reason, c, hrun⟩ := runUntil_isSome false false true false fuel hfuel
    ({ s.copy.rollback.removeFuel with ignoreComponentDestroyed := true }) h0
  simp only []
  rw [hrun]
  simp only []
  obtain ⟨k1, k2, k3, _, _⟩ := recordCooldown_keeps
    (if (s.curSimState.curTick * 100).tdiv Reactor.fuelTicks ≥ 10 then
      { results with numIterationsBeforeFailure := 0,
                     ticksUntilMeltdown := s.curSimState.curTick, mark := 3 }
     else
      { results with numIterationsBeforeFailure := 0,
                     ticksUntilMeltdown := s.curSimState.curTick, mark := 5 })
    reason c s
  refine ⟨_, rfl, ?_, ?_, ?_⟩
  · rw [k2]; split_ifs <;> rfl
  · rw [k3]; split_ifs <;> rfl
  · rw [k1]
    by_cases h : 1000 ≤ s.curSimState.curTick
    · rw [if_pos ((tdiv_mark_threshold _).mpr h), if_pos h]
    · rw [if_neg (fun hc => h ((tdiv_mark_threshold _).mp hc)), if_neg h]

/-- The branch `firstStopReason == STOPPED_ON_COMPONENT_FAILED`: it returns, and never
through its "Invalid stop reason" exit. -/
theorem runSimulationComponentFailed_spec (fuel : Nat) (hfuel : 50001 ≤ fuel)
    (results : SimulationResults) (s : Reactor) (h0 : 0 ≤ s.curSimState.curTick)
    (hp : 0 ≤ s.pendingSimState.curTick) :
    ∃ res reason s2, runSimulationComponentFailed fuel results s = some res
      ∧ s.copy.commit.runUntil fuel true true false false = some (reason, s2)
      ∧ res.ticksUntilComponentFailure = s.curSimState.curTick
      ∧ res.numIterationsBeforeFailure = 0
      ∧ res.mark = (if 1000 ≤ s.curSimState.curTick then 3
          else if 1000 ≤ s2.curSimState.curTick then 4 else 5) := by
  unfold runSimulationComponentFailed
  obtain ⟨creason, c, hcool⟩ := runUntil_isSome false false true false fuel hfuel
    ({ s.copy.rollback.removeFuel with ignoreComponentDestroyed := true }) h0
  obtain ⟨reason, s2, hruf⟩ := runUntil_isSome true true false false fuel hfuel
    s.copy.commit hp
  have hcr := runUntil_cool_reason _ _ _ _ hcool
  simp only []
  rw [hcool]
  simp only []
  have hsnd := recordCooldown_snd
    { results with numIterationsBeforeFailure := 0,
                   ticksUntilComponentFailure := s.curSimState.curTick }
    creason c.commit s hcr
  obtain ⟨k1, k2, k3, k4, _⟩ := recordCooldown_keeps
    { results with numIterationsBeforeFailure := 0,
                   ticksUntilComponentFailure := s.curSimState.curTick }
    creason c.commit s
  generalize hrc : recordCooldown
    { results with numIterationsBeforeFailure := 0,
                   ticksUntilComponentFailure := s.curSimState.curTick }
    creason c.commit s = rc at hsnd k1 k2 k3 k4
  obtain ⟨res1, flag⟩ := rc
  simp only at hsnd k1 k2 k3 k4
  subst hsnd
  simp only []
  rw [hruf]
  simp only []
  refine ⟨_, reason, s2, rfl, rfl, ?_, ?_, ?_⟩
  · split_ifs <;> exact k4
  · split_ifs <;> exact k3
  · by_cases h : 1000 ≤ s.curSimState.curTick
    · rw [if_pos ((tdiv_mark_threshold _).mpr h), if_pos h]
      split_ifs <;> rfl
    · rw [if_neg (fun hc => h ((tdiv_mark_threshold _).mp hc)), if_neg h]
      by_cases h2 : 1000 ≤ s2.curSimState.curTick
      · rw [if_pos ((tdiv_mark_threshold _).mpr h2), if_pos h2]
        split_ifs <;> rfl
      · rw [if_neg (fun hc => h2 ((tdiv_mark_threshold _).mp hc)), if_neg h2]
        split_ifs <;> rfl

theorem initializeSimulation_ticks (r : Reactor) :
    r.initializeSimulation.curSimState.curTick = 0
      ∧ r.initializeSimulation.pendingSimState.curTick = 0 := ⟨rfl, rfl⟩

theorem firstRun_ticks_nonneg (fuel : Nat) (r : Reactor) (reason : RunUntilStopReason)
    (s : Reactor)
    (hrun : r.initializeSimulation.runUntil fuel true true false true = some (reason, s)) :
    0 ≤ s.curSimState.curTick ∧ 0 ≤ s.pendingSimState.curTick :=
  runUntil_ticks_nonneg _ _ _ _ _ _ _ _ hrun (by rw [(initializeSimulation_ticks r).1])
    (by rw [(initializeSimulation_ticks r).2])

theorem runSimulation_of_meltdown (r : Reactor) (fuel : Nat) (hfuel : 50001 ≤ fuel)
    (s : Reactor) (hnum : r.initializeSimulation.numUraniumCells ≠ 0)
    (hrun : r.initializeSimulation.runUntil fuel true true false true
      = some (RunUntilStopReason.STOPPED_ON_MELTDOWN, s)) :
    ∃ res, runSimulation fuel r = some (res, s)
      ∧ res.ticksUntilMeltdown = s.curSimState.curTick
      ∧ res.numIterationsBeforeFailure = 0
      ∧ res.mark = (if 1000 ≤ s.curSimState.curTick then 3 else 5) := by
  have hn := firstRun_ticks_nonneg fuel r _ s hrun
  unfold runSimulation
  simp only []
  rw [if_neg hnum, hrun]
  simp only [reduceCtorEq, if_false, if_true]
  apply exists_map_pair
  exact runSimulationMeltdown_spec fuel hfuel _ s hn.1

theorem runSimulation_of_componentFailed (r : Reactor) (fuel : Nat) (hfuel : 50001 ≤ fuel)
    (s : Reactor) (hnum : r.initializeSimulation.numUraniumCells ≠ 0)
    (hrun : r.initializeSimulation.runUntil fuel true true false true
      = some (RunUntilStopReason.STOPPED_ON_COMPONENT_FAILED, s)) :
    ∃ res, runSimulation fuel r = some (res, s)
      ∧ ∃ reason s2, s.copy.commit.runUntil fuel true true false false = some (reason, s2)
        ∧ res.ticksUntilComponentFailure = s.curSimState.curTick
        ∧ res.numIterationsBeforeFailure = 0
        ∧ res.mark = (if 1000 ≤ s.curSimState.curTick then 3
            else if 1000 ≤ s2.curSimState.curTick then 4 else 5) := by
  have hn := firstRun_ticks_nonneg fuel r _ s hrun
  unfold runSimulation
  simp only []
  rw [if_neg hnum, hrun]
  simp only [reduceCtorEq, if_false, if_true]
  apply exists_map_pair
  obtain ⟨res, reason, s2, h1, h2, h3⟩ :=
    runSimulationComponentFailed_spec fuel hfuel _ s hn.1 hn.2
  exact ⟨res, h1, reason, s2, h2, h3⟩

theorem eq_some_of_map_fst {α β : Type} (o : Option (α × β)) (a : α) (d : β)
    (h : o.map Prod.fst = some a) : o = some (a, (o.map Prod.snd).getD d) := by
  cases o with
  | none => simp at h
  | some p =>
    obtain ⟨x, y⟩ := p
    simp only [Option.map_some', Option.some.injEq] at h
    subst h
    rfl

set_option maxRecDepth 10000000

theorem hotVent_firstRun :
    hotVentReactor.initializeSimulation.runUntil 50001 true true false true
      = some (RunUntilStopReason.STOPPED_ON_COMPONENT_FAILED, hotVentFailState) :=
  eq_some_of_map_fst _ _ _ (by decide)

theorem hotVent_numUraniumCells : hotVentReactor.initializeSimulation.numUraniumCells ≠ 0 := by
  decide

theorem singleCell_firstRun :
    singleCellReactor.initializeSimulation.runUntil 50001 true true false true
      = some (RunUntilStopReason.STOPPED_ON_MELTDOWN, singleCellMeltState) :=
  runUntil_of_isFuelOnly singleCellReactor singleCell_isFuelOnly 50001 (by decide)

/-- C14: whenever the first run of `runSimulation` (the run of the initialised device with
meltdown, fuel and component failure monitored, with at least 50001 loop iterations
allowed per run) stops on MELTDOWN in a state `s`, `runSimulation` returns a result with
`ticksUntilMeltdown = t`, `numIterationsBeforeFailure = 0`, and `mark = 3` if `t >= 1000`,
`mark = 5` otherwise, where `t` is the committed tick count of `s`. -/
theorem meltdown_branch_result (r : Reactor) (fuel : Nat) (s : Reactor)
    (hfuel : 50001 ≤ fuel) (hnum : r.initializeSimulation.numUraniumCells ≠ 0)
    (hrun : r.initializeSimulation.runUntil fuel true true false true
      = some (RunUntilStopReason.STOPPED_ON_MELTDOWN, s)) :
    ∃ res, runSimulation fuel r = some (res, s)
      ∧ res.ticksUntilMeltdown = s.curSimState.curTick
      ∧ res.numIterationsBeforeFailure = 0
      ∧ res.mark = (if 1000 ≤ s.curSimState.curTick then 3 else 5) :=
  runSimulation_of_meltdown r fuel hfuel s hnum hrun

theorem meltdown_branch_result_witness :
    50001 ≤ 50001 ∧ singleCellReactor.initializeSimulation.numUraniumCells ≠ 0
    ∧ singleCellReactor.initializeSimulation.runUntil 50001 true true false true
        = some (RunUntilStopReason.STOPPED_ON_MELTDOWN, singleCellMeltState)
    ∧ ∃ res, runSimulation 50001 singleCellReactor = some (res, singleCellMeltState)
        ∧ res.ticksUntilMeltdown = singleCellMeltState.curSimState.curTick
        ∧ res.numIterationsBeforeFailure = 0
        ∧ res.mark = (if 1000 ≤ singleCellMeltState.curSimState.curTick then 3 else 5) :=
  ⟨le_rfl, by decide, singleCell_firstRun,
    meltdown_branch_result singleCellReactor 50001 singleCellMeltState le_rfl (by decide)
      singleCell_firstRun⟩

/-- C15: whenever the first run of `runSimulation` stops on COMPONENT_FAILED in a state
`s` with committed tick count `t`, the continuation run (a copy of `s` with the failing
tick committed, run with only meltdown and fuel monitored) returns in some state `s2`, and
`runSimulation` returns a result with `ticksUntilComponentFailure = t`,
`numIterationsBeforeFailure = 0`, and `mark = 3` if `t >= 1000`, else `mark = 4` if the
committed tick count of `s2` is at least 1000, else `mark = 5`. -/
theorem componentFailed_branch_result (r : Reactor) (fuel : Nat) (s : Reactor)
    (hfuel : 50001 ≤ fuel) (hnum : r.initializeSimulation.numUraniumCells ≠ 0)
    (hrun : r.initializeSimulation.runUntil fuel true true false true
      = some (RunUntilStopReason.STOPPED_ON_COMPONENT_FAILED, s)) :
    ∃ res, runSimulation fuel r = some (res, s)
      ∧ ∃ reason s2, s.copy.commit.runUntil fuel true true false false = some (reason, s2)
        ∧ res.ticksUntilComponentFailure = s.curSimState.curTick
        ∧ res.numIterationsBeforeFailure = 0
        ∧ res.mark = (if 1000 ≤ s.curSimState.curTick then 3
            else if 1000 ≤ s2.curSimState.curTick then 4 else 5) :=
  runSimulation_of_componentFailed r fuel hfuel s hnum hrun

theorem componentFailed_branch_result_witness :
    50001 ≤ 50001 ∧ hotVentReactor.initializeSimulation.numUraniumCells ≠ 0
    ∧ hotVentReactor.initializeSimulation.runUntil 50001 true true false true
        = some (RunUntilStopReason.STOPPED_ON_COMPONENT_FAILED, hotVentFailState)
    ∧ ∃ res, runSimulation 50001 hotVentReactor = some (res, hotVentFailState)
      ∧ ∃ reason s2,
          hotVentFailState.copy.commit.runUntil 50001 true true false false = some (reason, s2)
        ∧ res.ticksUntilComponentFailure = hotVentFailState.curSimState.curTick
        ∧ res.numIterationsBeforeFailure = 0
        ∧ res.mark = (if 1000 ≤ hotVentFailState.curSimState.curTick then 3
            else if 1000 ≤ s2.curSimState.curTick then 4 else 5) :=
  ⟨le_rfl, hotVent_numUraniumCells, hotVent_firstRun,
    componentFailed_branch_result hotVentReactor 50001 hotVentFailState le_rfl
      hotVent_numUraniumCells hotVent_firstRun⟩

/-! ## State properties kept by the ticks -/

theorem tc_Heatable_alterHeat {P : Reactor → Prop} (hP : TickClosed0 P) (r : Reactor) (i : Nat)
    (c : ReactorComponent) (hb : Heatable) (heat : Int) (hc : r.comp? i = some c)
    (hh : c.heatable? = some hb) (hr : P r) : P (Heatable.alterHeat r i hb heat).1 := by
  unfold Heatable.alterHeat
  simp only [hc]
  split_ifs with h1 h2
  · exact hP.destroy r i c hr hc (Or.inl (by rw [hh]; rfl))
  · exact hP.heat r i c hb 0 hr hc hh le_rfl (fun h => h)
  · exact hP.heat r i c hb _ hr hc hh (by omega) (fun _ => by omega)

theorem tc_alterHeat {P : Reactor → Prop} (hP : TickClosed0 P) (r : Reactor) (i : Nat)
    (heat : Int) (hr : P r) : P (ReactorComponent.alterHeat r i heat).1 := by
  unfold ReactorComponent.alterHeat
  cases hc : r.comp? i with
  | none => exact hr
  | some c =>
    cases c with
    | heatVent v => exact tc_Heatable_alterHeat hP r i _ _ heat hc rfl hr
    | heatExchanger v => exact tc_Heatable_alterHeat hP r i _ _ heat hc rfl hr
    | coolantCell v => exact tc_Heatable_alterHeat hP r i _ _ heat hc rfl hr
    | condensator k =>
      simp only [Condensator.alterHeat]
      apply hP.stored r i k _ hr hc
      split_ifs <;> omega
    | _ => exact hr

theorem tc_acceptUraniumPulse {P : Reactor → Prop} (hP : TickClosed0 P) (r : Reactor) (i : Nat)
    (phase : SimPhase) (hr : P r) : P (ReactorComponent.acceptUraniumPulse r i phase).1 := by
  unfold ReactorComponent.acceptUraniumPulse
  cases hc : r.comp? i with
  | none => exact hr
  | some c =>
    cases c with
    | uraniumCell u =>
      simp only [UraniumCell.acceptUraniumPulse]
      split_ifs
      · exact hP.generateEU r _ hr
      · exact hr
      · exact hr
    | neutronReflector n =>
      have hlt := comp?_lt_length hc
      simp only [NeutronReflector.acceptUraniumPulse]
      split_ifs
      · exact hP.generateEU r _ hr
      · exact hP.destroy _ i _ (hP.reflectorUsage r i n _ hr hc)
          (by rw [comp?_setComp, if_pos ⟨rfl, hlt⟩]) (Or.inr ⟨_, rfl⟩)
      · exact hP.reflectorUsage r i n _ hr hc
    | _ => exact hr

theorem tc_HeatVent_tick {P : Reactor → Prop} (hP : TickClosed0 P) (r : Reactor) (i : Nat)
    (v : HeatVent) (phase : SimPhase) (hr : P r) : P (HeatVent.tick r i v phase) := by
  unfold HeatVent.tick
  simp only
  split_ifs <;>
    first
    | exact hr
    | exact tc_alterHeat hP _ _ _ hr
    | exact tc_alterHeat hP _ _ _ (hP.setHeat _ _ (tc_alterHeat hP _ _ _ hr))

theorem tc_checkDissipate {P : Reactor → Prop} (hP : TickClosed0 P) (r : Reactor)
    (v : ComponentHeatVent) (other : Option Nat) (hr : P r) :
    P (ComponentHeatVent.checkDissipate r v other) := by
  unfold ComponentHeatVent.checkDissipate
  cases other with
  | none => exact hr
  | some j =>
    simp only
    cases r.comp? j with
    | none => exact hr
    | some c =>
      simp only
      split_ifs
      · exact tc_alterHeat hP r j _ hr
      · exact hr

theorem tc_ComponentHeatVent_tick {P : Reactor → Prop} (hP : TickClosed0 P) (r : Reactor)
    (v : ComponentHeatVent) (phase : SimPhase) (hr : P r) :
    P (ComponentHeatVent.tick r v phase) := by
  unfold ComponentHeatVent.tick
  simp only
  split_ifs
  · exact tc_checkDissipate hP _ _ _ (tc_checkDissipate hP _ _ _
      (tc_checkDissipate hP _ _ _ (tc_checkDissipate hP _ _ _ hr)))
  · exact hr

theorem tc_transferAdjacent {P : Reactor → Prop} (hP : TickClosed0 P) (med : ℚ) (t : Int)
    (l : List Nat) (r : Reactor) (myHeat : Int) (hr : P r) :
    P (HeatExchanger.transferAdjacent med t r myHeat l).1 := by
  induction l generalizing r myHeat with
  | nil => exact hr
  | cons j rest ih =>
    unfold HeatExchanger.transferAdjacent
    cases r.comp? j with
    | none => exact ih r myHeat hr
    | some comp =>
      simp only
      exact ih _ _ (tc_alterHeat hP r j _ hr)

theorem tc_HeatExchanger_transfer {P : Reactor → Prop} (hP : TickClosed0 P) (r : Reactor)
    (i : Nat) (e : HeatExchanger) (med : ℚ) (hr : P r) :
    P (HeatExchanger.transfer r i e med) := by
  unfold HeatExchanger.transfer
  simp only
  apply tc_alterHeat hP
  split_ifs <;>
    first
    | exact hr
    | exact hP.setHeat _ _ hr
    | exact tc_transferAdjacent hP _ _ _ _ _ hr
    | exact hP.setHeat _ _ (tc_transferAdjacent hP _ _ _ _ _ hr)

theorem tc_checkPulseable {P : Reactor → Prop} (hP : TickClosed0 P) (r : Reactor)
    (comp : Option Nat) (phase : SimPhase) (hr : P r) :
    P (UraniumCell.checkPulseable r comp phase).1 := by
  unfold UraniumCell.checkPulseable
  cases comp with
  | none => exact hr
  | some j => exact tc_acceptUraniumPulse hP r j phase hr

theorem tc_pulseNeighbours {P : Reactor → Prop} (hP : TickClosed0 P) (r : Reactor) (x y : Int)
    (phase : SimPhase) (hr : P r) : P (UraniumCell.pulseNeighbours r x y phase).1 := by
  unfold UraniumCell.pulseNeighbours
  simp only
  exact tc_checkPulseable hP _ _ _ (tc_checkPulseable hP _ _ _
    (tc_checkPulseable hP _ _ _ (tc_checkPulseable hP _ _ _ hr)))

theorem tc_distributeHeat {P : Reactor → Prop} (hP : TickClosed0 P) (l : List Nat) (r : Reactor)
    (heat : Int) (hr : P r) : P (UraniumCell.distributeHeat r heat l).1 := by
  induction l generalizing r heat with
  | nil => exact hr
  | cons j rest ih =>
    unfold UraniumCell.distributeHeat
    simp only
    exact ih _ _ (tc_alterHeat hP r j _ hr)

theorem tc_tickCell {P : Reactor → Prop} (hP : TickClosed0 P) (i : Nat) (x y numCells : Int)
    (phase : SimPhase) (r : Reactor) (hr : P r) :
    P (UraniumCell.tickCell i x y numCells phase r) := by
  unfold UraniumCell.tickCell
  simp only
  split_ifs
  · apply tc_pulseNeighbours hP
    exact foldl_inv P _ (fun r _ h => tc_acceptUraniumPulse hP r i phase h) _ r hr
  · exact hP.addHeat _ _ (tc_distributeHeat hP _ _ _ (tc_pulseNeighbours hP _ _ _ _ hr))
  · exact tc_distributeHeat hP _ _ _ (tc_pulseNeighbours hP _ _ _ _ hr)

theorem tc_UraniumCell_tick {P : Reactor → Prop} (hP : TickClosed0 P) (r : Reactor) (i : Nat)
    (u : UraniumCell) (phase : SimPhase) (hr : P r) : P (UraniumCell.tick r i u phase) := by
  unfold UraniumCell.tick
  have hfold : P ((List.range u.numCells.toNat).foldl
      (fun r _ => UraniumCell.tickCell i u.x u.y u.numCells phase r) r) :=
    foldl_inv P _ (fun r _ h => tc_tickCell hP i u.x u.y u.numCells phase r h) _ r hr
  simp only
  split_ifs
  · generalize (List.range u.numCells.toNat).foldl
      (fun r _ => UraniumCell.tickCell i u.x u.y u.numCells phase r) r = r1 at hfold
    cases hc : r1.comp? i with
    | none => exact hfold
    | some c =>
      cases c with
      | uraniumCell u1 => exact hP.cellUsage r1 i u1 _ hfold hc
      | _ => exact hfold
  · exact hfold
  · exact hr

/-- A component tick other than a plating's keeps every `TickClosed0` property. -/
theorem tc_tick_of_not_plating {P : Reactor → Prop} (hP : TickClosed0 P) (r : Reactor) (i : Nat)
    (phase : SimPhase) (hnp : ∀ p, r.comp? i ≠ some (ReactorComponent.reactorPlating p))
    (hr : P r) : P (ReactorComponent.tick r i phase) := by
  unfold ReactorComponent.tick
  cases hc : r.comp? i with
  | none => exact hr
  | some c =>
    cases c with
    | heatVent v => exact tc_HeatVent_tick hP r i v phase hr
    | componentHeatVent v => exact tc_ComponentHeatVent_tick hP r v phase hr
    | heatExchanger e => exact tc_HeatExchanger_transfer hP r i e _ hr
    | uraniumCell u => exact tc_UraniumCell_tick hP r i u phase hr
    | reactorPlating p => exact absurd hc (hnp p)
    | _ => exact hr

theorem tc_tick {P : Reactor → Prop} (hP : TickClosed P) (r : Reactor) (i : Nat)
    (phase : SimPhase) (hr : P r) : P (ReactorComponent.tick r i phase) := by
  by_cases hpl : ∃ p, r.comp? i = some (ReactorComponent.reactorPlating p)
  · obtain ⟨p, hp⟩ := hpl
    unfold ReactorComponent.tick
    simp only [hp, ReactorPlating.tick]
    split_ifs
    · exact hP.plating r i p hr hp
    · exact hr
  · exact tc_tick_of_not_plating hP.toTickClosed0 r i phase (fun p h => hpl ⟨p, h⟩) hr

theorem tc_tickAt {P : Reactor → Prop} (hP : TickClosed P) (phase : SimPhase) (y : Nat)
    (r : Reactor) (x : Nat) (hr : P r) : P (Reactor.tickAt phase y r x) := by
  unfold Reactor.tickAt
  cases r.get x y with
  | none => exact hr
  | some i =>
    simp only
    cases r.comp? i with
    | none => exact hr
    | some c =>
      simp only
      split_ifs
      · exact tc_tick hP r i phase hr
      · exact hr

theorem tc_runTickPhase {P : Reactor → Prop} (hP : TickClosed P) (r : Reactor)
    (phase : SimPhase) (hr : P r) : P (r.runTickPhase phase) := by
  unfold Reactor.runTickPhase
  exact foldl_inv P _
    (fun r1 y h1 => foldl_inv P _ (fun r2 x h2 => tc_tickAt hP phase y r2 x h2) _ r1 h1) _ r hr

theorem tc_runTick {P : Reactor → Prop} (hP : TickClosed P) (r : Reactor) (hr : P r) :
    P r.runTick := by
  unfold Reactor.runTick
  exact hP.totalHeat _ _ (tc_runTickPhase hP _ _ (tc_runTickPhase hP _ _ (hP.resetMax r hr)))

theorem tc_step {P : Reactor → Prop} (hP : TickClosed P) (r : Reactor) (hr : P r) :
    P r.runTick.incTick :=
  hP.incTick _ (tc_runTick hP r hr)

theorem noneDestroyed_setComp {r : Reactor} {i : Nat} {c c' : ReactorComponent}
    (hc : r.comp? i = some c) (hd : c'.isDestroyed = c.isDestroyed) (h : r.NoneDestroyed) :
    (r.setComp i c').NoneDestroyed := by
  intro j cj hj
  rw [comp?_setComp] at hj
  split_ifs at hj with hij
  · simp only [Option.some.injEq] at hj
    subst hj
    rw [hd]
    exact h i c hc
  · exact h j cj hj

theorem failureReported_setComp {r : Reactor} {i : Nat} {c c' : ReactorComponent}
    (hc : r.comp? i = some c) (hd : c'.isDestroyed = c.isDestroyed) (h : r.FailureReported) :
    (r.setComp i c').FailureReported :=
  fun hpre => noneDestroyed_setComp hc hd (h hpre)

theorem failureReported_of_eq {r r' : Reactor}
    (h1 : r'.ignoreComponentDestroyed = r.ignoreComponentDestroyed)
    (h2 : r'.pendingSimState.componentFailed = r.pendingSimState.componentFailed)
    (h3 : r'.components = r.components) (h : r.FailureReported) : r'.FailureReported := by
  intro hpre i c hc
  rw [h1, h2] at hpre
  exact h hpre i c (by unfold Reactor.comp? at hc ⊢; rw [← h3]; exact hc)

theorem failureReported_setDestroyed (r : Reactor) (i : Nat) (h : r.FailureReported) :
    (ReactorComponent.setDestroyed r i true).FailureReported := by
  unfold ReactorComponent.setDestroyed
  cases hc : r.comp? i with
  | none => exact h
  | some c =>
    simp only
    cases hig : r.ignoreComponentDestroyed
    · simp only [Bool.not_false, if_true, Bool.true_and]
      cases hw : c.base.pendingDestroyed
      · simp only [Bool.not_false, if_true]
        intro hpre
        exfalso
        simp [Reactor.componentDestroyed, Reactor.setComp, hig] at hpre
      · simp only [Bool.not_true, Bool.false_eq_true, if_false]
        refine failureReported_setComp hc ?_ h
        have h1 : (c.setPendingDestroyed true).isDestroyed = true := by cases c <;> rfl
        rw [h1]
        exact hw.symm
    · simp only [Bool.not_true, Bool.false_eq_true, if_false]
      exact h

theorem failureReported_setHeat (r : Reactor) (v : Int) (h : r.FailureReported) :
    (r.setHeat v).FailureReported := by
  apply failureReported_of_eq _ _ _ h <;>
    (unfold Reactor.setHeat Reactor.heatCapacityExceeded; simp only []; split_ifs <;> rfl)

theorem failureReported_addHeat (r : Reactor) (v : Int) (h : r.FailureReported) :
    (r.addHeat v).FailureReported := by
  apply failureReported_of_eq _ _ _ h <;>
    (unfold Reactor.addHeat Reactor.heatCapacityExceeded; simp only []; split_ifs <;> rfl)

theorem tickClosed_failureReported : TickClosed Reactor.FailureReported where
  heat := fun _ _ c _ v h hc _ _ _ =>
    failureReported_setComp hc (isDestroyed_setPendingHeat c v) h
  destroy := fun r i _ h _ _ => failureReported_setDestroyed r i h
  setHeat := fun r v h => failureReported_setHeat r v h
  addHeat := fun r v h => failureReported_addHeat r v h
  generateEU := fun _ _ h => failureReported_of_eq rfl rfl rfl h
  stored := fun _ _ _ _ h hc _ => failureReported_setComp hc rfl h
  cellUsage := fun _ _ _ _ h hc => failureReported_setComp hc rfl h
  reflectorUsage := fun _ _ _ _ h hc => failureReported_setComp hc rfl h
  plating := fun _ _ _ h _ => failureReported_of_eq rfl rfl rfl h
  resetMax := fun _ h => failureReported_of_eq rfl rfl rfl h
  totalHeat := fun _ _ h => failureReported_of_eq rfl rfl rfl h
  incTick := fun _ h => failureReported_of_eq rfl rfl rfl h

theorem present_of_frame {r r' : Reactor} (h : r.frame = r'.frame) : r.present = r'.present := by
  have h1 := congrArg (fun x : Reactor => x.components.map Option.isSome) h
  simp only [Reactor.frame, List.map_map] at h1
  have hfun : (Option.isSome ∘ Option.map ReactorComponent.rollback)
      = (Option.isSome : Option ReactorComponent → Bool) := by
    funext o; cases o <;> rfl
  rw [hfun] at h1
  exact h1

theorem present_step (r : Reactor) : r.runTick.incTick.present = r.present :=
  (present_of_frame (frame_runTick r) : r.runTick.present = r.present)

theorem noneDestroyed_commit (r : Reactor) : r.commit.NoneDestroyed := by
  intro i c hc
  rw [comp?_eq_some_iff] at hc
  unfold Reactor.commit at hc
  simp only [List.getElem?_map] at hc
  cases ho : r.components[i]? with
  | none => rw [ho] at hc; simp at hc
  | some o =>
    rw [ho] at hc
    cases o with
    | none => simp at hc
    | some c0 =>
      simp only [Option.map_some', Option.some.injEq] at hc
      split_ifs at hc with hd
      simp only [Option.some.injEq] at hc
      subst hc
      simpa using hd

theorem present_commit (r : Reactor) (h : r.NoneDestroyed) : r.commit.present = r.present := by
  unfold Reactor.present Reactor.commit
  simp only [List.map_map]
  apply List.map_congr_left
  intro o ho
  cases o with
  | none => rfl
  | some c =>
    obtain ⟨i, hi⟩ := List.mem_iff_getElem?.mp ho
    have hd := h i c (comp?_eq_some_iff.mpr hi)
    have hcd : c.commit.isDestroyed = false := by
      rw [← hd]
      cases c <;> rfl
    simp [hcd]

theorem failureReported_of_noneDestroyed {r : Reactor} (h : r.NoneDestroyed) :
    r.FailureReported := fun _ => h

theorem stopCheck_none_flags {r : Reactor}
    (h : Reactor.stopCheck true true false true r = none) :
    r.pendingSimState.meltdown = false ∧ r.pendingSimState.componentFailed = false := by
  unfold Reactor.stopCheck at h
  simp only [Bool.and_true, Bool.and_false, Bool.false_eq_true, if_false] at h
  split_ifs at h with h1 h2
  exact ⟨by simpa using h1, by simpa using h2⟩

/-- A run with meltdown, fuel and component failure monitored that starts in a state
without unreported destructions and stops on FUEL_USED ends in a state without destroyed
components, whose grid holds components in the same cells as on entry. -/
theorem runUntil_fuelUsed_present (n : Nat) (r s : Reactor) (h : r.FailureReported)
    (hrun : r.runUntil n true true false true
      = some (RunUntilStopReason.STOPPED_ON_FUEL_USED, s)) :
    s.NoneDestroyed ∧ s.present = r.present := by
  obtain ⟨⟨hfr, hpr⟩, hstop⟩ := runUntilLoop_induct true true false true
    (fun x => x.FailureReported ∧ x.present = r.present)
    (fun x hx hs => by
      have hnd : x.NoneDestroyed := hx.1 (Or.inr (stopCheck_none_flags hs).2)
      exact ⟨failureReported_of_noneDestroyed (noneDestroyed_commit x),
        (present_commit x hnd).trans hx.2⟩)
    (fun x hx => ⟨tc_step tickClosed_failureReported x hx.1, (present_step x).trans hx.2⟩)
    n r true (-1) _ s ⟨h, rfl⟩ hrun
  rcases hstop with hstop | hstop
  · rcases stopCheck_run_cases hstop with h1 | h1 | h1
    · simp at h1
    · simp at h1
    · exact ⟨hfr (Or.inr (h1.2.2.1 rfl)), hpr⟩
  · simp at hstop

theorem minCyclesOverComponents_eq :
    ∀ (l1 l2 : List (Option ReactorComponent)) (m : Int),
      l1.map Option.isSome = l2.map Option.isSome →
      minCyclesOverComponents l1 l2 m
        = some (((List.zip l1 l2).filterMap fun p =>
            match p with
            | (some c, some c2) =>
              some (getCyclesUntilFailure c.getCurrentHeat c2.getCurrentHeat c.getMaxHeat)
            | _ => none).foldl minCyclesStep m) := by
  intro l1
  induction l1 with
  | nil => intro l2 m _; simp [minCyclesOverComponents]
  | cons a l1 ih =>
    intro l2 m h
    cases l2 with
    | nil => simp at h
    | cons b l2 =>
      simp only [List.map_cons, List.cons.injEq] at h
      obtain ⟨hab, hrest⟩ := h
      cases a with
      | none =>
        cases b with
        | some c2 => simp at hab
        | none =>
          simp only [minCyclesOverComponents, List.tail_cons, List.zip_cons_cons,
            List.filterMap_cons]
          exact ih l2 m hrest
      | some c =>
        cases b with
        | none => simp at hab
        | some c2 =>
          simp only [minCyclesOverComponents, List.head?_cons, List.tail_cons,
            List.zip_cons_cons, List.filterMap_cons, List.foldl_cons]
          exact ih l2 _ hrest

theorem foldl_minCyclesStep_eq_neg_one (vs : List Int) :
    ∀ m : Int, vs.foldl minCyclesStep m = -1 ↔ m = -1 ∧ ∀ v ∈ vs, v = -1 := by
  induction vs with
  | nil => intro m; simp
  | cons a vs ih =>
    intro m
    simp only [List.foldl_cons, List.mem_cons, forall_eq_or_imp]
    rw [ih]
    unfold minCyclesStep
    constructor
    · rintro ⟨h1, h2⟩
      split_ifs at h1 with ha hb
      · exact absurd h1 ha
      · exact absurd h1 (fun h => hb (Or.inl h))
      · exact ⟨h1, not_not.mp ha, h2⟩
    · rintro ⟨h1, h2, h3⟩
      subst h1 h2
      exact ⟨by simp, h3⟩

theorem foldl_minCyclesStep_min (vs : List Int) :
    ∀ m : Int, vs.foldl minCyclesStep m ≠ -1 →
      vs.foldl minCyclesStep m ∈ m :: vs
      ∧ ∀ v ∈ m :: vs, v ≠ -1 → vs.foldl minCyclesStep m ≤ v := by
  induction vs with
  | nil =>
    intro m _
    simp
  | cons a vs ih =>
    intro m hne
    simp only [List.foldl_cons] at hne ⊢
    obtain ⟨hmem, hmin⟩ := ih _ hne
    have hstep : minCyclesStep m a = m ∨ (minCyclesStep m a = a ∧ a ≠ -1) := by
      unfold minCyclesStep
      split_ifs with ha hb
      · exact Or.inr ⟨rfl, ha⟩
      · exact Or.inl rfl
      · exact Or.inl rfl
    have hle : ∀ v, (v = m ∨ v = a) → v ≠ -1 → minCyclesStep m a ≠ -1 → minCyclesStep m a ≤ v := by
      intro v hv hv1 _
      unfold minCyclesStep
      rcases hv with rfl | rfl <;> split_ifs <;> omega
    have hs1 : (m ≠ -1 ∨ a ≠ -1) → minCyclesStep m a ≠ -1 := by
      unfold minCyclesStep
      intro h
      split_ifs with ha hb <;> omega
    constructor
    · rcases List.mem_cons.mp hmem with h | h
      · rcases hstep with h2 | ⟨h2, _⟩
        · rw [h, h2]; exact List.mem_cons_self _ _
        · rw [h, h2]; exact List.mem_cons_of_mem _ (List.mem_cons_self _ _)
      · exact List.mem_cons_of_mem _ (List.mem_cons_of_mem _ h)
    · intro v hv hv1
      rcases List.mem_cons.mp hv with h | h
      · subst h
        have h0 := hs1 (Or.inl hv1)
        exact le_trans (hmin _ (List.mem_cons_self _ _) h0) (hle v (Or.inl rfl) hv1 h0)
      · rcases List.mem_cons.mp h with h | h
        · subst h
          have h0 := hs1 (Or.inr hv1)
          exact le_trans (hmin _ (List.mem_cons_self _ _) h0) (hle v (Or.inr rfl) hv1 h0)
        · exact hmin v (List.mem_cons_of_mem _ h) hv1

/-- The value of `minCyclesUntilFailure` after the loop of `runSimulation` over the
components, for two grids that hold components in the same cells: it is `-1` exactly when
every compared value is `-1`, and otherwise the least compared value other than `-1`. -/
theorem minCycles_spec (a b : Reactor) (h : a.present = b.present) :
    ∃ m, minCyclesOverComponents a.components b.components
          (getCyclesUntilFailure a.getHeat b.getHeat a.getMaxHeat) = some m
      ∧ (m = -1 ↔ ∀ v ∈ cyclesValues a b, v = -1)
      ∧ (m ≠ -1 → m ∈ cyclesValues a b ∧ ∀ v ∈ cyclesValues a b, v ≠ -1 → m ≤ v) := by
  refine ⟨_, minCyclesOverComponents_eq _ _ _ h, ?_, ?_⟩
  · rw [foldl_minCyclesStep_eq_neg_one]
    unfold cyclesValues
    simp only [List.mem_cons, forall_eq_or_imp]
  · exact foldl_minCyclesStep_min _ _

theorem noneDestroyed_copy_resetUsage (r : Reactor) (h : r.NoneDestroyed) :
    r.copy.resetUsage.NoneDestroyed := by
  intro i c hc
  rw [comp?_eq_some_iff] at hc
  simp only [Reactor.resetUsage, Reactor.copy, List.getElem?_map] at hc
  cases ho : r.components[i]? with
  | none => rw [ho] at hc; simp at hc
  | some o =>
    rw [ho] at hc
    cases o with
    | none => simp at hc
    | some c0 =>
      simp only [Option.map_some', Option.some.injEq] at hc
      subst hc
      have := h i c0 (comp?_eq_some_iff.mpr ho)
      rw [← this]
      cases c0 <;> rfl

theorem present_copy_resetUsage (r : Reactor) : r.copy.resetUsage.present = r.present := by
  unfold Reactor.present Reactor.resetUsage Reactor.copy
  simp only [List.map_map]
  apply List.map_congr_left
  intro o _
  cases o <;> rfl

/-- The branch `firstStopReason == STOPPED_ON_FUEL_USED` of `runSimulation`, entered with
the committed final state `i` of the first run: it returns, never through an "Invalid stop
reason" exit and never dereferencing a null pointer, with mark 1 or 2. -/
theorem runSimulationFuelUsed_spec (fuel : Nat) (hfuel : 50001 ≤ fuel)
    (results : SimulationResults) (i : Reactor) (hnd : i.NoneDestroyed)
    (hp : 0 ≤ i.pendingSimState.curTick) :
    ∃ res, runSimulationFuelUsed fuel results i = some res
      ∧ res.euPerTick = results.euPerTick
      ∧ ((i.curSimState.totalHeat ≤ 0 ∧ res.mark = 1
            ∧ res.overallEUPerTick = res.euPerTick ∧ res.cycleTicks = 10000)
        ∨ (0 < i.curSimState.totalHeat
            ∧ ∃ reason s2, i.copy.resetUsage.runUntil fuel true true false true
                = some (reason, s2)
              ∧ (((reason = RunUntilStopReason.STOPPED_ON_MELTDOWN
                    ∨ reason = RunUntilStopReason.STOPPED_ON_COMPONENT_FAILED)
                  ∧ res.mark = 2 ∧ res.numIterationsBeforeFailure = 1)
                ∨ (reason = RunUntilStopReason.STOPPED_ON_FUEL_USED
                  ∧ (∀ v ∈ cyclesValues i s2.commit, v = -1)
                  ∧ res.mark = 1 ∧ res.overallEUPerTick = res.euPerTick
                  ∧ res.cycleTicks = 10000)
                ∨ (reason = RunUntilStopReason.STOPPED_ON_FUEL_USED
                  ∧ res.mark = 2 ∧ res.numIterationsBeforeFailure ≠ -1
                  ∧ res.numIterationsBeforeFailure ∈ cyclesValues i s2.commit
                  ∧ ∀ v ∈ cyclesValues i s2.commit, v ≠ -1 →
                      res.numIterationsBeforeFailure ≤ v)))) := by
  unfold runSimulationFuelUsed
  by_cases hth : i.curSimState.totalHeat ≤ 0
  · rw [if_pos hth]
    exact ⟨_, rfl, rfl, Or.inl ⟨hth, rfl, rfl, rfl⟩⟩
  · rw [if_neg hth]
    obtain ⟨creason, c, hcool⟩ := runUntil_isSome false false true false fuel hfuel
      ({ i.copy.removeFuel with ignoreComponentDestroyed := true }) hp
    have hcr := runUntil_cool_reason _ _ _ _ hcool
    obtain ⟨reason, s2, hrerun⟩ := runUntil_isSome true true false true fuel hfuel
      i.copy.resetUsage (le_of_eq rfl)
    simp only []
    rw [hcool]
    simp only []
    have hsnd := recordCooldown_snd results creason c i hcr
    obtain ⟨_, _, _, _, k5⟩ := recordCooldown_keeps results creason c i
    generalize recordCooldown results creason c i = rc at hsnd k5
    obtain ⟨res1, flag⟩ := rc
    simp only at hsnd k5
    subst hsnd
    simp only []
    rw [hrerun]
    simp only []
    rcases runUntil_run_reason true _ _ _ _ hrerun with h1 | h1 | h1
    · obtain ⟨rfl, _⟩ := h1
      simp only [if_true]
      exact ⟨_, rfl, k5, Or.inr ⟨by omega, _, s2, rfl, Or.inl ⟨Or.inl rfl, rfl, rfl⟩⟩⟩
    · obtain ⟨rfl, _⟩ := h1
      simp only [reduceCtorEq, if_false, if_true]
      exact ⟨_, rfl, k5, Or.inr ⟨by omega, _, s2, rfl, Or.inl ⟨Or.inr rfl, rfl, rfl⟩⟩⟩
    · obtain ⟨rfl, _⟩ := h1
      simp only [reduceCtorEq, if_false, if_true]
      obtain ⟨hnd2, hpr2⟩ := runUntil_fuelUsed_present fuel i.copy.resetUsage s2
        (failureReported_of_noneDestroyed (noneDestroyed_copy_resetUsage i hnd)) hrerun
      have hpres : i.present = s2.commit.present := by
        rw [present_commit s2 hnd2, hpr2, present_copy_resetUsage]
      obtain ⟨m, hm, hm1, hm2⟩ := minCycles_spec i s2.commit hpres
      rw [hm]
      simp only []
      by_cases hneg : m = -1
      · rw [if_pos hneg]
        exact ⟨_, rfl, k5, Or.inr ⟨by omega, _, s2, rfl,
          Or.inr (Or.inl ⟨rfl, hm1.mp hneg, rfl, rfl, rfl⟩)⟩⟩
      · rw [if_neg hneg]
        exact ⟨_, rfl, k5, Or.inr ⟨by omega, _, s2, rfl,
          Or.inr (Or.inr ⟨rfl, rfl, hneg, (hm2 hneg).1, (hm2 hneg).2⟩)⟩⟩

theorem runSimulation_of_fuelUsed (r : Reactor) (fuel : Nat) (hfuel : 50001 ≤ fuel)
    (s : Reactor) (hnum : r.initializeSimulation.numUraniumCells ≠ 0)
    (hrun : r.initializeSimulation.runUntil fuel true true false true
      = some (RunUntilStopReason.STOPPED_ON_FUEL_USED, s)) :
    ∃ res, runSimulation fuel r = some (res, s.commit)
      ∧ ((s.commit.curSimState.totalHeat ≤ 0 ∧ res.mark = 1
            ∧ res.overallEUPerTick = res.euPerTick ∧ res.cycleTicks = 10000)
        ∨ (0 < s.commit.curSimState.totalHeat
            ∧ ∃ reason s2, s.commit.copy.resetUsage.runUntil fuel true true false true
                = some (reason, s2)
              ∧ (((reason = RunUntilStopReason.STOPPED_ON_MELTDOWN
                    ∨ reason = RunUntilStopReason.STOPPED_ON_COMPONENT_FAILED)
                  ∧ res.mark = 2 ∧ res.numIterationsBeforeFailure = 1)
                ∨ (reason = RunUntilStopReason.STOPPED_ON_FUEL_USED
                  ∧ (∀ v ∈ cyclesValues s.commit s2.commit, v = -1)
                  ∧ res.mark = 1 ∧ res.overallEUPerTick = res.euPerTick
                  ∧ res.cycleTicks = 10000)
                ∨ (reason = RunUntilStopReason.STOPPED_ON_FUEL_USED
                  ∧ res.mark = 2 ∧ res.numIterationsBeforeFailure ≠ -1
                  ∧ res.numIterationsBeforeFailure ∈ cyclesValues s.commit s2.commit
                  ∧ ∀ v ∈ cyclesValues s.commit s2.commit, v ≠ -1 →
                      res.numIterationsBeforeFailure ≤ v)))) := by
  have hn := firstRun_ticks_nonneg fuel r _ s hrun
  unfold runSimulation
  simp only []
  rw [if_neg hnum, hrun]
  simp only [reduceCtorEq, if_false, if_true]
  apply exists_map_pair
  obtain ⟨res, h1, _, h3⟩ :=
    runSimulationFuelUsed_spec fuel hfuel _ s.commit (noneDestroyed_commit s) hn.2
  exact ⟨res, h1, h3⟩

/-- For every device state with at least one fuel unit, `runSimulation` returns, and with
a mark between 1 and 5. -/
theorem runSimulation_mark_range (r : Reactor) (fuel : Nat) (hfuel : 50001 ≤ fuel)
    (hnum : r.initializeSimulation.numUraniumCells ≠ 0) :
    ∃ res s, runSimulation fuel r = some (res, s) ∧ 1 ≤ res.mark ∧ res.mark ≤ 5 := by
  obtain ⟨reason, s, hrun⟩ := runUntil_isSome true true false true fuel hfuel
    r.initializeSimulation (le_of_eq rfl)
  rcases runUntil_run_reason true _ _ _ _ hrun with h1 | h1 | h1
  · obtain ⟨rfl, _⟩ := h1
    obtain ⟨res, hres, _, _, hm⟩ := runSimulation_of_meltdown r fuel hfuel s hnum hrun
    refine ⟨res, s, hres, ?_, ?_⟩ <;> rw [hm] <;> split_ifs <;> decide
  · obtain ⟨rfl, _⟩ := h1
    obtain ⟨res, hres, _, _, _, _, _, hm⟩ :=
      runSimulation_of_componentFailed r fuel hfuel s hnum hrun
    refine ⟨res, s, hres, ?_, ?_⟩ <;> rw [hm] <;> split_ifs <;> decide
  · obtain ⟨rfl, _⟩ := h1
    obtain ⟨res, hres, hc⟩ := runSimulation_of_fuelUsed r fuel hfuel s hnum hrun
    refine ⟨res, s.commit, hres, ?_⟩
    rcases hc with ⟨_, hm, _⟩ | ⟨_, _, _, _, ⟨_, hm, _⟩ | ⟨_, _, hm, _⟩ | ⟨_, hm, _⟩⟩ <;>
      rw [hm] <;> exact ⟨by decide, by decide⟩

theorem singleCell_numUraniumCells :
    singleCellReactor.initializeSimulation.numUraniumCells ≠ 0 := by decide

/-- C13: for every device state with at least one fuel unit (`numUraniumCells` is not 0
after `initializeSimulation`), in particular for every well-formed device with fuel,
`runSimulation` (with at least 50001 loop iterations allowed per run) returns a result
whose mark is one of 1, 2, 3, 4, 5; and none of its five "Invalid stop reason" exits can
be taken: a run with only cooldown monitored stops on COOLED_DOWN or MAX_TICKS (exits
1, 2, 3), and a run with meltdown, fuel and component failure monitored stops on MELTDOWN,
COMPONENT_FAILED or FUEL_USED (exits 4, 5). -/
theorem runSimulation_mark_one_to_five (r : Reactor) (fuel : Nat) (hfuel : 50001 ≤ fuel)
    (hnum : r.initializeSimulation.numUraniumCells ≠ 0) :
    (∃ res s, runSimulation fuel r = some (res, s)
      ∧ (res.mark = 1 ∨ res.mark = 2 ∨ res.mark = 3 ∨ res.mark = 4 ∨ res.mark = 5))
    ∧ (∀ (n : Nat) (x : Reactor) (reason : RunUntilStopReason) (s : Reactor),
        x.runUntil n false false true false = some (reason, s) →
        reason = RunUntilStopReason.STOPPED_ON_COOLED_DOWN
          ∨ reason = RunUntilStopReason.STOPPED_ON_MAX_TICKS)
    ∧ (∀ (n : Nat) (x : Reactor) (reason : RunUntilStopReason) (s : Reactor),
        x.runUntil n true true false true = some (reason, s) →
        reason = RunUntilStopReason.STOPPED_ON_MELTDOWN
          ∨ reason = RunUntilStopReason.STOPPED_ON_COMPONENT_FAILED
          ∨ reason = RunUntilStopReason.STOPPED_ON_FUEL_USED) := by
  refine ⟨?_, fun n x reason s h => runUntil_cool_reason n x reason s h, ?_⟩
  · obtain ⟨res, s, hres, h1, h5⟩ := runSimulation_mark_range r fuel hfuel hnum
    exact ⟨res, s, hres, by omega⟩
  · intro n x reason s h
    rcases runUntil_run_reason true n x reason s h with h1 | h1 | h1
    · exact Or.inl h1.1
    · exact Or.inr (Or.inl h1.1)
    · exact Or.inr (Or.inr h1.1)

theorem runSimulation_mark_one_to_five_witness :
    50001 ≤ 50001 ∧ singleCellReactor.initializeSimulation.numUraniumCells ≠ 0
    ∧ (∃ res s, runSimulation 50001 singleCellReactor = some (res, s)
      ∧ (res.mark = 1 ∨ res.mark = 2 ∨ res.mark = 3 ∨ res.mark = 4 ∨ res.mark = 5))
    ∧ (∀ (n : Nat) (x : Reactor) (reason : RunUntilStopReason) (s : Reactor),
        x.runUntil n false false true false = some (reason, s) →
        reason = RunUntilStopReason.STOPPED_ON_COOLED_DOWN
          ∨ reason = RunUntilStopReason.STOPPED_ON_MAX_TICKS)
    ∧ (∀ (n : Nat) (x : Reactor) (reason : RunUntilStopReason) (s : Reactor),
        x.runUntil n true true false true = some (reason, s) →
        reason = RunUntilStopReason.STOPPED_ON_MELTDOWN
          ∨ reason = RunUntilStopReason.STOPPED_ON_COMPONENT_FAILED
          ∨ reason = RunUntilStopReason.STOPPED_ON_FUEL_USED) :=
  ⟨le_rfl, singleCell_numUraniumCells,
    runSimulation_mark_one_to_five singleCellReactor 50001 le_rfl singleCell_numUraniumCells⟩

theorem ventedCell_firstRun (y : Nat) (h1 : 1 ≤ y) (h4 : y ≤ 4) (fuel : Nat)
    (hfuel : 10001 ≤ fuel) :
    (ventedCellReactor y).initializeSimulation.runUntil fuel true true false true
      = some (RunUntilStopReason.STOPPED_ON_FUEL_USED, ventedStop y) := by
  rw [ventedCell_init y h1 h4,
    show ({} : SimulationState) = { ventedPending 0 with totalHeat := 0 } from rfl]
  exact runUntil_ventedState y h1 h4 _ _ _ _ _ (by decide) fuel hfuel

theorem ventedCell_numUraniumCells (y : Nat) (h1 : 1 ≤ y) (h4 : y ≤ 4) :
    (ventedCellReactor y).initializeSimulation.numUraniumCells ≠ 0 := by
  rw [ventedCell_init y h1 h4]
  simp [ventedState, crossState]

/-- C16: whenever the first run of `runSimulation` stops on FUEL_USED in a state `s`,
`runSimulation` returns a result with mark 1 or 2 for the committed state `s.commit`; the
mark is 1 exactly when the committed total heat is `<= 0`, or the rerun (a copy of
`s.commit` with the usage counters reset, run with meltdown, fuel and component failure
monitored) stops on FUEL_USED in a state `s2` and `getCyclesUntilFailure` is `-1` for the
core and for every present component (compared between `s.commit` and `s2.commit`); and
whenever the mark is 1, `overallEUPerTick = euPerTick` and `cycleTicks = 10000`. -/
theorem fuelUsed_branch_result (r : Reactor) (fuel : Nat) (s : Reactor)
    (hfuel : 50001 ≤ fuel) (hnum : r.initializeSimulation.numUraniumCells ≠ 0)
    (hrun : r.initializeSimulation.runUntil fuel true true false true
      = some (RunUntilStopReason.STOPPED_ON_FUEL_USED, s)) :
    ∃ res, runSimulation fuel r = some (res, s.commit)
      ∧ (res.mark = 1 ∨ res.mark = 2)
      ∧ (res.mark = 1 ↔
          (s.commit.curSimState.totalHeat ≤ 0
            ∨ ∃ s2, s.commit.copy.resetUsage.runUntil fuel true true false true
                  = some (RunUntilStopReason.STOPPED_ON_FUEL_USED, s2)
                ∧ ∀ v ∈ cyclesValues s.commit s2.commit, v = -1))
      ∧ (res.mark = 1 → res.overallEUPerTick = res.euPerTick ∧ res.cycleTicks = 10000) := by
  obtain ⟨res, hres, hc⟩ := runSimulation_of_fuelUsed r fuel hfuel s hnum hrun
  refine ⟨res, hres, ?_⟩
  rcases hc with ⟨hth, hm, ho, hcy⟩ | ⟨hth, reason, s2, hrerun, hc⟩
  · exact ⟨Or.inl hm, ⟨fun _ => Or.inl hth, fun _ => hm⟩, fun _ => ⟨ho, hcy⟩⟩
  · rcases hc with ⟨hr, hm, _⟩ | ⟨hr, hall, hm, ho, hcy⟩ | ⟨hr, hm, hne, hmem, _⟩
    · refine ⟨Or.inr hm, ⟨fun h => by omega, ?_⟩, fun h => by omega⟩
      rintro (h | ⟨s3, h3, _⟩)
      · omega
      · rw [hrerun] at h3
        simp only [Option.some.injEq, Prod.mk.injEq] at h3
        rcases hr with hr | hr <;> rw [hr] at h3 <;> simp at h3
    · subst hr
      exact ⟨Or.inl hm, ⟨fun _ => Or.inr ⟨s2, hrerun, hall⟩, fun _ => hm⟩, fun _ => ⟨ho, hcy⟩⟩
    · subst hr
      refine ⟨Or.inr hm, ⟨fun h => by omega, ?_⟩, fun h => by omega⟩
      rintro (h | ⟨s3, h3, hall⟩)
      · omega
      · rw [hrerun] at h3
        simp only [Option.some.injEq, Prod.mk.injEq, true_and] at h3
        subst h3
        exact absurd (hall _ hmem) hne

theorem fuelUsed_branch_result_witness :
    50001 ≤ 50001 ∧ (ventedCellReactor 1).initializeSimulation.numUraniumCells ≠ 0
    ∧ (ventedCellReactor 1).initializeSimulation.runUntil 50001 true true false true
        = some (RunUntilStopReason.STOPPED_ON_FUEL_USED, ventedStop 1)
    ∧ ∃ res, runSimulation 50001 (ventedCellReactor 1) = some (res, (ventedStop 1).commit)
      ∧ (res.mark = 1 ∨ res.mark = 2)
      ∧ (res.mark = 1 ↔
          ((ventedStop 1).commit.curSimState.totalHeat ≤ 0
            ∨ ∃ s2, (ventedStop 1).commit.copy.resetUsage.runUntil 50001 true true false true
                  = some (RunUntilStopReason.STOPPED_ON_FUEL_USED, s2)
                ∧ ∀ v ∈ cyclesValues (ventedStop 1).commit s2.commit, v = -1))
      ∧ (res.mark = 1 → res.overallEUPerTick = res.euPerTick ∧ res.cycleTicks = 10000) :=
  ⟨le_rfl, ventedCell_numUraniumCells 1 le_rfl (by decide),
    ventedCell_firstRun 1 le_rfl (by decide) 50001 (by decide),
    fuelUsed_branch_result (ventedCellReactor 1) 50001 (ventedStop 1) le_rfl
      (ventedCell_numUraniumCells 1 le_rfl (by decide))
      (ventedCell_firstRun 1 le_rfl (by decide) 50001 (by decide))⟩

/-! ## Well-formed states -/

theorem mem_components_setComp {r : Reactor} {i : Nat} {c' c1 : ReactorComponent}
    (h : some c1 ∈ (r.setComp i c').components) : some c1 ∈ r.components ∨ c1 = c' := by
  rcases List.mem_or_eq_of_mem_set h with h1 | h1
  · exact Or.inl h1
  · exact Or.inr (Option.some.inj h1)

theorem mem_components_of_comp? {r : Reactor} {i : Nat} {c : ReactorComponent}
    (h : r.comp? i = some c) : some c ∈ r.components :=
  List.getElem?_mem (comp?_eq_some_iff.mp h)

theorem wellFormed_setComp {r : Reactor} {i : Nat} {c' : ReactorComponent}
    (hc' : c'.InRange) (h : r.WellFormed) : (r.setComp i c').WellFormed := by
  obtain ⟨h1, h2, h3, h4⟩ := h
  refine ⟨h1, h2, ?_, ?_⟩
  · simpa [Reactor.setComp] using h3
  · intro c1 hc1
    rcases mem_components_setComp hc1 with hm | rfl
    · exact h4 c1 hm
    · exact hc'

theorem wellFormed_of_eq {r r' : Reactor} (h1 : r'.width = r.width) (h2 : r'.height = r.height)
    (h3 : r'.components = r.components) (h : r.WellFormed) : r'.WellFormed := by
  unfold Reactor.WellFormed
  rw [h1, h2, h3]
  exact h

theorem inRange_setPendingHeat (c : ReactorComponent) (hb : Heatable) (v : Int)
    (hh : c.heatable? = some hb) (hc : c.InRange) (h0 : 0 ≤ v)
    (hv : 0 ≤ hb.maxHeat → v ≤ hb.maxHeat) : (c.setPendingHeat v).InRange := by
  have hmax : 0 ≤ hb.maxHeat := by
    have := hc.1 hb hh
    omega
  cases c <;> simp only [ReactorComponent.heatable?, Option.some.injEq, reduceCtorEq] at hh <;>
    subst hh <;>
    exact ⟨fun hb2 h2 => by
      simp only [ReactorComponent.setPendingHeat, ReactorComponent.heatable?,
        Option.some.injEq] at h2
      subst h2
      exact ⟨h0, hv hmax⟩, fun p hp => by simp [ReactorComponent.setPendingHeat] at hp⟩

theorem inRange_setPendingDestroyed (c : ReactorComponent) (d : Bool) (hc : c.InRange) :
    (c.setPendingDestroyed d).InRange := by
  obtain ⟨h1, h2⟩ := hc
  constructor
  · intro hb hh
    cases c <;>
      simp only [ReactorComponent.setPendingDestroyed, ReactorComponent.heatable?,
        Option.some.injEq, reduceCtorEq] at hh <;>
      subst hh <;> (have h := h1 _ rfl; exact h)
  · intro p hp
    cases c <;>
      simp only [ReactorComponent.setPendingDestroyed, ReactorComponent.reactorPlating.injEq,
        reduceCtorEq] at hp
    subst hp
    have h := h2 _ rfl
    exact h

theorem wellFormed_setDestroyed (r : Reactor) (i : Nat) (d : Bool) (h : r.WellFormed) :
    (ReactorComponent.setDestroyed r i d).WellFormed := by
  unfold ReactorComponent.setDestroyed
  cases hc : r.comp? i with
  | none => exact h
  | some c =>
    have hin := inRange_setPendingDestroyed c d (h.2.2.2 c (mem_components_of_comp? hc))
    simp only
    split_ifs
    · refine wellFormed_of_eq ?_ ?_ ?_ (wellFormed_setComp (i := i) hin h) <;>
        (unfold Reactor.componentDestroyed; split_ifs <;> rfl)
    · exact wellFormed_setComp hin h
    · exact h

theorem inRange_of_not_heatable_plating (c : ReactorComponent) (h1 : c.heatable? = none)
    (h2 : ∀ p, c ≠ ReactorComponent.reactorPlating p) : c.InRange :=
  ⟨fun hb hh => by rw [h1] at hh; simp at hh, fun p hp => absurd hp (h2 p)⟩

theorem tickClosed_wellFormed : TickClosed Reactor.WellFormed where
  heat := fun _ _ c hb v h hc hh h0 hv =>
    wellFormed_setComp
      (inRange_setPendingHeat c hb v hh (h.2.2.2 c (mem_components_of_comp? hc)) h0 hv) h
  destroy := fun r i _ h _ _ => wellFormed_setDestroyed r i true h
  setHeat := fun r v h => by
    refine wellFormed_of_eq ?_ ?_ ?_ h <;>
      (unfold Reactor.setHeat Reactor.heatCapacityExceeded; simp only []; split_ifs <;> rfl)
  addHeat := fun r v h => by
    refine wellFormed_of_eq ?_ ?_ ?_ h <;>
      (unfold Reactor.addHeat Reactor.heatCapacityExceeded; simp only []; split_ifs <;> rfl)
  generateEU := fun _ _ h => wellFormed_of_eq rfl rfl rfl h
  stored := fun _ _ _ _ h _ _ =>
    wellFormed_setComp (inRange_of_not_heatable_plating _ rfl (fun _ hp => by simp at hp)) h
  cellUsage := fun _ _ _ _ h _ =>
    wellFormed_setComp (inRange_of_not_heatable_plating _ rfl (fun _ hp => by simp at hp)) h
  reflectorUsage := fun _ _ _ _ h _ =>
    wellFormed_setComp (inRange_of_not_heatable_plating _ rfl (fun _ hp => by simp at hp)) h
  plating := fun _ _ _ h _ => wellFormed_of_eq rfl rfl rfl h
  resetMax := fun _ h => wellFormed_of_eq rfl rfl rfl h
  totalHeat := fun _ _ h => wellFormed_of_eq rfl rfl rfl h
  incTick := fun _ h => wellFormed_of_eq rfl rfl rfl h

/-! ## The capacity the platings give the core -/

theorem map_platingAdd_setComp {r : Reactor} {i : Nat} {c c' : ReactorComponent}
    (hc : r.comp? i = some c) (h0 : platingAdd (some c') = platingAdd (some c)) :
    (r.setComp i c').components.map platingAdd = r.components.map platingAdd := by
  have hi := comp?_eq_some_iff.mp hc
  unfold Reactor.setComp
  simp only
  apply List.ext_getElem?
  intro j
  simp only [List.getElem?_map, List.getElem?_set]
  split_ifs with h1 h2
  · subst h1
    simp [hi, h0]
  · subst h1
    rw [List.getElem?_eq_none (by omega)]
  · rfl

theorem platingAdd_setPendingHeat (c : ReactorComponent) (v : Int) :
    platingAdd (some (c.setPendingHeat v)) = platingAdd (some c) := by
  cases c <;> rfl

theorem platingAdd_setPendingDestroyed (c : ReactorComponent) (d : Bool)
    (h : c.heatable?.isSome = true ∨ ∃ n, c = ReactorComponent.neutronReflector n) :
    platingAdd (some (c.setPendingDestroyed d)) = platingAdd (some c) := by
  rcases h with h | ⟨n, rfl⟩
  · cases c <;> first | rfl | simp [ReactorComponent.heatable?] at h
  · rfl

theorem phaseInv_setComp {L : List Int} {m B : Int} {r : Reactor} {i : Nat}
    {c c' : ReactorComponent} (hc : r.comp? i = some c)
    (h0 : platingAdd (some c') = platingAdd (some c)) (h : r.PhaseInv L m B) :
    (r.setComp i c').PhaseInv L m B :=
  ⟨(map_platingAdd_setComp hc h0).trans h.1, h.2.1, h.2.2⟩

theorem phaseInv_setDestroyed {L : List Int} {m B : Int} (r : Reactor) (i : Nat)
    (c : ReactorComponent) (hc : r.comp? i = some c)
    (hk : c.heatable?.isSome = true ∨ ∃ n, c = ReactorComponent.neutronReflector n)
    (h : r.PhaseInv L m B) : (ReactorComponent.setDestroyed r i true).PhaseInv L m B := by
  unfold ReactorComponent.setDestroyed
  simp only [hc]
  have h1 : (r.setComp i (c.setPendingDestroyed true)).PhaseInv L m B :=
    phaseInv_setComp hc (platingAdd_setPendingDestroyed c true hk) h
  split_ifs
  · unfold Reactor.componentDestroyed
    split_ifs
    · exact h1
    · exact h1
  · exact h1
  · exact h

theorem phaseInv_setHeat {L : List Int} {m B : Int} (hm : m ≤ B) (r : Reactor) (v : Int)
    (h : r.PhaseInv L m B) : (r.setHeat v).PhaseInv L m B := by
  obtain ⟨h1, h2, _⟩ := h
  unfold Reactor.setHeat Reactor.heatCapacityExceeded
  simp only
  split_ifs with hge
  · exact ⟨h1, h2, fun hmelt => by simp at hmelt⟩
  · refine ⟨h1, h2, fun _ => ?_⟩
    simp only [ge_iff_le, not_le] at hge
    show v < B
    have : v < r.maxHeat := hge
    omega

theorem phaseInv_addHeat {L : List Int} {m B : Int} (hm : m ≤ B) (r : Reactor) (v : Int)
    (h : r.PhaseInv L m B) : (r.addHeat v).PhaseInv L m B := by
  obtain ⟨h1, h2, _⟩ := h
  unfold Reactor.addHeat Reactor.heatCapacityExceeded
  simp only
  split_ifs with hge
  · exact ⟨h1, h2, fun hmelt => by simp at hmelt⟩
  · refine ⟨h1, h2, fun _ => ?_⟩
    simp only [ge_iff_le, not_le] at hge
    show r.pendingSimState.reactorHeat + v < B
    have : r.pendingSimState.reactorHeat + v < r.maxHeat := hge
    omega

theorem tickClosed0_phaseInv (L : List Int) (m B : Int) (hm : m ≤ B) :
    TickClosed0 (Reactor.PhaseInv L m B) where
  heat := fun _ _ c _ v h hc _ _ _ => phaseInv_setComp hc (platingAdd_setPendingHeat c v) h
  destroy := fun r i c h hc hk => phaseInv_setDestroyed r i c hc hk h
  setHeat := fun r v h => phaseInv_setHeat hm r v h
  addHeat := fun r v h => phaseInv_addHeat hm r v h
  generateEU := fun _ _ h => h
  stored := fun _ _ _ _ h hc _ => phaseInv_setComp hc rfl h
  cellUsage := fun _ _ _ _ h hc => phaseInv_setComp hc rfl h
  reflectorUsage := fun _ _ _ _ h hc => phaseInv_setComp hc rfl h

theorem getD_map_platingAdd (r : Reactor) (i : Nat) :
    (r.components.map platingAdd).getD i 0 = platingAdd (r.comp? i) := by
  rw [List.getD_eq_getElem?_getD, List.getElem?_map]
  unfold Reactor.comp?
  cases h : r.components[i]? with
  | none => rfl
  | some o => cases o <;> rfl

/-- The effect of the loop body of `runTickPhase(PHASE_HEAT_RUN)` at index `i`: `maxHeat`
grows by the plating addition of the cell. -/
theorem phaseInv_tickIdx_heat {L : List Int} {m B : Int} (hm : m ≤ B) (r : Reactor) (i : Nat)
    (h : r.PhaseInv L m B) :
    (Reactor.tickIdx SimPhase.PHASE_HEAT_RUN r i).PhaseInv L (m + L.getD i 0) B := by
  have hL : L.getD i 0 = platingAdd (r.comp? i) := by rw [← h.1]; exact getD_map_platingAdd r i
  rw [hL]
  unfold Reactor.tickIdx
  cases hc : r.comp? i with
  | none => simpa [platingAdd] using h
  | some c =>
    simp only
    by_cases hpl : ∃ p, c = ReactorComponent.reactorPlating p
    · obtain ⟨p, rfl⟩ := hpl
      cases hd : p.pendingDestroyed
      · have hnd : (ReactorComponent.reactorPlating p).isDestroyed = false := hd
        simp only [hnd, Bool.false_eq_true, if_false, platingAdd, hd]
        unfold ReactorComponent.tick
        simp only [hc, ReactorPlating.tick, if_true]
        exact ⟨h.1, by rw [← h.2.1], h.2.2⟩
      · have hnd : (ReactorComponent.reactorPlating p).isDestroyed = true := hd
        simp only [hnd, if_true, platingAdd, hd, add_zero]
        exact h
    · have h0 : platingAdd (some c) = 0 := by
        cases c <;> first | rfl | exact absurd ⟨_, rfl⟩ hpl
      rw [h0, add_zero]
      split_ifs
      · exact h
      · exact tc_tick_of_not_plating (tickClosed0_phaseInv L m B hm) r i _
          (fun p hp => hpl ⟨p, by rw [hc] at hp; exact Option.some.inj hp⟩) h

theorem phaseInv_tickIdx_power {L : List Int} {m B : Int} (hm : m ≤ B) (r : Reactor) (i : Nat)
    (h : r.PhaseInv L m B) : (Reactor.tickIdx SimPhase.PHASE_POWER r i).PhaseInv L m B := by
  unfold Reactor.tickIdx
  cases hc : r.comp? i with
  | none => exact h
  | some c =>
    simp only
    split_ifs
    · exact h
    · by_cases hpl : ∃ p, c = ReactorComponent.reactorPlating p
      · obtain ⟨p, rfl⟩ := hpl
        unfold ReactorComponent.tick
        simp only [hc, ReactorPlating.tick, reduceCtorEq, if_false]
        exact h
      · exact tc_tick_of_not_plating (tickClosed0_phaseInv L m B hm) r i _
          (fun p hp => hpl ⟨p, by rw [hc] at hp; exact Option.some.inj hp⟩) h

theorem sum_take_le (L : List Int) (hL : ∀ x ∈ L, 0 ≤ x) (n : Nat) :
    0 ≤ (L.take n).sum ∧ (L.take n).sum ≤ L.sum := by
  have h1 : 0 ≤ (L.take n).sum :=
    List.sum_nonneg fun x hx => hL x (List.mem_of_mem_take hx)
  have h2 : 0 ≤ (L.drop n).sum :=
    List.sum_nonneg fun x hx => hL x (List.mem_of_mem_drop hx)
  have h3 : (L.take n).sum + (L.drop n).sum = L.sum := by
    rw [← List.sum_append, List.take_append_drop]
  exact ⟨h1, by omega⟩

theorem phaseInv_foldl_heat (L : List Int) (hL : ∀ x ∈ L, 0 ≤ x) (m0 : Int) (n : Nat) :
    ∀ (r : Reactor), r.PhaseInv L m0 (m0 + L.sum) →
      ((List.range n).foldl (Reactor.tickIdx SimPhase.PHASE_HEAT_RUN) r).PhaseInv L
        (m0 + (L.take n).sum) (m0 + L.sum) := by
  induction n with
  | zero => intro r h; simpa using h
  | succ n ih =>
    intro r h
    rw [List.range_succ, List.foldl_append, List.foldl_cons, List.foldl_nil]
    have h1 := ih r h
    have h2 := phaseInv_tickIdx_heat (by have := (sum_take_le L hL n).2; omega) _ n h1
    have hsum : (L.take (n + 1)).sum = (L.take n).sum + L.getD n 0 := by
      rw [List.take_succ, List.sum_append, List.getD_eq_getElem?_getD]
      cases L[n]? <;> simp
    rw [hsum, ← add_assoc]
    exact h2

theorem platingAdd_nonneg_of_wellFormed (r : Reactor) (h : r.WellFormed) :
    ∀ x ∈ r.components.map platingAdd, 0 ≤ x := by
  intro x hx
  obtain ⟨o, ho, rfl⟩ := List.mem_map.mp hx
  cases o with
  | none => exact le_rfl
  | some c =>
    cases c with
    | reactorPlating p =>
      simp only [platingAdd]
      split_ifs
      · exact le_rfl
      · exact (h.2.2.2 _ ho).2 p rfl
    | _ => exact le_rfl

/-- After `runTick` on a well-formed state, `maxHeat` is 10000 plus the heat additions of
the platings that are not destroyed, the platings are the same, and the core heat is
below that capacity unless the meltdown flag is set. -/
theorem runTick_phaseInv (r : Reactor) (hwf : r.WellFormed) (hcb : r.CoreBounded) :
    r.runTick.PhaseInv (r.components.map platingAdd) (10000 + r.platingSum)
      (10000 + r.platingSum) := by
  have hL := platingAdd_nonneg_of_wellFormed r hwf
  obtain ⟨hw, hh, hlen, _⟩ := hwf
  have hw' : r.width = (r.width.toNat : Int) := (Int.toNat_of_nonneg hw).symm
  have hh' : r.height = (r.height.toNat : Int) := (Int.toNat_of_nonneg hh).symm
  unfold Reactor.runTick
  simp only
  have h0 : ({ r with maxHeat := 10000 } : Reactor).PhaseInv (r.components.map platingAdd) 10000
      (10000 + r.platingSum) := ⟨rfl, rfl, hcb⟩
  have h1 := phaseInv_foldl_heat _ hL 10000 (r.height.toNat * r.width.toNat) _ h0
  rw [← runTickPhase_eq_foldl SimPhase.PHASE_HEAT_RUN ({ r with maxHeat := 10000 } : Reactor)
    r.width.toNat r.height.toNat hw' hh'] at h1
  have htake : ((r.components.map platingAdd).take (r.height.toNat * r.width.toNat)).sum
      = r.platingSum := by
    rw [List.take_of_length_le (by simp [hlen])]
    rfl
  rw [htake] at h1
  generalize hr2 : ({ r with maxHeat := 10000 } : Reactor).runTickPhase SimPhase.PHASE_HEAT_RUN
    = r2 at h1
  have hf2 : r2.frame = r.frame := by
    rw [← hr2, frame_runTickPhase]
    rfl
  have h2 : (r2.runTickPhase SimPhase.PHASE_POWER).PhaseInv (r.components.map platingAdd)
      (10000 + r.platingSum) (10000 + r.platingSum) := by
    rw [runTickPhase_eq_foldl SimPhase.PHASE_POWER r2 r.width.toNat r.height.toNat
      ((width_of_frame hf2).trans hw') ((height_of_frame hf2).trans hh')]
    exact foldl_inv _ _ (fun x i hx => phaseInv_tickIdx_power le_rfl x i hx) _ _ h1
  exact ⟨h2.1, h2.2.1, h2.2.2⟩

/-! ## Well-formed states through commit, reset and runs -/

theorem inRange_commit (c : ReactorComponent) (h : c.InRange) : c.commit.InRange := by
  obtain ⟨h1, h2⟩ := h
  constructor
  · intro hb hh
    cases c <;>
      simp only [ReactorComponent.commit, ReactorComponent.heatable?, Option.some.injEq,
        reduceCtorEq] at hh <;>
      subst hh <;> (have h := h1 _ rfl; exact h)
  · intro p hp
    cases c <;>
      simp only [ReactorComponent.commit, ReactorComponent.reactorPlating.injEq,
        reduceCtorEq] at hp
    subst hp
    have h := h2 _ rfl
    exact h

theorem inRange_resetUsage (c : ReactorComponent) (h : c.InRange) : c.resetUsage.InRange := by
  cases c <;> first | exact h | exact inRange_of_not_heatable_plating _ rfl (fun _ hp => by
    simp [ReactorComponent.resetUsage] at hp)

theorem wellFormed_commit (r : Reactor) (h : r.WellFormed) : r.commit.WellFormed := by
  obtain ⟨h1, h2, h3, h4⟩ := h
  refine ⟨h1, h2, by simpa [Reactor.commit] using h3, ?_⟩
  intro c hc
  simp only [Reactor.commit, List.mem_map] at hc
  obtain ⟨o, ho, heq⟩ := hc
  cases o with
  | none => simp at heq
  | some c0 =>
    simp only at heq
    split_ifs at heq
    simp only [Option.some.injEq] at heq
    subst heq
    exact inRange_commit c0 (h4 c0 ho)

theorem wellFormed_copy_resetUsage (r : Reactor) (h : r.WellFormed) :
    r.copy.resetUsage.WellFormed := by
  obtain ⟨h1, h2, h3, h4⟩ := h
  refine ⟨h1, h2, by simpa [Reactor.resetUsage, Reactor.copy] using h3, ?_⟩
  intro c hc
  simp only [Reactor.resetUsage, Reactor.copy, List.mem_map] at hc
  obtain ⟨o, ho, heq⟩ := hc
  cases o with
  | none => simp at heq
  | some c0 =>
    simp only [Option.some.injEq] at heq
    subst heq
    exact inRange_resetUsage c0 (h4 c0 ho)

theorem platingAdd_commit (r : Reactor) :
    r.commit.components.map platingAdd = r.components.map platingAdd := by
  unfold Reactor.commit
  simp only [List.map_map]
  apply List.map_congr_left
  intro o _
  cases o with
  | none => rfl
  | some c =>
    simp only [Function.comp]
    cases c <;> first
      | (simp only [ReactorComponent.commit, ReactorComponent.isDestroyed, ReactorComponent.base]
         split_ifs <;> rfl)
      | (simp only [ReactorComponent.commit, ReactorComponent.isDestroyed, ReactorComponent.base,
           platingAdd]
         split_ifs <;> simp_all [platingAdd])

theorem platingSum_commit (r : Reactor) : r.commit.platingSum = r.platingSum := by
  unfold Reactor.platingSum
  rw [platingAdd_commit]

theorem capacities_of_frame {r r' : Reactor} (h : r.frame = r'.frame) :
    r.capacities = r'.capacities := by
  have h1 := congrArg (fun x : Reactor => x.components.map fun o =>
    match o with
    | none => (0 : Int)
    | some c => c.getMaxHeat) h
  simp only [Reactor.frame, List.map_map] at h1
  have hfun : ((fun o : Option ReactorComponent =>
      match o with
      | none => (0 : Int)
      | some c => c.getMaxHeat) ∘ Option.map ReactorComponent.rollback)
      = fun o : Option ReactorComponent =>
        match o with
        | none => (0 : Int)
        | some c => c.getMaxHeat := by
    funext o
    cases o with
    | none => rfl
    | some c => cases c <;> rfl
  rw [hfun] at h1
  exact h1

theorem capacities_step (r : Reactor) : r.runTick.incTick.capacities = r.capacities :=
  (capacities_of_frame (frame_runTick r) : r.runTick.capacities = r.capacities)

theorem capacities_commit (r : Reactor) (h : r.NoneDestroyed) :
    r.commit.capacities = r.capacities := by
  unfold Reactor.capacities Reactor.commit
  simp only [List.map_map]
  apply List.map_congr_left
  intro o ho
  cases o with
  | none => rfl
  | some c =>
    obtain ⟨i, hi⟩ := List.mem_iff_getElem?.mp ho
    have hd := h i c (comp?_eq_some_iff.mpr hi)
    have hcd : c.commit.isDestroyed = false := by
      rw [← hd]
      cases c <;> rfl
    simp only [Function.comp, hcd, Bool.false_eq_true, if_false]
    cases c <;> rfl

theorem capacities_copy_resetUsage (r : Reactor) :
    r.copy.resetUsage.capacities = r.capacities := by
  unfold Reactor.capacities Reactor.resetUsage Reactor.copy
  simp only [List.map_map]
  apply List.map_congr_left
  intro o _
  cases o with
  | none => rfl
  | some c => cases c <;> rfl

/-- A run with meltdown, fuel and component failure monitored that starts in a well-formed
state without unreported destructions and stops on FUEL_USED ends in a well-formed state
without destroyed components, with the same capacities. -/
theorem runUntil_fuelUsed_wellFormed (n : Nat) (r s : Reactor) (h : r.FailureReported)
    (hwf : r.WellFormed)
    (hrun : r.runUntil n true true false true
      = some (RunUntilStopReason.STOPPED_ON_FUEL_USED, s)) :
    s.NoneDestroyed ∧ s.WellFormed ∧ s.capacities = r.capacities := by
  obtain ⟨⟨hfr, hw, hcap⟩, hstop⟩ := runUntilLoop_induct true true false true
    (fun x => x.FailureReported ∧ x.WellFormed ∧ x.capacities = r.capacities)
    (fun x hx hs => by
      have hnd : x.NoneDestroyed := hx.1 (Or.inr (stopCheck_none_flags hs).2)
      exact ⟨failureReported_of_noneDestroyed (noneDestroyed_commit x),
        wellFormed_commit x hx.2.1, (capacities_commit x hnd).trans hx.2.2⟩)
    (fun x hx => ⟨tc_step tickClosed_failureReported x hx.1,
      tc_step tickClosed_wellFormed x hx.2.1, (capacities_step x).trans hx.2.2⟩)
    n r true (-1) _ s ⟨h, hwf, rfl⟩ hrun
  rcases hstop with hstop | hstop
  · rcases stopCheck_run_cases hstop with h1 | h1 | h1
    · simp at h1
    · simp at h1
    · exact ⟨hfr (Or.inr (h1.2.2.1 rfl)), hw, hcap⟩
  · simp at hstop

/-- A run that starts at tick 0 in a well-formed state with the core below its capacity
and stops on FUEL_USED ends in a well-formed state whose core heat is below `maxHeat`. -/
theorem runUntil_fuelUsed_core (n : Nat) (r s : Reactor) (hwf : r.WellFormed)
    (hcb : r.CoreBounded) (ht : r.pendingSimState.curTick ≤ 0)
    (hrun : r.runUntil n true true false true
      = some (RunUntilStopReason.STOPPED_ON_FUEL_USED, s)) :
    s.WellFormed ∧ s.pendingSimState.reactorHeat < s.maxHeat := by
  obtain ⟨⟨hw, hc, hticked⟩, hstop⟩ := runUntilLoop_induct true true false true
    (fun x => x.WellFormed ∧ x.CoreBounded
      ∧ (x.pendingSimState.curTick ≤ 0 ∨ x.maxHeat = 10000 + x.platingSum))
    (fun x hx _ => ⟨wellFormed_commit x hx.1, by
        intro hm
        rw [platingSum_commit]
        exact hx.2.1 hm, by
        rcases hx.2.2 with h1 | h1
        · exact Or.inl h1
        · exact Or.inr (by rw [platingSum_commit]; exact h1)⟩)
    (fun x hx => by
      obtain ⟨p1, p2, p3⟩ := runTick_phaseInv x hx.1 hx.2.1
      have hps : x.runTick.incTick.platingSum = x.platingSum := by
        show (x.runTick.components.map platingAdd).sum = _
        rw [p1]
        rfl
      refine ⟨tc_step tickClosed_wellFormed x hx.1, ?_, Or.inr ?_⟩
      · intro hm
        rw [hps]
        exact p3 hm
      · rw [hps]
        exact p2)
    n r true (-1) _ s ⟨hwf, hcb, Or.inl ht⟩ hrun
  rcases hstop with hstop | hstop
  · rcases stopCheck_run_cases hstop with h1 | h1 | h1
    · simp at h1
    · simp at h1
    · obtain ⟨_, hm, _, htick⟩ := h1
      rcases hticked with h2 | h2
      · omega
      · exact ⟨hw, by rw [h2]; exact hc hm⟩
  · simp at hstop

theorem getCyclesUntilFailure_pos (first second cap : Int) (h2 : cap ≤ 0 ∨ second ≤ cap) :
    getCyclesUntilFailure first second cap = -1 ∨ 1 ≤ getCyclesUntilFailure first second cap := by
  unfold getCyclesUntilFailure
  split_ifs with hc
  · exact Or.inl rfl
  · simp only
    split_ifs with hd
    · exact Or.inl rfl
    · right
      have : 0 ≤ (cap - first - 1).tdiv (second - first) :=
        Int.tdiv_nonneg (by omega) (by omega)
      omega

theorem inRange_bounds (c : ReactorComponent) (h : c.InRange) :
    c.getMaxHeat ≤ 0 ∨ c.getCurrentHeat ≤ c.getMaxHeat := by
  cases c with
  | heatVent v => exact Or.inr (h.1 _ rfl).2
  | heatExchanger v => exact Or.inr (h.1 _ rfl).2
  | coolantCell v => exact Or.inr (h.1 _ rfl).2
  | condensator k =>
    by_cases hk : k.maxStoredHeat ≤ 0
    · exact Or.inl hk
    · exact Or.inr (by
        show (0 : Int) ≤ k.maxStoredHeat
        omega)
  | _ => exact Or.inl le_rfl

theorem getMaxHeat_eq_of_capacities {a b : Reactor} (h : a.capacities = b.capacities) {j : Nat}
    {c c2 : ReactorComponent} (hc : a.components[j]? = some (some c))
    (hc2 : b.components[j]? = some (some c2)) : c.getMaxHeat = c2.getMaxHeat := by
  have h1 := congrArg (fun l : List Int => l[j]?) h
  simp only [Reactor.capacities, List.getElem?_map, hc, hc2, Option.map_some',
    Option.some.injEq] at h1
  exact h1

/-- Every value `runSimulation` compares after a rerun is `-1` or at least 1, when the
state after the rerun is well-formed, the capacities are the same in both states, and the
core of the first is below its capacity. -/
theorem cyclesValues_pos (a b : Reactor) (hb : b.WellFormed)
    (hcap : a.capacities = b.capacities) (hcore : a.getHeat < a.getMaxHeat) :
    ∀ v ∈ cyclesValues a b, v = -1 ∨ 1 ≤ v := by
  intro v hv
  unfold cyclesValues at hv
  rcases List.mem_cons.mp hv with rfl | hv
  · by_cases hm : a.getMaxHeat ≤ 0
    · left
      unfold getCyclesUntilFailure
      rw [if_pos hm]
    · unfold getCyclesUntilFailure
      rw [if_neg hm]
      simp only
      split_ifs with hd
      · exact Or.inl rfl
      · right
        have : 0 ≤ (a.getMaxHeat - a.getHeat - 1).tdiv (b.getHeat - a.getHeat) :=
          Int.tdiv_nonneg (by omega) (by omega)
        omega
  · rw [List.mem_filterMap] at hv
    obtain ⟨⟨o1, o2⟩, hmem, hval⟩ := hv
    cases o1 with
    | none => simp at hval
    | some c =>
      cases o2 with
      | none => simp at hval
      | some c2 =>
        simp only [Option.some.injEq] at hval
        subst hval
        obtain ⟨j, hj⟩ := List.mem_iff_getElem?.mp hmem
        rw [List.getElem?_zip_eq_some] at hj
        obtain ⟨hj1, hj2⟩ := hj
        have hcapj := getMaxHeat_eq_of_capacities hcap hj1 hj2
        have b2 := inRange_bounds c2 (hb.2.2.2 c2 (List.getElem?_mem hj2))
        rw [← hcapj] at b2
        exact getCyclesUntilFailure_pos _ _ _ b2

theorem wellFormed_initializeSimulation (r : Reactor) (h : r.WellFormed) :
    r.initializeSimulation.WellFormed := wellFormed_of_eq rfl rfl rfl h

theorem platingSum_nonneg (r : Reactor) (h : r.WellFormed) : 0 ≤ r.platingSum :=
  List.sum_nonneg (platingAdd_nonneg_of_wellFormed r h)

/-- For a well-formed device, the values compared after a rerun that stopped on FUEL_USED
are `-1` or at least 1. -/
theorem cyclesValues_pos_of_runs (r : Reactor) (fuel : Nat) (hwf : r.WellFormed) (s s2 : Reactor)
    (hrun : r.initializeSimulation.runUntil fuel true true false true
      = some (RunUntilStopReason.STOPPED_ON_FUEL_USED, s))
    (hrerun : s.commit.copy.resetUsage.runUntil fuel true true false true
      = some (RunUntilStopReason.STOPPED_ON_FUEL_USED, s2)) :
    ∀ v ∈ cyclesValues s.commit s2.commit, v = -1 ∨ 1 ≤ v := by
  have hwi := wellFormed_initializeSimulation r hwf
  have hcb : r.initializeSimulation.CoreBounded := by
    intro _
    have := platingSum_nonneg _ hwi
    show (0 : Int) < 10000 + r.initializeSimulation.platingSum
    omega
  obtain ⟨hws, hcore⟩ := runUntil_fuelUsed_core fuel _ s hwi hcb (le_of_eq rfl) hrun
  have hwc := wellFormed_commit s hws
  obtain ⟨hnd2, hw2, hcap2⟩ := runUntil_fuelUsed_wellFormed fuel _ s2
    (failureReported_of_noneDestroyed
      (noneDestroyed_copy_resetUsage s.commit (noneDestroyed_commit s)))
    (wellFormed_copy_resetUsage s.commit hwc) hrerun
  apply cyclesValues_pos s.commit s2.commit (wellFormed_commit s2 hw2)
  · rw [capacities_commit s2 hnd2, hcap2, capacities_copy_resetUsage]
  · exact hcore

/-- For a well-formed device for which `runSimulation` returns mark 2: the first run
stopped on FUEL_USED, and the number of iterations is 1 after a rerun that stopped on
MELTDOWN or COMPONENT_FAILED, and otherwise the least positive compared value. -/
theorem runSimulation_of_mark_two (r : Reactor) (fuel : Nat) (hfuel : 50001 ≤ fuel)
    (hwf : r.WellFormed) (res : SimulationResults) (s' : Reactor)
    (hres : runSimulation fuel r = some (res, s')) (hmark : res.mark = 2) :
    1 ≤ res.numIterationsBeforeFailure
    ∧ ∃ s reason s2,
        r.initializeSimulation.runUntil fuel true true false true
          = some (RunUntilStopReason.STOPPED_ON_FUEL_USED, s)
        ∧ s' = s.commit
        ∧ s.commit.copy.resetUsage.runUntil fuel true true false true = some (reason, s2)
        ∧ (((reason = RunUntilStopReason.STOPPED_ON_MELTDOWN
              ∨ reason = RunUntilStopReason.STOPPED_ON_COMPONENT_FAILED)
            ∧ res.numIterationsBeforeFailure = 1)
          ∨ (reason = RunUntilStopReason.STOPPED_ON_FUEL_USED
            ∧ 0 < res.numIterationsBeforeFailure
            ∧ res.numIterationsBeforeFailure ∈ cyclesValues s.commit s2.commit
            ∧ ∀ v ∈ cyclesValues s.commit s2.commit, 0 < v →
                res.numIterationsBeforeFailure ≤ v)) := by
  by_cases hnum : r.initializeSimulation.numUraniumCells = 0
  · rw [runSimulation_of_no_fuel fuel r hnum] at hres
    simp only [Option.some.injEq, Prod.mk.injEq] at hres
    rw [← hres.1] at hmark
    simp at hmark
  obtain ⟨reason1, s, hrun⟩ := runUntil_isSome true true false true fuel hfuel
    r.initializeSimulation (le_of_eq rfl)
  rcases runUntil_run_reason true _ _ _ _ hrun with h1 | h1 | h1
  · obtain ⟨rfl, _⟩ := h1
    obtain ⟨res1, hres1, _, _, hm⟩ := runSimulation_of_meltdown r fuel hfuel s hnum hrun
    rw [hres1] at hres
    simp only [Option.some.injEq, Prod.mk.injEq] at hres
    rw [← hres.1, hm] at hmark
    split_ifs at hmark <;> omega
  · obtain ⟨rfl, _⟩ := h1
    obtain ⟨res1, hres1, _, _, _, _, _, hm⟩ :=
      runSimulation_of_componentFailed r fuel hfuel s hnum hrun
    rw [hres1] at hres
    simp only [Option.some.injEq, Prod.mk.injEq] at hres
    rw [← hres.1, hm] at hmark
    split_ifs at hmark <;> omega
  · obtain ⟨rfl, _⟩ := h1
    obtain ⟨res1, hres1, hc⟩ := runSimulation_of_fuelUsed r fuel hfuel s hnum hrun
    rw [hres1] at hres
    simp only [Option.some.injEq, Prod.mk.injEq] at hres
    obtain ⟨rfl, rfl⟩ := hres
    rcases hc with ⟨_, hm, _⟩ | ⟨_, reason, s2, hrerun, hc⟩
    · omega
    · rcases hc with ⟨hr, _, hn⟩ | ⟨_, _, hm, _⟩ | ⟨hr, _, hne, hmem, hmin⟩
      · exact ⟨by omega, s, reason, s2, hrun, rfl, hrerun, Or.inl ⟨hr, hn⟩⟩
      · omega
      · subst hr
        have hpos := cyclesValues_pos_of_runs r fuel hwf s s2 hrun hrerun
        have h1 : 1 ≤ res1.numIterationsBeforeFailure := by
          rcases hpos _ hmem with h | h
          · exact absurd h hne
          · exact h
        exact ⟨h1, s, _, s2, hrun, rfl, hrerun,
          Or.inr ⟨rfl, by omega, hmem, fun v hv hv0 => hmin v hv (by omega)⟩⟩

theorem create_inRange (t : ComponentType) (x y : Int) (c : ReactorComponent)
    (h : ReactorComponent.create t x y = some c) : c.InRange := by
  cases t <;> simp only [ReactorComponent.create, Option.some.injEq, reduceCtorEq] at h <;>
    subst h <;>
    (refine ⟨?_, ?_⟩
     · intro hb hhb
       simp only [ReactorComponent.heatable?, Option.some.injEq, reduceCtorEq] at hhb <;>
         (subst hhb
          simp [HeatVent.mk0, HeatExchanger.mk0, CoolantCell.mk0, Heatable.mk0])
     · intro p hp
       simp only [ReactorComponent.reactorPlating.injEq, reduceCtorEq] at hp <;>
         (subst hp
          simp [ReactorPlating.mk0]))

theorem deviceOf_wellFormed (e : Int) (ts : List ComponentType) (he : 0 ≤ e) :
    (deviceOf e ts).WellFormed := by
  rw [deviceOf_eq e ts he]
  obtain ⟨w, hw⟩ := Int.eq_ofNat_of_zero_le (show 0 ≤ 3 + e by omega)
  refine ⟨?_, ?_, ?_, ?_⟩
  · show 0 ≤ 3 + e
    omega
  · show (0 : Int) ≤ 6
    decide
  · show ((List.range ((3 + e) * 6).toNat).map (cellOf (3 + e).toNat ts)).length
      = (6 : Int).toNat * (3 + e).toNat
    rw [List.length_map, List.length_range, hw]
    have : ((w : Int) * 6) = ((w * 6 : Nat) : Int) := by push_cast; ring
    rw [this, Int.toNat_ofNat, Int.toNat_ofNat]
    show w * 6 = 6 * w
    omega
  · intro c hc
    have hc' : some c ∈ (List.range ((3 + e) * 6).toNat).map (cellOf (3 + e).toNat ts) := hc
    rw [List.mem_map] at hc'
    obtain ⟨i, _, hi⟩ := hc'
    exact create_inRange _ _ _ c hi

/-! ## The coolant device (C17) -/

theorem coolCell_init (y : Nat) (h1 : 1 ≤ y) (h4 : y ≤ 4) :
    (coolCellReactor y).initializeSimulation
      = coolState y 0 0 0 0 0 0 0 (coolPending 0 0) (coolPending 0 0) := by
  interval_cases y <;> decide

theorem alterHeat_coolAt {r : Reactor} {i : Nat} {x y lh h : Int} (d : Int)
    (hc : r.comp? i = some (coolAt x y lh h)) (h0 : 0 ≤ h + d) (h1 : h + d ≤ 30000) :
    ReactorComponent.alterHeat r i d = (r.setComp i (coolAt x y lh (h + d)), 0) := by
  unfold ReactorComponent.alterHeat
  rw [hc]
  simp only [coolAt, Heatable.alterHeat, CoolantCell.mk0, Heatable.mk0]
  rw [if_neg (by omega), if_neg (by omega)]
  simp only [hc, coolAt, CoolantCell.mk0, Heatable.mk0, ReactorComponent.setPendingHeat]

theorem tickIdx_coolAt {r : Reactor} {i : Nat} {x y lh h : Int} (phase : SimPhase)
    (hc : r.comp? i = some (coolAt x y lh h)) :
    Reactor.tickIdx phase r i = r := by
  unfold Reactor.tickIdx ReactorComponent.tick
  rw [hc]
  simp [coolAt, ReactorComponent.isDestroyed, ReactorComponent.base, CoolantCell.mk0,
    Heatable.mk0, ComponentBase.mk0]

theorem acceptUraniumPulse_coolAt {r : Reactor} {i : Nat} {x y lh h : Int} (phase : SimPhase)
    (hc : r.comp? i = some (coolAt x y lh h)) :
    ReactorComponent.acceptUraniumPulse r i phase = (r, false) := by
  unfold ReactorComponent.acceptUraniumPulse
  rw [hc]
  rfl

theorem coolAt_not_destroyed (x y lh h : Int) : (coolAt x y lh h).isDestroyed = false := rfl

theorem coolAt_canStoreHeat (x y lh h : Int) : (coolAt x y lh h).canStoreHeat = true := rfl

theorem coolState_left (y : Nat) (h4 : y ≤ 4) (lh lu a l r b u : Int)
    (cur pend : SimulationState) :
    (coolState y lh lu a l r b u cur pend).left 1 y = some (y * 3) := by
  unfold Reactor.left
  refine get_of_comp? (by omega) (by omega) (by simp [coolState, crossState])
    (by simp [coolState, crossState]; omega) ?_
    (crossState_comp?_L y h4 _ _ _ _ _ _ _) (coolAt_not_destroyed _ _ _ _)
  simp only [coolState, crossState]
  omega

theorem coolState_right (y : Nat) (h4 : y ≤ 4) (lh lu a l r b u : Int)
    (cur pend : SimulationState) :
    (coolState y lh lu a l r b u cur pend).right 1 y = some (y * 3 + 2) := by
  unfold Reactor.right
  refine get_of_comp? (by omega) (by omega) (by simp [coolState, crossState])
    (by simp [coolState, crossState]; omega) ?_
    (crossState_comp?_R y h4 _ _ _ _ _ _ _) (coolAt_not_destroyed _ _ _ _)
  simp only [coolState, crossState]
  omega

theorem coolState_above (y : Nat) (h1 : 1 ≤ y) (h4 : y ≤ 4) (lh lu a l r b u : Int)
    (cur pend : SimulationState) :
    (coolState y lh lu a l r b u cur pend).above 1 y = some ((y - 1) * 3 + 1) := by
  unfold Reactor.above
  refine get_of_comp? (by omega) (by omega) (by simp [coolState, crossState])
    (by simp [coolState, crossState]; omega) ?_
    (crossState_comp?_A y h1 h4 _ _ _ _ _ _ _) (coolAt_not_destroyed _ _ _ _)
  simp only [coolState, crossState]
  omega

theorem coolState_below (y : Nat) (h4 : y ≤ 4) (lh lu a l r b u : Int)
    (cur pend : SimulationState) :
    (coolState y lh lu a l r b u cur pend).below 1 y = some ((y + 1) * 3 + 1) := by
  unfold Reactor.below
  refine get_of_comp? (by omega) (by omega) (by simp [coolState, crossState])
    (by simp [coolState, crossState]; omega) ?_
    (crossState_comp?_B y h4 _ _ _ _ _ _ _) (coolAt_not_destroyed _ _ _ _)
  simp only [coolState, crossState]
  omega

theorem coolState_comp?_C (y : Nat) (h4 : y ≤ 4) (lh lu a l r b u : Int)
    (cur pend : SimulationState) :
    (coolState y lh lu a l r b u cur pend).comp? (y * 3 + 1) = some (cellAt 1 y lu u) :=
  crossState_comp?_C y h4 _ _ _ _ _ _ _

theorem coolState_comp?_A (y : Nat) (h1 : 1 ≤ y) (h4 : y ≤ 4) (lh lu a l r b u : Int)
    (cur pend : SimulationState) :
    (coolState y lh lu a l r b u cur pend).comp? ((y - 1) * 3 + 1)
      = some (coolAt 1 ((y : Int) - 1) lh a) :=
  crossState_comp?_A y h1 h4 _ _ _ _ _ _ _

theorem coolState_comp?_L (y : Nat) (h4 : y ≤ 4) (lh lu a l r b u : Int)
    (cur pend : SimulationState) :
    (coolState y lh lu a l r b u cur pend).comp? (y * 3) = some (coolAt 0 y lh l) :=
  crossState_comp?_L y h4 _ _ _ _ _ _ _

theorem coolState_comp?_R (y : Nat) (h4 : y ≤ 4) (lh lu a l r b u : Int)
    (cur pend : SimulationState) :
    (coolState y lh lu a l r b u cur pend).comp? (y * 3 + 2) = some (coolAt 2 y lh r) :=
  crossState_comp?_R y h4 _ _ _ _ _ _ _

theorem coolState_comp?_B (y : Nat) (h4 : y ≤ 4) (lh lu a l r b u : Int)
    (cur pend : SimulationState) :
    (coolState y lh lu a l r b u cur pend).comp? ((y + 1) * 3 + 1)
      = some (coolAt 1 ((y : Int) + 1) lh b) :=
  crossState_comp?_B y h4 _ _ _ _ _ _ _

theorem checkPulseable_coolAt {r : Reactor} {j : Nat} {x y lh h : Int} (phase : SimPhase)
    (hc : r.comp? j = some (coolAt x y lh h)) :
    UraniumCell.checkPulseable r (some j) phase = (r, 0) := by
  unfold UraniumCell.checkPulseable
  simp only [acceptUraniumPulse_coolAt phase hc]
  rfl

theorem pulseNeighbours_coolState (y : Nat) (h1 : 1 ≤ y) (h4 : y ≤ 4) (lh lu a l r b u : Int)
    (cur pend : SimulationState) (phase : SimPhase) :
    UraniumCell.pulseNeighbours (coolState y lh lu a l r b u cur pend) 1 y phase
      = (coolState y lh lu a l r b u cur pend, 0) := by
  unfold UraniumCell.pulseNeighbours
  simp only [coolState_left y h4, coolState_right y h4, coolState_above y h1 h4,
    coolState_below y h4,
    checkPulseable_coolAt phase (coolState_comp?_L y h4 lh lu a l r b u cur pend),
    checkPulseable_coolAt phase (coolState_comp?_R y h4 lh lu a l r b u cur pend),
    checkPulseable_coolAt phase (coolState_comp?_A y h1 h4 lh lu a l r b u cur pend),
    checkPulseable_coolAt phase (coolState_comp?_B y h4 lh lu a l r b u cur pend)]
  rfl

theorem heatAcceptors_coolState (y : Nat) (h1 : 1 ≤ y) (h4 : y ≤ 4) (lh lu a l r b u : Int)
    (cur pend : SimulationState) :
    heatAcceptors (coolState y lh lu a l r b u cur pend) 1 y
      = [y * 3, y * 3 + 2, (y - 1) * 3 + 1, (y + 1) * 3 + 1] := by
  unfold heatAcceptors
  simp only [coolState_left y h4, coolState_right y h4, coolState_above y h1 h4,
    coolState_below y h4, List.filterMap_cons, List.filterMap_nil,
    coolState_comp?_L y h4, coolState_comp?_R y h4,
    coolState_comp?_A y h1 h4, coolState_comp?_B y h4, coolAt_canStoreHeat, if_true]

theorem alterHeat_coolState_L (y : Nat) (h4 : y ≤ 4) (lh lu a l r b u : Int)
    (cur pend : SimulationState) (hl : 0 ≤ l + 1 ∧ l + 1 ≤ 30000) :
    ReactorComponent.alterHeat (coolState y lh lu a l r b u cur pend) (y * 3) 1
      = (coolState y lh lu a (l + 1) r b u cur pend, 0) := by
  rw [alterHeat_coolAt 1 (coolState_comp?_L y h4 _ _ _ _ _ _ _ _ _) hl.1 hl.2]
  unfold coolState
  rw [crossState_setComp_L]

theorem alterHeat_coolState_R (y : Nat) (h4 : y ≤ 4) (lh lu a l r b u : Int)
    (cur pend : SimulationState) (hr : 0 ≤ r + 1 ∧ r + 1 ≤ 30000) :
    ReactorComponent.alterHeat (coolState y lh lu a l r b u cur pend) (y * 3 + 2) 1
      = (coolState y lh lu a l (r + 1) b u cur pend, 0) := by
  rw [alterHeat_coolAt 1 (coolState_comp?_R y h4 _ _ _ _ _ _ _ _ _) hr.1 hr.2]
  unfold coolState
  rw [crossState_setComp_R]

theorem alterHeat_coolState_A (y : Nat) (h1 : 1 ≤ y) (h4 : y ≤ 4) (lh lu a l r b u : Int)
    (cur pend : SimulationState) (ha : 0 ≤ a + 1 ∧ a + 1 ≤ 30000) :
    ReactorComponent.alterHeat (coolState y lh lu a l r b u cur pend) ((y - 1) * 3 + 1) 1
      = (coolState y lh lu (a + 1) l r b u cur pend, 0) := by
  rw [alterHeat_coolAt 1 (coolState_comp?_A y h1 h4 _ _ _ _ _ _ _ _ _) ha.1 ha.2]
  unfold coolState
  rw [crossState_setComp_A y h1]

theorem alterHeat_coolState_B (y : Nat) (h1 : 1 ≤ y) (h4 : y ≤ 4) (lh lu a l r b u : Int)
    (cur pend : SimulationState) (hb : 0 ≤ b + 1 ∧ b + 1 ≤ 30000) :
    ReactorComponent.alterHeat (coolState y lh lu a l r b u cur pend) ((y + 1) * 3 + 1) 1
      = (coolState y lh lu a l r (b + 1) u cur pend, 0) := by
  rw [alterHeat_coolAt 1 (coolState_comp?_B y h4 _ _ _ _ _ _ _ _ _) hb.1 hb.2]
  unfold coolState
  rw [crossState_setComp_B y h1]

theorem distributeHeat_coolState (y : Nat) (h1 : 1 ≤ y) (h4 : y ≤ 4) (lh lu a l r b u : Int)
    (cur pend : SimulationState)
    (ha : 0 ≤ a + 1 ∧ a + 1 ≤ 30000) (hl : 0 ≤ l + 1 ∧ l + 1 ≤ 30000)
    (hr : 0 ≤ r + 1 ∧ r + 1 ≤ 30000) (hb : 0 ≤ b + 1 ∧ b + 1 ≤ 30000) :
    UraniumCell.distributeHeat (coolState y lh lu a l r b u cur pend) 4
        [y * 3, y * 3 + 2, (y - 1) * 3 + 1, (y + 1) * 3 + 1]
      = (coolState y lh lu (a + 1) (l + 1) (r + 1) (b + 1) u cur pend, 0) := by
  have e4 : Int.tdiv 4 (((3 : Nat) : Int) + 1) = 1 := by decide
  have e3 : Int.tdiv (4 - 1 + 0) (((2 : Nat) : Int) + 1) = 1 := by decide
  have e2 : Int.tdiv (4 - 1 + 0 - 1 + 0) (((1 : Nat) : Int) + 1) = 1 := by decide
  have e1 : Int.tdiv (4 - 1 + 0 - 1 + 0 - 1 + 0) (((0 : Nat) : Int) + 1) = 1 := by decide
  simp only [UraniumCell.distributeHeat, List.length_cons, List.length_nil, Nat.zero_add,
    Nat.reduceAdd, e4, e3, e2, e1, alterHeat_coolState_L y h4 _ _ _ _ _ _ _ _ _ hl,
    alterHeat_coolState_R y h4 _ _ _ _ _ _ _ _ _ hr,
    alterHeat_coolState_A y h1 h4 _ _ _ _ _ _ _ _ _ ha,
    alterHeat_coolState_B y h1 h4 _ _ _ _ _ _ _ _ _ hb]
  rfl

theorem tickIdx_heat_cell_coolState (y : Nat) (h1 : 1 ≤ y) (h4 : y ≤ 4)
    (lh lu a l r b u : Int) (cur pend : SimulationState) (hu : u ≤ 10000)
    (ha : 0 ≤ a + 1 ∧ a + 1 ≤ 30000) (hl : 0 ≤ l + 1 ∧ l + 1 ≤ 30000)
    (hr : 0 ≤ r + 1 ∧ r + 1 ≤ 30000) (hb : 0 ≤ b + 1 ∧ b + 1 ≤ 30000) :
    Reactor.tickIdx SimPhase.PHASE_HEAT_RUN (coolState y lh lu a l r b u cur pend) (y * 3 + 1)
      = coolState y lh lu (a + 1) (l + 1) (r + 1) (b + 1) (u + 1) cur pend := by
  have e0 : (1 : Int) + Int.tdiv 1 2 + 0 = 1 := by decide
  have hcell : UraniumCell.tickCell (y * 3 + 1) 1 y 1 SimPhase.PHASE_HEAT_RUN
      (coolState y lh lu a l r b u cur pend)
      = coolState y lh lu (a + 1) (l + 1) (r + 1) (b + 1) u cur pend := by
    unfold UraniumCell.tickCell
    simp only [ne_eq, not_true_eq_false, if_false, pulseNeighbours_coolState y h1 h4, e0,
      sumUp_one, heatAcceptors_coolState y h1 h4]
    rw [show (1 : Int) * 4 = 4 from rfl, distributeHeat_coolState y h1 h4 _ _ _ _ _ _ _ _ _
      ha hl hr hb]
    simp
  unfold Reactor.tickIdx ReactorComponent.tick
  rw [coolState_comp?_C y h4]
  simp only [cellAt_not_destroyed, Bool.false_eq_true, if_false]
  simp only [cellAt, UraniumCell.mk0, ComponentBase.mk0, UraniumCell.tick, hu, if_true,
    Int.toNat_one, range_one_eq, List.foldl_cons, List.foldl_nil, hcell]
  rw [coolState_comp?_C y h4]
  simp only [cellAt, UraniumCell.mk0, ComponentBase.mk0]
  exact crossState_setComp_C y _ _ _ _ _ _ _ _

theorem tickIdx_power_cell_coolState (y : Nat) (h1 : 1 ≤ y) (h4 : y ≤ 4)
    (lh lu a l r b u : Int) (cur pend : SimulationState) (hu : u ≤ 10000) :
    Reactor.tickIdx SimPhase.PHASE_POWER (coolState y lh lu a l r b u cur pend) (y * 3 + 1)
      = coolState y lh lu a l r b u cur { pend with euGenerated := pend.euGenerated + 5 } := by
  have e0 : ((1 : Int) + Int.tdiv 1 2).toNat = 1 := by decide
  have hacc : ReactorComponent.acceptUraniumPulse (coolState y lh lu a l r b u cur pend)
      (y * 3 + 1) SimPhase.PHASE_POWER
      = (coolState y lh lu a l r b u cur { pend with euGenerated := pend.euGenerated + 5 },
          true) := by
    unfold ReactorComponent.acceptUraniumPulse
    rw [coolState_comp?_C y h4]
    simp only [cellAt, UraniumCell.mk0, UraniumCell.acceptUraniumPulse, hu, if_true]
    rfl
  have hcell : UraniumCell.tickCell (y * 3 + 1) 1 y 1 SimPhase.PHASE_POWER
      (coolState y lh lu a l r b u cur pend)
      = coolState y lh lu a l r b u cur { pend with euGenerated := pend.euGenerated + 5 } := by
    unfold UraniumCell.tickCell
    simp only [ne_eq, reduceCtorEq, not_false_eq_true, if_true, e0, range_one_eq,
      List.foldl_cons, List.foldl_nil, hacc, pulseNeighbours_coolState y h1 h4]
  unfold Reactor.tickIdx ReactorComponent.tick
  rw [coolState_comp?_C y h4]
  simp only [cellAt_not_destroyed, Bool.false_eq_true, if_false]
  simp only [cellAt, UraniumCell.mk0, ComponentBase.mk0, UraniumCell.tick, hu, if_true,
    Int.toNat_one, range_one_eq, List.foldl_cons, List.foldl_nil, hcell, reduceCtorEq, if_false]

theorem runTickPhase_coolState (phase : SimPhase) (y : Nat) (h1 : 1 ≤ y) (h4 : y ≤ 4)
    (lh lu a l r b u : Int) (cur pend : SimulationState) :
    (coolState y lh lu a l r b u cur pend).runTickPhase phase
      = [(y - 1) * 3 + 1, y * 3, y * 3 + 1, y * 3 + 2, (y + 1) * 3 + 1].foldl
          (Reactor.tickIdx phase) (coolState y lh lu a l r b u cur pend) := by
  rw [runTickPhase_eq_foldl phase _ 3 6 rfl rfl,
    foldl_tickIdx_filter phase _ (coolState y lh lu a l r b u cur pend) _ rfl]
  unfold coolState
  rw [crossState_filter y h1 h4]

theorem runTickPhase_heat_coolState (y : Nat) (h1 : 1 ≤ y) (h4 : y ≤ 4)
    (lh lu a l r b u : Int) (cur pend : SimulationState) (hu : u ≤ 10000)
    (ha : 0 ≤ a + 1 ∧ a + 1 ≤ 30000) (hl : 0 ≤ l + 1 ∧ l + 1 ≤ 30000)
    (hr : 0 ≤ r + 1 ∧ r + 1 ≤ 30000) (hb : 0 ≤ b + 1 ∧ b + 1 ≤ 30000) :
    (coolState y lh lu a l r b u cur pend).runTickPhase SimPhase.PHASE_HEAT_RUN
      = coolState y lh lu (a + 1) (l + 1) (r + 1) (b + 1) (u + 1) cur pend := by
  rw [runTickPhase_coolState _ y h1 h4]
  simp only [List.foldl_cons, List.foldl_nil]
  rw [tickIdx_coolAt _ (coolState_comp?_A y h1 h4 _ _ _ _ _ _ _ _ _),
    tickIdx_coolAt _ (coolState_comp?_L y h4 _ _ _ _ _ _ _ _ _),
    tickIdx_heat_cell_coolState y h1 h4 _ _ _ _ _ _ _ _ _ hu ha hl hr hb,
    tickIdx_coolAt _ (coolState_comp?_R y h4 _ _ _ _ _ _ _ _ _),
    tickIdx_coolAt _ (coolState_comp?_B y h4 _ _ _ _ _ _ _ _ _)]

theorem runTickPhase_power_coolState (y : Nat) (h1 : 1 ≤ y) (h4 : y ≤ 4)
    (lh lu a l r b u : Int) (cur pend : SimulationState) (hu : u ≤ 10000) :
    (coolState y lh lu a l r b u cur pend).runTickPhase SimPhase.PHASE_POWER
      = coolState y lh lu a l r b u cur { pend with euGenerated := pend.euGenerated + 5 } := by
  rw [runTickPhase_coolState _ y h1 h4]
  simp only [List.foldl_cons, List.foldl_nil]
  rw [tickIdx_coolAt _ (coolState_comp?_A y h1 h4 _ _ _ _ _ _ _ _ _),
    tickIdx_coolAt _ (coolState_comp?_L y h4 _ _ _ _ _ _ _ _ _),
    tickIdx_power_cell_coolState y h1 h4 _ _ _ _ _ _ _ _ _ hu,
    tickIdx_coolAt _ (coolState_comp?_R y h4 _ _ _ _ _ _ _ _ _),
    tickIdx_coolAt _ (coolState_comp?_B y h4 _ _ _ _ _ _ _ _ _)]

theorem totalHeat_coolState (y : Nat) (h1 : 1 ≤ y) (h4 : y ≤ 4)
    (lh lu a l r b u t : Int) (cur pend : SimulationState) :
    (coolState y lh lu a l r b u cur pend).components.foldl
        (fun t comp =>
          match comp with
          | none => t
          | some c => t + c.getCurrentHeat)
        t
      = t + a + l + r + b := by
  interval_cases y <;>
    simp [coolState, crossState, range18, crossCells, coolAt, cellAt,
      ReactorComponent.getCurrentHeat, CoolantCell.mk0, Heatable.mk0]

theorem tick_coolState (y : Nat) (h1 : 1 ≤ y) (h4 : y ≤ 4)
    (lh lu h u : Int) (cur pend : SimulationState)
    (hh : 0 ≤ h + 1 ∧ h + 1 ≤ 30000) (hu : u < 10000) :
    (coolState y lh lu h h h h u cur pend).runTick.incTick
      = coolState y lh lu (h + 1) (h + 1) (h + 1) (h + 1) (u + 1) cur
          { curTick := pend.curTick + 1
            meltdown := pend.meltdown
            componentFailed := pend.componentFailed
            euGenerated := pend.euGenerated + 5
            totalHeat := pend.reactorHeat + 4 * (h + 1)
            reactorHeat := pend.reactorHeat } := by
  unfold Reactor.runTick
  simp only
  rw [show ({ coolState y lh lu h h h h u cur pend with maxHeat := 10000 } : Reactor)
      = coolState y lh lu h h h h u cur pend from rfl,
    runTickPhase_heat_coolState y h1 h4 _ _ _ _ _ _ _ _ _ (by omega) hh hh hh hh,
    runTickPhase_power_coolState y h1 h4 _ _ _ _ _ _ _ _ _ (by omega),
    totalHeat_coolState y h1 h4]
  simp only [coolState, crossState, Reactor.incTick, Reactor.getHeat, Reactor.mk.injEq,
    SimulationState.mk.injEq, true_and, and_true]
  ring

theorem commit_coolState (y : Nat) (lh lu h u : Int) (cur pend : SimulationState) :
    (coolState y lh lu h h h h u cur pend).commit = coolState y h u h h h h u pend pend := by
  unfold Reactor.commit coolState crossState
  simp only [List.map_map, Reactor.mk.injEq, true_and, and_true]
  apply List.map_congr_left
  intro i _
  simp only [Function.comp, crossCells]
  split_ifs <;> rfl

theorem coolPending_succ (h0 k : Int) :
    ({ curTick := (coolPending h0 k).curTick + 1
       meltdown := (coolPending h0 k).meltdown
       componentFailed := (coolPending h0 k).componentFailed
       euGenerated := (coolPending h0 k).euGenerated + 5
       totalHeat := (coolPending h0 k).reactorHeat + 4 * (h0 + k + 1)
       reactorHeat := (coolPending h0 k).reactorHeat } : SimulationState)
      = coolPending h0 (k + 1) := by
  simp only [coolPending, SimulationState.mk.injEq, true_and, and_true]
  refine ⟨?_, ?_⟩ <;> ring

theorem stopCheck_run_coolState (y : Nat) (lh lu a l r b u h0 k : Int) (cur : SimulationState) :
    Reactor.stopCheck true true false true (coolState y lh lu a l r b u cur (coolPending h0 k))
      = if k ≥ 10000 then some RunUntilStopReason.STOPPED_ON_FUEL_USED else none :=
  stopCheck_run _ rfl rfl

theorem runUntilLoop_coolState (y : Nat) (h1 : 1 ≤ y) (h4 : y ≤ 4) (h0 : Int)
    (h00 : 0 ≤ h0) (h01 : h0 ≤ 20000) (d : Nat) :
    ∀ (k lh lu : Int) (cur : SimulationState) (last : Int) (extra : Nat),
      k + d = 9999 → 0 ≤ k →
      Reactor.runUntilLoop true true false true (d + 2 + extra)
          (coolState y lh lu (h0 + k) (h0 + k) (h0 + k) (h0 + k) k cur (coolPending h0 k))
          false last
        = some (RunUntilStopReason.STOPPED_ON_FUEL_USED, coolStop y h0) := by
  induction d with
  | zero =>
    intro k lh lu cur last extra hk _
    have hk' : k = 9999 := by omega
    subst hk'
    rw [show 0 + 2 + extra = (extra + 1) + 1 by omega]
    unfold Reactor.runUntilLoop
    rw [stopCheck_run_coolState]
    simp only [ge_iff_le, Int.reduceLE, if_false, Reactor.noHeatLossCheck, Bool.and_false,
      Bool.false_eq_true]
    rw [commit_coolState, tick_coolState y h1 h4 _ _ _ _ _ _ (by omega) (by decide),
      coolPending_succ]
    unfold Reactor.runUntilLoop
    rw [stopCheck_run_coolState]
    rw [show h0 + 9999 + 1 = h0 + 10000 by ring]
    rfl
  | succ d ih =>
    intro k lh lu cur last extra hk hk0
    rw [show d + 1 + 2 + extra = (d + 2 + extra) + 1 by omega]
    unfold Reactor.runUntilLoop
    rw [stopCheck_run_coolState, if_neg (by omega)]
    simp only [Reactor.noHeatLossCheck, Bool.and_false, Bool.false_eq_true, if_false]
    rw [commit_coolState, tick_coolState y h1 h4 _ _ _ _ _ _ (by omega) (by omega),
      coolPending_succ, show h0 + k + 1 = h0 + (k + 1) by ring]
    exact ih (k + 1) _ _ _ _ _ (by omega) (by omega)

theorem runUntil_coolState (y : Nat) (h1 : 1 ≤ y) (h4 : y ≤ 4) (lh lu h0 : Int)
    (cur : SimulationState) (h00 : 0 ≤ h0) (h01 : h0 ≤ 20000) (fuel : Nat)
    (hfuel : 10001 ≤ fuel) :
    (coolState y lh lu h0 h0 h0 h0 0 cur (coolPending h0 0)).runUntil fuel
        true true false true
      = some (RunUntilStopReason.STOPPED_ON_FUEL_USED, coolStop y h0) := by
  obtain ⟨extra, rfl⟩ := Nat.exists_eq_add_of_le hfuel
  unfold Reactor.runUntil
  rw [show 10001 + extra = (9998 + 2 + extra) + 1 by omega]
  unfold Reactor.runUntilLoop
  rw [stopCheck_run_coolState, if_neg (by decide)]
  simp only [Reactor.noHeatLossCheck, Bool.and_false, Bool.false_eq_true, if_false, if_true]
  rw [tick_coolState y h1 h4 _ _ _ _ _ _ (by omega) (by decide)]
  have hp := coolPending_succ h0 0
  rw [add_zero] at hp
  rw [hp]
  exact runUntilLoop_coolState y h1 h4 h0 h00 h01 9998 (0 + 1) _ _ _ _ _ (by decide)
    (by decide)

theorem resetUsage_copy_coolState (y : Nat) (lh lu a l r b u : Int)
    (cur pend : SimulationState) :
    (coolState y lh lu a l r b u cur pend).copy.resetUsage
      = coolState y lh 0 a l r b 0 { cur with curTick := 0, euGenerated := 0 }
          { cur with curTick := 0, euGenerated := 0 } := by
  unfold Reactor.resetUsage Reactor.copy coolState crossState
  simp only [List.map_map, Reactor.mk.injEq, true_and, and_true]
  apply List.map_congr_left
  intro i _
  simp only [Function.comp, crossCells]
  split_ifs <;> rfl

theorem coolCell_firstRun (y : Nat) (h1 : 1 ≤ y) (h4 : y ≤ 4) (fuel : Nat)
    (hfuel : 10001 ≤ fuel) :
    (coolCellReactor y).initializeSimulation.runUntil fuel true true false true
      = some (RunUntilStopReason.STOPPED_ON_FUEL_USED, coolStop y 0) := by
  rw [coolCell_init y h1 h4]
  exact runUntil_coolState y h1 h4 _ _ 0 _ le_rfl (by decide) fuel hfuel

theorem coolStop_restart (y : Nat) :
    (coolStop y 0).commit.copy.resetUsage
      = coolState y 10000 0 10000 10000 10000 10000 0 (coolPending 10000 0)
          (coolPending 10000 0) := by
  unfold coolStop
  rw [commit_coolState, resetUsage_copy_coolState]
  rfl

theorem coolCell_rerun (y : Nat) (h1 : 1 ≤ y) (h4 : y ≤ 4) (fuel : Nat)
    (hfuel : 10001 ≤ fuel) :
    (coolStop y 0).commit.copy.resetUsage.runUntil fuel true true false true
      = some (RunUntilStopReason.STOPPED_ON_FUEL_USED, coolStop y 10000) := by
  rw [coolStop_restart]
  exact runUntil_coolState y h1 h4 _ _ 10000 _ (by decide) (by decide) fuel hfuel

theorem coolCell_numUraniumCells :
    (coolCellReactor 1).initializeSimulation.numUraniumCells ≠ 0 := by
  rw [coolCell_init 1 le_rfl (by decide)]
  simp [coolState, crossState]

theorem coolCell_cycles_mem :
    (2 : Int) ∈ cyclesValues (coolStop 1 0).commit (coolStop 1 10000).commit := by
  decide

theorem coolCell_totalHeat : 0 < (coolStop 1 0).commit.curSimState.totalHeat := by
  decide

theorem coolCell_results :
    runSimulation 50001 (coolCellReactor 1) = some (coolResults, (coolStop 1 0).commit)
      ∧ coolResults.mark = 2 := by
  obtain ⟨res, hres, h⟩ := runSimulation_of_fuelUsed (coolCellReactor 1) 50001 le_rfl
    (coolStop 1 0) coolCell_numUraniumCells
    (coolCell_firstRun 1 le_rfl (by decide) 50001 (by decide))
  have hr : coolResults = res := by
    unfold coolResults
    rw [hres]
    rfl
  rw [hr]
  refine ⟨hres, ?_⟩
  rcases h with ⟨hle, _⟩ | ⟨_, reason, s2, hrr, h⟩
  · exact absurd coolCell_totalHeat (not_lt.mpr hle)
  · rw [coolCell_rerun 1 le_rfl (by decide) 50001 (by decide)] at hrr
    simp only [Option.some.injEq, Prod.mk.injEq] at hrr
    obtain ⟨rfl, rfl⟩ := hrr
    rcases h with ⟨h | h, _⟩ | ⟨_, hall, _⟩ | ⟨_, hm, _⟩
    · cases h
    · cases h
    · exact absurd (hall 2 coolCell_cycles_mem) (by decide)
    · exact hm

/-- C17: for a well-formed device state (every device built by the constructor and
`setComponentTypes` is one, see `deviceOf_wellFormed`) for which `runSimulation` returns
mark 2: the first run stopped on FUEL_USED in a state `s`, the rerun (a copy of `s.commit`
with the usage counters reset) stopped in a state `s2`, and `numIterationsBeforeFailure` is
1 when the rerun stopped on MELTDOWN or COMPONENT_FAILED, and otherwise is the least
positive value of `getCyclesUntilFailure` over the core (heat after the first run, heat
after the rerun, device max heat) and every present component (its heat after the first
run, its heat after the rerun, its capacity), which are the values of `cyclesValues`; in
both cases `numIterationsBeforeFailure >= 1`. -/
theorem mark_two_iterations (r : Reactor) (fuel : Nat) (hfuel : 50001 ≤ fuel)
    (hwf : r.WellFormed) (res : SimulationResults) (s' : Reactor)
    (hres : runSimulation fuel r = some (res, s')) (hmark : res.mark = 2) :
    1 ≤ res.numIterationsBeforeFailure
    ∧ ∃ s reason s2,
        r.initializeSimulation.runUntil fuel true true false true
          = some (RunUntilStopReason.STOPPED_ON_FUEL_USED, s)
        ∧ s' = s.commit
        ∧ s.commit.copy.resetUsage.runUntil fuel true true false true = some (reason, s2)
        ∧ (((reason = RunUntilStopReason.STOPPED_ON_MELTDOWN
              ∨ reason = RunUntilStopReason.STOPPED_ON_COMPONENT_FAILED)
            ∧ res.numIterationsBeforeFailure = 1)
          ∨ (reason = RunUntilStopReason.STOPPED_ON_FUEL_USED
            ∧ 0 < res.numIterationsBeforeFailure
            ∧ res.numIterationsBeforeFailure ∈ cyclesValues s.commit s2.commit
            ∧ ∀ v ∈ cyclesValues s.commit s2.commit, 0 < v →
                res.numIterationsBeforeFailure ≤ v)) :=
  runSimulation_of_mark_two r fuel hfuel hwf res s' hres hmark

theorem mark_two_iterations_witness :
    (coolCellReactor 1).WellFormed
    ∧ runSimulation 50001 (coolCellReactor 1) = some (coolResults, (coolStop 1 0).commit)
    ∧ coolResults.mark = 2
    ∧ 1 ≤ coolResults.numIterationsBeforeFailure
    ∧ ∃ s reason s2,
        (coolCellReactor 1).initializeSimulation.runUntil 50001 true true false true
          = some (RunUntilStopReason.STOPPED_ON_FUEL_USED, s)
        ∧ (coolStop 1 0).commit = s.commit
        ∧ s.commit.copy.resetUsage.runUntil 50001 true true false true = some (reason, s2)
        ∧ (((reason = RunUntilStopReason.STOPPED_ON_MELTDOWN
              ∨ reason = RunUntilStopReason.STOPPED_ON_COMPONENT_FAILED)
            ∧ coolResults.numIterationsBeforeFailure = 1)
          ∨ (reason = RunUntilStopReason.STOPPED_ON_FUEL_USED
            ∧ 0 < coolResults.numIterationsBeforeFailure
            ∧ coolResults.numIterationsBeforeFailure ∈ cyclesValues s.commit s2.commit
            ∧ ∀ v ∈ cyclesValues s.commit s2.commit, 0 < v →
                coolResults.numIterationsBeforeFailure ≤ v)) :=
  ⟨deviceOf_wellFormed 0 _ le_rfl, coolCell_results.1, coolCell_results.2,
    mark_two_iterations (coolCellReactor 1) 50001 le_rfl (deviceOf_wellFormed 0 _ le_rfl)
      coolResults (coolStop 1 0).commit coolCell_results.1 coolCell_results.2⟩

/-! ## Entry and exit of `runUntil` (C21, C22, C30) -/

/-- The checks at the head of the loop body of `runUntil` return the reason of the first
entry condition of the specification that holds. -/
theorem stopCheck_eq_firstHolding (f1 f2 f3 f4 : Bool) (r : Reactor) :
    Reactor.stopCheck f1 f2 f3 f4 r = firstHolding (entryConditions f1 f2 f3 f4 r) := by
  unfold Reactor.stopCheck firstHolding entryConditions Reactor.fuelTicks Reactor.timeoutTicks
  rw [Bool.and_comm f1, Bool.and_comm f4, Bool.and_comm f2, Bool.and_comm f3,
    Bool.and_comm f3]
  have e6 : ∀ (a b : Option RunUntilStopReason),
      (if r.pendingSimState.curTick ≥ 50000 then a else b)
        = if decide (r.pendingSimState.curTick ≥ 50000) = true then a else b := by
    intro a b
    simp only [decide_eq_true_eq]
  rw [e6]
  generalize (r.pendingSimState.meltdown && f1) = b1
  generalize (r.pendingSimState.componentFailed && f4) = b2
  generalize (decide (r.pendingSimState.curTick ≥ 10000) && f2) = b3
  generalize (decide (r.pendingSimState.totalHeat ≤ 0) && f3) = b4
  generalize (decide (r.pendingSimState.totalHeat < 100)
    && decide (r.pendingSimState.totalHeat = r.curSimState.totalHeat) && f3) = b5
  generalize decide (r.pendingSimState.curTick ≥ 50000) = b6
  cases b1 <;> cases b2 <;> cases b3 <;> cases b4 <;> cases b5 <;> cases b6 <;> rfl

theorem runUntil_of_stopCheck (f1 f2 f3 f4 : Bool) (r : Reactor) (fuel : Nat) (hfuel : 1 ≤ fuel)
    (reason : RunUntilStopReason) (h : Reactor.stopCheck f1 f2 f3 f4 r = some reason) :
    r.runUntil fuel f1 f2 f3 f4 = some (reason, r) := by
  obtain ⟨n, rfl⟩ := Nat.exists_eq_add_of_le hfuel
  unfold Reactor.runUntil
  rw [show 1 + n = n + 1 by omega]
  unfold Reactor.runUntilLoop
  rw [h]

/-- C22: if on entry to `runUntil` at least one of the six entry conditions holds, then
`runUntil` returns, with the device state unchanged, the stop reason of the first one that
holds in the order of the specification (`entryConditions`). -/
theorem runUntil_entry_conditions (f1 f2 f3 f4 : Bool) (r : Reactor) (fuel : Nat)
    (hfuel : 1 ≤ fuel) (reason : RunUntilStopReason)
    (h : firstHolding (entryConditions f1 f2 f3 f4 r) = some reason) :
    r.runUntil fuel f1 f2 f3 f4 = some (reason, r) :=
  runUntil_of_stopCheck f1 f2 f3 f4 r fuel hfuel reason
    ((stopCheck_eq_firstHolding f1 f2 f3 f4 r).trans h)

theorem runUntil_entry_conditions_witness :
    1 ≤ 1
      ∧ firstHolding (entryConditions false false true false
          (Reactor.mk0 0).initializeSimulation) = some RunUntilStopReason.STOPPED_ON_COOLED_DOWN
      ∧ (Reactor.mk0 0).initializeSimulation.runUntil 1 false false true false
        = some (RunUntilStopReason.STOPPED_ON_COOLED_DOWN, (Reactor.mk0 0).initializeSimulation) :=
  ⟨le_rfl, by decide,
    runUntil_entry_conditions false false true false (Reactor.mk0 0).initializeSimulation 1
      le_rfl RunUntilStopReason.STOPPED_ON_COOLED_DOWN (by decide)⟩

/-- Erasing the tick counter of the counted loop gives the loop of `runUntil`. -/
theorem runUntilCounted_erase (f1 f2 f3 f4 : Bool) (n : Nat) (r : Reactor) (first : Bool)
    (last : Int) (t : Nat) :
    (Reactor.runUntilCounted f1 f2 f3 f4 n r first last t).map (fun x => (x.1, x.2.1))
      = Reactor.runUntilLoop f1 f2 f3 f4 n r first last := by
  induction n generalizing r first last t with
  | zero => rfl
  | succ n ih =>
    unfold Reactor.runUntilCounted Reactor.runUntilLoop
    cases Reactor.stopCheck f1 f2 f3 f4 r with
    | some reason => rfl
    | none =>
      simp only
      cases Reactor.noHeatLossCheck f3 r last with
      | none => rfl
      | some l => exact ih _ _ _ _

/-- In the counted loop, entered after at least one tick with the pending tick count one
above the committed one, the result has executed at least one tick and has the pending
tick count one above the committed one. -/
theorem runUntilCounted_later (f1 f2 f3 f4 : Bool) (n : Nat) :
    ∀ (r : Reactor) (last : Int) (t : Nat) (res : RunUntilStopReason × Reactor × Nat),
      r.pendingSimState.curTick = r.curSimState.curTick + 1 →
      Reactor.runUntilCounted f1 f2 f3 f4 n r false last (t + 1) = some res →
      1 ≤ res.2.2
        ∧ res.2.1.pendingSimState.curTick = res.2.1.curSimState.curTick + 1 := by
  induction n with
  | zero => intro r last t res _ h; simp [Reactor.runUntilCounted] at h
  | succ n ih =>
    intro r last t res hr h
    unfold Reactor.runUntilCounted at h
    cases hs : Reactor.stopCheck f1 f2 f3 f4 r with
    | some reason =>
      rw [hs] at h
      simp only [Option.some.injEq] at h
      subst h
      exact ⟨by simp, hr⟩
    | none =>
      rw [hs] at h
      simp only at h
      cases hc : Reactor.noHeatLossCheck f3 r last with
      | none =>
        rw [hc] at h
        simp only [Option.some.injEq] at h
        subst h
        exact ⟨by simp, hr⟩
      | some l =>
        rw [hc] at h
        simp only [Bool.false_eq_true, if_false] at h
        refine ih _ _ _ res ?_ h
        rw [pendingTick_step, curSimState_step]
        rfl

theorem runUntilCounted_spec (f1 f2 f3 f4 : Bool) (n : Nat) (r : Reactor)
    (res : RunUntilStopReason × Reactor × Nat)
    (hentry : r.pendingSimState.curTick = r.curSimState.curTick)
    (h : Reactor.runUntilCounted f1 f2 f3 f4 n r true (-1) 0 = some res) :
    (res.2.2 = 0 ∧ res.2.1 = r)
      ∨ (1 ≤ res.2.2
        ∧ res.2.1.pendingSimState.curTick = res.2.1.curSimState.curTick + 1) := by
  cases n with
  | zero => simp [Reactor.runUntilCounted] at h
  | succ n =>
    unfold Reactor.runUntilCounted at h
    cases hs : Reactor.stopCheck f1 f2 f3 f4 r with
    | some reason =>
      rw [hs] at h
      simp only [Option.some.injEq] at h
      subst h
      exact Or.inl ⟨rfl, rfl⟩
    | none =>
      rw [hs] at h
      simp only at h
      cases hc : Reactor.noHeatLossCheck f3 r (-1) with
      | none =>
        rw [hc] at h
        simp only [Option.some.injEq] at h
        subst h
        exact Or.inl ⟨rfl, rfl⟩
      | some l =>
        rw [hc] at h
        simp only [if_true] at h
        refine Or.inr (runUntilCounted_later f1 f2 f3 f4 n _ _ 0 res ?_ h)
        rw [pendingTick_step, curSimState_step, hentry]

/-- C21: for a device state whose pending run state equals its committed run state, and
every flag combination, `runUntil` returns (given enough loop iterations to reach the tick
limit); if it executed no tick, the device state is unchanged, and if it executed at
least one tick, the pending tick count is the committed tick count plus 1 on return.  The
number of executed ticks is the ghost counter of `Reactor.runUntilCounted`. -/
theorem runUntil_last_tick_uncommitted (f1 f2 f3 f4 : Bool) (fuel : Nat) (r : Reactor)
    (hentry : r.pendingSimState = r.curSimState) (hfuel1 : 1 ≤ fuel)
    (hfuel : 50001 ≤ (fuel : Int) + r.pendingSimState.curTick) :
    ∃ reason s ticks,
      Reactor.runUntilCounted f1 f2 f3 f4 fuel r true (-1) 0 = some (reason, s, ticks)
      ∧ r.runUntil fuel f1 f2 f3 f4 = some (reason, s)
      ∧ (ticks = 0 → s = r)
      ∧ (1 ≤ ticks → s.pendingSimState.curTick = s.curSimState.curTick + 1) := by
  have hsome := runUntilLoop_isSome f1 f2 f3 f4 fuel r true (-1) hfuel1 hfuel
  rw [← runUntilCounted_erase f1 f2 f3 f4 fuel r true (-1) 0] at hsome
  cases hres : Reactor.runUntilCounted f1 f2 f3 f4 fuel r true (-1) 0 with
  | none => rw [hres] at hsome; simp at hsome
  | some res =>
    obtain ⟨reason, s, ticks⟩ := res
    refine ⟨reason, s, ticks, rfl, ?_, ?_, ?_⟩
    · unfold Reactor.runUntil
      rw [← runUntilCounted_erase f1 f2 f3 f4 fuel r true (-1) 0, hres]
      rfl
    · intro h0
      rcases runUntilCounted_spec f1 f2 f3 f4 fuel r _ (by rw [hentry]) hres with h | h
      · exact h.2
      · have := h.1
        simp only at this
        omega
    · intro h1
      rcases runUntilCounted_spec f1 f2 f3 f4 fuel r _ (by rw [hentry]) hres with h | h
      · have := h.1
        simp only at this
        omega
      · exact h.2

theorem runUntil_last_tick_uncommitted_witness :
    stagnantReactor.pendingSimState = stagnantReactor.curSimState
      ∧ ∃ reason s ticks,
        Reactor.runUntilCounted false false true false 50001 stagnantReactor true (-1) 0
          = some (reason, s, ticks)
        ∧ stagnantReactor.runUntil 50001 false false true false = some (reason, s)
        ∧ (ticks = 0 → s = stagnantReactor)
        ∧ (1 ≤ ticks → s.pendingSimState.curTick = s.curSimState.curTick + 1) :=
  ⟨by decide,
    runUntil_last_tick_uncommitted false false true false 50001 stagnantReactor (by decide)
      (by decide) (by decide)⟩

theorem noHeatLossCheck_first (r : Reactor) (h8 : r.curSimState.curTick.tmod 8 = 0) :
    Reactor.noHeatLossCheck true r (-1) = some r.curSimState.totalHeat := by
  unfold Reactor.noHeatLossCheck
  simp [h8]

theorem noHeatLossCheck_second (r : Reactor) (h8 : r.curSimState.curTick.tmod 8 = 0)
    (hheat : 0 ≤ r.curSimState.totalHeat) :
    Reactor.noHeatLossCheck true r.runTick.incTick r.curSimState.totalHeat = none := by
  unfold Reactor.noHeatLossCheck
  rw [curSimState_step]
  have hne : r.curSimState.totalHeat ≠ -1 := by omega
  simp [h8, hne]

theorem runUntil_cooldown_step (f1 f2 f4 : Bool) (r : Reactor) (fuel : Nat) (hfuel : 2 ≤ fuel)
    (h8 : r.curSimState.curTick.tmod 8 = 0) (hheat : 0 ≤ r.curSimState.totalHeat) :
    r.runUntil fuel f1 f2 true f4
      = match Reactor.stopCheck f1 f2 true f4 r with
        | some reason => some (reason, r)
        | none =>
          some ((Reactor.stopCheck f1 f2 true f4 r.tickOnce).getD
            RunUntilStopReason.STOPPED_ON_MAX_TICKS, r.tickOnce) := by
  obtain ⟨n, rfl⟩ := Nat.exists_eq_add_of_le hfuel
  unfold Reactor.runUntil
  rw [show 2 + n = (n + 1) + 1 by omega]
  unfold Reactor.runUntilLoop
  cases hs : Reactor.stopCheck f1 f2 true f4 r with
  | some reason => rfl
  | none =>
    simp only [noHeatLossCheck_first r h8, if_true]
    unfold Reactor.runUntilLoop
    unfold Reactor.tickOnce
    cases hs2 : Reactor.stopCheck f1 f2 true f4 r.runTick.incTick with
    | some reason => rfl
    | none =>
      simp only [noHeatLossCheck_second r h8 hheat]
      rfl

/-- C30: if `runUntil` is called with cooldown monitored on a device state whose committed
tick count is divisible by 8 and whose committed total heat is `>= 0` (whether or not the
pending run state equals the committed one), it executes at most one tick: it returns on
entry when an entry condition holds (`Reactor.stopCheck`), and otherwise right after the
first tick, with the reason of the entry condition that holds after that tick, or with
MAX_TICKS when none does. -/
theorem runUntil_cooldown_at_most_one_tick (f1 f2 f4 : Bool) (r : Reactor) (fuel : Nat)
    (hfuel : 2 ≤ fuel) (h8 : r.curSimState.curTick.tmod 8 = 0)
    (hheat : 0 ≤ r.curSimState.totalHeat) :
    r.runUntil fuel f1 f2 true f4
      = match Reactor.stopCheck f1 f2 true f4 r with
        | some reason => some (reason, r)
        | none =>
          some ((Reactor.stopCheck f1 f2 true f4 r.tickOnce).getD
            RunUntilStopReason.STOPPED_ON_MAX_TICKS, r.tickOnce) :=
  runUntil_cooldown_step f1 f2 f4 r fuel hfuel h8 hheat

theorem runUntil_cooldown_at_most_one_tick_witness :
    coolProbe.curSimState.curTick = 10000
      ∧ coolProbe.curSimState.curTick.tmod 8 = 0
      ∧ 0 ≤ coolProbe.curSimState.totalHeat
      ∧ coolProbe.runUntil 50001 false false true false
        = some (RunUntilStopReason.STOPPED_ON_MAX_TICKS, coolProbe.tickOnce) :=
  ⟨by decide, by decide, by decide,
    (runUntil_cooldown_at_most_one_tick false false false coolProbe 50001 (by decide)
      (by decide) (by decide)).trans rfl⟩

/-! ## The total heat written by `runTick` (C24) -/

theorem foldl_currentHeat (l : List (Option ReactorComponent)) (t : Int) :
    l.foldl
        (fun t comp =>
          match comp with
          | none => t
          | some c => t + c.getCurrentHeat)
        t
      = t + (l.map fun o =>
          match o with
          | none => 0
          | some c => c.getCurrentHeat).sum := by
  induction l generalizing t with
  | nil => simp
  | cons o l ih =>
    rw [List.foldl_cons, ih, List.map_cons, List.sum_cons]
    cases o with
    | none => simp
    | some c => simp only; ring

/-- In the third tick of `hotVentReactor` the vent overflows and is destroyed while it holds
990: `runTick` writes the total heat 1110, the core heat 120 plus the 990 of the destroyed
vent, whereas the core heat plus the heat of the live components is 120. -/
theorem runTick_totalHeat_counts_destroyed :
    hotVentSecondTick.runTick.pendingSimState.totalHeat = 1110
      ∧ hotVentSecondTick.runTick.getHeat + hotVentSecondTick.runTick.liveComponentHeat = 120
      ∧ hotVentSecondTick.runTick.pendingSimState.totalHeat
        ≠ hotVentSecondTick.runTick.getHeat + hotVentSecondTick.runTick.liveComponentHeat := by
  refine ⟨?_, ?_, ?_⟩ <;> decide

/-- C24 (amended): for every device state, after `runTick` the pending total heat is the
pending core heat plus the sum of `getCurrentHeat` over every component present in the
grid, whether its destroyed flag is set or not. -/
theorem runTick_totalHeat (r : Reactor) :
    r.runTick.pendingSimState.totalHeat = r.runTick.getHeat + r.runTick.componentHeat := by
  unfold Reactor.runTick
  simp only
  rw [foldl_currentHeat]
  rfl

/-! ## The core capacity after a tick (C23) -/

theorem maxInv_setComp {L : List Int} {m : Int} {r : Reactor} {i : Nat}
    {c c' : ReactorComponent} (hc : r.comp? i = some c)
    (h0 : platingAdd (some c') = platingAdd (some c)) (h : r.MaxInv L m) :
    (r.setComp i c').MaxInv L m :=
  ⟨(map_platingAdd_setComp hc h0).trans h.1, h.2⟩

theorem maxInv_setDestroyed {L : List Int} {m : Int} (r : Reactor) (i : Nat)
    (c : ReactorComponent) (hc : r.comp? i = some c)
    (hk : c.heatable?.isSome = true ∨ ∃ n, c = ReactorComponent.neutronReflector n)
    (h : r.MaxInv L m) : (ReactorComponent.setDestroyed r i true).MaxInv L m := by
  unfold ReactorComponent.setDestroyed
  simp only [hc]
  have h1 : (r.setComp i (c.setPendingDestroyed true)).MaxInv L m :=
    maxInv_setComp hc (platingAdd_setPendingDestroyed c true hk) h
  split_ifs
  · unfold Reactor.componentDestroyed
    split_ifs
    · exact h1
    · exact h1
  · exact h1
  · exact h

theorem maxInv_setHeat {L : List Int} {m : Int} (r : Reactor) (v : Int)
    (h : r.MaxInv L m) : (r.setHeat v).MaxInv L m := by
  unfold Reactor.setHeat Reactor.heatCapacityExceeded
  simp only
  split_ifs <;> exact h

theorem maxInv_addHeat {L : List Int} {m : Int} (r : Reactor) (v : Int)
    (h : r.MaxInv L m) : (r.addHeat v).MaxInv L m := by
  unfold Reactor.addHeat Reactor.heatCapacityExceeded
  simp only
  split_ifs <;> exact h

theorem tickClosed0_maxInv (L : List Int) (m : Int) : TickClosed0 (Reactor.MaxInv L m) where
  heat := fun _ _ c _ v h hc _ _ _ => maxInv_setComp hc (platingAdd_setPendingHeat c v) h
  destroy := fun r i c h hc hk => maxInv_setDestroyed r i c hc hk h
  setHeat := fun r v h => maxInv_setHeat r v h
  addHeat := fun r v h => maxInv_addHeat r v h
  generateEU := fun _ _ h => h
  stored := fun _ _ _ _ h hc _ => maxInv_setComp hc rfl h
  cellUsage := fun _ _ _ _ h hc => maxInv_setComp hc rfl h
  reflectorUsage := fun _ _ _ _ h hc => maxInv_setComp hc rfl h

/-- The effect of the loop body of `runTickPhase(PHASE_HEAT_RUN)` at index `i`: `maxHeat`
grows by the plating addition of the cell. -/
theorem maxInv_tickIdx_heat {L : List Int} {m : Int} (r : Reactor) (i : Nat)
    (h : r.MaxInv L m) :
    (Reactor.tickIdx SimPhase.PHASE_HEAT_RUN r i).MaxInv L (m + L.getD i 0) := by
  have hL : L.getD i 0 = platingAdd (r.comp? i) := by rw [← h.1]; exact getD_map_platingAdd r i
  rw [hL]
  unfold Reactor.tickIdx
  cases hc : r.comp? i with
  | none => simpa [platingAdd] using h
  | some c =>
    simp only
    by_cases hpl : ∃ p, c = ReactorComponent.reactorPlating p
    · obtain ⟨p, rfl⟩ := hpl
      cases hd : p.pendingDestroyed
      · have hnd : (ReactorComponent.reactorPlating p).isDestroyed = false := hd
        simp only [hnd, Bool.false_eq_true, if_false, platingAdd, hd]
        unfold ReactorComponent.tick
        simp only [hc, ReactorPlating.tick, if_true]
        exact ⟨h.1, by rw [← h.2]⟩
      · have hnd : (ReactorComponent.reactorPlating p).isDestroyed = true := hd
        simp only [hnd, if_true, platingAdd, hd, add_zero]
        exact h
    · have h0 : platingAdd (some c) = 0 := by
        cases c <;> first | rfl | exact absurd ⟨_, rfl⟩ hpl
      rw [h0, add_zero]
      split_ifs
      · exact h
      · exact tc_tick_of_not_plating (tickClosed0_maxInv L m) r i _
          (fun p hp => hpl ⟨p, by rw [hc] at hp; exact Option.some.inj hp⟩) h

theorem maxInv_tickIdx_power {L : List Int} {m : Int} (r : Reactor) (i : Nat)
    (h : r.MaxInv L m) : (Reactor.tickIdx SimPhase.PHASE_POWER r i).MaxInv L m := by
  unfold Reactor.tickIdx
  cases hc : r.comp? i with
  | none => exact h
  | some c =>
    simp only
    split_ifs
    · exact h
    · by_cases hpl : ∃ p, c = ReactorComponent.reactorPlating p
      · obtain ⟨p, rfl⟩ := hpl
        unfold ReactorComponent.tick
        simp only [hc, ReactorPlating.tick, reduceCtorEq, if_false]
        exact h
      · exact tc_tick_of_not_plating (tickClosed0_maxInv L m) r i _
          (fun p hp => hpl ⟨p, by rw [hc] at hp; exact Option.some.inj hp⟩) h

theorem maxInv_foldl_heat (L : List Int) (m0 : Int) (n : Nat) :
    ∀ (r : Reactor), r.MaxInv L m0 →
      ((List.range n).foldl (Reactor.tickIdx SimPhase.PHASE_HEAT_RUN) r).MaxInv L
        (m0 + (L.take n).sum) := by
  induction n with
  | zero => intro r h; simpa using h
  | succ n ih =>
    intro r h
    rw [List.range_succ, List.foldl_append, List.foldl_cons, List.foldl_nil]
    have h2 := maxInv_tickIdx_heat _ n (ih r h)
    have hsum : (L.take (n + 1)).sum = (L.take n).sum + L.getD n 0 := by
      rw [List.take_succ, List.sum_append, List.getD_eq_getElem?_getD]
      cases L[n]? <;> simp
    rw [hsum, ← add_assoc]
    exact h2

/-- After `runTick`, `maxHeat` is 10000 plus the heat additions of the platings that are
not destroyed, whatever it was before, and the platings are the same. -/
theorem runTick_maxInv (r : Reactor) (hg : r.GridShaped) :
    r.runTick.MaxInv (r.components.map platingAdd) (10000 + r.platingSum) := by
  obtain ⟨hw, hh, hlen⟩ := hg
  have hw' : r.width = (r.width.toNat : Int) := (Int.toNat_of_nonneg hw).symm
  have hh' : r.height = (r.height.toNat : Int) := (Int.toNat_of_nonneg hh).symm
  unfold Reactor.runTick
  simp only
  have h0 : ({ r with maxHeat := 10000 } : Reactor).MaxInv (r.components.map platingAdd) 10000 :=
    ⟨rfl, rfl⟩
  have h1 := maxInv_foldl_heat _ 10000 (r.height.toNat * r.width.toNat) _ h0
  rw [← runTickPhase_eq_foldl SimPhase.PHASE_HEAT_RUN ({ r with maxHeat := 10000 } : Reactor)
    r.width.toNat r.height.toNat hw' hh'] at h1
  have htake : ((r.components.map platingAdd).take (r.height.toNat * r.width.toNat)).sum
      = r.platingSum := by
    rw [List.take_of_length_le (by simp [hlen])]
    rfl
  rw [htake] at h1
  generalize hr2 : ({ r with maxHeat := 10000 } : Reactor).runTickPhase SimPhase.PHASE_HEAT_RUN
    = r2 at h1
  have hf2 : r2.frame = r.frame := by
    rw [← hr2, frame_runTickPhase]
    rfl
  have h2 : (r2.runTickPhase SimPhase.PHASE_POWER).MaxInv (r.components.map platingAdd)
      (10000 + r.platingSum) := by
    rw [runTickPhase_eq_foldl SimPhase.PHASE_POWER r2 r.width.toNat r.height.toNat
      ((width_of_frame hf2).trans hw') ((height_of_frame hf2).trans hh')]
    exact foldl_inv _ _ (fun x i hx => maxInv_tickIdx_power x i hx) _ _ h1
  exact ⟨h2.1, h2.2⟩

theorem gridShaped_of_frame {r r' : Reactor} (h : r.frame = r'.frame) (hg : r'.GridShaped) :
    r.GridShaped := by
  obtain ⟨hw, hh, hlen⟩ := hg
  have hp := congrArg List.length (present_of_frame h)
  simp only [Reactor.present, List.length_map] at hp
  refine ⟨?_, ?_, ?_⟩
  · rw [width_of_frame h]; exact hw
  · rw [height_of_frame h]; exact hh
  · rw [hp, hlen, width_of_frame h, height_of_frame h]

theorem gridShaped_tickOnce (r : Reactor) (hg : r.GridShaped) : r.tickOnce.GridShaped := by
  have h : r.runTick.GridShaped := gridShaped_of_frame (frame_runTick r) hg
  exact h

theorem gridShaped_commit (r : Reactor) (hg : r.GridShaped) : r.commit.GridShaped := by
  obtain ⟨hw, hh, hlen⟩ := hg
  exact ⟨hw, hh, by simpa [Reactor.commit] using hlen⟩

theorem tickOnce_maxHeat (r : Reactor) (hg : r.GridShaped) :
    r.tickOnce.maxHeat = 10000 + r.platingSum ∧ r.tickOnce.platingSum = r.platingSum := by
  have h := runTick_maxInv r hg
  refine ⟨h.2, ?_⟩
  show (r.runTick.components.map platingAdd).sum = _
  rw [h.1]
  rfl

theorem iterate_tick_maxHeat (r : Reactor) (hg : r.GridShaped) (n : Nat) :
    ((fun s : Reactor => s.commit.tickOnce)^[n] r.tickOnce).GridShaped
      ∧ ((fun s : Reactor => s.commit.tickOnce)^[n] r.tickOnce).maxHeat = 10000 + r.platingSum
      ∧ ((fun s : Reactor => s.commit.tickOnce)^[n] r.tickOnce).platingSum = r.platingSum := by
  induction n with
  | zero =>
    exact ⟨gridShaped_tickOnce r hg, (tickOnce_maxHeat r hg).1, (tickOnce_maxHeat r hg).2⟩
  | succ n ih =>
    rw [Function.iterate_succ_apply']
    obtain ⟨h1, _, h3⟩ := ih
    have hc := gridShaped_commit _ h1
    have ht := tickOnce_maxHeat _ hc
    rw [platingSum_commit, h3] at ht
    exact ⟨gridShaped_tickOnce _ hc, ht.1, ht.2⟩

/-- C23: for every device state (with the container invariant that the grid has
`height * width` cells), after `runTick` the core capacity `maxHeat` is 10000 plus the sum
of the heat additions of all present, non-destroyed plating components
(`Reactor.platingSum`), independently of its value before the tick; hence it has this same
value after every tick of a run (each further tick preceded by a commit). -/
theorem runTick_maxHeat (r : Reactor) (hg : r.GridShaped) :
    r.runTick.maxHeat = 10000 + r.platingSum
      ∧ ∀ n : Nat,
        ((fun s : Reactor => s.commit.tickOnce)^[n] r.tickOnce).maxHeat
          = 10000 + r.platingSum :=
  ⟨(runTick_maxInv r hg).2, fun n => (iterate_tick_maxHeat r hg n).2.1⟩

theorem runTick_maxHeat_witness :
    platedReactor.GridShaped ∧ platedReactor.maxHeat = 10000 ∧ platedReactor.platingSum = 2700
      ∧ platedReactor.runTick.maxHeat = 10000 + platedReactor.platingSum
      ∧ ∀ n : Nat,
        ((fun s : Reactor => s.commit.tickOnce)^[n] platedReactor.tickOnce).maxHeat
          = 10000 + platedReactor.platingSum :=
  ⟨⟨by decide, by decide, by decide⟩, by decide, by decide,
    runTick_maxHeat platedReactor ⟨by decide, by decide, by decide⟩⟩

/-! ## A heat vent that cannot take the drained amount (C25) -/

/-- C25 at a failing input: in the state of `drainReactor` after 62 ticks the vent at index
0 (core draw 36) holds 976 of 1000 and the core heat is 3756, so the vent cannot accept
the drained amount `min 36 3756 = 36`.  Its HEAT-phase tick marks it destroyed, and then
still lowers the core heat to 3720 and dissipates 20 of the stored heat, leaving 956: the
core heat is not restored and the stored heat is not kept. -/
theorem heatVent_overflow_drains_core :
    drainState.getHeat = 3756 ∧ IsHeatableAt drainState 0 976 1000
      ∧ (ReactorComponent.tick drainState 0 SimPhase.PHASE_HEAT_RUN).getHeat = 3720
      ∧ (ReactorComponent.tick drainState 0 SimPhase.PHASE_HEAT_RUN).storedHeatAt 0 = 956
      ∧ (ReactorComponent.tick drainState 0 SimPhase.PHASE_HEAT_RUN).destroyedAt 0 = true := by
  refine ⟨by decide, ⟨_, _, rfl, rfl, by decide, by decide⟩, by decide, by decide, by decide⟩

/-! ## One tick of a fuel cell without neighbours (C26) -/

theorem get_congr {r r' : Reactor} (hc : r'.components = r.components)
    (hw : r'.width = r.width) (hh : r'.height = r.height) (x y : Int) :
    r'.get x y = r.get x y := by
  unfold Reactor.get Reactor.comp?
  rw [hc, hw, hh]

theorem noLiveNeighbour_congr {r r' : Reactor} (hc : r'.components = r.components)
    (hw : r'.width = r.width) (hh : r'.height = r.height) (x y : Int)
    (h : r.NoLiveNeighbour x y) : r'.NoLiveNeighbour x y := by
  unfold Reactor.NoLiveNeighbour Reactor.left Reactor.right Reactor.above Reactor.below at *
  simp only [get_congr hc hw hh]
  exact h

theorem get_setComp_of_isDestroyed {r : Reactor} {i : Nat} {c c' : ReactorComponent}
    (hc : r.comp? i = some c) (hd : c'.isDestroyed = c.isDestroyed) (x y : Int) :
    (r.setComp i c').get x y = r.get x y := by
  unfold Reactor.get
  have hw : (r.setComp i c').width = r.width := rfl
  have hh : (r.setComp i c').height = r.height := rfl
  rw [hw, hh, comp?_setComp]
  split_ifs with h1 h2
  · rfl
  · obtain ⟨h3, _⟩ := h2
    rw [← h3, hc]
    simp only [hd]
  · rfl

theorem noLiveNeighbour_setComp {r : Reactor} {i : Nat} {c c' : ReactorComponent}
    (hc : r.comp? i = some c) (hd : c'.isDestroyed = c.isDestroyed) (x y : Int)
    (h : r.NoLiveNeighbour x y) : (r.setComp i c').NoLiveNeighbour x y := by
  unfold Reactor.NoLiveNeighbour Reactor.left Reactor.right Reactor.above Reactor.below at *
  simp only [get_setComp_of_isDestroyed hc hd]
  exact h

theorem pulseNeighbours_of_noLiveNeighbour (r : Reactor) (x y : Int) (phase : SimPhase)
    (h : r.NoLiveNeighbour x y) : UraniumCell.pulseNeighbours r x y phase = (r, 0) := by
  obtain ⟨h1, h2, h3, h4⟩ := h
  unfold UraniumCell.pulseNeighbours
  simp only [h1, h2, h3, h4, UraniumCell.checkPulseable]
  rfl

theorem heatAcceptors_of_noLiveNeighbour (r : Reactor) (x y : Int)
    (h : r.NoLiveNeighbour x y) : heatAcceptors r x y = [] := by
  obtain ⟨h1, h2, h3, h4⟩ := h
  unfold heatAcceptors
  simp [h1, h2, h3, h4]

/-- One iteration of the `cellNum` loop in the HEAT phase, for a cell without live
neighbours: the heat `4 * sumUp(pulses)` goes to the core. -/
theorem tickCell_heat_of_noLiveNeighbour (r : Reactor) (i : Nat) (x y n : Int)
    (h : r.NoLiveNeighbour x y) (hn : 0 ≤ n) :
    UraniumCell.tickCell i x y n SimPhase.PHASE_HEAT_RUN r
      = r.addHeat (UraniumCell.sumUp (1 + n.tdiv 2) * 4) := by
  have hp : 1 ≤ UraniumCell.sumUp (1 + n.tdiv 2) :=
    sumUp_pos _ (by have := Int.tdiv_nonneg hn (show (0 : Int) ≤ 2 by decide); omega)
  unfold UraniumCell.tickCell
  simp only [ne_eq, not_true_eq_false, if_false, pulseNeighbours_of_noLiveNeighbour r x y _ h,
    add_zero, heatAcceptors_of_noLiveNeighbour r x y h, UraniumCell.distributeHeat]
  rw [if_pos (by omega)]

theorem noLiveNeighbour_addHeat (r : Reactor) (v x y : Int) (h : r.NoLiveNeighbour x y) :
    (r.addHeat v).NoLiveNeighbour x y := by
  refine noLiveNeighbour_congr ?_ ?_ ?_ x y h <;>
    (unfold Reactor.addHeat Reactor.heatCapacityExceeded; simp only; split_ifs <;> rfl)

theorem comp?_addHeat (r : Reactor) (v : Int) (i : Nat) : (r.addHeat v).comp? i = r.comp? i := by
  unfold Reactor.addHeat Reactor.heatCapacityExceeded Reactor.comp?
  simp only
  split_ifs <;> rfl

theorem getHeat_addHeat (r : Reactor) (v : Int) : (r.addHeat v).getHeat = r.getHeat + v := by
  unfold Reactor.addHeat Reactor.heatCapacityExceeded Reactor.getHeat
  simp only
  split_ifs <;> rfl

theorem euGenerated_addHeat (r : Reactor) (v : Int) :
    (r.addHeat v).pendingSimState.euGenerated = r.pendingSimState.euGenerated := by
  unfold Reactor.addHeat Reactor.heatCapacityExceeded
  simp only
  split_ifs <;> rfl

/-- The `cellNum` loop in the HEAT phase, for a cell without live neighbours. -/
theorem foldl_tickCell_heat_of_noLiveNeighbour (i : Nat) (x y n : Int) (hn : 0 ≤ n) (m : Nat) :
    ∀ (r : Reactor), r.NoLiveNeighbour x y →
      ((List.range m).foldl
          (fun r _ => UraniumCell.tickCell i x y n SimPhase.PHASE_HEAT_RUN r) r).NoLiveNeighbour
          x y
        ∧ (∀ j, ((List.range m).foldl
            (fun r _ => UraniumCell.tickCell i x y n SimPhase.PHASE_HEAT_RUN r) r).comp? j
            = r.comp? j)
        ∧ ((List.range m).foldl
            (fun r _ => UraniumCell.tickCell i x y n SimPhase.PHASE_HEAT_RUN r) r).getHeat
          = r.getHeat + (m : Int) * (UraniumCell.sumUp (1 + n.tdiv 2) * 4)
        ∧ ((List.range m).foldl
            (fun r _ => UraniumCell.tickCell i x y n SimPhase.PHASE_HEAT_RUN r)
              r).pendingSimState.euGenerated
          = r.pendingSimState.euGenerated := by
  induction m with
  | zero => intro r h; simp [h]
  | succ m ih =>
    intro r h
    rw [List.range_succ, List.foldl_append, List.foldl_cons, List.foldl_nil]
    obtain ⟨h1, h2, h3, h4⟩ := ih r h
    rw [tickCell_heat_of_noLiveNeighbour _ i x y n h1 hn]
    refine ⟨noLiveNeighbour_addHeat _ _ x y h1, fun j => ?_, ?_, ?_⟩
    · rw [comp?_addHeat, h2]
    · rw [getHeat_addHeat, h3]
      push_cast
      ring
    · rw [euGenerated_addHeat, h4]

theorem comp?_generateEU (r : Reactor) (e : Int) (i : Nat) :
    (r.generateEU e).comp? i = r.comp? i := rfl

theorem noLiveNeighbour_generateEU (r : Reactor) (e x y : Int) (h : r.NoLiveNeighbour x y) :
    (r.generateEU e).NoLiveNeighbour x y :=
  noLiveNeighbour_congr rfl rfl rfl x y h

/-- The self-pulses of one iteration of the `cellNum` loop in the POWER phase: each one
generates `euPerPulse = 5`. -/
theorem foldl_selfPulse_power (i : Nat) (u : UraniumCell) (hu : u.pendingUsage ≤ u.maxUsage)
    (x y : Int) (m : Nat) :
    ∀ (r : Reactor), r.comp? i = some (ReactorComponent.uraniumCell u) →
      r.NoLiveNeighbour x y →
      ((List.range m).foldl
          (fun r _ => (ReactorComponent.acceptUraniumPulse r i SimPhase.PHASE_POWER).1)
          r).NoLiveNeighbour x y
        ∧ (∀ j, ((List.range m).foldl
            (fun r _ => (ReactorComponent.acceptUraniumPulse r i SimPhase.PHASE_POWER).1)
            r).comp? j = r.comp? j)
        ∧ ((List.range m).foldl
            (fun r _ => (ReactorComponent.acceptUraniumPulse r i SimPhase.PHASE_POWER).1)
            r).getHeat = r.getHeat
        ∧ ((List.range m).foldl
            (fun r _ => (ReactorComponent.acceptUraniumPulse r i SimPhase.PHASE_POWER).1)
            r).pendingSimState.euGenerated
          = r.pendingSimState.euGenerated + (m : Int) * 5 := by
  induction m with
  | zero => intro r _ h; simp [h]
  | succ m ih =>
    intro r hc h
    rw [List.range_succ, List.foldl_append, List.foldl_cons, List.foldl_nil]
    obtain ⟨h1, h2, h3, h4⟩ := ih r hc h
    generalize (List.range m).foldl
      (fun r _ => (ReactorComponent.acceptUraniumPulse r i SimPhase.PHASE_POWER).1) r = r1
      at h1 h2 h3 h4
    have hacc : (ReactorComponent.acceptUraniumPulse r1 i SimPhase.PHASE_POWER).1
        = r1.generateEU 5 := by
      unfold ReactorComponent.acceptUraniumPulse
      rw [h2 i, hc]
      simp only [UraniumCell.acceptUraniumPulse, hu, if_true, UraniumCell.euPerPulse]
    rw [hacc]
    refine ⟨noLiveNeighbour_generateEU _ _ x y h1, fun j => ?_, ?_, ?_⟩
    · rw [comp?_generateEU, h2]
    · exact h3
    · show r1.pendingSimState.euGenerated + 5 = _
      rw [h4]
      push_cast
      ring

/-- One iteration of the `cellNum` loop in the POWER phase, for a cell without live
neighbours. -/
theorem tickCell_power_of_noLiveNeighbour (i : Nat) (u : UraniumCell)
    (hu : u.pendingUsage ≤ u.maxUsage) (x y n : Int) (r : Reactor)
    (hc : r.comp? i = some (ReactorComponent.uraniumCell u)) (h : r.NoLiveNeighbour x y) :
    (UraniumCell.tickCell i x y n SimPhase.PHASE_POWER r).NoLiveNeighbour x y
      ∧ (∀ j, (UraniumCell.tickCell i x y n SimPhase.PHASE_POWER r).comp? j = r.comp? j)
      ∧ (UraniumCell.tickCell i x y n SimPhase.PHASE_POWER r).getHeat = r.getHeat
      ∧ (UraniumCell.tickCell i x y n SimPhase.PHASE_POWER r).pendingSimState.euGenerated
        = r.pendingSimState.euGenerated + ((1 + n.tdiv 2).toNat : Int) * 5 := by
  obtain ⟨h1, h2, h3, h4⟩ := foldl_selfPulse_power i u hu x y (1 + n.tdiv 2).toNat r hc h
  unfold UraniumCell.tickCell
  simp only [ne_eq, reduceCtorEq, not_false_eq_true, if_true]
  rw [pulseNeighbours_of_noLiveNeighbour _ x y _ h1]
  exact ⟨h1, h2, h3, h4⟩

/-- The `cellNum` loop in the POWER phase, for a cell without live neighbours. -/
theorem foldl_tickCell_power_of_noLiveNeighbour (i : Nat) (u : UraniumCell)
    (hu : u.pendingUsage ≤ u.maxUsage) (x y n : Int) (m : Nat) :
    ∀ (r : Reactor), r.comp? i = some (ReactorComponent.uraniumCell u) →
      r.NoLiveNeighbour x y →
      ((List.range m).foldl
          (fun r _ => UraniumCell.tickCell i x y n SimPhase.PHASE_POWER r) r).NoLiveNeighbour
          x y
        ∧ (∀ j, ((List.range m).foldl
            (fun r _ => UraniumCell.tickCell i x y n SimPhase.PHASE_POWER r) r).comp? j
            = r.comp? j)
        ∧ ((List.range m).foldl
            (fun r _ => UraniumCell.tickCell i x y n SimPhase.PHASE_POWER r) r).getHeat
          = r.getHeat
        ∧ ((List.range m).foldl
            (fun r _ => UraniumCell.tickCell i x y n SimPhase.PHASE_POWER r)
              r).pendingSimState.euGenerated
          = r.pendingSimState.euGenerated + (m : Int) * (((1 + n.tdiv 2).toNat : Int) * 5) := by
  induction m with
  | zero => intro r _ h; simp [h]
  | succ m ih =>
    intro r hc h
    rw [List.range_succ, List.foldl_append, List.foldl_cons, List.foldl_nil]
    obtain ⟨h1, h2, h3, h4⟩ := ih r hc h
    generalize (List.range m).foldl
      (fun r _ => UraniumCell.tickCell i x y n SimPhase.PHASE_POWER r) r = r1 at h1 h2 h3 h4
    obtain ⟨k1, k2, k3, k4⟩ := tickCell_power_of_noLiveNeighbour i u hu x y n r1
      ((h2 i).trans hc) h1
    refine ⟨k1, fun j => (k2 j).trans (h2 j), k3.trans h3, ?_⟩
    rw [k4, h4]
    push_cast
    ring

/-- The HEAT-phase tick of a fuel cell without live neighbours whose usage counter is at
most `maxUsage`: `numCells * 4 * sumUp(1 + numCells / 2)` goes to the core, no energy is
generated, and the usage counter grows by 1. -/
theorem tick_heat_of_noLiveNeighbour (r : Reactor) (i : Nat) (u : UraniumCell)
    (hc : r.comp? i = some (ReactorComponent.uraniumCell u)) (hn : 0 ≤ u.numCells)
    (hu : u.pendingUsage ≤ u.maxUsage) (h : r.NoLiveNeighbour u.x u.y) :
    (ReactorComponent.tick r i SimPhase.PHASE_HEAT_RUN).NoLiveNeighbour u.x u.y
      ∧ (ReactorComponent.tick r i SimPhase.PHASE_HEAT_RUN).comp? i
        = some (ReactorComponent.uraniumCell { u with pendingUsage := u.pendingUsage + 1 })
      ∧ (ReactorComponent.tick r i SimPhase.PHASE_HEAT_RUN).getHeat
        = r.getHeat + (u.numCells.toNat : Int) * (UraniumCell.sumUp (1 + u.numCells.tdiv 2) * 4)
      ∧ (ReactorComponent.tick r i SimPhase.PHASE_HEAT_RUN).pendingSimState.euGenerated
        = r.pendingSimState.euGenerated := by
  obtain ⟨h1, h2, h3, h4⟩ :=
    foldl_tickCell_heat_of_noLiveNeighbour i u.x u.y u.numCells hn u.numCells.toNat r h
  unfold ReactorComponent.tick
  rw [hc]
  simp only [UraniumCell.tick, hu, if_true]
  generalize (List.range u.numCells.toNat).foldl
    (fun r _ => UraniumCell.tickCell i u.x u.y u.numCells SimPhase.PHASE_HEAT_RUN r) r = r1
    at h1 h2 h3 h4
  have hc1 : r1.comp? i = some (ReactorComponent.uraniumCell u) := (h2 i).trans hc
  rw [hc1]
  simp only
  refine ⟨@noLiveNeighbour_setComp r1 i _
    (ReactorComponent.uraniumCell { u with pendingUsage := u.pendingUsage + 1 })
    hc1 rfl _ _ h1, ?_, h3, h4⟩
  rw [comp?_setComp, if_pos ⟨rfl, comp?_lt_length hc1⟩]

/-- The POWER-phase tick of a fuel cell without live neighbours whose usage counter is at
most `maxUsage`: `5 * numCells * (1 + numCells / 2)` is added to the generated energy; the
core heat and the cell are unchanged. -/
theorem tick_power_of_noLiveNeighbour (r : Reactor) (i : Nat) (u : UraniumCell)
    (hc : r.comp? i = some (ReactorComponent.uraniumCell u))
    (hu : u.pendingUsage ≤ u.maxUsage) (h : r.NoLiveNeighbour u.x u.y) :
    (ReactorComponent.tick r i SimPhase.PHASE_POWER).comp? i
        = some (ReactorComponent.uraniumCell u)
      ∧ (ReactorComponent.tick r i SimPhase.PHASE_POWER).getHeat = r.getHeat
      ∧ (ReactorComponent.tick r i SimPhase.PHASE_POWER).pendingSimState.euGenerated
        = r.pendingSimState.euGenerated
          + (u.numCells.toNat : Int) * (((1 + u.numCells.tdiv 2).toNat : Int) * 5) := by
  obtain ⟨_, h2, h3, h4⟩ :=
    foldl_tickCell_power_of_noLiveNeighbour i u hu u.x u.y u.numCells u.numCells.toNat r hc h
  unfold ReactorComponent.tick
  rw [hc]
  simp only [UraniumCell.tick, hu, if_true, reduceCtorEq, if_false]
  exact ⟨(h2 i).trans hc, h3, h4⟩

/-- The POWER-phase tick of a fuel cell whose usage counter is above `maxUsage` does
nothing. -/
theorem tick_power_of_spent (r : Reactor) (i : Nat) (u : UraniumCell)
    (hc : r.comp? i = some (ReactorComponent.uraniumCell u))
    (hu : u.maxUsage < u.pendingUsage) :
    ReactorComponent.tick r i SimPhase.PHASE_POWER = r := by
  unfold ReactorComponent.tick
  rw [hc]
  simp only [UraniumCell.tick]
  rw [if_neg (by omega)]

/-- In the state `spentCellState` the only component is a `URANIUM_CELL` (`numCells = 1`)
without neighbours whose usage counter is 10000, which is `<= 10000`.  Its full tick adds
4 to the core heat and 1 to the usage counter, but nothing to the generated energy: the
POWER phase finds the counter at 10001. -/
theorem isolatedCell_spent_no_energy :
    spentCellState.fuelAt 0
        = some { UraniumCell.mk0 ComponentType.URANIUM_CELL 0 0 1 with
            lastUsage := 10000, pendingUsage := 10000 }
      ∧ spentCellState.NoLiveNeighbour 0 0
      ∧ (ReactorComponent.fullTick spentCellState 0).getHeat = spentCellState.getHeat + 4
      ∧ (ReactorComponent.fullTick spentCellState 0).usageAt 0 = 10001
      ∧ (ReactorComponent.fullTick spentCellState 0).pendingSimState.euGenerated
        = spentCellState.pendingSimState.euGenerated
      ∧ (ReactorComponent.fullTick spentCellState 0).pendingSimState.euGenerated
        ≠ spentCellState.pendingSimState.euGenerated + 5 * 1 * (1 + 1 / 2) := by
  refine ⟨by decide, ⟨by decide, by decide, by decide, by decide⟩, by decide, by decide,
    by decide, by decide⟩

theorem fullTick_of_noLiveNeighbour (r : Reactor) (i : Nat) (u : UraniumCell)
    (hc : r.comp? i = some (ReactorComponent.uraniumCell u)) (hn : 0 ≤ u.numCells)
    (hu : u.pendingUsage < u.maxUsage) (h : r.NoLiveNeighbour u.x u.y) :
    (ReactorComponent.fullTick r i).getHeat
        = r.getHeat + (u.numCells.toNat : Int) * (UraniumCell.sumUp (1 + u.numCells.tdiv 2) * 4)
      ∧ (ReactorComponent.fullTick r i).pendingSimState.euGenerated
        = r.pendingSimState.euGenerated
          + (u.numCells.toNat : Int) * (((1 + u.numCells.tdiv 2).toNat : Int) * 5)
      ∧ (ReactorComponent.fullTick r i).usageAt i = u.pendingUsage + 1 := by
  obtain ⟨h1, h2, h3, h4⟩ := tick_heat_of_noLiveNeighbour r i u hc hn (by omega) h
  obtain ⟨k1, k2, k3⟩ := tick_power_of_noLiveNeighbour _ i
    { u with pendingUsage := u.pendingUsage + 1 } h2 (show u.pendingUsage + 1 ≤ u.maxUsage by omega)
    h1
  unfold ReactorComponent.fullTick
  refine ⟨k2.trans h3, ?_, ?_⟩
  · rw [k3, h4]
  · unfold Reactor.usageAt Reactor.fuelAt
    rw [k1]

/-- A full tick of a fuel cell without live neighbours whose usage counter equals
`maxUsage`: the HEAT phase adds the heat and increases the counter, and the POWER phase,
which finds the counter above `maxUsage`, does nothing. -/
theorem fullTick_of_spent (r : Reactor) (i : Nat) (u : UraniumCell)
    (hc : r.comp? i = some (ReactorComponent.uraniumCell u)) (hn : 0 ≤ u.numCells)
    (hu : u.pendingUsage = u.maxUsage) (h : r.NoLiveNeighbour u.x u.y) :
    (ReactorComponent.fullTick r i).getHeat
        = r.getHeat + (u.numCells.toNat : Int) * (UraniumCell.sumUp (1 + u.numCells.tdiv 2) * 4)
      ∧ (ReactorComponent.fullTick r i).pendingSimState.euGenerated
        = r.pendingSimState.euGenerated
      ∧ (ReactorComponent.fullTick r i).usageAt i = u.pendingUsage + 1 := by
  obtain ⟨_, h2, h3, h4⟩ := tick_heat_of_noLiveNeighbour r i u hc hn (by omega) h
  have hp := tick_power_of_spent _ i { u with pendingUsage := u.pendingUsage + 1 } h2
    (show u.maxUsage < u.pendingUsage + 1 by omega)
  unfold ReactorComponent.fullTick
  rw [hp]
  refine ⟨h3, h4, ?_⟩
  unfold Reactor.usageAt Reactor.fuelAt
  rw [h2]

/-- C26 (amended): for a fuel cell with `numCells = n` in `{1, 2, 4}`, usage counter at most
10000 (its `maxUsage`) and no live orthogonal neighbour, one full tick of the cell (HEAT
phase then POWER phase) adds exactly `n * 4 * T(1 + n / 2)` to the core heat (`T` the
triangular number: 4, 24, 96) and increases the usage counter of the cell by exactly 1;
when the usage counter is below 10000 it adds exactly `5 * n * (1 + n / 2)` to the generated
energy (5, 20, 60), and when the usage counter is exactly 10000 it generates no energy. -/
theorem isolatedCell_full_tick (r : Reactor) (i : Nat) (u : UraniumCell)
    (hc : r.comp? i = some (ReactorComponent.uraniumCell u))
    (hn : u.numCells = 1 ∨ u.numCells = 2 ∨ u.numCells = 4)
    (hmax : u.maxUsage = 10000) (hu : u.pendingUsage ≤ 10000)
    (h : r.NoLiveNeighbour u.x u.y) :
    (ReactorComponent.fullTick r i).getHeat
        = r.getHeat + u.numCells * 4 * triangular (1 + u.numCells / 2)
      ∧ (ReactorComponent.fullTick r i).usageAt i = u.pendingUsage + 1
      ∧ (u.pendingUsage < 10000 →
          (ReactorComponent.fullTick r i).pendingSimState.euGenerated
            = r.pendingSimState.euGenerated + 5 * u.numCells * (1 + u.numCells / 2))
      ∧ (u.pendingUsage = 10000 →
          (ReactorComponent.fullTick r i).pendingSimState.euGenerated
            = r.pendingSimState.euGenerated) := by
  have hn0 : 0 ≤ u.numCells := by rcases hn with hn | hn | hn <;> omega
  have hheat : (u.numCells.toNat : Int) * (UraniumCell.sumUp (1 + u.numCells.tdiv 2) * 4)
      = u.numCells * 4 * triangular (1 + u.numCells / 2) := by
    rcases hn with hn | hn | hn <;> rw [hn] <;> decide
  have hsplit : u.pendingUsage < u.maxUsage ∨ u.pendingUsage = u.maxUsage := by omega
  have hfacts : (ReactorComponent.fullTick r i).getHeat
        = r.getHeat + (u.numCells.toNat : Int) * (UraniumCell.sumUp (1 + u.numCells.tdiv 2) * 4)
      ∧ (ReactorComponent.fullTick r i).usageAt i = u.pendingUsage + 1 := by
    rcases hsplit with hlt | heq
    · obtain ⟨h1, _, h3⟩ := fullTick_of_noLiveNeighbour r i u hc hn0 hlt h
      exact ⟨h1, h3⟩
    · obtain ⟨h1, _, h3⟩ := fullTick_of_spent r i u hc hn0 heq h
      exact ⟨h1, h3⟩
  refine ⟨?_, hfacts.2, ?_, ?_⟩
  · rw [hfacts.1, hheat]
  · intro hlt
    obtain ⟨_, h2, _⟩ := fullTick_of_noLiveNeighbour r i u hc hn0 (by omega) h
    rw [h2]
    rcases hn with hn | hn | hn <;> rw [hn] <;>
      exact congrArg (fun t => r.pendingSimState.euGenerated + t) (by decide)
  · intro heq
    exact (fullTick_of_spent r i u hc hn0 (by omega) h).2.1

theorem isolatedCell_full_tick_witness :
    (singleCellReactor.initializeSimulation.NoLiveNeighbour 0 0
      ∧ (ReactorComponent.fullTick singleCellReactor.initializeSimulation 0).getHeat = 4
      ∧ (ReactorComponent.fullTick singleCellReactor.initializeSimulation 0).usageAt 0 = 1
      ∧ (ReactorComponent.fullTick singleCellReactor.initializeSimulation
          0).pendingSimState.euGenerated = 5)
    ∧ (spentCellState.NoLiveNeighbour 0 0
      ∧ (ReactorComponent.fullTick spentCellState 0).getHeat = spentCellState.getHeat + 4
      ∧ (ReactorComponent.fullTick spentCellState 0).usageAt 0 = 10000 + 1
      ∧ (ReactorComponent.fullTick spentCellState 0).pendingSimState.euGenerated
          = spentCellState.pendingSimState.euGenerated) :=
  ⟨⟨⟨by decide, by decide, by decide, by decide⟩,
      (isolatedCell_full_tick singleCellReactor.initializeSimulation 0
        (UraniumCell.mk0 ComponentType.URANIUM_CELL 0 0 1) (by decide) (by decide) (by decide)
        (by decide) ⟨by decide, by decide, by decide, by decide⟩).1,
      (isolatedCell_full_tick singleCellReactor.initializeSimulation 0
        (UraniumCell.mk0 ComponentType.URANIUM_CELL 0 0 1) (by decide) (by decide) (by decide)
        (by decide) ⟨by decide, by decide, by decide, by decide⟩).2.1,
      (isolatedCell_full_tick singleCellReactor.initializeSimulation 0
        (UraniumCell.mk0 ComponentType.URANIUM_CELL 0 0 1) (by decide) (by decide) (by decide)
        (by decide) ⟨by decide, by decide, by decide, by decide⟩).2.2.1 (by decide)⟩,
    ⟨by decide, by decide, by decide, by decide⟩,
    (isolatedCell_full_tick spentCellState 0
      { UraniumCell.mk0 ComponentType.URANIUM_CELL 0 0 1 with
        lastUsage := 10000, pendingUsage := 10000 } (by decide) (by decide) (by decide)
      (by decide) ⟨by decide, by decide, by decide, by decide⟩).1,
    (isolatedCell_full_tick spentCellState 0
      { UraniumCell.mk0 ComponentType.URANIUM_CELL 0 0 1 with
        lastUsage := 10000, pendingUsage := 10000 } (by decide) (by decide) (by decide)
      (by decide) ⟨by decide, by decide, by decide, by decide⟩).2.1,
    (isolatedCell_full_tick spentCellState 0
      { UraniumCell.mk0 ComponentType.URANIUM_CELL 0 0 1 with
        lastUsage := 10000, pendingUsage := 10000 } (by decide) (by decide) (by decide)
      (by decide) ⟨by decide, by decide, by decide, by decide⟩).2.2.2 rfl⟩

/-! ## The transfers of a heat exchanger (C27) -/

theorem storesBounded_setComp {r : Reactor} {j : Nat} {c : ReactorComponent}
    (h : r.StoresBounded) (hc : c.StoreBounded) : (r.setComp j c).StoresBounded := by
  intro k c1 hk
  rw [comp?_setComp] at hk
  split_ifs at hk
  · rw [← Option.some.inj hk]; exact hc
  · exact h k c1 hk

theorem storeBounded_setPendingDestroyed (c : ReactorComponent) (d : Bool)
    (h : c.StoreBounded) : (c.setPendingDestroyed d).StoreBounded := by
  obtain ⟨h1, h2⟩ := h
  constructor
  · intro hb hh
    cases c <;> simp only [ReactorComponent.setPendingDestroyed, ReactorComponent.heatable?,
      Option.some.injEq, reduceCtorEq] at hh <;> subst hh <;>
      (have h3 := h1 _ rfl; exact h3)
  · intro k hk
    cases c <;> simp only [ReactorComponent.setPendingDestroyed,
      ReactorComponent.condensator.injEq, reduceCtorEq] at hk
    subst hk
    have h3 := h2 _ rfl
    exact h3

/-- What a step of a transfer does to the rest of the state, for the step `r -> r1` that
writes component `j` with a requested change `d`: the core heat is kept, every other
component is kept, the heat store of `j` moves by at most `|d|`, and the stores stay in
range. -/
theorem setDestroyed_near (r : Reactor) (j : Nat) (h : r.StoresBounded) :
    (ReactorComponent.setDestroyed r j true).getHeat = r.getHeat
      ∧ (∀ k, k ≠ j → (ReactorComponent.setDestroyed r j true).comp? k = r.comp? k)
      ∧ (ReactorComponent.setDestroyed r j true).storedHeatAt j = r.storedHeatAt j
      ∧ (ReactorComponent.setDestroyed r j true).StoresBounded := by
  refine ⟨?_, ?_, storedHeatAt_setDestroyed r j true, ?_⟩
  · unfold ReactorComponent.setDestroyed
    cases r.comp? j with
    | none => rfl
    | some c =>
      simp only
      unfold Reactor.componentDestroyed
      split_ifs <;> rfl
  · intro k hk
    unfold ReactorComponent.setDestroyed
    cases r.comp? j with
    | none => rfl
    | some c =>
      simp only
      split_ifs <;>
        simp only [comp?_componentDestroyed, comp?_setComp, Ne.symm hk, false_and, if_false]
  · unfold ReactorComponent.setDestroyed
    cases hc : r.comp? j with
    | none => exact h
    | some c =>
      simp only
      have h1 : (r.setComp j (c.setPendingDestroyed true)).StoresBounded :=
        storesBounded_setComp h (storeBounded_setPendingDestroyed c true (h j c hc))
      split_ifs
      · intro k c1 hk
        rw [comp?_componentDestroyed] at hk
        exact h1 k c1 hk
      · exact h1
      · exact h

theorem setComp_near (r : Reactor) (j : Nat) (c c1 : ReactorComponent)
    (hc : r.comp? j = some c) (h : r.StoresBounded) (h1 : c1.StoreBounded) :
    (r.setComp j c1).getHeat = r.getHeat
      ∧ (∀ k, k ≠ j → (r.setComp j c1).comp? k = r.comp? k)
      ∧ (r.setComp j c1).storedHeatAt j = c1.storedHeat
      ∧ (r.setComp j c1).StoresBounded := by
  refine ⟨rfl, ?_, ?_, storesBounded_setComp h h1⟩
  · intro k hk
    rw [comp?_setComp, if_neg (fun hh => hk hh.1.symm)]
  · unfold Reactor.storedHeatAt
    rw [comp?_setComp, if_pos ⟨rfl, comp?_lt_length hc⟩]

theorem heatable_store_near (r : Reactor) (j : Nat) (c : ReactorComponent) (hb : Heatable)
    (d : Int) (hc : r.comp? j = some c) (hh : c.heatable? = some hb) (h : r.StoresBounded) :
    (Heatable.alterHeat r j hb d).1.getHeat = r.getHeat
      ∧ (∀ k, k ≠ j → (Heatable.alterHeat r j hb d).1.comp? k = r.comp? k)
      ∧ |(Heatable.alterHeat r j hb d).1.storedHeatAt j - r.storedHeatAt j| ≤ |d|
      ∧ (Heatable.alterHeat r j hb d).1.StoresBounded := by
  have hs : c.storedHeat = hb.pendingHeat := by
    cases c <;> simp [ReactorComponent.heatable?] at hh <;> subst hh <;> rfl
  have hset : ∀ v, (c.setPendingHeat v).storedHeat = v := by
    intro v
    cases c <;> simp [ReactorComponent.heatable?] at hh <;> rfl
  have hsb : ∀ v, 0 ≤ v → (c.setPendingHeat v).StoreBounded := by
    intro v hv
    constructor
    · intro hb1 hh1
      cases c <;> simp [ReactorComponent.heatable?] at hh <;>
        simp only [ReactorComponent.setPendingHeat, ReactorComponent.heatable?,
          Option.some.injEq] at hh1 <;> subst hh1 <;> exact hv
    · intro k hk
      cases c <;> simp [ReactorComponent.heatable?] at hh <;>
        simp [ReactorComponent.setPendingHeat] at hk
  have h0 : 0 ≤ hb.pendingHeat := (h j c hc).1 hb hh
  have hst : r.storedHeatAt j = hb.pendingHeat := by rw [storedHeatAt_eq hc, hs]
  unfold Heatable.alterHeat
  simp only [hc]
  split_ifs with h1 h2
  · obtain ⟨k1, k2, k3, k4⟩ := setDestroyed_near r j h
    refine ⟨k1, k2, ?_, k4⟩
    rw [k3, sub_self, abs_zero]
    exact abs_nonneg d
  · obtain ⟨k1, k2, k3, k4⟩ := setComp_near r j c (c.setPendingHeat 0) hc h (hsb 0 le_rfl)
    refine ⟨k1, k2, ?_, k4⟩
    rw [k3, hset, hst, abs_le]
    have := neg_abs_le d
    have := le_abs_self d
    constructor <;> omega
  · obtain ⟨k1, k2, k3, k4⟩ := setComp_near r j c (c.setPendingHeat (hb.pendingHeat + d)) hc h
      (hsb _ (by omega))
    refine ⟨k1, k2, ?_, k4⟩
    rw [k3, hset, hst]
    simp

theorem alterHeat_near (r : Reactor) (j : Nat) (d : Int) (h : r.StoresBounded) :
    (ReactorComponent.alterHeat r j d).1.getHeat = r.getHeat
      ∧ (∀ k, k ≠ j → (ReactorComponent.alterHeat r j d).1.comp? k = r.comp? k)
      ∧ |(ReactorComponent.alterHeat r j d).1.storedHeatAt j - r.storedHeatAt j| ≤ |d|
      ∧ (ReactorComponent.alterHeat r j d).1.StoresBounded := by
  have htriv : r.getHeat = r.getHeat ∧ (∀ k, k ≠ j → r.comp? k = r.comp? k)
      ∧ |r.storedHeatAt j - r.storedHeatAt j| ≤ |d| ∧ r.StoresBounded :=
    ⟨rfl, fun _ _ => rfl, by rw [sub_self, abs_zero]; exact abs_nonneg d, h⟩
  unfold ReactorComponent.alterHeat
  cases hc : r.comp? j with
  | none => exact htriv
  | some c =>
    cases c with
    | heatVent v => exact heatable_store_near r j _ _ d hc rfl h
    | heatExchanger v => exact heatable_store_near r j _ _ d hc rfl h
    | coolantCell v => exact heatable_store_near r j _ _ d hc rfl h
    | condensator k =>
      simp only [Condensator.alterHeat]
      have hk := (h j _ hc).2 k rfl
      obtain ⟨k1, k2, k3, k4⟩ := setComp_near r j _
        (ReactorComponent.condensator
          { k with pendingStoredHeat := k.pendingStoredHeat
              + (if k.maxStoredHeat - k.pendingStoredHeat > d then d
                  else k.maxStoredHeat - k.pendingStoredHeat) })
        hc h
        ⟨fun hb hh => by simp [ReactorComponent.heatable?] at hh,
          fun k1 hk1 => by
            simp only [ReactorComponent.condensator.injEq] at hk1
            subst hk1
            show k.pendingStoredHeat + _ ≤ k.maxStoredHeat
            split_ifs <;> omega⟩
      refine ⟨k1, k2, ?_, k4⟩
      rw [k3, storedHeatAt_eq hc]
      show |k.pendingStoredHeat + _ - k.pendingStoredHeat| ≤ |d|
      rw [abs_le]
      have := neg_abs_le d
      have := le_abs_self d
      split_ifs <;> constructor <;> omega
    | _ => exact htriv

theorem abs_clamp_le (a t : Int) (ht : 0 ≤ t) :
    |(if (if a > t then t else a) < -t then -t else (if a > t then t else a))| ≤ t := by
  rw [abs_le]
  split_ifs <;> constructor <;> omega

theorem storedHeatAt_congr {r r' : Reactor} {k : Nat} (h : r'.comp? k = r.comp? k) :
    r'.storedHeatAt k = r.storedHeatAt k := by
  unfold Reactor.storedHeatAt
  rw [h]

/-- The loop of `HeatExchanger::tick` over distinct heat acceptors: the core heat is kept,
every component outside the list is kept, and every heat store moves by at most the
transfer rate. -/
theorem transferAdjacent_near (med : ℚ) (t : Int) (ht : 0 ≤ t) (l : List Nat) :
    ∀ (r : Reactor) (myHeat : Int), l.Nodup → r.StoresBounded →
      (HeatExchanger.transferAdjacent med t r myHeat l).1.getHeat = r.getHeat
        ∧ (HeatExchanger.transferAdjacent med t r myHeat l).1.StoresBounded
        ∧ (∀ k, k ∉ l →
            (HeatExchanger.transferAdjacent med t r myHeat l).1.comp? k = r.comp? k)
        ∧ (∀ k, |(HeatExchanger.transferAdjacent med t r myHeat l).1.storedHeatAt k
            - r.storedHeatAt k| ≤ t) := by
  induction l with
  | nil =>
    intro r myHeat _ h
    exact ⟨rfl, h, fun _ _ => rfl, fun k => by
      show |r.storedHeatAt k - r.storedHeatAt k| ≤ t
      rw [sub_self, abs_zero]; exact ht⟩
  | cons j rest ih =>
    intro r myHeat hnd h
    obtain ⟨hj, hrest⟩ := List.nodup_cons.mp hnd
    unfold HeatExchanger.transferAdjacent
    cases hc : r.comp? j with
    | none =>
      obtain ⟨k1, k2, k3, k4⟩ := ih r myHeat hrest h
      exact ⟨k1, k2, fun k hk => k3 k (fun hm => hk (List.mem_cons_of_mem _ hm)), k4⟩
    | some comp =>
      simp only
      obtain ⟨a1, a2, a3, a4⟩ := alterHeat_near r j
        (if (if truncToInt (med * (comp.getMaxHeat : ℚ)) - comp.getCurrentHeat > t then t
              else truncToInt (med * (comp.getMaxHeat : ℚ)) - comp.getCurrentHeat) < -t then -t
          else (if truncToInt (med * (comp.getMaxHeat : ℚ)) - comp.getCurrentHeat > t then t
              else truncToInt (med * (comp.getMaxHeat : ℚ)) - comp.getCurrentHeat)) h
      have hcl := abs_clamp_le (truncToInt (med * (comp.getMaxHeat : ℚ)) - comp.getCurrentHeat)
        t ht
      obtain ⟨k1, k2, k3, k4⟩ := ih _
        (myHeat - (if (if truncToInt (med * (comp.getMaxHeat : ℚ)) - comp.getCurrentHeat > t
              then t
              else truncToInt (med * (comp.getMaxHeat : ℚ)) - comp.getCurrentHeat) < -t then -t
          else (if truncToInt (med * (comp.getMaxHeat : ℚ)) - comp.getCurrentHeat > t then t
              else truncToInt (med * (comp.getMaxHeat : ℚ)) - comp.getCurrentHeat))
          + (ReactorComponent.alterHeat r j
              (if (if truncToInt (med * (comp.getMaxHeat : ℚ)) - comp.getCurrentHeat > t
                then t
                else truncToInt (med * (comp.getMaxHeat : ℚ)) - comp.getCurrentHeat) < -t
              then -t
              else (if truncToInt (med * (comp.getMaxHeat : ℚ)) - comp.getCurrentHeat > t
                then t
                else truncToInt (med * (comp.getMaxHeat : ℚ)) - comp.getCurrentHeat))).2)
        hrest a4
      refine ⟨k1.trans a1, k2, ?_, ?_⟩
      · intro k hk
        have hkj : k ≠ j := fun e => hk (e ▸ List.mem_cons_self _ _)
        rw [k3 k (fun hm => hk (List.mem_cons_of_mem _ hm)), a2 k hkj]
      · intro k
        by_cases hkj : k = j
        · subst hkj
          rw [storedHeatAt_congr (k3 k hj)]
          exact le_trans a3 hcl
        · rw [← storedHeatAt_congr (a2 k hkj)]
          exact k4 k

theorem get_eq_some {r : Reactor} {x y : Int} {k : Nat} (h : r.get x y = some k) :
    0 ≤ x ∧ x < r.width ∧ 0 ≤ y ∧ y < r.height ∧ k = (y * r.width + x).toNat := by
  unfold Reactor.get at h
  split_ifs at h with h1
  cases hc : r.comp? (y * r.width + x).toNat with
  | none => rw [hc] at h; simp at h
  | some c =>
    rw [hc] at h
    simp only at h
    split_ifs at h
    simp only [Option.some.injEq] at h
    refine ⟨by omega, by omega, by omega, by omega, h.symm⟩

/-- Two lookups `get(x, y)` that return the same component have the same coordinates. -/
theorem get_injective {r : Reactor} {x1 y1 x2 y2 : Int} {k : Nat}
    (h1 : r.get x1 y1 = some k) (h2 : r.get x2 y2 = some k) : x1 = x2 ∧ y1 = y2 := by
  obtain ⟨a1, a2, a3, a4, a5⟩ := get_eq_some h1
  obtain ⟨b1, b2, b3, b4, b5⟩ := get_eq_some h2
  have hw : 0 < r.width := by omega
  have p1 : 0 ≤ y1 * r.width := mul_nonneg a3 (by omega)
  have p2 : 0 ≤ y2 * r.width := mul_nonneg b3 (by omega)
  have e : y1 * r.width + x1 = y2 * r.width + x2 := by
    have := a5.symm.trans b5
    omega
  have hy : y1 = y2 := by
    rcases lt_trichotomy y1 y2 with hlt | heq | hgt
    · exfalso
      have : (y1 + 1) * r.width ≤ y2 * r.width :=
        mul_le_mul_of_nonneg_right (by omega) (by omega)
      have e2 : (y1 + 1) * r.width = y1 * r.width + r.width := by ring
      omega
    · exact heq
    · exfalso
      have : (y2 + 1) * r.width ≤ y1 * r.width :=
        mul_le_mul_of_nonneg_right (by omega) (by omega)
      have e2 : (y2 + 1) * r.width = y2 * r.width + r.width := by ring
      omega
  subst hy
  exact ⟨by omega, rfl⟩

theorem ne_of_filterMap {f : Option Nat → Option Nat}
    (hf : ∀ p j, f p = some j → p = some j) {a b : Option Nat}
    (hab : ∀ j, a = some j → b ≠ some j) {ja jb : Nat} (ha : f a = some ja)
    (hb : f b = some jb) : ja ≠ jb := by
  intro e
  subst e
  exact hab _ (hf _ _ ha) (hf _ _ hb)

theorem nodup_filterMap_four (f : Option Nat → Option Nat)
    (hf : ∀ p j, f p = some j → p = some j) (a b c d : Option Nat)
    (hab : ∀ j, a = some j → b ≠ some j) (hac : ∀ j, a = some j → c ≠ some j)
    (had : ∀ j, a = some j → d ≠ some j) (hbc : ∀ j, b = some j → c ≠ some j)
    (hbd : ∀ j, b = some j → d ≠ some j) (hcd : ∀ j, c = some j → d ≠ some j) :
    ([a, b, c, d].filterMap f).Nodup := by
  rcases ha : f a with _ | ja <;> rcases hb : f b with _ | jb <;>
    rcases hc : f c with _ | jc <;> rcases hd : f d with _ | jd <;>
    simp only [List.filterMap_cons, List.filterMap_nil, ha, hb, hc, hd, List.nodup_cons,
      List.nodup_nil, List.mem_cons, List.mem_singleton, List.not_mem_nil, not_or,
      not_false_eq_true, and_true, true_and, and_self] <;>
    (repeat' constructor) <;>
    first
    | exact ne_of_filterMap hf hab ha hb
    | exact ne_of_filterMap hf hac ha hc
    | exact ne_of_filterMap hf had ha hd
    | exact ne_of_filterMap hf hbc hb hc
    | exact ne_of_filterMap hf hbd hb hd
    | exact ne_of_filterMap hf hcd hc hd

/-- The heat acceptors collected around `(x, y)` are distinct components. -/
theorem heatAcceptors_nodup (r : Reactor) (x y : Int) : (heatAcceptors r x y).Nodup := by
  unfold heatAcceptors
  apply nodup_filterMap_four
  · intro p j h
    cases p with
    | none => simp at h
    | some k =>
      simp only at h
      cases hc : r.comp? k with
      | none => rw [hc] at h; simp at h
      | some c =>
        rw [hc] at h
        simp only at h
        split_ifs at h
        exact h
  all_goals
    intro j h1 h2
    have := get_injective h1 h2
    omega

theorem setHeat_near (r : Reactor) (v : Int) (h : r.StoresBounded) :
    (r.setHeat v).getHeat = v ∧ (∀ k, (r.setHeat v).comp? k = r.comp? k)
      ∧ (r.setHeat v).StoresBounded := by
  have hc : ∀ k, (r.setHeat v).comp? k = r.comp? k := by
    intro k
    unfold Reactor.setHeat Reactor.heatCapacityExceeded Reactor.comp?
    simp only
    split_ifs <;> rfl
  refine ⟨?_, hc, fun j c hj => h j c ((hc j).symm.trans hj)⟩
  unfold Reactor.setHeat Reactor.heatCapacityExceeded Reactor.getHeat
  simp only
  split_ifs <;> rfl

/-- The part of `HeatExchanger::tick` that follows the computation of `med`, for any value
of `med`: the transfers are bounded by the rates. -/
theorem transfer_bounded (r : Reactor) (i : Nat) (e : HeatExchanger) (med : ℚ)
    (h : r.StoresBounded) :
    HeatExchanger.TransferBounded e i r (HeatExchanger.transfer r i e med) := by
  -- the adjacent stage
  have hadj : ∃ r1 m1,
      (if e.transferToAdjacent > 0 then
          HeatExchanger.transferAdjacent med e.transferToAdjacent r 0
            (if e.transferToAdjacent > 0 then heatAcceptors r e.x e.y else [])
        else (r, 0)) = (r1, m1)
      ∧ r1.getHeat = r.getHeat ∧ r1.StoresBounded
      ∧ (0 < e.transferToAdjacent →
          ∀ k, |r1.storedHeatAt k - r.storedHeatAt k| ≤ e.transferToAdjacent)
      ∧ (e.transferToAdjacent ≤ 0 → ∀ k, r1.storedHeatAt k = r.storedHeatAt k) := by
    by_cases ha : e.transferToAdjacent > 0
    · obtain ⟨k1, k2, _, k4⟩ := transferAdjacent_near med e.transferToAdjacent (by omega)
        (heatAcceptors r e.x e.y) r 0 (heatAcceptors_nodup r e.x e.y) h
      refine ⟨_, _, by rw [if_pos ha, if_pos ha], k1, k2, fun _ => k4, fun hle => ?_⟩
      omega
    · refine ⟨r, 0, by rw [if_neg ha], rfl, h, fun hpos => ?_, fun _ _ => rfl⟩
      omega
  obtain ⟨r1, m1, e1, a1, a2, a3, a4⟩ := hadj
  -- the core stage
  have hcore : ∃ r2 m2,
      (if e.transferToCore > 0 then
          (r1.setHeat (r1.getHeat
              + (if (if truncToInt (med * (r1.getMaxHeat : ℚ)) - r1.getHeat > e.transferToCore
                    then e.transferToCore
                    else truncToInt (med * (r1.getMaxHeat : ℚ)) - r1.getHeat)
                  < -e.transferToCore then -e.transferToCore
                else (if truncToInt (med * (r1.getMaxHeat : ℚ)) - r1.getHeat > e.transferToCore
                    then e.transferToCore
                    else truncToInt (med * (r1.getMaxHeat : ℚ)) - r1.getHeat))),
            m1 - (if (if truncToInt (med * (r1.getMaxHeat : ℚ)) - r1.getHeat > e.transferToCore
                    then e.transferToCore
                    else truncToInt (med * (r1.getMaxHeat : ℚ)) - r1.getHeat)
                  < -e.transferToCore then -e.transferToCore
                else (if truncToInt (med * (r1.getMaxHeat : ℚ)) - r1.getHeat > e.transferToCore
                    then e.transferToCore
                    else truncToInt (med * (r1.getMaxHeat : ℚ)) - r1.getHeat)))
        else (r1, m1)) = (r2, m2)
      ∧ r2.StoresBounded ∧ (∀ k, r2.comp? k = r1.comp? k)
      ∧ (0 < e.transferToCore → |r2.getHeat - r1.getHeat| ≤ e.transferToCore)
      ∧ (e.transferToCore ≤ 0 → r2.getHeat = r1.getHeat) := by
    by_cases hc : e.transferToCore > 0
    · obtain ⟨k1, k2, k3⟩ := setHeat_near r1 (r1.getHeat
        + (if (if truncToInt (med * (r1.getMaxHeat : ℚ)) - r1.getHeat > e.transferToCore
              then e.transferToCore
              else truncToInt (med * (r1.getMaxHeat : ℚ)) - r1.getHeat)
            < -e.transferToCore then -e.transferToCore
          else (if truncToInt (med * (r1.getMaxHeat : ℚ)) - r1.getHeat > e.transferToCore
              then e.transferToCore
              else truncToInt (med * (r1.getMaxHeat : ℚ)) - r1.getHeat))) a2
      refine ⟨_, _, by rw [if_pos hc], k3, k2, fun _ => ?_, fun hle => ?_⟩
      · rw [k1, add_sub_cancel_left]
        exact abs_clamp_le _ _ (by omega)
      · omega
    · refine ⟨r1, m1, by rw [if_neg hc], a2, fun _ => rfl, fun hpos => ?_, fun _ => rfl⟩
      omega
  obtain ⟨r2, m2, e2, b1, b2, b3, b4⟩ := hcore
  have hres : HeatExchanger.transfer r i e med = (ReactorComponent.alterHeat r2 i m2).1 := by
    unfold HeatExchanger.transfer
    simp only [Reactor.getHeat, Reactor.getMaxHeat] at e1 e2 ⊢
    rw [e1]
    simp only
    rw [e2]
  obtain ⟨c1, c2, _, _⟩ := alterHeat_near r2 i m2 b1
  rw [hres]
  refine ⟨fun k hk => ⟨fun hpos => ?_, fun hle => ?_⟩, fun hpos => ?_, fun hle => ?_⟩
  · rw [storedHeatAt_congr ((c2 k hk).trans (b2 k))]
    exact a3 hpos k
  · rw [storedHeatAt_congr ((c2 k hk).trans (b2 k))]
    exact a4 hle k
  · rw [c1, ← a1]
    exact b3 hpos
  · rw [c1, ← a1]
    exact b4 hle

/-- C27: for every heat exchanger tick call, on a state whose heat stores are in range
(`Reactor.StoresBounded`: no `Heatable` holds a negative heat and no condensator holds more
than its capacity), and whatever value the target ratio `med` takes, the stored heat of
every other component, its orthogonal heat-accepting neighbours included, changes by at
most `transferToAdjacent` in absolute value and the core heat changes by at most
`transferToCore` in absolute value; when the respective rate is 0 (or negative) that
stored heat or the core heat is not changed at all (`HeatExchanger.TransferBounded`). -/
theorem heatExchanger_tick_bounded (r : Reactor) (i : Nat) (e : HeatExchanger)
    (hc : r.comp? i = some (ReactorComponent.heatExchanger e)) (h : r.StoresBounded) :
    (∀ med : ℚ, HeatExchanger.TransferBounded e i r (HeatExchanger.transfer r i e med))
      ∧ ∀ phase : SimPhase,
        HeatExchanger.TransferBounded e i r (ReactorComponent.tick r i phase) := by
  refine ⟨fun med => transfer_bounded r i e med h, fun phase => ?_⟩
  unfold ReactorComponent.tick
  rw [hc]
  exact transfer_bounded r i e _ h

theorem create_storeBounded (t : ComponentType) (x y : Int) (c : ReactorComponent)
    (h : ReactorComponent.create t x y = some c) : c.StoreBounded := by
  cases t <;> simp only [ReactorComponent.create, Option.some.injEq, reduceCtorEq] at h <;>
    subst h <;>
    (refine ⟨?_, ?_⟩
     · intro hb hhb
       simp only [ReactorComponent.heatable?, Option.some.injEq, reduceCtorEq] at hhb <;>
         (subst hhb
          simp [HeatVent.mk0, HeatExchanger.mk0, CoolantCell.mk0, Heatable.mk0])
     · intro k hk
       simp only [ReactorComponent.condensator.injEq, reduceCtorEq] at hk <;>
         (subst hk
          simp [Condensator.mk0]))

theorem storesBounded_of_components {r r1 : Reactor} (hc : r1.components = r.components)
    (h : r.StoresBounded) : r1.StoresBounded := by
  intro j c hj
  refine h j c ?_
  unfold Reactor.comp? at hj ⊢
  rw [← hc]
  exact hj

/-- Every device built by the constructor and `setComponentTypes` has its heat stores in
range. -/
theorem deviceOf_storesBounded (e : Int) (ts : List ComponentType) (he : 0 ≤ e) :
    (deviceOf e ts).StoresBounded := by
  intro j c hj
  have hm := mem_components_of_comp? hj
  rw [deviceOf_eq e ts he] at hm
  have hm1 : some c ∈ (List.range ((3 + e) * 6).toNat).map (cellOf (3 + e).toNat ts) := hm
  rw [List.mem_map] at hm1
  obtain ⟨i, _, hi⟩ := hm1
  exact create_storeBounded _ _ _ c hi

theorem exchangerState_storesBounded : exchangerState.StoresBounded := by
  refine storesBounded_of_components (r := deviceOf 0 [ComponentType.COMPONENT_NONE,
    ComponentType.COOLANT_CELL_10, ComponentType.COMPONENT_NONE, ComponentType.HEAT_VENT,
    ComponentType.HEAT_EXCHANGER]) ?_ (deviceOf_storesBounded 0 _ le_rfl)
  decide

theorem heatExchanger_tick_bounded_witness :
    exchangerState.comp? 4
        = some (ReactorComponent.heatExchanger
            (HeatExchanger.mk0 ComponentType.HEAT_EXCHANGER 1 1 12 4 2500))
      ∧ exchangerState.getHeat = 5000
      ∧ (∀ med : ℚ, HeatExchanger.TransferBounded
          (HeatExchanger.mk0 ComponentType.HEAT_EXCHANGER 1 1 12 4 2500) 4 exchangerState
          (HeatExchanger.transfer exchangerState 4
            (HeatExchanger.mk0 ComponentType.HEAT_EXCHANGER 1 1 12 4 2500) med))
      ∧ ∀ phase : SimPhase, HeatExchanger.TransferBounded
          (HeatExchanger.mk0 ComponentType.HEAT_EXCHANGER 1 1 12 4 2500) 4 exchangerState
          (ReactorComponent.tick exchangerState 4 phase) :=
  ⟨by decide, by decide,
    heatExchanger_tick_bounded exchangerState 4
      (HeatExchanger.mk0 ComponentType.HEAT_EXCHANGER 1 1 12 4 2500) (by decide)
      exchangerState_storesBounded⟩

/-! ## The divisor of `euPerTick` (C28) -/

theorem quadGrid_isFuelOnly : quadGridReactor.IsFuelOnly :=
  isFuelOnly_deviceOf 2 _ (by decide)
    (fun t ht => by
      rw [List.eq_of_mem_replicate ht]
      exact Or.inr (Or.inr (Or.inr rfl)))
    ⟨ReactorComponent.uraniumCell (UraniumCell.mk0 ComponentType.QUAD_URANIUM_CELL 0 0 4),
      by decide⟩

theorem quadGrid_heatRate : quadGridReactor.heatRate = 11040 := by decide

/-- C28 at a failing input: the 5x6 device filled with `QUAD_URANIUM_CELL` is well-formed
and has 120 fuel units; its cells put 11040 heat into the core in the first tick, so the
first run of `runSimulation` stops on MELTDOWN with pending tick count 1 and committed tick
count 0, and this committed tick count is the divisor of `euPerTick` (no commit follows a
run that stopped on MELTDOWN). -/
theorem quadGrid_committed_tick_zero :
    quadGridReactor.WellFormed
      ∧ quadGridReactor.initializeSimulation.numUraniumCells = 120
      ∧ ∃ res s, quadGridReactor.initializeSimulation.runUntil 50001 true true false true
            = some (RunUntilStopReason.STOPPED_ON_MELTDOWN, s)
          ∧ s.pendingSimState.curTick = 1 ∧ s.curSimState.curTick = 0
          ∧ ¬ 1 ≤ s.curSimState.curTick
          ∧ runSimulation 50001 quadGridReactor = some (res, s) := by
  obtain ⟨_, s, hrun, hp, hc, _, res, hres, _, _⟩ :=
    runSimulation_of_isFuelOnly quadGridReactor quadGrid_isFuelOnly 50001 le_rfl
  rw [quadGrid_heatRate] at hp hc
  have e1 : (9999 : Int) / 11040 = 0 := by decide
  rw [e1] at hp hc
  refine ⟨deviceOf_wellFormed 2 _ (by decide), by decide, res, s, hrun, hp, hc, ?_, hres⟩
  rw [hc]
  decide

/-! ## The reflector device (C29) -/

theorem crossWith_comp? (r : Reactor) (b : Bool) (n : Int) (i : Nat) :
    ({ r with usesSingleUseCoolant := b, numUraniumCells := n } : Reactor).comp? i
      = r.comp? i := rfl

theorem reflCell_init (y : Nat) (h1 : 1 ≤ y) (h4 : y ≤ 4) :
    (reflCellReactor y).initializeSimulation
      = reflState y 0 0 0 0 0 0 0 0 (reflPending 0) (reflPending 0) := by
  interval_cases y <;> decide

theorem reflAt_not_destroyed (x y lq q : Int) : (reflAt x y lq q).isDestroyed = false := rfl

theorem condAt_not_destroyed (x y ls s : Int) : (condAt x y ls s).isDestroyed = false := rfl

theorem dualAt_not_destroyed (x y lu u : Int) : (dualAt x y lu u).isDestroyed = false := rfl

theorem reflState_comp?_C (y : Nat) (h4 : y ≤ 4) (lq lu ls q l r b u : Int)
    (cur pend : SimulationState) :
    (reflState y lq lu ls q l r b u cur pend).comp? (y * 3 + 1) = some (dualAt 1 y lu u) :=
  crossState_comp?_C y h4 _ _ _ _ _ cur pend

theorem reflState_comp?_A (y : Nat) (h1 : 1 ≤ y) (h4 : y ≤ 4) (lq lu ls q l r b u : Int)
    (cur pend : SimulationState) :
    (reflState y lq lu ls q l r b u cur pend).comp? ((y - 1) * 3 + 1)
      = some (reflAt 1 ((y : Int) - 1) lq q) :=
  crossState_comp?_A y h1 h4 _ _ _ _ _ cur pend

theorem reflState_comp?_L (y : Nat) (h4 : y ≤ 4) (lq lu ls q l r b u : Int)
    (cur pend : SimulationState) :
    (reflState y lq lu ls q l r b u cur pend).comp? (y * 3) = some (condAt 0 y ls l) :=
  crossState_comp?_L y h4 _ _ _ _ _ cur pend

theorem reflState_comp?_R (y : Nat) (h4 : y ≤ 4) (lq lu ls q l r b u : Int)
    (cur pend : SimulationState) :
    (reflState y lq lu ls q l r b u cur pend).comp? (y * 3 + 2) = some (condAt 2 y ls r) :=
  crossState_comp?_R y h4 _ _ _ _ _ cur pend

theorem reflState_comp?_B (y : Nat) (h4 : y ≤ 4) (lq lu ls q l r b u : Int)
    (cur pend : SimulationState) :
    (reflState y lq lu ls q l r b u cur pend).comp? ((y + 1) * 3 + 1)
      = some (condAt 1 ((y : Int) + 1) ls b) :=
  crossState_comp?_B y h4 _ _ _ _ _ cur pend

theorem reflState_left (y : Nat) (h4 : y ≤ 4) (lq lu ls q l r b u : Int)
    (cur pend : SimulationState) :
    (reflState y lq lu ls q l r b u cur pend).left 1 y = some (y * 3) := by
  unfold Reactor.left
  refine get_of_comp? (by omega) (by omega) (by simp [reflState, crossState])
    (by simp [reflState, crossState]; omega) ?_
    (reflState_comp?_L y h4 _ _ _ _ _ _ _ _ _ _) (condAt_not_destroyed _ _ _ _)
  simp only [reflState, crossState]
  omega

theorem reflState_right (y : Nat) (h4 : y ≤ 4) (lq lu ls q l r b u : Int)
    (cur pend : SimulationState) :
    (reflState y lq lu ls q l r b u cur pend).right 1 y = some (y * 3 + 2) := by
  unfold Reactor.right
  refine get_of_comp? (by omega) (by omega) (by simp [reflState, crossState])
    (by simp [reflState, crossState]; omega) ?_
    (reflState_comp?_R y h4 _ _ _ _ _ _ _ _ _ _) (condAt_not_destroyed _ _ _ _)
  simp only [reflState, crossState]
  omega

theorem reflState_above (y : Nat) (h1 : 1 ≤ y) (h4 : y ≤ 4) (lq lu ls q l r b u : Int)
    (cur pend : SimulationState) :
    (reflState y lq lu ls q l r b u cur pend).above 1 y = some ((y - 1) * 3 + 1) := by
  unfold Reactor.above
  refine get_of_comp? (by omega) (by omega) (by simp [reflState, crossState])
    (by simp [reflState, crossState]; omega) ?_
    (reflState_comp?_A y h1 h4 _ _ _ _ _ _ _ _ _ _) (reflAt_not_destroyed _ _ _ _)
  simp only [reflState, crossState]
  omega

theorem reflState_below (y : Nat) (h4 : y ≤ 4) (lq lu ls q l r b u : Int)
    (cur pend : SimulationState) :
    (reflState y lq lu ls q l r b u cur pend).below 1 y = some ((y + 1) * 3 + 1) := by
  unfold Reactor.below
  refine get_of_comp? (by omega) (by omega) (by simp [reflState, crossState])
    (by simp [reflState, crossState]; omega) ?_
    (reflState_comp?_B y h4 _ _ _ _ _ _ _ _ _ _) (condAt_not_destroyed _ _ _ _)
  simp only [reflState, crossState]
  omega

theorem reflState_setComp_A (y : Nat) (h1 : 1 ≤ y) (lq lu ls q l r b u : Int)
    (cur pend : SimulationState) (q1 : Int) :
    (reflState y lq lu ls q l r b u cur pend).setComp ((y - 1) * 3 + 1)
        (reflAt 1 ((y : Int) - 1) lq q1)
      = reflState y lq lu ls q1 l r b u cur pend := by
  show ({ (crossState y (reflAt 1 ((y : Int) - 1) lq q) (condAt 0 y ls l) (dualAt 1 y lu u)
      (condAt 2 y ls r) (condAt 1 ((y : Int) + 1) ls b) cur pend).setComp ((y - 1) * 3 + 1)
        (reflAt 1 ((y : Int) - 1) lq q1) with
    usesSingleUseCoolant := true, numUraniumCells := 2 } : Reactor) = _
  rw [crossState_setComp_A y h1]
  rfl

theorem reflState_setComp_L (y : Nat) (lq lu ls q l r b u : Int)
    (cur pend : SimulationState) (l1 : Int) :
    (reflState y lq lu ls q l r b u cur pend).setComp (y * 3) (condAt 0 y ls l1)
      = reflState y lq lu ls q l1 r b u cur pend := by
  show ({ (crossState y (reflAt 1 ((y : Int) - 1) lq q) (condAt 0 y ls l) (dualAt 1 y lu u)
      (condAt 2 y ls r) (condAt 1 ((y : Int) + 1) ls b) cur pend).setComp (y * 3)
        (condAt 0 y ls l1) with
    usesSingleUseCoolant := true, numUraniumCells := 2 } : Reactor) = _
  rw [crossState_setComp_L]
  rfl

theorem reflState_setComp_R (y : Nat) (lq lu ls q l r b u : Int)
    (cur pend : SimulationState) (r1 : Int) :
    (reflState y lq lu ls q l r b u cur pend).setComp (y * 3 + 2) (condAt 2 y ls r1)
      = reflState y lq lu ls q l r1 b u cur pend := by
  show ({ (crossState y (reflAt 1 ((y : Int) - 1) lq q) (condAt 0 y ls l) (dualAt 1 y lu u)
      (condAt 2 y ls r) (condAt 1 ((y : Int) + 1) ls b) cur pend).setComp (y * 3 + 2)
        (condAt 2 y ls r1) with
    usesSingleUseCoolant := true, numUraniumCells := 2 } : Reactor) = _
  rw [crossState_setComp_R]
  rfl

theorem reflState_setComp_B (y : Nat) (h1 : 1 ≤ y) (lq lu ls q l r b u : Int)
    (cur pend : SimulationState) (b1 : Int) :
    (reflState y lq lu ls q l r b u cur pend).setComp ((y + 1) * 3 + 1)
        (condAt 1 ((y : Int) + 1) ls b1)
      = reflState y lq lu ls q l r b1 u cur pend := by
  show ({ (crossState y (reflAt 1 ((y : Int) - 1) lq q) (condAt 0 y ls l) (dualAt 1 y lu u)
      (condAt 2 y ls r) (condAt 1 ((y : Int) + 1) ls b) cur pend).setComp ((y + 1) * 3 + 1)
        (condAt 1 ((y : Int) + 1) ls b1) with
    usesSingleUseCoolant := true, numUraniumCells := 2 } : Reactor) = _
  rw [crossState_setComp_B y h1]
  rfl

theorem reflState_setComp_C (y : Nat) (lq lu ls q l r b u : Int)
    (cur pend : SimulationState) (u1 : Int) :
    (reflState y lq lu ls q l r b u cur pend).setComp (y * 3 + 1) (dualAt 1 y lu u1)
      = reflState y lq lu ls q l r b u1 cur pend := by
  show ({ (crossState y (reflAt 1 ((y : Int) - 1) lq q) (condAt 0 y ls l) (dualAt 1 y lu u)
      (condAt 2 y ls r) (condAt 1 ((y : Int) + 1) ls b) cur pend).setComp (y * 3 + 1)
        (dualAt 1 y lu u1) with
    usesSingleUseCoolant := true, numUraniumCells := 2 } : Reactor) = _
  rw [crossState_setComp_C]
  rfl

theorem tickIdx_reflAt {r : Reactor} {i : Nat} {x y lq q : Int} (phase : SimPhase)
    (hc : r.comp? i = some (reflAt x y lq q)) : Reactor.tickIdx phase r i = r := by
  unfold Reactor.tickIdx ReactorComponent.tick
  rw [hc]
  simp [reflAt, ReactorComponent.isDestroyed, ReactorComponent.base, NeutronReflector.mk0,
    ComponentBase.mk0]

theorem tickIdx_condAt {r : Reactor} {i : Nat} {x y ls s : Int} (phase : SimPhase)
    (hc : r.comp? i = some (condAt x y ls s)) : Reactor.tickIdx phase r i = r := by
  unfold Reactor.tickIdx ReactorComponent.tick
  rw [hc]
  simp [condAt, ReactorComponent.isDestroyed, ReactorComponent.base, Condensator.mk0,
    ComponentBase.mk0]

theorem acceptUraniumPulse_condAt {r : Reactor} {j : Nat} {x y ls s : Int} (phase : SimPhase)
    (hc : r.comp? j = some (condAt x y ls s)) :
    ReactorComponent.acceptUraniumPulse r j phase = (r, false) := by
  unfold ReactorComponent.acceptUraniumPulse
  rw [hc]
  rfl

theorem checkPulseable_condAt {r : Reactor} {j : Nat} {x y ls s : Int} (phase : SimPhase)
    (hc : r.comp? j = some (condAt x y ls s)) :
    UraniumCell.checkPulseable r (some j) phase = (r, 0) := by
  unfold UraniumCell.checkPulseable
  simp only [acceptUraniumPulse_condAt phase hc]
  rfl

theorem acceptUraniumPulse_reflState_heat (y : Nat) (h1 : 1 ≤ y) (h4 : y ≤ 4)
    (lq lu ls q l r b u : Int) (cur pend : SimulationState) (hq : q + 1 ≤ 10000) :
    ReactorComponent.acceptUraniumPulse (reflState y lq lu ls q l r b u cur pend)
        ((y - 1) * 3 + 1) SimPhase.PHASE_HEAT_RUN
      = (reflState y lq lu ls (q + 1) l r b u cur pend, true) := by
  unfold ReactorComponent.acceptUraniumPulse
  rw [reflState_comp?_A y h1 h4]
  simp only [reflAt, NeutronReflector.acceptUraniumPulse, reduceCtorEq, if_false,
    NeutronReflector.mk0]
  rw [if_neg (by omega)]
  exact congrArg (fun s => (s, true))
    (reflState_setComp_A y h1 lq lu ls q l r b u cur pend (q + 1))

theorem checkPulseable_reflState_heat (y : Nat) (h1 : 1 ≤ y) (h4 : y ≤ 4)
    (lq lu ls q l r b u : Int) (cur pend : SimulationState) (hq : q + 1 ≤ 10000) :
    UraniumCell.checkPulseable (reflState y lq lu ls q l r b u cur pend)
        (some ((y - 1) * 3 + 1)) SimPhase.PHASE_HEAT_RUN
      = (reflState y lq lu ls (q + 1) l r b u cur pend, 1) := by
  unfold UraniumCell.checkPulseable
  simp only [acceptUraniumPulse_reflState_heat y h1 h4 lq lu ls q l r b u cur pend hq]
  rfl

theorem acceptUraniumPulse_reflState_power (y : Nat) (h1 : 1 ≤ y) (h4 : y ≤ 4)
    (lq lu ls q l r b u : Int) (cur pend : SimulationState) :
    ReactorComponent.acceptUraniumPulse (reflState y lq lu ls q l r b u cur pend)
        ((y - 1) * 3 + 1) SimPhase.PHASE_POWER
      = (reflState y lq lu ls q l r b u cur
          { pend with euGenerated := pend.euGenerated + 5 }, true) := by
  unfold ReactorComponent.acceptUraniumPulse
  rw [reflState_comp?_A y h1 h4]
  simp only [reflAt, NeutronReflector.acceptUraniumPulse, if_true]
  rfl

theorem checkPulseable_reflState_power (y : Nat) (h1 : 1 ≤ y) (h4 : y ≤ 4)
    (lq lu ls q l r b u : Int) (cur pend : SimulationState) :
    UraniumCell.checkPulseable (reflState y lq lu ls q l r b u cur pend)
        (some ((y - 1) * 3 + 1)) SimPhase.PHASE_POWER
      = (reflState y lq lu ls q l r b u cur
          { pend with euGenerated := pend.euGenerated + 5 }, 1) := by
  unfold UraniumCell.checkPulseable
  simp only [acceptUraniumPulse_reflState_power y h1 h4 lq lu ls q l r b u cur pend]
  rfl

theorem pulseNeighbours_reflState_heat (y : Nat) (h1 : 1 ≤ y) (h4 : y ≤ 4)
    (lq lu ls q l r b u : Int) (cur pend : SimulationState) (hq : q + 1 ≤ 10000) :
    UraniumCell.pulseNeighbours (reflState y lq lu ls q l r b u cur pend) 1 y
        SimPhase.PHASE_HEAT_RUN
      = (reflState y lq lu ls (q + 1) l r b u cur pend, 1) := by
  unfold UraniumCell.pulseNeighbours
  simp only [reflState_left y h4, reflState_right y h4, reflState_above y h1 h4,
    reflState_below y h4,
    checkPulseable_condAt _ (reflState_comp?_L y h4 lq lu ls q l r b u cur pend),
    checkPulseable_condAt _ (reflState_comp?_R y h4 lq lu ls q l r b u cur pend),
    checkPulseable_reflState_heat y h1 h4 lq lu ls q l r b u cur pend hq,
    checkPulseable_condAt _ (reflState_comp?_B y h4 lq lu ls (q + 1) l r b u cur pend)]
  rfl

theorem pulseNeighbours_reflState_power (y : Nat) (h1 : 1 ≤ y) (h4 : y ≤ 4)
    (lq lu ls q l r b u : Int) (cur pend : SimulationState) :
    UraniumCell.pulseNeighbours (reflState y lq lu ls q l r b u cur pend) 1 y
        SimPhase.PHASE_POWER
      = (reflState y lq lu ls q l r b u cur
          { pend with euGenerated := pend.euGenerated + 5 }, 1) := by
  unfold UraniumCell.pulseNeighbours
  simp only [reflState_left y h4, reflState_right y h4, reflState_above y h1 h4,
    reflState_below y h4,
    checkPulseable_condAt _ (reflState_comp?_L y h4 lq lu ls q l r b u cur pend),
    checkPulseable_condAt _ (reflState_comp?_R y h4 lq lu ls q l r b u cur pend),
    checkPulseable_reflState_power y h1 h4 lq lu ls q l r b u cur pend,
    checkPulseable_condAt _ (reflState_comp?_B y h4 lq lu ls q l r b u cur
      { pend with euGenerated := pend.euGenerated + 5 })]
  rfl

theorem heatAcceptors_reflState (y : Nat) (h1 : 1 ≤ y) (h4 : y ≤ 4)
    (lq lu ls q l r b u : Int) (cur pend : SimulationState)
    (hl : l < 100000) (hr : r < 100000) (hb : b < 100000) :
    heatAcceptors (reflState y lq lu ls q l r b u cur pend) 1 y
      = [y * 3, y * 3 + 2, (y + 1) * 3 + 1] := by
  unfold heatAcceptors
  simp only [reflState_left y h4, reflState_right y h4, reflState_above y h1 h4,
    reflState_below y h4, List.filterMap_cons, List.filterMap_nil,
    reflState_comp?_L y h4, reflState_comp?_R y h4,
    reflState_comp?_A y h1 h4, reflState_comp?_B y h4]
  simp [condAt, reflAt, ReactorComponent.canStoreHeat, Condensator.mk0, hl, hr, hb]

theorem alterHeat_condAt {r : Reactor} {i : Nat} {x y ls s : Int} (d : Int)
    (hc : r.comp? i = some (condAt x y ls s)) (h1 : s + d ≤ 100000) :
    ReactorComponent.alterHeat r i d = (r.setComp i (condAt x y ls (s + d)), 0) := by
  unfold ReactorComponent.alterHeat
  rw [hc]
  simp only [condAt, Condensator.alterHeat, Condensator.mk0]
  split_ifs with h
  · simp
  · have e : (100000 : Int) - s = d := by omega
    rw [e]
    simp

theorem distributeHeat_reflState (y : Nat) (h1 : 1 ≤ y) (h4 : y ≤ 4)
    (lq lu ls q l r b u : Int) (cur pend : SimulationState)
    (hl : l + 8 ≤ 100000) (hr : r + 8 ≤ 100000) (hb : b + 8 ≤ 100000) :
    UraniumCell.distributeHeat (reflState y lq lu ls q l r b u cur pend) 24
        [y * 3, y * 3 + 2, (y + 1) * 3 + 1]
      = (reflState y lq lu ls q (l + 8) (r + 8) (b + 8) u cur pend, 0) := by
  have e3 : Int.tdiv 24 (((2 : Nat) : Int) + 1) = 8 := by decide
  have e2 : Int.tdiv (24 - 8 + 0) (((1 : Nat) : Int) + 1) = 8 := by decide
  have e1 : Int.tdiv (24 - 8 + 0 - 8 + 0) (((0 : Nat) : Int) + 1) = 8 := by decide
  simp only [UraniumCell.distributeHeat, List.length_cons, List.length_nil, Nat.zero_add,
    Nat.reduceAdd, e3, e2, e1,
    alterHeat_condAt 8 (reflState_comp?_L y h4 lq lu ls q l r b u cur pend) hl,
    reflState_setComp_L,
    alterHeat_condAt 8 (reflState_comp?_R y h4 lq lu ls q (l + 8) r b u cur pend) hr,
    reflState_setComp_R,
    alterHeat_condAt 8 (reflState_comp?_B y h4 lq lu ls q (l + 8) (r + 8) b u cur pend) hb,
    reflState_setComp_B y h1]
  rfl

theorem sumUp_three : UraniumCell.sumUp 3 = 6 := by decide

theorem range_two_eq : List.range 2 = [0, 1] := by decide

theorem tickCell_heat_reflState (y : Nat) (h1 : 1 ≤ y) (h4 : y ≤ 4)
    (lq lu ls q l r b u : Int) (cur pend : SimulationState) (hq : q + 1 ≤ 10000)
    (hl : l + 8 ≤ 100000) (hr : r + 8 ≤ 100000) (hb : b + 8 ≤ 100000) :
    UraniumCell.tickCell (y * 3 + 1) 1 y 2 SimPhase.PHASE_HEAT_RUN
        (reflState y lq lu ls q l r b u cur pend)
      = reflState y lq lu ls (q + 1) (l + 8) (r + 8) (b + 8) u cur pend := by
  have e0 : (1 : Int) + Int.tdiv 2 2 + 1 = 3 := by decide
  unfold UraniumCell.tickCell
  simp only [ne_eq, not_true_eq_false, if_false,
    pulseNeighbours_reflState_heat y h1 h4 lq lu ls q l r b u cur pend hq, e0, sumUp_three,
    heatAcceptors_reflState y h1 h4 lq lu ls (q + 1) l r b u cur pend (by omega) (by omega)
      (by omega)]
  rw [show (6 : Int) * 4 = 24 from rfl,
    distributeHeat_reflState y h1 h4 _ _ _ _ _ _ _ _ _ _ hl hr hb]
  simp

theorem tickCell_power_reflState (y : Nat) (h1 : 1 ≤ y) (h4 : y ≤ 4)
    (lq lu ls q l r b u : Int) (cur pend : SimulationState) (hu : u ≤ 10000) :
    UraniumCell.tickCell (y * 3 + 1) 1 y 2 SimPhase.PHASE_POWER
        (reflState y lq lu ls q l r b u cur pend)
      = reflState y lq lu ls q l r b u cur
          { pend with euGenerated := pend.euGenerated + 15 } := by
  have e0 : ((1 : Int) + Int.tdiv 2 2).toNat = 2 := by decide
  have hacc : ∀ pend1 : SimulationState,
      ReactorComponent.acceptUraniumPulse (reflState y lq lu ls q l r b u cur pend1)
        (y * 3 + 1) SimPhase.PHASE_POWER
      = (reflState y lq lu ls q l r b u cur
          { pend1 with euGenerated := pend1.euGenerated + 5 }, true) := by
    intro pend1
    unfold ReactorComponent.acceptUraniumPulse
    rw [reflState_comp?_C y h4]
    simp only [dualAt, UraniumCell.mk0, UraniumCell.acceptUraniumPulse, hu, if_true]
    rfl
  unfold UraniumCell.tickCell
  simp only [ne_eq, reduceCtorEq, not_false_eq_true, if_true, e0, range_two_eq,
    List.foldl_cons, List.foldl_nil, hacc, pulseNeighbours_reflState_power y h1 h4]
  rw [show pend.euGenerated + 5 + 5 + 5 = pend.euGenerated + 15 by ring]

theorem tickIdx_heat_cell_reflState (y : Nat) (h1 : 1 ≤ y) (h4 : y ≤ 4)
    (lq lu ls q l r b u : Int) (cur pend : SimulationState) (hu : u ≤ 10000)
    (hq : q + 2 ≤ 10000) (hl : l + 16 ≤ 100000) (hr : r + 16 ≤ 100000)
    (hb : b + 16 ≤ 100000) :
    Reactor.tickIdx SimPhase.PHASE_HEAT_RUN (reflState y lq lu ls q l r b u cur pend)
        (y * 3 + 1)
      = reflState y lq lu ls (q + 2) (l + 16) (r + 16) (b + 16) (u + 1) cur pend := by
  unfold Reactor.tickIdx ReactorComponent.tick
  rw [reflState_comp?_C y h4]
  simp only [dualAt_not_destroyed, Bool.false_eq_true, if_false]
  simp only [dualAt, UraniumCell.mk0, ComponentBase.mk0, UraniumCell.tick]
  have e2 : (2 : Int).toNat = 2 := rfl
  rw [if_pos hu, if_pos trivial, e2, range_two_eq]
  simp only [List.foldl_cons, List.foldl_nil]
  rw [tickCell_heat_reflState y h1 h4 _ _ _ _ _ _ _ _ _ _ (by omega) (by omega) (by omega)
      (by omega),
    tickCell_heat_reflState y h1 h4 _ _ _ _ _ _ _ _ _ _ (by omega) (by omega) (by omega)
      (by omega),
    reflState_comp?_C y h4]
  simp only [dualAt, UraniumCell.mk0, ComponentBase.mk0]
  rw [show q + 1 + 1 = q + 2 by ring, show l + 8 + 8 = l + 16 by ring,
    show r + 8 + 8 = r + 16 by ring, show b + 8 + 8 = b + 16 by ring]
  exact reflState_setComp_C y lq lu ls (q + 2) (l + 16) (r + 16) (b + 16) u cur pend (u + 1)

theorem uraniumCell_tick_power (r : Reactor) (i : Nat) (u : UraniumCell)
    (hu : u.pendingUsage ≤ u.maxUsage) :
    UraniumCell.tick r i u SimPhase.PHASE_POWER
      = (List.range u.numCells.toNat).foldl
          (fun r _ => UraniumCell.tickCell i u.x u.y u.numCells SimPhase.PHASE_POWER r) r := by
  unfold UraniumCell.tick
  rw [if_pos hu]
  exact if_neg (by decide)

theorem tickIdx_power_cell_reflState (y : Nat) (h1 : 1 ≤ y) (h4 : y ≤ 4)
    (lq lu ls q l r b u : Int) (cur pend : SimulationState) (hu : u ≤ 10000) :
    Reactor.tickIdx SimPhase.PHASE_POWER (reflState y lq lu ls q l r b u cur pend) (y * 3 + 1)
      = reflState y lq lu ls q l r b u cur
          { pend with euGenerated := pend.euGenerated + 30 } := by
  unfold Reactor.tickIdx ReactorComponent.tick
  rw [reflState_comp?_C y h4]
  simp only [dualAt_not_destroyed, Bool.false_eq_true, if_false]
  change UraniumCell.tick _ _
    { UraniumCell.mk0 ComponentType.DUAL_URANIUM_CELL 1 (y : Int) 2 with
      lastUsage := lu, pendingUsage := u } SimPhase.PHASE_POWER = _
  rw [uraniumCell_tick_power _ _ _ hu]
  change List.foldl (fun r _ => UraniumCell.tickCell (y * 3 + 1) 1 (y : Int) 2
    SimPhase.PHASE_POWER r) _ (List.range 2) = _
  rw [range_two_eq]
  simp only [List.foldl_cons, List.foldl_nil]
  rw [tickCell_power_reflState y h1 h4 _ _ _ _ _ _ _ _ _ _ hu,
    tickCell_power_reflState y h1 h4 _ _ _ _ _ _ _ _ _ _ hu]
  simp only
  rw [show pend.euGenerated + 15 + 15 = pend.euGenerated + 30 by ring]

theorem reflState_filter (y : Nat) (h1 : 1 ≤ y) (h4 : y ≤ 4) (lq lu ls q l r b u : Int)
    (cur pend : SimulationState) :
    (List.range (6 * 3)).filter
        (fun i => ((reflState y lq lu ls q l r b u cur pend).comp? i).isSome)
      = [(y - 1) * 3 + 1, y * 3, y * 3 + 1, y * 3 + 2, (y + 1) * 3 + 1] :=
  crossState_filter y h1 h4 (reflAt 1 ((y : Int) - 1) lq q) (condAt 0 y ls l) (dualAt 1 y lu u)
    (condAt 2 y ls r) (condAt 1 ((y : Int) + 1) ls b) cur pend

theorem runTickPhase_reflState (phase : SimPhase) (y : Nat) (h1 : 1 ≤ y) (h4 : y ≤ 4)
    (lq lu ls q l r b u : Int) (cur pend : SimulationState) :
    (reflState y lq lu ls q l r b u cur pend).runTickPhase phase
      = [(y - 1) * 3 + 1, y * 3, y * 3 + 1, y * 3 + 2, (y + 1) * 3 + 1].foldl
          (Reactor.tickIdx phase) (reflState y lq lu ls q l r b u cur pend) := by
  rw [runTickPhase_eq_foldl phase _ 3 6 rfl rfl,
    foldl_tickIdx_filter phase _ (reflState y lq lu ls q l r b u cur pend) _ rfl,
    reflState_filter y h1 h4]

theorem runTickPhase_heat_reflState (y : Nat) (h1 : 1 ≤ y) (h4 : y ≤ 4)
    (lq lu ls q l r b u : Int) (cur pend : SimulationState) (hu : u ≤ 10000)
    (hq : q + 2 ≤ 10000) (hl : l + 16 ≤ 100000) (hr : r + 16 ≤ 100000)
    (hb : b + 16 ≤ 100000) :
    (reflState y lq lu ls q l r b u cur pend).runTickPhase SimPhase.PHASE_HEAT_RUN
      = reflState y lq lu ls (q + 2) (l + 16) (r + 16) (b + 16) (u + 1) cur pend := by
  rw [runTickPhase_reflState _ y h1 h4]
  simp only [List.foldl_cons, List.foldl_nil]
  rw [tickIdx_reflAt _ (reflState_comp?_A y h1 h4 _ _ _ _ _ _ _ _ _ _),
    tickIdx_condAt _ (reflState_comp?_L y h4 _ _ _ _ _ _ _ _ _ _),
    tickIdx_heat_cell_reflState y h1 h4 _ _ _ _ _ _ _ _ _ _ hu hq hl hr hb,
    tickIdx_condAt _ (reflState_comp?_R y h4 _ _ _ _ _ _ _ _ _ _),
    tickIdx_condAt _ (reflState_comp?_B y h4 _ _ _ _ _ _ _ _ _ _)]

theorem runTickPhase_power_reflState (y : Nat) (h1 : 1 ≤ y) (h4 : y ≤ 4)
    (lq lu ls q l r b u : Int) (cur pend : SimulationState) (hu : u ≤ 10000) :
    (reflState y lq lu ls q l r b u cur pend).runTickPhase SimPhase.PHASE_POWER
      = reflState y lq lu ls q l r b u cur
          { pend with euGenerated := pend.euGenerated + 30 } := by
  rw [runTickPhase_reflState _ y h1 h4]
  simp only [List.foldl_cons, List.foldl_nil]
  rw [tickIdx_reflAt _ (reflState_comp?_A y h1 h4 _ _ _ _ _ _ _ _ _ _),
    tickIdx_condAt _ (reflState_comp?_L y h4 _ _ _ _ _ _ _ _ _ _),
    tickIdx_power_cell_reflState y h1 h4 _ _ _ _ _ _ _ _ _ _ hu,
    tickIdx_condAt _ (reflState_comp?_R y h4 _ _ _ _ _ _ _ _ _ _),
    tickIdx_condAt _ (reflState_comp?_B y h4 _ _ _ _ _ _ _ _ _ _)]

theorem totalHeat_reflState (y : Nat) (h1 : 1 ≤ y) (h4 : y ≤ 4)
    (lq lu ls q l r b u t : Int) (cur pend : SimulationState) :
    (reflState y lq lu ls q l r b u cur pend).components.foldl
        (fun t comp =>
          match comp with
          | none => t
          | some c => t + c.getCurrentHeat)
        t
      = t := by
  interval_cases y <;>
    simp [reflState, crossState, range18, crossCells, reflAt, condAt, dualAt,
      ReactorComponent.getCurrentHeat]

theorem tick_reflState (y : Nat) (h1 : 1 ≤ y) (h4 : y ≤ 4)
    (lq lu ls q s u : Int) (cur pend : SimulationState) (hu : u < 10000)
    (hq : q + 2 ≤ 10000) (hs : s + 16 ≤ 100000) :
    (reflState y lq lu ls q s s s u cur pend).runTick.incTick
      = reflState y lq lu ls (q + 2) (s + 16) (s + 16) (s + 16) (u + 1) cur
          { curTick := pend.curTick + 1
            meltdown := pend.meltdown
            componentFailed := pend.componentFailed
            euGenerated := pend.euGenerated + 30
            totalHeat := pend.reactorHeat
            reactorHeat := pend.reactorHeat } := by
  unfold Reactor.runTick
  simp only
  rw [show ({ reflState y lq lu ls q s s s u cur pend with maxHeat := 10000 } : Reactor)
      = reflState y lq lu ls q s s s u cur pend from rfl,
    runTickPhase_heat_reflState y h1 h4 _ _ _ _ _ _ _ _ _ _ (by omega) hq hs hs hs,
    runTickPhase_power_reflState y h1 h4 _ _ _ _ _ _ _ _ _ _ (by omega),
    totalHeat_reflState y h1 h4]
  rfl

theorem commit_reflState (y : Nat) (lq lu ls q s u : Int) (cur pend : SimulationState) :
    (reflState y lq lu ls q s s s u cur pend).commit
      = reflState y q u s q s s s u pend pend := by
  unfold Reactor.commit reflState crossState
  simp only [List.map_map, Reactor.mk.injEq, true_and, and_true]
  apply List.map_congr_left
  intro i _
  simp only [Function.comp, crossCells]
  split_ifs <;> rfl

theorem reflPending_succ (k : Int) :
    ({ curTick := (reflPending k).curTick + 1
       meltdown := (reflPending k).meltdown
       componentFailed := (reflPending k).componentFailed
       euGenerated := (reflPending k).euGenerated + 30
       totalHeat := (reflPending k).reactorHeat
       reactorHeat := (reflPending k).reactorHeat } : SimulationState)
      = reflPending (k + 1) := by
  simp only [reflPending, SimulationState.mk.injEq, true_and, and_true]
  ring

theorem stopCheck_run_reflState (y : Nat) (lq lu ls q l r b u k : Int)
    (cur : SimulationState) :
    Reactor.stopCheck true true false true (reflState y lq lu ls q l r b u cur (reflPending k))
      = if k ≥ 10000 then some RunUntilStopReason.STOPPED_ON_FUEL_USED else none :=
  stopCheck_run _ rfl rfl

/-- One iteration of the loop of `runUntil` on the reflector device, from tick `k` to tick
`k + 1`, while the reflector lasts. -/
theorem step_reflRun (y : Nat) (h1 : 1 ≤ y) (h4 : y ≤ 4) (k : Int) (hk1 : 1 ≤ k)
    (hk : k ≤ 4999) : (reflRun y k).commit.runTick.incTick = reflRun y (k + 1) := by
  unfold reflRun
  rw [commit_reflState, tick_reflState y h1 h4 _ _ _ _ _ _ _ _ (by omega) (by omega) (by omega),
    reflPending_succ]
  rw [show 2 * k + 2 = 2 * (k + 1) by ring, show 16 * k + 16 = 16 * (k + 1) by ring,
    show 2 * k = 2 * (k + 1 - 1) by ring, show 16 * k = 16 * (k + 1 - 1) by ring]
  rw [show k + 1 - 1 = k by ring]

theorem reflFail_stopCheck :
    Reactor.stopCheck true true false true reflFail
      = some RunUntilStopReason.STOPPED_ON_COMPONENT_FAILED := by
  decide

theorem reflFail_ticks :
    reflFail.curSimState.curTick = 5000 ∧ reflFail.pendingSimState.curTick = 5001
      ∧ reflFail.curSimState.totalHeat = 0 := by
  decide

theorem runUntilLoop_reflRun (d : Nat) :
    ∀ (k : Int) (last : Int) (extra : Nat),
      k + d = 5000 → 1 ≤ k →
      Reactor.runUntilLoop true true false true (d + 2 + extra) (reflRun 1 k) false last
        = some (RunUntilStopReason.STOPPED_ON_COMPONENT_FAILED, reflFail) := by
  induction d with
  | zero =>
    intro k last extra hk _
    have hk5 : k = 5000 := by omega
    subst hk5
    rw [show 0 + 2 + extra = (extra + 1) + 1 by omega]
    unfold Reactor.runUntilLoop
    have hs : Reactor.stopCheck true true false true (reflRun 1 5000) = none :=
      (stopCheck_run_reflState 1 _ _ _ _ _ _ _ _ _ _).trans (if_neg (by decide))
    rw [hs]
    simp only [Reactor.noHeatLossCheck, Bool.and_false, Bool.false_eq_true, if_false]
    show Reactor.runUntilLoop true true false true (extra + 1) reflFail false last = _
    unfold Reactor.runUntilLoop
    rw [reflFail_stopCheck]
  | succ d ih =>
    intro k last extra hk hk0
    rw [show d + 1 + 2 + extra = (d + 2 + extra) + 1 by omega]
    unfold Reactor.runUntilLoop
    have hs : Reactor.stopCheck true true false true (reflRun 1 k) = none :=
      (stopCheck_run_reflState 1 _ _ _ _ _ _ _ _ _ _).trans (if_neg (by omega))
    rw [hs]
    simp only [Reactor.noHeatLossCheck, Bool.and_false, Bool.false_eq_true, if_false]
    rw [step_reflRun 1 le_rfl (by decide) k hk0 (by omega)]
    exact ih (k + 1) _ _ (by omega) (by omega)

theorem reflCell_firstTick :
    (reflState 1 0 0 0 0 0 0 0 0 (reflPending 0) (reflPending 0)).runTick.incTick
      = reflRun 1 1 := by
  rw [tick_reflState 1 le_rfl (by decide) _ _ _ _ _ _ _ _ (by decide) (by decide) (by decide),
    reflPending_succ]
  rfl

/-- The first run of `runSimulation` on the reflector device stops on the failure of the
reflector, in tick 5001. -/
theorem reflCell_firstRun (fuel : Nat) (hfuel : 5002 ≤ fuel) :
    (reflCellReactor 1).initializeSimulation.runUntil fuel true true false true
      = some (RunUntilStopReason.STOPPED_ON_COMPONENT_FAILED, reflFail) := by
  obtain ⟨extra, rfl⟩ := Nat.exists_eq_add_of_le hfuel
  rw [reflCell_init 1 le_rfl (by decide)]
  unfold Reactor.runUntil
  rw [show 5002 + extra = (4999 + 2 + extra) + 1 by omega]
  unfold Reactor.runUntilLoop
  rw [stopCheck_run_reflState, if_neg (by decide)]
  simp only [Reactor.noHeatLossCheck, Bool.and_false, Bool.false_eq_true, if_false, if_true]
  rw [reflCell_firstTick]
  exact runUntilLoop_reflRun 4999 1 _ _ (by decide) (by decide)

theorem reflCell_numUraniumCells :
    (reflCellReactor 1).initializeSimulation.numUraniumCells ≠ 0 := by
  rw [reflCell_init 1 le_rfl (by decide)]
  show (2 : Int) ≠ 0
  decide

/-- The cooldown probe of the component-failed branch returns at entry when the committed
total heat is not positive. -/
theorem cooldownProbe_entry (fuel : Nat) (hfuel : 1 ≤ fuel) (s : Reactor)
    (hheat : s.curSimState.totalHeat ≤ 0) :
    ({ s.copy.rollback.removeFuel with ignoreComponentDestroyed := true } : Reactor).runUntil
        fuel false false true false
      = some (RunUntilStopReason.STOPPED_ON_COOLED_DOWN,
          { s.copy.rollback.removeFuel with ignoreComponentDestroyed := true }) := by
  apply runUntil_of_stopCheck _ _ _ _ _ _ hfuel
  unfold Reactor.stopCheck
  have e : ({ s.copy.rollback.removeFuel with ignoreComponentDestroyed := true }
      : Reactor).pendingSimState = s.curSimState := rfl
  rw [e]
  simp only [Bool.and_false, Bool.false_eq_true, if_false, Bool.and_true,
    decide_eq_true_eq]
  rw [if_pos hheat]

/-- The component-failed branch of `runSimulation` when its cooldown probe returns at entry:
`cooldownTicks` is the committed tick count minus the pending tick count of the failed
state. -/
theorem runSimulationComponentFailed_cooldownTicks (fuel : Nat) (hfuel : 50001 ≤ fuel)
    (results : SimulationResults) (s : Reactor) (hp : 0 ≤ s.pendingSimState.curTick)
    (hheat : s.curSimState.totalHeat ≤ 0) :
    ∃ res, runSimulationComponentFailed fuel results s = some res
      ∧ res.cooldownTicks = s.curSimState.curTick - s.pendingSimState.curTick := by
  unfold runSimulationComponentFailed
  obtain ⟨reason, s2, hruf⟩ := runUntil_isSome true true false false fuel hfuel
    s.copy.commit hp
  simp only []
  rw [cooldownProbe_entry fuel (by omega) s hheat]
  simp only [recordCooldown, if_true]
  rw [hruf]
  simp only []
  refine ⟨_, rfl, ?_⟩
  split_ifs <;> rfl

theorem runSimulation_componentFailed_cooldownTicks (r : Reactor) (fuel : Nat)
    (hfuel : 50001 ≤ fuel) (s : Reactor)
    (hnum : r.initializeSimulation.numUraniumCells ≠ 0)
    (hrun : r.initializeSimulation.runUntil fuel true true false true
      = some (RunUntilStopReason.STOPPED_ON_COMPONENT_FAILED, s))
    (hheat : s.curSimState.totalHeat ≤ 0) :
    ∃ res, runSimulation fuel r = some (res, s)
      ∧ res.cooldownTicks = s.curSimState.curTick - s.pendingSimState.curTick := by
  have hn := firstRun_ticks_nonneg fuel r _ s hrun
  unfold runSimulation
  simp only []
  rw [if_neg hnum, hrun]
  simp only [reduceCtorEq, if_false, if_true]
  apply exists_map_pair
  exact runSimulationComponentFailed_cooldownTicks fuel hfuel _ s hn.2 hheat

theorem reflCell_results (fuel : Nat) (hfuel : 50001 ≤ fuel) :
    ∃ res, runSimulation fuel (reflCellReactor 1) = some (res, reflFail)
      ∧ res.cooldownTicks = -1 := by
  obtain ⟨res, h1, h2⟩ := runSimulation_componentFailed_cooldownTicks (reflCellReactor 1) fuel
    hfuel reflFail reflCell_numUraniumCells (reflCell_firstRun fuel (by omega))
    (le_of_eq reflFail_ticks.2.2)
  refine ⟨res, h1, ?_⟩
  rw [h2, reflFail_ticks.1, reflFail_ticks.2.1]
  rfl

/-- C29: the 3x6 device with a `DUAL_URANIUM_CELL` at `(1, 1)`, a `NEUTRON_REFLECTOR` above it
and a `CONDENSATOR_LZH` on each of its three other sides is well formed, its first run stops
on the failure of the reflector in tick 5001 (committed tick count 5000, committed total
heat 0), and `runSimulation` returns a result with `cooldownTicks = -1`: the claim that
`cooldownTicks >= 0` fails on it. -/
theorem reflCell_cooldownTicks_negative :
    (reflCellReactor 1).WellFormed
      ∧ (reflCellReactor 1).initializeSimulation.runUntil 50001 true true false true
          = some (RunUntilStopReason.STOPPED_ON_COMPONENT_FAILED, reflFail)
      ∧ reflFail.curSimState.curTick = 5000
      ∧ reflFail.curSimState.totalHeat = 0
      ∧ ∃ res, runSimulation 50001 (reflCellReactor 1) = some (res, reflFail)
          ∧ res.cooldownTicks = -1 ∧ ¬ 0 ≤ res.cooldownTicks := by
  refine ⟨deviceOf_wellFormed 0 _ le_rfl, reflCell_firstRun 50001 (by decide),
    reflFail_ticks.1, reflFail_ticks.2.2, ?_⟩
  obtain ⟨res, h1, h2⟩ := reflCell_results 50001 le_rfl
  exact ⟨res, h1, h2, by rw [h2]; decide⟩

/-! ## The heat-store invariant (C32) -/

theorem allCreated_set (r : Reactor) (x y : Int) (t : ComponentType) (h : r.AllCreated) :
    (r.set x y t).AllCreated := by
  intro c hc
  rcases List.mem_or_eq_of_mem_set hc with h1 | h1
  · exact h c h1
  · exact ⟨t, x, y, h1.symm⟩

/-- Every component of a freshly constructed device comes from the factory. -/
theorem deviceOf_allCreated (e : Int) (ts : List ComponentType) : (deviceOf e ts).AllCreated := by
  unfold deviceOf Reactor.setComponentTypes
  refine foldl_inv Reactor.AllCreated _ (fun r1 x h1 => ?_) _ _ ?_
  · exact foldl_inv Reactor.AllCreated _ (fun r2 y h2 => allCreated_set r2 _ _ _ h2) _ _ h1
  · intro c hc
    have hc1 : some c ∈ List.replicate ((3 + e) * 6).toNat (none : Option ReactorComponent) := hc
    have := List.eq_of_mem_replicate hc1
    simp at this

theorem create_heatStoreInv (t : ComponentType) (x y : Int) (c : ReactorComponent)
    (h : ReactorComponent.create t x y = some c) : c.HeatStoreInv := by
  cases t <;> simp only [ReactorComponent.create, Option.some.injEq, reduceCtorEq] at h <;>
    subst h <;>
    (intro hb hhb
     simp only [ReactorComponent.heatable?, Option.some.injEq, reduceCtorEq] at hhb <;>
       (subst hhb
        simp [HeatVent.mk0, HeatExchanger.mk0, CoolantCell.mk0, Heatable.mk0]))

theorem deviceOf_heatStoreInv (e : Int) (ts : List ComponentType) :
    (deviceOf e ts).HeatStoreInv := by
  intro c hc
  obtain ⟨t, x, y, h⟩ := deviceOf_allCreated e ts c hc
  exact create_heatStoreInv t x y c h

theorem heatStoreInv_of_components {r r1 : Reactor} (hc : r1.components = r.components)
    (h : r.HeatStoreInv) : r1.HeatStoreInv := by
  intro c hm
  rw [hc] at hm
  exact h c hm

theorem heatStoreInv_setComp {r : Reactor} {i : Nat} {c1 : ReactorComponent}
    (hc1 : c1.HeatStoreInv) (h : r.HeatStoreInv) : (r.setComp i c1).HeatStoreInv := by
  intro c hc
  rcases mem_components_setComp hc with hm | rfl
  · exact h c hm
  · exact hc1

theorem heatStoreInv_setPendingHeat (c : ReactorComponent) (hb : Heatable) (v : Int)
    (hh : c.heatable? = some hb) (hc : c.HeatStoreInv) (h0 : 0 ≤ v)
    (hv : 0 ≤ hb.maxHeat → v ≤ hb.maxHeat) : (c.setPendingHeat v).HeatStoreInv := by
  have hold := hc hb hh
  have hmax : 0 ≤ hb.maxHeat := by omega
  cases c <;> simp only [ReactorComponent.heatable?, Option.some.injEq, reduceCtorEq] at hh <;>
    subst hh <;>
    exact fun hb2 h2 => by
      simp only [ReactorComponent.setPendingHeat, ReactorComponent.heatable?,
        Option.some.injEq] at h2
      subst h2
      exact ⟨h0, hv hmax, hold.2.2.1, hold.2.2.2⟩

theorem heatStoreInv_setPendingDestroyed (c : ReactorComponent) (d : Bool)
    (hc : c.HeatStoreInv) : (c.setPendingDestroyed d).HeatStoreInv := by
  intro hb hh
  cases c <;>
    simp only [ReactorComponent.setPendingDestroyed, ReactorComponent.heatable?,
      Option.some.injEq, reduceCtorEq] at hh <;>
    subst hh <;> (have h := hc _ rfl; exact h)

theorem heatStoreInv_of_not_heatable (c : ReactorComponent) (h1 : c.heatable? = none) :
    c.HeatStoreInv :=
  fun hb hh => by rw [h1] at hh; simp at hh

theorem heatStoreInv_setDestroyed (r : Reactor) (i : Nat) (d : Bool) (h : r.HeatStoreInv) :
    (ReactorComponent.setDestroyed r i d).HeatStoreInv := by
  unfold ReactorComponent.setDestroyed
  cases hc : r.comp? i with
  | none => exact h
  | some c =>
    have hin := heatStoreInv_setPendingDestroyed c d (h c (mem_components_of_comp? hc))
    simp only
    split_ifs
    · refine heatStoreInv_of_components ?_ (heatStoreInv_setComp (i := i) hin h)
      unfold Reactor.componentDestroyed
      split_ifs <;> rfl
    · exact heatStoreInv_setComp hin h
    · exact h

/-- The heat-store invariant is kept by every write of a tick. -/
theorem tickClosed_heatStoreInv : TickClosed Reactor.HeatStoreInv where
  heat := fun _ _ c hb v h hc hh h0 hv =>
    heatStoreInv_setComp
      (heatStoreInv_setPendingHeat c hb v hh (h c (mem_components_of_comp? hc)) h0 hv) h
  destroy := fun r i _ h _ _ => heatStoreInv_setDestroyed r i true h
  setHeat := fun r v h => by
    refine heatStoreInv_of_components ?_ h
    unfold Reactor.setHeat Reactor.heatCapacityExceeded
    simp only []
    split_ifs <;> rfl
  addHeat := fun r v h => by
    refine heatStoreInv_of_components ?_ h
    unfold Reactor.addHeat Reactor.heatCapacityExceeded
    simp only []
    split_ifs <;> rfl
  generateEU := fun _ _ h => heatStoreInv_of_components rfl h
  stored := fun _ _ _ _ h _ _ => heatStoreInv_setComp (heatStoreInv_of_not_heatable _ rfl) h
  cellUsage := fun _ _ _ _ h _ => heatStoreInv_setComp (heatStoreInv_of_not_heatable _ rfl) h
  reflectorUsage := fun _ _ _ _ h _ =>
    heatStoreInv_setComp (heatStoreInv_of_not_heatable _ rfl) h
  plating := fun _ _ _ h _ => heatStoreInv_of_components rfl h
  resetMax := fun _ h => heatStoreInv_of_components rfl h
  totalHeat := fun _ _ h => heatStoreInv_of_components rfl h
  incTick := fun _ h => heatStoreInv_of_components rfl h

theorem heatStoreInv_commit_component (c : ReactorComponent) (h : c.HeatStoreInv) :
    c.commit.HeatStoreInv := by
  intro hb hh
  cases c <;>
    simp only [ReactorComponent.commit, ReactorComponent.heatable?, Option.some.injEq,
      reduceCtorEq] at hh <;>
    subst hh <;> (have h1 := h _ rfl; exact ⟨h1.1, h1.2.1, h1.1, h1.2.1⟩)

theorem heatStoreInv_rollback_component (c : ReactorComponent) (h : c.HeatStoreInv) :
    c.rollback.HeatStoreInv := by
  intro hb hh
  cases c <;>
    simp only [ReactorComponent.rollback, ReactorComponent.heatable?, Option.some.injEq,
      reduceCtorEq] at hh <;>
    subst hh <;> (have h1 := h _ rfl; exact ⟨h1.2.2.1, h1.2.2.2, h1.2.2.1, h1.2.2.2⟩)

theorem heatStoreInv_commit (r : Reactor) (h : r.HeatStoreInv) : r.commit.HeatStoreInv := by
  intro c hc
  simp only [Reactor.commit, List.mem_map] at hc
  obtain ⟨o, ho, heq⟩ := hc
  cases o with
  | none => simp at heq
  | some c0 =>
    simp only at heq
    split_ifs at heq
    simp only [Option.some.injEq] at heq
    subst heq
    exact heatStoreInv_commit_component c0 (h c0 ho)

theorem heatStoreInv_rollback (r : Reactor) (h : r.HeatStoreInv) : r.rollback.HeatStoreInv := by
  intro c hc
  simp only [Reactor.rollback, List.mem_map] at hc
  obtain ⟨o, ho, heq⟩ := hc
  cases o with
  | none => simp at heq
  | some c0 =>
    simp only [Option.some.injEq] at heq
    subst heq
    exact heatStoreInv_rollback_component c0 (h c0 ho)

/-- The heat-store invariant holds in every reachable state. -/
theorem reachable_heatStoreInv (r : Reactor) (h : r.Reachable) : r.HeatStoreInv := by
  induction h with
  | fresh e ts => exact deviceOf_heatStoreInv e ts
  | runTick r _ ih => exact tc_runTick tickClosed_heatStoreInv r ih
  | commit r _ ih => exact heatStoreInv_commit r ih
  | rollback r _ ih => exact heatStoreInv_rollback r ih

theorem heatable?_setPendingDestroyed (c : ReactorComponent) (d : Bool) (hb : Heatable)
    (hh : c.heatable? = some hb) :
    ∃ hb2, (c.setPendingDestroyed d).heatable? = some hb2 ∧ hb2.maxHeat = hb.maxHeat
      ∧ hb2.pendingHeat = hb.pendingHeat := by
  cases c <;> simp only [ReactorComponent.heatable?, Option.some.injEq, reduceCtorEq] at hh <;>
    subst hh <;> exact ⟨_, rfl, rfl, rfl⟩

theorem heatable?_setPendingHeat (c : ReactorComponent) (v : Int) (hb : Heatable)
    (hh : c.heatable? = some hb) :
    ∃ hb2, (c.setPendingHeat v).heatable? = some hb2 ∧ hb2.maxHeat = hb.maxHeat
      ∧ hb2.pendingHeat = v := by
  cases c <;> simp only [ReactorComponent.heatable?, Option.some.injEq, reduceCtorEq] at hh <;>
    subst hh <;> exact ⟨_, rfl, rfl, rfl⟩

/-- The receiver of `alterHeat` after the call, with its capacity and its new pending heat,
which lies between `0` and the capacity when the old one did. -/
theorem alterHeat_keeps_range (r : Reactor) (i : Nat) (c : ReactorComponent) (hb : Heatable)
    (delta : Int) (hc : r.comp? i = some c) (hh : c.heatable? = some hb)
    (h0 : 0 ≤ hb.pendingHeat) (h1 : hb.pendingHeat ≤ hb.maxHeat) :
    ∃ c2 hb2, (ReactorComponent.alterHeat r i delta).1.comp? i = some c2
      ∧ c2.heatable? = some hb2 ∧ hb2.maxHeat = hb.maxHeat
      ∧ 0 ≤ hb2.pendingHeat ∧ hb2.pendingHeat ≤ hb2.maxHeat := by
  have hlt := comp?_lt_length hc
  rw [alterHeat_of_heatable r i c hb delta hc hh]
  unfold Heatable.alterHeat
  simp only [hc]
  split_ifs with g1 g2
  · obtain ⟨hb2, e1, e2, e3⟩ := heatable?_setPendingDestroyed c true hb hh
    show ∃ c2 hb2, (ReactorComponent.setDestroyed r i true).comp? i = some c2 ∧ _
    unfold ReactorComponent.setDestroyed
    simp only [hc]
    split_ifs
    · refine ⟨_, hb2, ?_, e1, e2, by omega, by omega⟩
      rw [comp?_componentDestroyed, comp?_setComp, if_pos ⟨rfl, hlt⟩]
    · refine ⟨_, hb2, ?_, e1, e2, by omega, by omega⟩
      rw [comp?_setComp, if_pos ⟨rfl, hlt⟩]
    · exact ⟨c, hb, hc, hh, rfl, h0, h1⟩
  · obtain ⟨hb2, e1, e2, e3⟩ := heatable?_setPendingHeat c 0 hb hh
    refine ⟨_, hb2, ?_, e1, e2, by omega, by omega⟩
    show (r.setComp i (c.setPendingHeat 0)).comp? i = _
    rw [comp?_setComp, if_pos ⟨rfl, hlt⟩]
  · obtain ⟨hb2, e1, e2, e3⟩ := heatable?_setPendingHeat c (hb.pendingHeat + delta) hb hh
    refine ⟨_, hb2, ?_, e1, e2, by omega, by omega⟩
    show (r.setComp i (c.setPendingHeat (hb.pendingHeat + delta))).comp? i = _
    rw [comp?_setComp, if_pos ⟨rfl, hlt⟩]

/-! ## Termination of `runUntil` (C31) -/

theorem pendingTick_loopBody (r : Reactor) (first : Bool) :
    (if first = true then r else r.commit).runTick.incTick.pendingSimState.curTick
      = r.pendingSimState.curTick + 1 := by
  rw [pendingTick_step]
  cases first <;> rfl

/-- The pending tick counter along the loop of `runUntil`: it grows by the number of ticks
executed, and it is at most 50000 on return unless the loop returns at entry. -/
theorem runUntilCounted_ticks (f1 f2 f3 f4 : Bool) (n : Nat) :
    ∀ (r : Reactor) (first : Bool) (last : Int) (t : Nat)
      (res : RunUntilStopReason × Reactor × Nat),
      Reactor.runUntilCounted f1 f2 f3 f4 n r first last t = some res →
      t ≤ res.2.2
        ∧ res.2.1.pendingSimState.curTick
            = r.pendingSimState.curTick + ((res.2.2 : Int) - (t : Int))
        ∧ res.2.1.pendingSimState.curTick ≤ max 50000 r.pendingSimState.curTick := by
  induction n with
  | zero => intro r first last t res h; simp [Reactor.runUntilCounted] at h
  | succ n ih =>
    intro r first last t res h
    unfold Reactor.runUntilCounted at h
    cases hs : Reactor.stopCheck f1 f2 f3 f4 r with
    | some reason =>
      rw [hs] at h
      simp only [Option.some.injEq] at h
      subst h
      exact ⟨le_rfl, by simp, le_max_right _ _⟩
    | none =>
      have hlt := stopCheck_none_lt hs
      rw [hs] at h
      simp only at h
      cases hc : Reactor.noHeatLossCheck f3 r last with
      | none =>
        rw [hc] at h
        simp only [Option.some.injEq] at h
        subst h
        exact ⟨le_rfl, by simp, le_max_right _ _⟩
      | some l =>
        rw [hc] at h
        simp only at h
        obtain ⟨k1, k2, k3⟩ := ih _ _ _ _ res h
        rw [pendingTick_loopBody] at k2 k3
        refine ⟨by omega, ?_, ?_⟩
        · rw [k2]
          push_cast
          ring
        · have : max (50000 : Int) (r.pendingSimState.curTick + 1) = 50000 :=
            max_eq_left (by omega)
          rw [this] at k3
          exact le_trans k3 (le_max_left _ _)

/-- The loop of `runUntil` returns within `50001 - p` iterations from a state with pending
tick counter `p`, and its pending tick counter is the one on entry plus the number of ticks
executed. -/
theorem runUntil_returns_counted (f1 f2 f3 f4 : Bool) (r : Reactor) (fuel : Nat)
    (hfuel1 : 1 ≤ fuel) (hfuel : 50001 ≤ (fuel : Int) + r.pendingSimState.curTick) :
    ∃ reason s ticks,
      Reactor.runUntilCounted f1 f2 f3 f4 fuel r true (-1) 0 = some (reason, s, ticks)
        ∧ r.runUntil fuel f1 f2 f3 f4 = some (reason, s)
        ∧ s.pendingSimState.curTick = r.pendingSimState.curTick + ticks
        ∧ s.pendingSimState.curTick ≤ max 50000 r.pendingSimState.curTick := by
  have hsome := runUntilLoop_isSome f1 f2 f3 f4 fuel r true (-1) hfuel1 hfuel
  rw [← runUntilCounted_erase f1 f2 f3 f4 fuel r true (-1) 0] at hsome
  cases hres : Reactor.runUntilCounted f1 f2 f3 f4 fuel r true (-1) 0 with
  | none => rw [hres] at hsome; simp at hsome
  | some res =>
    obtain ⟨reason, s, ticks⟩ := res
    obtain ⟨_, k2, k3⟩ := runUntilCounted_ticks f1 f2 f3 f4 fuel r true (-1) 0 _ hres
    refine ⟨reason, s, ticks, rfl, ?_, ?_, k3⟩
    · unfold Reactor.runUntil
      rw [← runUntilCounted_erase f1 f2 f3 f4 fuel r true (-1) 0, hres]
      rfl
    · rw [k2]
      simp

theorem runUntilLoop_continue (f1 f2 f3 f4 : Bool) (n : Nat) (r : Reactor) (first : Bool)
    (last l : Int) (hs : Reactor.stopCheck f1 f2 f3 f4 r = none)
    (hc : Reactor.noHeatLossCheck f3 r last = some l) :
    Reactor.runUntilLoop f1 f2 f3 f4 (n + 1) r first last
      = Reactor.runUntilLoop f1 f2 f3 f4 n
          (if first = true then r else r.commit).runTick.incTick false l := by
  rw [Reactor.runUntilLoop, hs]
  simp only
  rw [hc]

/-- C31: `runUntil` terminates for every device state `r` and every combination of flags.
`runTick` leaves the pending tick counter unchanged; a loop iteration that does not return
(no stop condition holds and the no-heat-loss check passes) continues the loop on the state
`(first ? r : commit r)` ticked once, whose pending tick counter is that of `r` plus 1;
and with `fuel >= 1` loop iterations allowed, `fuel >= 50001 - p` for the pending tick
counter `p` of `r`, `runUntil` returns a state whose pending tick counter is `p` plus the
number of ticks executed (the ghost counter of `Reactor.runUntilCounted`) and is at most
`max 50000 p`: the loop returns at the latest when the counter reaches 50000. -/
theorem runUntil_terminates (f1 f2 f3 f4 : Bool) (r : Reactor) (fuel : Nat)
    (hfuel1 : 1 ≤ fuel) (hfuel : 50001 ≤ (fuel : Int) + r.pendingSimState.curTick) :
    r.runTick.pendingSimState.curTick = r.pendingSimState.curTick
      ∧ (∀ (n : Nat) (first : Bool) (last l : Int),
          Reactor.stopCheck f1 f2 f3 f4 r = none →
          Reactor.noHeatLossCheck f3 r last = some l →
          Reactor.runUntilLoop f1 f2 f3 f4 (n + 1) r first last
              = Reactor.runUntilLoop f1 f2 f3 f4 n
                  (if first = true then r else r.commit).runTick.incTick false l
            ∧ (if first = true then r else r.commit).runTick.incTick.pendingSimState.curTick
                = r.pendingSimState.curTick + 1)
      ∧ ∃ reason s ticks,
          Reactor.runUntilCounted f1 f2 f3 f4 fuel r true (-1) 0 = some (reason, s, ticks)
            ∧ r.runUntil fuel f1 f2 f3 f4 = some (reason, s)
            ∧ s.pendingSimState.curTick = r.pendingSimState.curTick + ticks
            ∧ s.pendingSimState.curTick ≤ max 50000 r.pendingSimState.curTick :=
  ⟨pendingTick_runTick r,
    fun n first last l hs hc =>
      ⟨runUntilLoop_continue f1 f2 f3 f4 n r first last l hs hc, pendingTick_loopBody r first⟩,
    runUntil_returns_counted f1 f2 f3 f4 r fuel hfuel1 hfuel⟩

theorem runUntil_terminates_witness :
    1 ≤ 50001
      ∧ 50001 ≤ ((50001 : Nat) : Int) + ventOnlyReactor.pendingSimState.curTick
      ∧ ventOnlyReactor.runTick.pendingSimState.curTick = ventOnlyReactor.pendingSimState.curTick
      ∧ ∃ reason s ticks,
          Reactor.runUntilCounted true true true true 50001 ventOnlyReactor true (-1) 0
              = some (reason, s, ticks)
            ∧ ventOnlyReactor.runUntil 50001 true true true true = some (reason, s)
            ∧ s.pendingSimState.curTick = ventOnlyReactor.pendingSimState.curTick + ticks
            ∧ s.pendingSimState.curTick
                ≤ max 50000 ventOnlyReactor.pendingSimState.curTick :=
  ⟨by decide, by decide,
    (runUntil_terminates true true true true ventOnlyReactor 50001 (by decide) (by decide)).1,
    (runUntil_terminates true true true true ventOnlyReactor 50001 (by decide) (by decide)).2.2⟩

theorem heatProbe_reachable : heatProbe.Reachable :=
  Reactor.Reachable.runTick _ (Reactor.Reachable.commit _
    (Reactor.Reachable.runTick _ (Reactor.Reachable.fresh 0 _)))

/-- C32: heat-store invariant.  For a component with a `Heatable` sub-object `hb` (vent,
exchanger, coolant cell) stored at index `i`, `0 <= pendingHeat <= maxHeat` is preserved by
`alterHeat(delta)` for every integer `delta`: after the call the component is still there,
with the same `maxHeat` and a pending heat in that range.  And in every state reachable from
a freshly constructed device by `runTick`, `commit` and `rollback`, every such component has
both its pending and its committed heat between `0` and `maxHeat`.  (The heats are
mathematical integers; the new pending heat is a function of the sum `pendingHeat + delta`
alone, and every integer is such a sum.) -/
theorem heatStore_invariant :
    (∀ (r : Reactor) (i : Nat) (c : ReactorComponent) (hb : Heatable) (delta : Int),
        r.comp? i = some c → c.heatable? = some hb →
        0 ≤ hb.pendingHeat → hb.pendingHeat ≤ hb.maxHeat →
        ∃ c2 hb2, (ReactorComponent.alterHeat r i delta).1.comp? i = some c2
          ∧ c2.heatable? = some hb2 ∧ hb2.maxHeat = hb.maxHeat
          ∧ 0 ≤ hb2.pendingHeat ∧ hb2.pendingHeat ≤ hb2.maxHeat)
      ∧ ∀ r : Reactor, r.Reachable → ∀ c hb, some c ∈ r.components → c.heatable? = some hb →
          0 ≤ hb.pendingHeat ∧ hb.pendingHeat ≤ hb.maxHeat
            ∧ 0 ≤ hb.lastHeat ∧ hb.lastHeat ≤ hb.maxHeat :=
  ⟨alterHeat_keeps_range, fun r h c hb hc hh => reachable_heatStoreInv r h c hc hb hh⟩

theorem heatStore_invariant_witness :
    (ventOnlyReactor.comp? 0 = some (ReactorComponent.heatVent freshVent)
      ∧ (ReactorComponent.heatVent freshVent).heatable? = some freshVent.toHeatable
      ∧ 0 ≤ freshVent.pendingHeat ∧ freshVent.pendingHeat ≤ freshVent.maxHeat
      ∧ ∃ c2 hb2, (ReactorComponent.alterHeat ventOnlyReactor 0 1001).1.comp? 0 = some c2
          ∧ c2.heatable? = some hb2 ∧ hb2.maxHeat = freshVent.maxHeat
          ∧ 0 ≤ hb2.pendingHeat ∧ hb2.pendingHeat ≤ hb2.maxHeat)
      ∧ heatProbe.Reachable
      ∧ some (ReactorComponent.coolantCell heatProbeCell) ∈ heatProbe.components
      ∧ (ReactorComponent.coolantCell heatProbeCell).heatable? = some heatProbeCell.toHeatable
      ∧ 0 ≤ heatProbeCell.pendingHeat ∧ heatProbeCell.pendingHeat ≤ heatProbeCell.maxHeat
      ∧ 0 ≤ heatProbeCell.lastHeat ∧ heatProbeCell.lastHeat ≤ heatProbeCell.maxHeat :=
  ⟨⟨by decide, rfl, by decide, by decide,
      heatStore_invariant.1 ventOnlyReactor 0 (ReactorComponent.heatVent freshVent)
        freshVent.toHeatable 1001 (by decide) rfl (by decide) (by decide)⟩,
    heatProbe_reachable, by decide, rfl,
    heatStore_invariant.2 heatProbe heatProbe_reachable
      (ReactorComponent.coolantCell heatProbeCell) heatProbeCell.toHeatable (by decide) rfl⟩

/-- For a non-negative `heat`, `Condensator::alterHeat` keeps the stored heat between `0`
and the capacity; for any `heat` it keeps it at most the capacity. -/
theorem condensator_alterHeat_range (r : Reactor) (i : Nat) (k : Condensator) (heat : Int)
    (hi : i < r.components.length) (hmax : k.pendingStoredHeat ≤ k.maxStoredHeat) :
    ∃ k2, (Condensator.alterHeat r i k heat).1.comp? i = some (ReactorComponent.condensator k2)
      ∧ k2.maxStoredHeat = k.maxStoredHeat
      ∧ k2.pendingStoredHeat ≤ k2.maxStoredHeat
      ∧ (0 ≤ heat → 0 ≤ k.pendingStoredHeat → 0 ≤ k2.pendingStoredHeat)
      ∧ (heat < 0 → k2.pendingStoredHeat = k.pendingStoredHeat + heat) := by
  unfold Condensator.alterHeat
  refine ⟨{ k with pendingStoredHeat := k.pendingStoredHeat
      + (if k.maxStoredHeat - k.pendingStoredHeat > heat then heat
          else k.maxStoredHeat - k.pendingStoredHeat) }, ?_, rfl, ?_, ?_, ?_⟩
  · show (r.setComp i _).comp? i = _
    rw [comp?_setComp, if_pos ⟨rfl, hi⟩]
  · show k.pendingStoredHeat + _ ≤ k.maxStoredHeat
    split_ifs <;> omega
  · intro h0 h1
    show 0 ≤ k.pendingStoredHeat + _
    split_ifs <;> omega
  · intro h0
    show k.pendingStoredHeat + _ = _
    rw [if_pos (by omega)]

/-- C33: on the 3x6 device with a `COMPONENT_HEAT_VENT` at `(0, 0)`, a `CONDENSATOR_RSH` at
`(1, 0)` and a `URANIUM_CELL` at `(2, 1)`, the first tick calls `alterHeat(-4)` on the
condensator, which leaves it with `pendingStoredHeat = -4`; the state after that tick is
reachable, so is the state after the following commit, where `lastStoredHeat = -4` too, and
after three more committed ticks the stored heat is `-16`.  The first tick of the first run
of `runSimulation` (after `initializeSimulation`) does the same.  The invariant
`0 <= pendingStoredHeat` fails in these states. -/
theorem condensator_store_negative :
    ventedCondensatorReactor.comp? 1 = some (ReactorComponent.condensator (rshAt 0 0))
      ∧ (ReactorComponent.alterHeat ventedCondensatorReactor 1 (-4)).1.comp? 1
          = some (ReactorComponent.condensator (rshAt 0 (-4)))
      ∧ ventedCondensatorReactor.runTick.Reachable
      ∧ ventedCondensatorReactor.runTick.comp? 1
          = some (ReactorComponent.condensator (rshAt 0 (-4)))
      ∧ ventedCondensatorReactor.runTick.commit.Reachable
      ∧ ventedCondensatorReactor.runTick.commit.comp? 1
          = some (ReactorComponent.condensator (rshAt (-4) (-4)))
      ∧ ((fun s => s.commit.runTick)^[3] ventedCondensatorReactor.runTick).comp? 1
          = some (ReactorComponent.condensator (rshAt (-12) (-16)))
      ∧ ventedCondensatorReactor.initializeSimulation.runTick.comp? 1
          = some (ReactorComponent.condensator (rshAt 0 (-4)))
      ∧ ¬ 0 ≤ (rshAt 0 (-4)).pendingStoredHeat :=
  ⟨by decide, by decide, Reactor.Reachable.runTick _ (Reactor.Reachable.fresh 0 _), by decide,
    Reactor.Reachable.commit _ (Reactor.Reachable.runTick _ (Reactor.Reachable.fresh 0 _)),
    by decide, by decide, by decide, by decide⟩

/-- The same happens inside `runSimulation`: the cooldown probe that it builds for the coolant
device after the first run stopped on FUEL_USED is entered at committed tick 10000, a multiple
of 8, so the loop records the committed total heat, runs one tick without a commit, and the
no-heat-loss check returns `STOPPED_ON_MAX_TICKS` at pending tick 10001, having compared the
committed total heat with the value recorded at the very same committed tick. -/
theorem coolProbe_stagnation_same_tick :
    ∃ res, Reactor.runUntilTraced false false true false 2 coolProbe true (-1) 0 = some res
      ∧ coolProbe.runUntil 2 false false true false = some (res.1, res.2.1)
      ∧ res.1 = RunUntilStopReason.STOPPED_ON_MAX_TICKS
      ∧ res.2.1.pendingSimState.curTick = 10001
      ∧ res.2.1.curSimState.curTick = 10000
      ∧ res.2.2 = some (res.2.1.curSimState.totalHeat, 10000)
      ∧ ¬ StagnationEightTicksBefore res := by
  refine ⟨_, rfl, ?_, ?_, ?_, ?_, ?_, ?_⟩ <;> decide

end reactorsim
